import Mathlib

/-!
# A verification development for `datetime.cpp`

The C++ class `DateTime` stores an absolute instant (`dt_clockPoint`, a
`std::chrono::system_clock::time_point`) and a fixed-offset region
(`dt_timeRegion`).  This file embeds the class in Lean and proves properties of
the embedded functions.

Modelling conventions.

* `int` is the 32-bit and `std::time_t` and the tick count of a `time_point` the
  64-bit signed integer of x86-64 Linux.  Their values are modelled by `Int`.
  Overflow of these types is undefined behaviour in C++; the compiled program
  wraps around, and so does the model: an operation that can overflow for
  arguments the program can receive is reduced to its width in two's complement
  (`Machine.wrapInt`, `Machine.wrapLong`).  Operations whose operands are bounded
  by construction are left exact: sums of `std::time_t` values (a `timegm` of
  `int` fields stays below 2^57 in absolute value), and `int` sums on the year and
  month of a `gmtime_r` result.
* An `int` argument of a member function is an integer between -2^31 and
  2^31 - 1; the definitions are meant for such arguments.
* C++ `/` and `%` on integers truncate toward zero: they are `Int.tdiv` and
  `Int.tmod`.  Lean's `/` and `%` on `Int` (floor-like) are used only in the
  model of the C library calendar routines and in specifications.
* A `time_point` is its number of ticks since 1970-01-01T00:00:00Z; one tick is
  a nanosecond, the period of `system_clock` in libstdc++.
* `timegm` and `gmtime_r` belong to the C library, not to the repository.  They
  are modelled by the proleptic Gregorian calendar: `timegm` normalises the
  month into the year and is linear in day, hour, minute and second, the way
  glibc computes it; `gmtime_r` is its inverse on every `time_t`.
* A member function that mutates `*this` and may throw returns the pair of its
  outcome and the state of the object after the call.
-/

/-! ## Machine integers -/

namespace Machine

/-- The value of an `int` expression whose mathematical result is `n`: `n` reduced to 32
bits in two's complement. -/
def wrapInt (n : Int) : Int := (n + 2147483648) % 4294967296 - 2147483648

/-- The value of a 64-bit signed expression whose mathematical result is `n`: `n` reduced
to 64 bits in two's complement. -/
def wrapLong (n : Int) : Int :=
  (n + 9223372036854775808) % 18446744073709551616 - 9223372036854775808

end Machine

/-! ## The C library calendar -/

/-- The struct `std::tm`, restricted to the members the program reads or writes. -/
structure Tm where
  tm_sec : Int
  tm_min : Int
  tm_hour : Int
  tm_mday : Int
  tm_mon : Int
  tm_year : Int
  tm_wday : Int
  tm_yday : Int
  deriving DecidableEq, Repr

namespace Tm

/-- The value-initialised struct `std::tm dt_timeStruct{}`. -/
def zero : Tm :=
  { tm_sec := 0, tm_min := 0, tm_hour := 0, tm_mday := 0, tm_mon := 0, tm_year := 0,
    tm_wday := 0, tm_yday := 0 }

end Tm

namespace CLib

/-- Number of days from 1970-01-01 to the proleptic Gregorian date `y0`-`m`-`d`, for a
month `m` in 1..12; linear in `d`, so a day outside the month rolls over. -/
def daysFromCivil (y0 m d : Int) : Int :=
  let y := if m ≤ 2 then y0 - 1 else y0
  let era := y / 400
  let yoe := y - era * 400
  let mp := if m > 2 then m - 3 else m + 9
  let doy := (153 * mp + 2) / 5 + d - 1
  let doe := yoe * 365 + yoe / 4 - yoe / 100 + doy
  era * 146097 + doe - 719468

/-- The proleptic Gregorian date (year, month 1..12, day) that lies `z0` days after
1970-01-01. -/
def civilFromDays (z0 : Int) : Int × Int × Int :=
  let z := z0 + 719468
  let era := z / 146097
  let doe := z - era * 146097
  let yoe := (doe - doe / 1460 + doe / 36524 - doe / 146096) / 365
  let y := yoe + era * 400
  let doy := doe - (365 * yoe + yoe / 4 - yoe / 100)
  let mp := (5 * doy + 2) / 153
  let d := doy - (153 * mp + 2) / 5 + 1
  let m := if mp < 10 then mp + 3 else mp - 9
  (if m ≤ 2 then y + 1 else y, m, d)

/-- The C library call `timegm`: the fields are read as UTC; a month outside 0..11 is
carried into the year, and day, hour, minute and second enter linearly. -/
def timegm (t : Tm) : Int :=
  let year := t.tm_year + 1900 + t.tm_mon / 12
  let mon := t.tm_mon % 12
  (daysFromCivil year (mon + 1) 1 + (t.tm_mday - 1)) * 86400
    + t.tm_hour * 3600 + t.tm_min * 60 + t.tm_sec

/-- The C library call `gmtime_r`: break a `time_t` down into UTC calendar fields. -/
def gmtime_r (dt_timeValue : Int) : Tm :=
  let days := dt_timeValue / 86400
  let rem := dt_timeValue % 86400
  let ymd := civilFromDays days
  { tm_sec := rem % 60
    tm_min := rem % 3600 / 60
    tm_hour := rem / 3600
    tm_mday := ymd.2.2
    tm_mon := ymd.2.1 - 1
    tm_year := ymd.1 - 1900
    tm_wday := (4 + days) % 7
    tm_yday := days - daysFromCivil ymd.1 1 1 }

end CLib

/-! ## `std::chrono::system_clock` -/

namespace Chrono

/-- Ticks of `system_clock` in one second. -/
def ticksPerSecond : Int := 1000000000

/-- Ticks of `system_clock` in one millisecond. -/
def ticksPerMillisecond : Int := 1000000

/-- The call `system_clock::from_time_t`: a `duration_cast` from seconds to ticks, a
64-bit product. -/
def from_time_t (t : Int) : Int := Machine.wrapLong (t * ticksPerSecond)

/-- The call `system_clock::to_time_t`: a `duration_cast` to seconds, which truncates
toward zero. -/
def to_time_t (tp : Int) : Int := Int.tdiv tp ticksPerSecond

/-- The duration `std::chrono::milliseconds(n)` converted to ticks, a 64-bit product. -/
def milliseconds (n : Int) : Int := Machine.wrapLong (n * ticksPerMillisecond)

/-- The duration `std::chrono::seconds(n)` converted to ticks, a 64-bit product. -/
def seconds (n : Int) : Int := Machine.wrapLong (n * ticksPerSecond)

/-- The duration `std::chrono::minutes(n)` converted to ticks, a 64-bit product. -/
def minutes (n : Int) : Int := Machine.wrapLong (n * (60 * ticksPerSecond))

/-- The duration `std::chrono::hours(n)` converted to ticks, a 64-bit product. -/
def hours (n : Int) : Int := Machine.wrapLong (n * (3600 * ticksPerSecond))

/-- The sum of a `time_point` and a duration, both in ticks: `operator+` and
`operator+=`, a 64-bit sum. -/
def plus (tp d : Int) : Int := Machine.wrapLong (tp + d)

/-- The difference of two `time_point`s in ticks: `operator-`, a 64-bit difference. -/
def minus (tp1 tp2 : Int) : Int := Machine.wrapLong (tp1 - tp2)

/-- The call `duration_cast<std::chrono::seconds>(d).count()`, truncating toward zero. -/
def toSecondsCount (d : Int) : Int := Int.tdiv d ticksPerSecond

/-- The call `duration_cast<std::chrono::milliseconds>(d).count()`, truncating toward zero. -/
def toMillisecondsCount (d : Int) : Int := Int.tdiv d ticksPerMillisecond

end Chrono

/-! ## Strings and the time formatting of the C and C++ libraries

A `std::string` is modelled by the list of its `char`s, and a `char` by the Lean
character of the same code, so that the length of a list is the `size()` of the string;
for ASCII text the list is the text itself.  The identifier of a region, a Lean string, is
read as the list of its characters.

`std::put_time`, `std::get_time` and `strftime` belong to the libraries.  Their loops over
the format are modelled after libstdc++ 12 (`time_put::put`, `time_get::get`) and the C
standard.  On output the conversions `%Y %m %d %H %M %S` are modelled in full and every
other conversion is left to a parameter, `CLib.TimeLibrary`.  On input every conversion of
`time_get::_M_extract_via_format` is modelled, with the formats of the classic locale for
`%c %r %x %X`, and so is the finalisation `__time_get_state::_M_finalize_state` that
`time_get::get` runs after its loop; the search for a name (`%a %A %b %B %h %p %Z`) and
the one case in which the finalisation reads outside its table are left to the parameter.
`std::get_time` is called on a zeroed struct by `parse`; the `int` arithmetic of the
finalisation is exact for the numbers a format can store into such a struct. -/

namespace CLib

/-- The characters a C-string consumer sees behind `std::string::c_str()`: those before
the first NUL. -/
def c_str (s : List Char) : List Char := s.takeWhile (fun c => c ≠ Char.ofNat 0)

/-- The member `std::string::find(pat)`: the first position at which `pat` occurs. -/
def find : List Char → List Char → Option Nat
  | [], pat => if pat = [] then some 0 else none
  | c :: s, pat => if pat.isPrefixOf (c :: s) then some 0 else (find s pat).map (· + 1)

/-- The member `std::string::replace(pos, len, str)`. -/
def replace (s : List Char) (pos len : Nat) (str : List Char) : List Char :=
  s.take pos ++ str ++ s.drop (pos + len)

/-- The member `std::string::substr(pos, len)`. -/
def substr (s : List Char) (pos len : Nat) : List Char := (s.drop pos).take len

/-- The character of a decimal digit. -/
def digitChar (d : Nat) : Char := Char.ofNat (48 + d)

/-- The decimal digits of `n` in front of `acc`, most significant first; `fuel` bounds the
number of digits. -/
def decimalAux : Nat → Nat → List Char → List Char
  | 0, _, acc => acc
  | fuel + 1, n, acc =>
    if n < 10 then digitChar n :: acc
    else decimalAux fuel (n / 10) (digitChar (n % 10) :: acc)

/-- The decimal representation of a natural number. -/
def decimal (n : Nat) : List Char := decimalAux (n + 1) n []

/-- A signed decimal number padded with zeros to `width` characters, the sign included:
the conversion `%0<width>d` of `printf`, `{:0<width>d}` of `std::format` and the numeric
conversions of `strftime`. -/
def zeroPadded (width : Nat) (n : Int) : List Char :=
  if n < 0 then
    '-' :: (List.replicate (width - 1 - (decimal n.natAbs).length) '0' ++ decimal n.natAbs)
  else List.replicate (width - (decimal n.toNat).length) '0' ++ decimal n.toNat

/-- The conversions `%Y %m %d %H %M %S` of `strftime`: the year as a decimal number, the
other fields as two digits. -/
def numericConversion (t : Tm) (c : Char) : Option (List Char) :=
  if c = 'Y' then some (zeroPadded 1 (t.tm_year + 1900))
  else if c = 'm' then some (zeroPadded 2 (t.tm_mon + 1))
  else if c = 'd' then some (zeroPadded 2 t.tm_mday)
  else if c = 'H' then some (zeroPadded 2 t.tm_hour)
  else if c = 'M' then some (zeroPadded 2 t.tm_min)
  else if c = 'S' then some (zeroPadded 2 t.tm_sec)
  else none

/-- The name tables of `time_get::_M_extract_name`. -/
inductive NameTable where
  /-- The seven names of the weekdays followed by their seven abbreviations. -/
  | days
  /-- The twelve names of the months followed by their twelve abbreviations. -/
  | months
  /-- The names of the two halves of the day. -/
  | am_pm
  /-- The fourteen names of time zones. -/
  | timezones
  deriving DecidableEq, Repr

/-- The parts of the time formatting of the libraries that are not modelled here. -/
structure TimeLibrary where
  /-- What `time_put::do_put` writes for a conversion (format character and modifier, NUL
  for none) other than the plain `%Y %m %d %H %M %S`. -/
  put_other : Tm → Char → Char → List Char
  /-- What `strftime` writes for a format that starts with a `%` other than one of
  `%Y %m %d %H %M %S`. -/
  strftime_other : List Char → Tm → List Char
  /-- The member `time_get::_M_extract_name` on a non-empty input: the index of the name
  of the table that it finds at the start of the input and the rest of the input, or
  `none` when it sets `failbit`. -/
  extract_name : NameTable → List Char → Option (Nat × List Char)
  /-- What the finalisation of `time_get::get` stores when it derives the month and the day
  of the month from a day of the year that is not between 0 and 365, for which its loop
  reads outside the table `__mon_yday`: the struct before the derivation, and whether the
  month and the day of the month were set by the format. -/
  month_and_day_outside_table : Tm → Bool → Bool → Tm

/-- A library that writes nothing for the conversions left to it, finds no name and
leaves the struct as it is outside the table. -/
def minimalLibrary : TimeLibrary :=
  { put_other := fun _ _ _ => []
    strftime_other := fun _ _ => []
    extract_name := fun _ _ => none
    month_and_day_outside_table := fun t _ _ => t }

/-- The member `time_put::do_put`: one conversion, rendered as `strftime` renders it. -/
def do_put (lib : TimeLibrary) (t : Tm) (format mod : Char) : List Char :=
  if mod = Char.ofNat 0 then
    match numericConversion t format with
    | some ds => ds
    | none => lib.put_other t format mod
  else lib.put_other t format mod

/-- The manipulator `std::put_time` written to an empty stream, through `time_put::put`:
characters other than `%` are copied, a conversion goes to `do_put`, an incomplete
conversion at the end of the format ends the output. -/
def put_time (lib : TimeLibrary) (t : Tm) : List Char → List Char
  | [] => []
  | c :: rest =>
    if c ≠ '%' then c :: put_time lib t rest
    else
      match rest with
      | [] => []
      | f :: rest2 =>
        if f ≠ 'E' ∧ f ≠ 'O' then do_put lib t f (Char.ofNat 0) ++ put_time lib t rest2
        else
          match rest2 with
          | [] => []
          | g :: rest3 => do_put lib t g f ++ put_time lib t rest3

/-- The characters `strftime` produces for a format: ordinary characters are copied, the
conversions `%Y %m %d %H %M %S` are rendered, and from any other `%` on the rest is left
to the library. -/
def strftimeText (lib : TimeLibrary) (t : Tm) : List Char → List Char
  | [] => []
  | c :: rest =>
    if c ≠ '%' then c :: strftimeText lib t rest
    else
      match rest with
      | [] => lib.strftime_other [c] t
      | f :: rest2 =>
        match numericConversion t f with
        | some ds => ds ++ strftimeText lib t rest2
        | none => lib.strftime_other (c :: f :: rest2) t

/-- The C library call `strftime(buffer, maxsize, format, tm)` followed by reading the
buffer as a C string: `none` when the text and its terminating NUL do not fit into
`maxsize` characters, in which case the content of the buffer is indeterminate. -/
def strftime (lib : TimeLibrary) (maxsize : Nat) (format : List Char) (t : Tm) :
    Option (List Char) :=
  if (strftimeText lib t format).length + 1 ≤ maxsize then some (strftimeText lib t format)
  else none

/-- White space of the classic locale. -/
def isSpace (c : Char) : Bool := c = ' ' || (9 ≤ c.toNat && c.toNat ≤ 13)

/-- The loop of `time_get::_M_extract_num`: value read so far, number of digits read and
rest of the input, after at most `len` more characters. -/
def extractNumLoop : Nat → List Char → Int → Nat → Int → Int × Nat × List Char
  | 0, s, value, i, _ => (value, i, s)
  | _ + 1, [], value, i, _ => (value, i, [])
  | len + 1, c :: s, value, i, max =>
    if '0' ≤ c ∧ c ≤ '9' then
      if value * 10 + (c.toNat - 48 : Nat) > max then (value * 10 + (c.toNat - 48 : Nat), i, c :: s)
      else extractNumLoop len s (value * 10 + (c.toNat - 48 : Nat)) (i + 1) max
    else (value, i, c :: s)

/-- The member `time_get::_M_extract_num`: a number of at most `len` digits between `min`
and `max` and the rest of the input, or `none` when it sets `failbit`. -/
def extractNum (s : List Char) (min max : Int) (len : Nat) : Option (Int × List Char) :=
  if (extractNumLoop len s 0 0 max).2.1 ≠ 0 ∧ min ≤ (extractNumLoop len s 0 0 max).1
      ∧ (extractNumLoop len s 0 0 max).1 ≤ max then
    some ((extractNumLoop len s 0 0 max).1, (extractNumLoop len s 0 0 max).2.2)
  else none

/-- The struct `__time_get_state` of libstdc++, which `time_get::get` carries through the
conversions of one format. -/
structure TimeGetState where
  have_I : Bool
  have_wday : Bool
  have_yday : Bool
  have_mon : Bool
  have_mday : Bool
  have_uweek : Bool
  have_wweek : Bool
  have_century : Bool
  is_pm : Bool
  want_century : Bool
  want_xday : Bool
  week_no : Int
  century : Int
  deriving DecidableEq, Repr

namespace TimeGetState

/-- The value-initialised state `__time_get_state()`. -/
def init : TimeGetState :=
  { have_I := false, have_wday := false, have_yday := false, have_mon := false,
    have_mday := false, have_uweek := false, have_wweek := false, have_century := false,
    is_pm := false, want_century := false, want_xday := false, week_no := 0, century := 0 }

end TimeGetState

/-- The conversion `%y` of `time_get::_M_extract_via_format` after its two digits `mem`:
one or two further digits make it a year as for `%Y`; otherwise 0 to 68 are the years 2000
to 2068 and 69 to 99 the years 1969 to 1999.  The result is the new `tm_year`, the new
`want_century` and the rest of the input. -/
def extractShortYear (mem : Int) (s : List Char) : Int × Bool × List Char :=
  match s with
  | c :: cs =>
    if '0' ≤ c ∧ c ≤ '9' then
      match cs with
      | c2 :: cs2 =>
        if '0' ≤ c2 ∧ c2 ≤ '9' then
          ((mem * 10 + (c.toNat - 48 : Nat)) * 10 + (c2.toNat - 48 : Nat) - 1900, false, cs2)
        else (mem * 10 + (c.toNat - 48 : Nat) - 1900, false, c2 :: cs2)
      | [] => (mem * 10 + (c.toNat - 48 : Nat) - 1900, false, [])
    else (if mem < 69 then mem + 100 else mem, true, c :: cs)
  | [] => (if mem < 69 then mem + 100 else mem, true, [])

/-- One conversion of `time_get::_M_extract_via_format` that reads characters itself, on a
non-empty input: the rest of the input, the updated struct and the updated state, or
`none` when the conversion sets `failbit`.  The conversions that expand to a format are
in `expandedFormat`; a character that is neither is not recognised. -/
def extractField (lib : TimeLibrary) (c : Char) (s : List Char) (t : Tm) (st : TimeGetState) :
    Option (List Char × Tm × TimeGetState) :=
  if c = 'a' ∨ c = 'A' then
    match lib.extract_name NameTable.days s with
    | some (mem, r) => some (r, { t with tm_wday := (mem : Int) % 7 }, { st with have_wday := true })
    | none => none
  else if c = 'h' ∨ c = 'b' ∨ c = 'B' then
    match lib.extract_name NameTable.months s with
    | some (mem, r) =>
      some (r, { t with tm_mon := (mem : Int) % 12 }, { st with have_mon := true, want_xday := true })
    | none => none
  else if c = 'C' then
    match extractNum s 0 99 2 with
    | some (v, r) =>
      some (r, t, { st with century := v, have_century := true, want_xday := true })
    | none => none
  else if c = 'd' ∨ c = 'e' then
    match extractNum (match s with
        | [] => []
        | b :: bs => if isSpace b then bs else b :: bs) 1 31 2 with
    | some (v, r) =>
      some (r, { t with tm_mday := v }, { st with have_mday := true, want_xday := true })
    | none => none
  else if c = 'H' then
    match extractNum s 0 23 2 with
    | some (v, r) => some (r, { t with tm_hour := v }, { st with have_I := false })
    | none => none
  else if c = 'I' then
    match extractNum s 1 12 2 with
    | some (v, r) => some (r, { t with tm_hour := Int.tmod v 12 }, { st with have_I := true })
    | none => none
  else if c = 'j' then
    match extractNum s 1 366 3 with
    | some (v, r) => some (r, { t with tm_yday := v - 1 }, { st with have_yday := true })
    | none => none
  else if c = 'm' then
    match extractNum s 1 12 2 with
    | some (v, r) => some (r, { t with tm_mon := v - 1 }, { st with have_mon := true })
    | none => none
  else if c = 'M' then
    match extractNum s 0 59 2 with
    | some (v, r) => some (r, { t with tm_min := v }, st)
    | none => none
  else if c = 'n' ∨ c = 't' then some (s.dropWhile isSpace, t, st)
  else if c = 'p' then
    match lib.extract_name NameTable.am_pm s with
    | some (mem, r) => some (r, t, if mem ≠ 0 then { st with is_pm := true } else st)
    | none => none
  else if c = 'S' then
    match extractNum s 0 60 2 with
    | some (v, r) => some (r, { t with tm_sec := v }, st)
    | none => none
  else if c = 'U' then
    match extractNum s 0 53 2 with
    | some (v, r) => some (r, t, { st with week_no := v, have_uweek := true })
    | none => none
  else if c = 'w' then
    match extractNum s 0 6 1 with
    | some (v, r) => some (r, { t with tm_wday := v }, { st with have_wday := true })
    | none => none
  else if c = 'W' then
    match extractNum s 0 53 2 with
    | some (v, r) => some (r, t, { st with week_no := v, have_wweek := true })
    | none => none
  else if c = 'y' then
    match extractNum s 0 99 2 with
    | some (v, r) =>
      some ((extractShortYear v r).2.2, { t with tm_year := (extractShortYear v r).1 },
        { st with want_century := (extractShortYear v r).2.1, want_xday := true })
    | none => none
  else if c = 'Y' then
    match extractNum s 0 9999 4 with
    | some (v, r) =>
      some (r, { t with tm_year := v - 1900 }, { st with want_century := false, want_xday := true })
    | none => none
  else if c = 'Z' then
    match s with
    | b :: _ =>
      if 'A' ≤ b ∧ b ≤ 'Z' then
        match lib.extract_name NameTable.timezones s with
        | some (mem, r) =>
          match r with
          | sign :: _ =>
            if mem = 0 ∧ (sign = '-' ∨ sign = '+') then
              match extractNum r 0 23 2 with
              | some (_, r2) =>
                match extractNum r2 0 59 2 with
                | some (_, r3) => some (r3, t, st)
                | none => none
              | none => none
            else some (r, t, st)
          | [] => some (r, t, st)
        | none => none
      else none
    | [] => none
  else if c = '%' then
    match s with
    | b :: bs => if b = '%' then some (bs, t, st) else none
    | [] => none
  else none

/-- The format a conversion of `time_get::_M_extract_via_format` expands to, and whether
the conversion sets `want_xday`: the fixed formats of `%D %R %T`, and for `%c %r %x %X` the
formats of the classic locale, which is the locale of a program that installs none. -/
def expandedFormat (c : Char) : Option (List Char × Bool) :=
  if c = 'c' then some ([], true)
  else if c = 'D' then some ("%m/%d/%y".toList, true)
  else if c = 'r' then some ("%I:%M:%S %p".toList, false)
  else if c = 'R' then some ("%H:%M".toList, false)
  else if c = 'T' then some ("%H:%M:%S".toList, false)
  else if c = 'x' then some ("%m/%d/%y".toList, false)
  else if c = 'X' then some ("%H:%M:%S".toList, false)
  else none

/-- The outcome of one iteration of a loop over a format. -/
inductive GetStep where
  /-- The loop is left: with the rest of the input, the struct and the state, or with
  `failbit` set (`none`). -/
  | done (result : Option (List Char × Tm × TimeGetState))
  /-- The loop goes on with the rest of the format, the rest of the input, the struct and
  the state. -/
  | next (format input : List Char) (t : Tm) (st : TimeGetState)

/-- One iteration of the loop of `time_get::_M_extract_via_format` over an expanded format.
The loop is left with `failbit` when the input ends before the format; a conversion that
expands to a format is not expanded again, no expanded format has one. -/
def expandedStep (lib : TimeLibrary) (format input : List Char) (t : Tm) (st : TimeGetState) :
    GetStep :=
  match format, input with
  | [], _ => GetStep.done (some (input, t, st))
  | _ :: _, [] => GetStep.done none
  | f :: fs, c :: cs =>
    if f = '%' then
      match fs with
      | [] => GetStep.done none
      | g :: fs2 =>
        if g ≠ 'E' ∧ g ≠ 'O' then
          match extractField lib g (c :: cs) t st with
          | none => GetStep.done none
          | some (s2, t2, st2) => GetStep.next fs2 s2 t2 st2
        else
          match fs2 with
          | [] => GetStep.done none
          | h :: fs3 =>
            match extractField lib h (c :: cs) t st with
            | none => GetStep.done none
            | some (s2, t2, st2) => GetStep.next fs3 s2 t2 st2
    else if isSpace f = true then GetStep.next fs ((c :: cs).dropWhile isSpace) t st
    else if c.toLower = f.toLower ∨ c.toUpper = f.toUpper then GetStep.next fs cs t st
    else GetStep.done none

/-- The loop of `time_get::_M_extract_via_format` over an expanded format.  Every
iteration shortens the format, so a `fuel` above the length of the format is never used
up. -/
def expandedLoop (lib : TimeLibrary) :
    Nat → List Char → List Char → Tm → TimeGetState → Option (List Char × Tm × TimeGetState)
  | 0, _, _, _, _ => none
  | fuel + 1, format, input, t, st =>
    match expandedStep lib format input t st with
    | GetStep.done r => r
    | GetStep.next format2 input2 t2 st2 => expandedLoop lib fuel format2 input2 t2 st2

/-- The member `time_get::_M_extract_via_format` on the format of a single conversion `c`
and a non-empty input, as `time_get::get` calls it. -/
def extractConversion (lib : TimeLibrary) (c : Char) (s : List Char) (t : Tm)
    (st : TimeGetState) : Option (List Char × Tm × TimeGetState) :=
  match expandedFormat c with
  | some (format, wantXday) =>
    match expandedLoop lib (format.length + 1) format s t st with
    | some (s2, t2, st2) =>
      some (s2, t2, if wantXday then { st2 with want_xday := true } else st2)
    | none => none
  | none => extractField lib c s t st

/-- The table `__mon_yday` of the library, two rows of thirteen entries laid out one after
the other: the days of a year before each month, for a common year and for a leap year. -/
def monYday : List Int :=
  [0, 31, 59, 90, 120, 151, 181, 212, 243, 273, 304, 334, 365,
   0, 31, 60, 91, 121, 152, 182, 213, 244, 274, 305, 335, 366]

/-- The entry `__mon_yday[leap][mon]`; an index past the end of a row continues in the
next row. -/
def monYdayAt (leap : Bool) (mon : Int) : Int :=
  monYday.getD ((if leap then 13 else 0) + mon).toNat 0

/-- The macro `__is_leap` of the library. -/
def isLeap (year : Int) : Bool :=
  Int.tmod year 4 == 0 && (Int.tmod year 100 != 0 || Int.tmod year 400 == 0)

/-- The helper `day_of_the_week` of the library: `tm_wday` from year, month and day. -/
def day_of_the_week (t : Tm) : Tm :=
  let corr_year := 1900 + t.tm_year - (if t.tm_mon < 2 then 1 else 0)
  let wday := -473 + 365 * (t.tm_year - 70) + Int.tdiv corr_year 4
    - Int.tdiv (Int.tdiv corr_year 4) 25
    + (if Int.tmod (Int.tdiv corr_year 4) 25 < 0 then 1 else 0)
    + Int.tdiv (Int.tdiv (Int.tdiv corr_year 4) 25) 4
    + monYdayAt false t.tm_mon + t.tm_mday - 1
  { t with tm_wday := Int.tmod (Int.tmod wday 7 + 7) 7 }

/-- The helper `day_of_the_year` of the library: `tm_yday` from year, month and day. -/
def day_of_the_year (t : Tm) : Tm :=
  { t with tm_yday := monYdayAt (isLeap (1900 + t.tm_year)) t.tm_mon + (t.tm_mday - 1) }

/-- The first month index `t_mon` at or after `start` with `__mon_yday[leap][t_mon]` above
`yday`, searched over at most `fuel` entries. -/
def monthAfter (leap : Bool) (yday : Int) : Nat → Int → Int
  | 0, t_mon => t_mon
  | fuel + 1, t_mon =>
    if monYdayAt leap t_mon ≤ yday then monthAfter leap yday fuel (t_mon + 1) else t_mon

/-- Month and day of the month from the day of the year, for the fields the format did not
set.  For a day of the year between 0 and 365 the loop of the library ends inside the
table. -/
def monthAndDayFromYday (lib : TimeLibrary) (t : Tm) (have_mon have_mday : Bool) : Tm :=
  if 0 ≤ t.tm_yday ∧ t.tm_yday ≤ 365 then
    let leap := isLeap (1900 + t.tm_year)
    let t_mon := monthAfter leap t.tm_yday 26 0
    let tm_mon := if have_mon then t.tm_mon else t_mon - 1
    let tm_mday := if have_mday then t.tm_mday else t.tm_yday - monYdayAt leap (t_mon - 1) + 1
    { t with tm_mon := tm_mon, tm_mday := tm_mday }
  else lib.month_and_day_outside_table t have_mon have_mday

/-- The member `__time_get_state::_M_finalize_state`, which `time_get::get` runs after its
loop: the hour of a 12-hour clock, the century, and the fields that follow from the ones
the format set. -/
def finalizeState (lib : TimeLibrary) (st : TimeGetState) (t : Tm) : Tm :=
  let t := if st.have_I ∧ st.is_pm then { t with tm_hour := t.tm_hour + 12 } else t
  let t :=
    if st.have_century then
      { t with
        tm_year := (if st.want_century then Int.tmod t.tm_year 100 else 0)
          + (st.century - 19) * 100 }
    else t
  let fromYday : Bool := st.want_xday && !st.have_wday && !(st.have_mon && st.have_mday)
    && st.have_yday
  let t := if fromYday then monthAndDayFromYday lib t st.have_mon st.have_mday else t
  let have_mon : Bool := st.have_mon || fromYday
  let have_mday : Bool := st.have_mday || fromYday
  let t :=
    if st.want_xday ∧ ¬ st.have_wday ∧ (have_mon ∨ (0 ≤ t.tm_mon ∧ t.tm_mon ≤ 11)) then
      day_of_the_week t
    else t
  let t :=
    if st.want_xday ∧ ¬ st.have_yday ∧ (have_mon ∨ (0 ≤ t.tm_mon ∧ t.tm_mon ≤ 11)) then
      day_of_the_year t
    else t
  if (st.have_uweek ∨ st.have_wweek) ∧ st.have_wday then
    let save_wday := t.tm_wday
    let save_mday := t.tm_mday
    let save_mon := t.tm_mon
    let w_offset : Int := if st.have_uweek then 0 else 1
    let t := day_of_the_week { t with tm_mday := 1, tm_mon := 0 }
    let t := if have_mday then { t with tm_mday := save_mday } else t
    let t := if have_mon then { t with tm_mon := save_mon } else t
    let t :=
      if ¬ st.have_yday then
        { t with
          tm_yday := Int.tmod (7 - (t.tm_wday - w_offset)) 7 + (st.week_no - 1) * 7
            + Int.tmod (save_wday - w_offset + 7) 7 }
      else t
    let t :=
      if ¬ have_mday ∨ ¬ have_mon then monthAndDayFromYday lib t have_mon have_mday else t
    { t with tm_wday := save_wday }
  else t

/-- The loop of `time_get::get` after a conversion: it is left when the conversion set
`failbit`, and when it used up the input, which sets `eofbit` only. -/
def afterField (r : Option (List Char × Tm × TimeGetState)) (fs : List Char) : GetStep :=
  match r with
  | none => GetStep.done none
  | some (s2, t2, st2) =>
    if s2 = [] then GetStep.done (some (s2, t2, st2)) else GetStep.next fs s2 t2 st2

/-- One iteration of the loop of `time_get::get`.  The loop is left with `failbit` when
the input ends before the format, and without it when a conversion uses up the input,
which sets `eofbit`. -/
def getStep (lib : TimeLibrary) (format input : List Char) (t : Tm) (st : TimeGetState) :
    GetStep :=
  match format, input with
  | [], _ => GetStep.done (some (input, t, st))
  | _ :: _, [] => GetStep.done none
  | f :: fs, c :: cs =>
    if f = '%' then
      match fs with
      | [] => GetStep.done none
      | g :: fs2 =>
        if g ≠ 'E' ∧ g ≠ 'O' then afterField (extractConversion lib g (c :: cs) t st) fs2
        else
          match fs2 with
          | [] => GetStep.done none
          | h :: fs3 => afterField (extractConversion lib h (c :: cs) t st) fs3
    else if isSpace f = true then
      GetStep.next (fs.dropWhile isSpace) ((c :: cs).dropWhile isSpace) t st
    else if c.toLower = f.toLower ∨ c.toUpper = f.toUpper then GetStep.next fs cs t st
    else GetStep.done none

/-- The loop of `time_get::get`: the rest of the input, the struct and the state after the
loop, or `none` when `failbit` is set.  Every iteration shortens the format, so a `fuel`
above the length of the format is never used up. -/
def getLoop (lib : TimeLibrary) :
    Nat → List Char → List Char → Tm → TimeGetState → Option (List Char × Tm × TimeGetState)
  | 0, _, _, _, _ => none
  | fuel + 1, format, input, t, st =>
    match getStep lib format input t st with
    | GetStep.done r => r
    | GetStep.next format2 input2 t2 st2 => getLoop lib fuel format2 input2 t2 st2

/-- The manipulator `std::get_time` read from a stream holding `input`: the struct after
the extraction and its finalisation, or `none` when the stream is left with `failbit`
set.  The stream first skips leading white space and fails at the end of the input. -/
def get_time (lib : TimeLibrary) (input format : List Char) (t : Tm) : Option Tm :=
  match input.dropWhile isSpace with
  | [] => none
  | c :: cs =>
    match getLoop lib (format.length + 1) format (c :: cs) t TimeGetState.init with
    | some (_, t2, st2) => some (finalizeState lib st2 t2)
    | none => none

end CLib

/-! ## The class `DateTime` -/

/-- The exception class `DateTimeException`, carrying its message. -/
structure DateTimeException where
  what : String
  deriving DecidableEq, Repr

/-- The nested struct `DateTime::RegionTime`. -/
structure DateTime.RegionTime where
  identifier : String
  hourOffset : Int
  minuteOffset : Int
  deriving DecidableEq, Repr

/-- The data members of the class `DateTime`. -/
structure DateTime where
  dt_clockPoint : Int
  dt_timeRegion : DateTime.RegionTime
  deriving DecidableEq, Repr

namespace DateTime

/-- The constant `DateTime::WorldTime`. -/
def WorldTime : RegionTime := { identifier := "UTC", hourOffset := 0, minuteOffset := 0 }

/-- The constant `DateTime::JapanTime`. -/
def JapanTime : RegionTime := { identifier := "JST", hourOffset := 9, minuteOffset := 0 }

/-- The constant `DateTime::EasternTime`. -/
def EasternTime : RegionTime := { identifier := "EST", hourOffset := -5, minuteOffset := 0 }

/-- The constant `DateTime::PacificTime`. -/
def PacificTime : RegionTime := { identifier := "PST", hourOffset := -8, minuteOffset := 0 }

/-- The `int` expression `hourOffset * 3600 + minuteOffset * 60`, which the constructor,
the setters, `getRegionAdjustedTime`, `plusYears` and `plusMonths` evaluate on a region. -/
def regionOffsetValue (dt_region : RegionTime) : Int :=
  Machine.wrapInt
    (Machine.wrapInt (dt_region.hourOffset * 3600) + Machine.wrapInt (dt_region.minuteOffset * 60))

/-- The constructor `DateTime(int, int, int, int, int, int, int, const RegionTime&)`.
It performs no check on its arguments. -/
def fromFields (dt_year dt_month dt_day dt_hour dt_minute dt_second dt_millisecond : Int)
    (dt_region : RegionTime) : DateTime :=
  let dt_timeStruct : Tm :=
    { Tm.zero with
      tm_year := Machine.wrapInt (dt_year - 1900)
      tm_mon := Machine.wrapInt (dt_month - 1)
      tm_mday := dt_day
      tm_hour := dt_hour
      tm_min := dt_minute
      tm_sec := dt_second }
  let dt_timeValue := CLib.timegm dt_timeStruct
  let dt_offsetSeconds := Machine.wrapInt (-1 * regionOffsetValue dt_region)
  let dt_timeValue := dt_timeValue + dt_offsetSeconds
  { dt_clockPoint :=
      Chrono.plus (Chrono.from_time_t dt_timeValue) (Chrono.milliseconds dt_millisecond)
    dt_timeRegion := dt_region }

/-- The constructor `DateTime(const time_point&, const RegionTime&)`. -/
def fromTimePoint (dt_time : Int) (dt_region : RegionTime) : DateTime :=
  { dt_clockPoint := dt_time, dt_timeRegion := dt_region }

/-- The member `getThreadSafeTime` called with `dt_useLocalTime = false`, the only way the
class calls it on the paths embedded here. -/
def getThreadSafeTime (dt_timeValue : Int) : Tm := CLib.gmtime_r dt_timeValue

/-- The table `dt_daysInMonth` of `isValidDate`. -/
def dt_daysInMonth : List Int := [0, 31, 28, 31, 30, 31, 30, 31, 31, 30, 31, 30, 31]

/-- The static member `isValidDate`.  Nothing in its `try` block throws, so the `catch`
branch is left out. -/
def isValidDate (dt_year dt_month dt_day : Int) : Bool :=
  if dt_month < 1 ∨ dt_month > 12 ∨ dt_day < 1 then false
  else if dt_year < 1900 ∨ dt_year > 9999 then false
  else
    let dt_maxDay := dt_daysInMonth.getD dt_month.toNat 0
    let dt_isLeap : Bool :=
      Int.tmod dt_year 4 == 0 && (Int.tmod dt_year 100 != 0 || Int.tmod dt_year 400 == 0)
    let dt_maxDay := if dt_month = 2 ∧ dt_isLeap = true then 29 else dt_maxDay
    decide (dt_day ≤ dt_maxDay)

/-- The static member `isValidTime`. -/
def isValidTime (dt_hour dt_minute dt_second dt_millisecond : Int) : Bool :=
  decide (dt_hour ≥ 0) && decide (dt_hour < 24) &&
  decide (dt_minute ≥ 0) && decide (dt_minute < 60) &&
  decide (dt_second ≥ 0) && decide (dt_second < 60) &&
  decide (dt_millisecond ≥ 0) && decide (dt_millisecond < 1000)

/-- The member `getRegionAdjustedTime`.  The first `getThreadSafeTime` call of the source,
whose result is overwritten before use, is left out. -/
def getRegionAdjustedTime (self : DateTime) : Tm :=
  let dt_timeValue := Chrono.to_time_t self.dt_clockPoint
  let dt_regionOffsetValue := regionOffsetValue self.dt_timeRegion
  let dt_timeValue := dt_timeValue + dt_regionOffsetValue
  getThreadSafeTime dt_timeValue

/-- The member `getYear`. -/
def getYear (self : DateTime) : Int := self.getRegionAdjustedTime.tm_year + 1900

/-- The member `getMonth`. -/
def getMonth (self : DateTime) : Int := self.getRegionAdjustedTime.tm_mon + 1

/-- The member `getDay`. -/
def getDay (self : DateTime) : Int := self.getRegionAdjustedTime.tm_mday

/-- The member `getHour`. -/
def getHour (self : DateTime) : Int := self.getRegionAdjustedTime.tm_hour

/-- The member `getMinute`. -/
def getMinute (self : DateTime) : Int := self.getRegionAdjustedTime.tm_min

/-- The member `getSecond`. -/
def getSecond (self : DateTime) : Int := self.getRegionAdjustedTime.tm_sec

/-- The member `getMillisecond`. -/
def getMillisecond (self : DateTime) : Int :=
  Int.tmod (Chrono.toMillisecondsCount self.dt_clockPoint) 1000

/-- The member `getDayOfWeek`. -/
def getDayOfWeek (self : DateTime) : Int := self.getRegionAdjustedTime.tm_wday

/-- The member `getRegion`. -/
def getRegion (self : DateTime) : RegionTime := self.dt_timeRegion

/-- The member `getSystemTime`. -/
def getSystemTime (self : DateTime) : Int := self.dt_clockPoint

/-- The member `setDate`: the outcome of the call and the object after it. -/
def setDate (self : DateTime) (dt_year dt_month dt_day : Int) :
    Except DateTimeException Unit × DateTime :=
  if !isValidDate dt_year dt_month dt_day then
    (Except.error ⟨"Invalid date specified: " ++ toString dt_year ++ "-" ++
        toString dt_month ++ "-" ++ toString dt_day⟩, self)
  else
    let dt_timeStruct := self.getRegionAdjustedTime
    let dt_timeStruct :=
      { dt_timeStruct with
        tm_year := Machine.wrapInt (dt_year - 1900)
        tm_mon := Machine.wrapInt (dt_month - 1)
        tm_mday := dt_day }
    let dt_timeValue := CLib.timegm dt_timeStruct
    let dt_offsetSeconds := Machine.wrapInt (-1 * regionOffsetValue self.dt_timeRegion)
    let dt_timeValue := dt_timeValue + dt_offsetSeconds
    (Except.ok (), { self with dt_clockPoint := Chrono.from_time_t dt_timeValue })

/-- The member `setTime`: the outcome of the call and the object after it. -/
def setTime (self : DateTime) (dt_hour dt_minute dt_second dt_millisecond : Int) :
    Except DateTimeException Unit × DateTime :=
  if !isValidTime dt_hour dt_minute dt_second dt_millisecond then
    (Except.error ⟨"Invalid time specified: " ++ toString dt_hour ++ ":" ++
        toString dt_minute ++ ":" ++ toString dt_second ++ "." ++
        toString dt_millisecond⟩, self)
  else
    let dt_timeStruct := self.getRegionAdjustedTime
    let dt_timeStruct :=
      { dt_timeStruct with
        tm_hour := dt_hour
        tm_min := dt_minute
        tm_sec := dt_second }
    let dt_timeValue := CLib.timegm dt_timeStruct
    let dt_offsetSeconds := Machine.wrapInt (-1 * regionOffsetValue self.dt_timeRegion)
    let dt_timeValue := dt_timeValue + dt_offsetSeconds
    (Except.ok (),
      { self with
        dt_clockPoint :=
          Chrono.plus (Chrono.from_time_t dt_timeValue) (Chrono.milliseconds dt_millisecond) })

/-- The member `plusMonths`. -/
def plusMonths (self : DateTime) (dt_months : Int) : DateTime :=
  let dt_timeStruct := self.getRegionAdjustedTime
  let dt_originalDay := dt_timeStruct.tm_mday
  let dt_newYear := dt_timeStruct.tm_year
  let dt_newMonth := Machine.wrapInt (dt_timeStruct.tm_mon + dt_months)
  let dt_yearMonth : Int × Int :=
    if dt_newMonth ≥ 12 then
      (dt_newYear + Int.tdiv dt_newMonth 12, Int.tmod dt_newMonth 12)
    else if dt_newMonth < 0 then
      let dt_yearAdjust := Int.tdiv dt_newMonth 12 - 1
      (dt_newYear + dt_yearAdjust, 12 + Int.tmod dt_newMonth 12)
    else (dt_newYear, dt_newMonth)
  let dt_newYear := dt_yearMonth.1
  let dt_newMonth := dt_yearMonth.2
  let dt_maxDay : Int :=
    if dt_newMonth = 1 then
      let dt_year := dt_newYear + 1900
      if (Int.tmod dt_year 4 = 0 ∧ Int.tmod dt_year 100 ≠ 0) ∨ Int.tmod dt_year 400 = 0 then 29
      else 28
    else if dt_newMonth = 3 ∨ dt_newMonth = 5 ∨ dt_newMonth = 8 ∨ dt_newMonth = 10 then 30
    else 31
  let dt_timeStruct :=
    { dt_timeStruct with
      tm_year := dt_newYear
      tm_mon := dt_newMonth
      tm_mday := min dt_originalDay dt_maxDay }
  let dt_timeValue := CLib.timegm dt_timeStruct
  let dt_offsetSeconds := Machine.wrapInt (-1 * regionOffsetValue self.dt_timeRegion)
  let dt_timeValue := dt_timeValue + dt_offsetSeconds
  fromTimePoint (Chrono.from_time_t dt_timeValue) self.dt_timeRegion

/-- The member `setRegion`: the object after the call. -/
def setRegion (self : DateTime) (dt_region : RegionTime) : DateTime :=
  { self with dt_timeRegion := dt_region }

/-- The member `convertToRegion`. -/
def convertToRegion (self : DateTime) (dt_targetRegion : RegionTime) : DateTime :=
  fromTimePoint self.dt_clockPoint dt_targetRegion

/-- The member `plusYears`. -/
def plusYears (self : DateTime) (dt_years : Int) : DateTime :=
  let dt_timeStruct := self.getRegionAdjustedTime
  let dt_timeStruct :=
    { dt_timeStruct with tm_year := Machine.wrapInt (dt_timeStruct.tm_year + dt_years) }
  let dt_timeValue := CLib.timegm dt_timeStruct
  let dt_offsetSeconds := Machine.wrapInt (-1 * regionOffsetValue self.dt_timeRegion)
  let dt_timeValue := dt_timeValue + dt_offsetSeconds
  let dt_newTimePoint := Chrono.from_time_t dt_timeValue
  fromTimePoint dt_newTimePoint self.dt_timeRegion

/-- The member `plusDays`. -/
def plusDays (self : DateTime) (dt_days : Int) : DateTime :=
  fromTimePoint (Chrono.plus self.dt_clockPoint (Chrono.hours (Machine.wrapInt (24 * dt_days))))
    self.dt_timeRegion

/-- The member `plusHours`. -/
def plusHours (self : DateTime) (dt_hours : Int) : DateTime :=
  fromTimePoint (Chrono.plus self.dt_clockPoint (Chrono.hours dt_hours)) self.dt_timeRegion

/-- The member `plusMinutes`. -/
def plusMinutes (self : DateTime) (dt_minutes : Int) : DateTime :=
  fromTimePoint (Chrono.plus self.dt_clockPoint (Chrono.minutes dt_minutes)) self.dt_timeRegion

/-- The member `plusSeconds`. -/
def plusSeconds (self : DateTime) (dt_seconds : Int) : DateTime :=
  fromTimePoint (Chrono.plus self.dt_clockPoint (Chrono.seconds dt_seconds)) self.dt_timeRegion

/-- The member `plusMilliseconds`. -/
def plusMilliseconds (self : DateTime) (dt_milliseconds : Int) : DateTime :=
  fromTimePoint (Chrono.plus self.dt_clockPoint (Chrono.milliseconds dt_milliseconds))
    self.dt_timeRegion

/-- The member `operator==`. -/
def opEq (self dt_other : DateTime) : Bool := decide (self.dt_clockPoint = dt_other.dt_clockPoint)

/-- The member `operator!=`. -/
def opNe (self dt_other : DateTime) : Bool := decide (self.dt_clockPoint ≠ dt_other.dt_clockPoint)

/-- The member `operator<`. -/
def opLt (self dt_other : DateTime) : Bool := decide (self.dt_clockPoint < dt_other.dt_clockPoint)

/-- The member `operator<=`. -/
def opLe (self dt_other : DateTime) : Bool := decide (self.dt_clockPoint ≤ dt_other.dt_clockPoint)

/-- The member `operator>`. -/
def opGt (self dt_other : DateTime) : Bool := decide (self.dt_clockPoint > dt_other.dt_clockPoint)

/-- The member `operator>=`. -/
def opGe (self dt_other : DateTime) : Bool := decide (self.dt_clockPoint ≥ dt_other.dt_clockPoint)

/-- The default argument of `toString` and `parse`. -/
def defaultFormat : List Char := "%Y-%m-%d %H:%M:%S".toList

/-- The default argument of `toStringWithRegion`. -/
def defaultRegionFormat : List Char := "%Y-%m-%d %H:%M:%S %Z".toList

/-- The member `toString`. -/
def toString (lib : CLib.TimeLibrary) (self : DateTime) (dt_format : List Char) : List Char :=
  let dt_timeStruct := self.getRegionAdjustedTime
  CLib.put_time lib dt_timeStruct (CLib.c_str dt_format)

/-- The member `toStringWithRegion`. -/
def toStringWithRegion (lib : CLib.TimeLibrary) (self : DateTime) (dt_format : List Char) :
    List Char :=
  let dt_hasTimezoneFormat := (CLib.find dt_format "%Z".toList).isSome
  let dt_tempFormat :=
    match CLib.find dt_format "%Z".toList with
    | some dt_pos => CLib.replace dt_format dt_pos 2 "##TZ_PLACEHOLDER##".toList
    | none => dt_format
  let dt_timeStruct := self.getRegionAdjustedTime
  let dt_result := CLib.put_time lib dt_timeStruct (CLib.c_str dt_tempFormat)
  if dt_hasTimezoneFormat then
    match CLib.find dt_result "##TZ_PLACEHOLDER##".toList with
    | some dt_pos => CLib.replace dt_result dt_pos 18 self.dt_timeRegion.identifier.toList
    | none => dt_result
  else dt_result ++ (" ".toList ++ self.dt_timeRegion.identifier.toList)

/-- The static member `parse`.  Nothing in its `try` block throws, so the `catch` branch
is left out. -/
def parse (lib : CLib.TimeLibrary) (dt_dateString dt_format : List Char) : Option DateTime :=
  match CLib.get_time lib dt_dateString (CLib.c_str dt_format) Tm.zero with
  | none => none
  | some dt_timeStruct =>
    if !isValidDate (dt_timeStruct.tm_year + 1900) (dt_timeStruct.tm_mon + 1)
          dt_timeStruct.tm_mday ||
        !isValidTime dt_timeStruct.tm_hour dt_timeStruct.tm_min dt_timeStruct.tm_sec 0 then
      none
    else
      some (fromFields (dt_timeStruct.tm_year + 1900) (dt_timeStruct.tm_mon + 1)
        dt_timeStruct.tm_mday dt_timeStruct.tm_hour dt_timeStruct.tm_min dt_timeStruct.tm_sec
        0 WorldTime)

/-- The specialisation `std::formatter<tm>` of the header, as `std::format` applies it. -/
def formatTm (dt_t : Tm) : List Char :=
  CLib.zeroPadded 4 (dt_t.tm_year + 1900) ++ "-".toList ++
  CLib.zeroPadded 2 (dt_t.tm_mon + 1) ++ "-".toList ++
  CLib.zeroPadded 2 dt_t.tm_mday ++ " ".toList ++
  CLib.zeroPadded 2 dt_t.tm_hour ++ ":".toList ++
  CLib.zeroPadded 2 dt_t.tm_min ++ ":".toList ++
  CLib.zeroPadded 2 dt_t.tm_sec

/-- The member `formatString`, for a view of a whole string; `none` when the buffer of
100 characters it returns was left indeterminate by `strftime`.  Nothing in its `try`
block throws on the paths embedded here, so the `catch` branch is left out. -/
def formatString (lib : CLib.TimeLibrary) (self : DateTime) (dt_fmt : List Char) :
    Option (List Char) :=
  let dt_timeStruct := self.getRegionAdjustedTime
  if dt_fmt = [] then some (formatTm dt_timeStruct)
  else if dt_fmt.length ≥ 4 ∧ dt_fmt.head? = some '{' ∧ (dt_fmt.drop 1).head? = some ':' ∧
      dt_fmt.getLast? = some '}' then
    let extracted := CLib.substr dt_fmt 2 (dt_fmt.length - 3)
    CLib.strftime lib 100 (CLib.c_str extracted) dt_timeStruct
  else if (CLib.find dt_fmt "%".toList).isSome then
    CLib.strftime lib 100 (CLib.c_str dt_fmt) dt_timeStruct
  else some (self.toString lib dt_fmt)

/-- The static member `timeBetween`: the 64-bit difference of the two tick counts, cast to
whole seconds by truncation toward zero. -/
def timeBetween (dt_dt1 dt_dt2 : DateTime) : Int :=
  Chrono.toSecondsCount (Chrono.minus dt_dt2.dt_clockPoint dt_dt1.dt_clockPoint)

end DateTime

/-! ## Specification vocabulary -/

namespace Spec

/-- The Gregorian leap-year rule: divisible by 4 and (not divisible by 100 or divisible
by 400). -/
def isLeapYear (y : Int) : Prop := y % 4 = 0 ∧ (y % 100 ≠ 0 ∨ y % 400 = 0)

instance (y : Int) : Decidable (isLeapYear y) := by
  unfold isLeapYear; exact inferInstance

/-- The number of days of month `m` (1..12) in year `y`; 0 for any other `m`. -/
def lastDayOfMonth (y m : Int) : Int :=
  if m = 1 ∨ m = 3 ∨ m = 5 ∨ m = 7 ∨ m = 8 ∨ m = 10 ∨ m = 12 then 31
  else if m = 4 ∨ m = 6 ∨ m = 9 ∨ m = 11 then 30
  else if m = 2 then (if isLeapYear y then 29 else 28)
  else 0

/-- The region's total offset in seconds, `3600 * hourOffset + 60 * minuteOffset`. -/
def totalOffset (r : DateTime.RegionTime) : Int := 3600 * r.hourOffset + 60 * r.minuteOffset

/-- The two decimal digits of a number between 0 and 99, tens first. -/
def digits2 (n : Int) : List Char :=
  [CLib.digitChar (n / 10).toNat, CLib.digitChar (n % 10).toNat]

/-- The four decimal digits of a number between 0 and 9999, thousands first. -/
def digits4 (n : Int) : List Char :=
  [CLib.digitChar (n / 1000).toNat, CLib.digitChar (n / 100 % 10).toNat,
    CLib.digitChar (n / 10 % 10).toNat, CLib.digitChar (n % 10).toNat]

/-- The text `YYYY-MM-DD HH:MM:SS` of six fields, each padded with zeros to 4, 2, 2, 2, 2
and 2 digits. -/
def isoText (y m d h mi s : Int) : List Char :=
  digits4 y ++ "-".toList ++ digits2 m ++ "-".toList ++ digits2 d ++ " ".toList ++
    digits2 h ++ ":".toList ++ digits2 mi ++ ":".toList ++ digits2 s

/-- A pattern made of the tokens `%Y %m %d %H %M %S` and of characters other than `%`. -/
def tokenPattern : List Char → Bool
  | [] => true
  | c :: rest =>
    if c ≠ '%' then tokenPattern rest
    else
      match rest with
      | [] => false
      | f :: rest2 =>
        (f = 'Y' ∨ f = 'm' ∨ f = 'd' ∨ f = 'H' ∨ f = 'M' ∨ f = 'S') && tokenPattern rest2


/-- The number of leap years among the years 1 to `y - 1`. -/
def leapYearsBefore (y : Int) : Int := (y - 1) / 4 - (y - 1) / 100 + (y - 1) / 400

/-- The signed number of days from 1 January 1970 to 1 January of year `y`: 365 for each
year in between and one more for each leap year. -/
def daysBeforeYear (y : Int) : Int :=
  365 * (y - 1970) + (leapYearsBefore y - leapYearsBefore 1970)

/-- The number of days of year `y` that lie before month `m`: the lengths of the months 1
to `m - 1` added up. -/
def daysBeforeMonth (y m : Int) : Int :=
  ((List.range (m - 1).toNat).map (fun i : Nat => lastDayOfMonth y (i + 1))).sum

/-- The signed number of days from 1970-01-01 to the date `y`-`m`-`d`. -/
def daysSinceEpoch (y m d : Int) : Int := daysBeforeYear y + daysBeforeMonth y m + (d - 1)

/-- The weekday of the date `y`-`m`-`d`, 0 for Sunday to 6 for Saturday: 1970-01-01 was a
Thursday. -/
def weekday (y m d : Int) : Int := (daysSinceEpoch y m d + 4) % 7

/-- An integer that an `int` holds. -/
def fitsInt (n : Int) : Prop := -2147483648 ≤ n ∧ n ≤ 2147483647

instance (n : Int) : Decidable (fitsInt n) := by
  unfold fitsInt
  infer_instance

/-- A tick count that the clock holds: a signed 64-bit count of nanoseconds from the epoch,
which ends at 2262-04-11 23:47:16.854775807 UTC and starts as long before 1970. -/
def fitsClock (ticks : Int) : Prop :=
  -9223372036854775808 ≤ ticks ∧ ticks ≤ 9223372036854775807

instance (ticks : Int) : Decidable (fitsClock ticks) := by
  unfold fitsClock
  infer_instance

/-- A region whose total offset in seconds and the negative of it are values of `int`. -/
def offsetInRange (r : DateTime.RegionTime) : Prop :=
  -2147483648 < totalOffset r ∧ totalOffset r ≤ 2147483647

instance (r : DateTime.RegionTime) : Decidable (offsetInRange r) := by
  unfold offsetInRange
  infer_instance

/-- The signed number of seconds from 1970-01-01 00:00:00 to the time `h:mi:s` of the date
`y`-`m`-`d`, both read in the same region. -/
def secondsSinceEpoch (y m d h mi s : Int) : Int :=
  daysSinceEpoch y m d * 86400 + h * 3600 + mi * 60 + s

/-- The instant, in ticks from the epoch, that the fields `y`-`m`-`d` `h:mi:s` and the
millisecond `ms` denote when they are written in the region `r`. -/
def instantTicks (y m d h mi s ms : Int) (r : DateTime.RegionTime) : Int :=
  (secondsSinceEpoch y m d h mi s - totalOffset r) * 1000000000 + ms * 1000000

/-- Whether a conversion makes `std::get_time` store a day of the month: the day itself
(`%d`, `%e`, and `%D`, `%x`, which contain it), and the day of the year and the weeks of
the year (`%j`, `%U`, `%W`), from which the library derives a day of the month. -/
def yieldsDay (c : Char) : Bool :=
  c = 'd' || c = 'e' || c = 'D' || c = 'x' || c = 'j' || c = 'U' || c = 'W'

/-- A pattern none of whose conversions yields a day of the month.  A conversion is read
as `std::get_time` reads it: a `%`, an optional modifier `E` or `O`, and the conversion
character. -/
def patternWithoutDay : List Char → Bool
  | [] => true
  | c :: rest =>
    if c ≠ '%' then patternWithoutDay rest
    else
      match rest with
      | [] => true
      | f :: rest2 =>
        if f ≠ 'E' ∧ f ≠ 'O' then !yieldsDay f && patternWithoutDay rest2
        else
          match rest2 with
          | [] => true
          | g :: rest3 => !yieldsDay g && patternWithoutDay rest3

end Spec

/-! ## Arithmetic of machine integers -/

namespace Machine

theorem wrapInt_eq (n : Int) (h1 : -2147483648 ≤ n) (h2 : n ≤ 2147483647) : wrapInt n = n := by
  unfold wrapInt
  omega

theorem wrapInt_range (n : Int) : -2147483648 ≤ wrapInt n ∧ wrapInt n ≤ 2147483647 := by
  unfold wrapInt
  omega

theorem wrapInt_add (a b : Int) : wrapInt (wrapInt a + wrapInt b) = wrapInt (a + b) := by
  unfold wrapInt
  omega

theorem wrapLong_eq (n : Int) (h1 : -9223372036854775808 ≤ n) (h2 : n ≤ 9223372036854775807) :
    wrapLong n = n := by
  unfold wrapLong
  omega

theorem wrapLong_range (n : Int) :
    -9223372036854775808 ≤ wrapLong n ∧ wrapLong n ≤ 9223372036854775807 := by
  unfold wrapLong
  omega

theorem wrapLong_add (a b : Int) : wrapLong (wrapLong a + wrapLong b) = wrapLong (a + b) := by
  unfold wrapLong
  omega

theorem wrapLong_add_left (a b : Int) : wrapLong (wrapLong a + b) = wrapLong (a + b) := by
  unfold wrapLong
  omega

theorem wrapLong_add_right (a b : Int) : wrapLong (a + wrapLong b) = wrapLong (a + b) := by
  unfold wrapLong
  omega

theorem wrapLong_sub (a b : Int) : wrapLong (wrapLong a - wrapLong b) = wrapLong (a - b) := by
  unfold wrapLong
  omega

end Machine

/-! ## Truncating division -/

theorem tdiv_of_nonneg (a b : Int) (ha : 0 ≤ a) (hb : 0 ≤ b) : Int.tdiv a b = a / b :=
  Int.tdiv_eq_ediv ha hb

theorem tdiv_of_nonpos (a b : Int) (ha : a ≤ 0) (hb : 0 ≤ b) : Int.tdiv a b = -((-a) / b) := by
  have h : Int.tdiv (-(-a)) b = -(Int.tdiv (-a) b) := Int.neg_tdiv (-a) b
  rw [Int.neg_neg] at h
  rw [h, Int.tdiv_eq_ediv (by omega) hb]

theorem tmod_of_nonneg (a b : Int) (ha : 0 ≤ a) (hb : 0 ≤ b) : Int.tmod a b = a % b :=
  Int.tmod_eq_emod ha hb

theorem tmod_of_nonpos (a b : Int) (ha : a ≤ 0) (hb : 0 ≤ b) : Int.tmod a b = -((-a) % b) := by
  rw [Int.tmod_def, tdiv_of_nonpos a b ha hb, Int.emod_def]
  rw [Int.mul_neg]
  omega

theorem tmod_eq_zero_iff (a b : Int) (hb : 0 < b) : Int.tmod a b = 0 ↔ a % b = 0 := by
  rcases Int.le_total 0 a with ha | ha
  · rw [tmod_of_nonneg a b ha (by omega)]
  · rw [tmod_of_nonpos a b ha (by omega)]
    constructor
    · intro h
      have h1 : (-a) % b = 0 := by omega
      have h2 : b ∣ -a := Int.dvd_of_emod_eq_zero h1
      have h3 : b ∣ a := (Int.dvd_neg).mp h2
      exact Int.emod_eq_zero_of_dvd h3
    · intro h
      have h3 : b ∣ a := Int.dvd_of_emod_eq_zero h
      have h2 : b ∣ -a := (Int.dvd_neg).mpr h3
      have h1 : (-a) % b = 0 := Int.emod_eq_zero_of_dvd h2
      omega

/-! ## The calendar routines are inverse to each other -/

namespace CLib

theorem yearOfEra_recovered (yoe doy : Int) (h0 : 0 ≤ yoe) (h1 : yoe < 400)
    (hd0 : 0 ≤ doy) (hd1 : doy ≤ 365)
    (hl : doy = 365 → ((yoe + 1) % 4 = 0 ∧ ((yoe + 1) % 100 ≠ 0 ∨ (yoe + 1) % 400 = 0))) :
    (yoe * 365 + yoe / 4 - yoe / 100 + doy
      - (yoe * 365 + yoe / 4 - yoe / 100 + doy) / 1460
      + (yoe * 365 + yoe / 4 - yoe / 100 + doy) / 36524
      - (yoe * 365 + yoe / 4 - yoe / 100 + doy) / 146096) / 365 = yoe := by
  obtain ⟨c, hc⟩ : ∃ c, c = yoe / 100 := ⟨_, rfl⟩
  obtain ⟨q, hq⟩ : ∃ q, q = yoe / 4 := ⟨_, rfl⟩
  obtain ⟨doe, hdoe⟩ : ∃ doe, doe = yoe * 365 + q - c + doy := ⟨_, rfl⟩
  rw [← hc, ← hq, ← hdoe]
  have hf : doe / 1460 = q ∨ doe / 1460 = q + 1 := by omega
  have hc0 : 0 ≤ c := by omega
  have hc1 : c < 4 := by omega
  have hl2 : doy = 365 → (yoe = 4 * q + 3 ∧ (yoe + 1 ≠ 100 * (c + 1) ∨ c = 3)) := by
    intro h; have := hl h; omega
  clear hl
  have hg : doe / 36524 = c ∨ doe = 146096 := by
    interval_cases c <;> omega
  have hi : doe / 146096 = 0 ∨ doe = 146096 := by omega
  rcases hf with hf | hf <;> rcases hg with hg | hg <;> rcases hi with hi | hi <;> omega

/-- The date computed by `civilFromDays` from the day number assembled from an era, a year
of the era and a day of the March-based year. -/
theorem civilFromDays_parts (era yoe doy : Int) (h0 : 0 ≤ yoe) (h1 : yoe < 400)
    (hd0 : 0 ≤ doy) (hd1 : doy ≤ 365)
    (hl : doy = 365 → ((yoe + 1) % 4 = 0 ∧ ((yoe + 1) % 100 ≠ 0 ∨ (yoe + 1) % 400 = 0))) :
    civilFromDays (era * 146097 + (yoe * 365 + yoe / 4 - yoe / 100 + doy) - 719468) =
      (if (if (5 * doy + 2) / 153 < 10 then (5 * doy + 2) / 153 + 3
            else (5 * doy + 2) / 153 - 9) ≤ 2 then yoe + era * 400 + 1 else yoe + era * 400,
       if (5 * doy + 2) / 153 < 10 then (5 * doy + 2) / 153 + 3 else (5 * doy + 2) / 153 - 9,
       doy - (153 * ((5 * doy + 2) / 153) + 2) / 5 + 1) := by
  have hy := yearOfEra_recovered yoe doy h0 h1 hd0 hd1 hl
  obtain ⟨doe, hdoe⟩ : ∃ doe, doe = yoe * 365 + yoe / 4 - yoe / 100 + doy := ⟨_, rfl⟩
  rw [← hdoe] at hy ⊢
  have hb0 : 0 ≤ doe := by omega
  have hb1 : doe < 146097 := by omega
  have hera : (era * 146097 + doe - 719468 + 719468) / 146097 = era := by omega
  have hdoe2 : era * 146097 + doe - 719468 + 719468 - era * 146097 = doe := by omega
  simp only [civilFromDays, hera, hdoe2, hy]
  have hdoy : doe - (365 * yoe + yoe / 4 - yoe / 100) = doy := by omega
  rw [hdoy]

theorem civilFromDays_daysFromCivil (y m d : Int) (hm1 : 1 ≤ m) (hm2 : m ≤ 12)
    (hd1 : 1 ≤ d) (hd2 : d ≤ Spec.lastDayOfMonth y m) :
    civilFromDays (daysFromCivil y m d) = (y, m, d) := by
  obtain ⟨y1, hy1⟩ : ∃ y1, y1 = if m ≤ 2 then y - 1 else y := ⟨_, rfl⟩
  obtain ⟨mp, hmp⟩ : ∃ mp, mp = if m > 2 then m - 3 else m + 9 := ⟨_, rfl⟩
  obtain ⟨doy, hdoy⟩ : ∃ doy, doy = (153 * mp + 2) / 5 + d - 1 := ⟨_, rfl⟩
  have hdfc : daysFromCivil y m d
      = (y1 / 400) * 146097 + ((y1 - y1 / 400 * 400) * 365 + (y1 - y1 / 400 * 400) / 4
          - (y1 - y1 / 400 * 400) / 100 + doy) - 719468 := by
    simp only [daysFromCivil, ← hy1, ← hmp, hdoy]
  have hrange : 0 ≤ doy ∧ doy ≤ 365 ∧ (5 * doy + 2) / 153 = mp ∧
      doy - (153 * mp + 2) / 5 + 1 = d ∧
      (doy = 365 → ((y1 + 1) % 4 = 0 ∧ ((y1 + 1) % 100 ≠ 0 ∨ (y1 + 1) % 400 = 0))) := by
    unfold Spec.lastDayOfMonth Spec.isLeapYear at hd2
    interval_cases m <;> simp at hd2 hy1 hmp <;> subst hmp <;> subst hy1 <;>
      (try split at hd2) <;> omega
  obtain ⟨hr0, hr1, hr2, hr3, hr4⟩ := hrange
  rw [hdfc, civilFromDays_parts _ _ doy (by omega) (by omega) hr0 hr1 (by intro h; have := hr4 h; omega)]
  rw [hr2, hr3]
  have hyy : y1 - y1 / 400 * 400 + y1 / 400 * 400 = y1 := by omega
  rw [hyy]
  interval_cases m <;> simp at hy1 hmp <;> subst hmp <;> subst hy1 <;> simp

/-- What `gmtime_r` reads back from the `time_t` that `timegm` computed from a date of the
calendar with a time of day in range, the month possibly outside 0..11. -/
theorem gmtime_r_timegm (t : Tm)
    (hd1 : 1 ≤ t.tm_mday)
    (hd2 : t.tm_mday ≤ Spec.lastDayOfMonth (t.tm_year + 1900 + t.tm_mon / 12) (t.tm_mon % 12 + 1))
    (hh1 : 0 ≤ t.tm_hour) (hh2 : t.tm_hour < 24)
    (hm1 : 0 ≤ t.tm_min) (hm2 : t.tm_min < 60)
    (hs1 : 0 ≤ t.tm_sec) (hs2 : t.tm_sec < 60) :
    (gmtime_r (timegm t)).tm_year = t.tm_year + t.tm_mon / 12 ∧
    (gmtime_r (timegm t)).tm_mon = t.tm_mon % 12 ∧
    (gmtime_r (timegm t)).tm_mday = t.tm_mday ∧
    (gmtime_r (timegm t)).tm_hour = t.tm_hour ∧
    (gmtime_r (timegm t)).tm_min = t.tm_min ∧
    (gmtime_r (timegm t)).tm_sec = t.tm_sec := by
  obtain ⟨y, hy⟩ : ∃ y, y = t.tm_year + 1900 + t.tm_mon / 12 := ⟨_, rfl⟩
  obtain ⟨m, hm⟩ : ∃ m, m = t.tm_mon % 12 + 1 := ⟨_, rfl⟩
  rw [← hy, ← hm] at hd2
  have hlin : daysFromCivil y m 1 + (t.tm_mday - 1) = daysFromCivil y m t.tm_mday := by
    simp only [daysFromCivil]; omega
  obtain ⟨dn, hdn⟩ : ∃ dn, dn = daysFromCivil y m t.tm_mday := ⟨_, rfl⟩
  have htg : timegm t = dn * 86400 + t.tm_hour * 3600 + t.tm_min * 60 + t.tm_sec := by
    simp only [timegm, ← hy, ← hm, hlin, hdn]
  have hdays : (timegm t) / 86400 = dn := by rw [htg]; omega
  have hrem : (timegm t) % 86400 = t.tm_hour * 3600 + t.tm_min * 60 + t.tm_sec := by
    rw [htg]; omega
  have hciv : civilFromDays dn = (y, m, t.tm_mday) := by
    rw [hdn]; exact civilFromDays_daysFromCivil y m t.tm_mday (by omega) (by omega) hd1 hd2
  simp only [gmtime_r, hdays, hrem, hciv]
  refine ⟨by omega, by omega, trivial, by omega, by omega, by omega⟩

/-- Every day of a 400-year era splits into a year of the era and a day of that
March-based year. -/
theorem exists_yearOfEra (doe : Int) (h0 : 0 ≤ doe) (h1 : doe < 146097) :
    ∃ yoe doy : Int, 0 ≤ yoe ∧ yoe < 400 ∧ 0 ≤ doy ∧ doy ≤ 365 ∧
      (doy = 365 → ((yoe + 1) % 4 = 0 ∧ ((yoe + 1) % 100 ≠ 0 ∨ (yoe + 1) % 400 = 0))) ∧
      doe = yoe * 365 + yoe / 4 - yoe / 100 + doy := by
  obtain ⟨c, hc0, hc1, hc2, hc3⟩ : ∃ c : Int, 0 ≤ c ∧ c ≤ 3 ∧ 36524 * c ≤ doe ∧
      (doe < 36524 * (c + 1) ∨ (c = 3 ∧ doe = 146096)) := by
    by_cases h : doe = 146096
    · exact ⟨3, by omega, by omega, by omega, Or.inr ⟨rfl, h⟩⟩
    · exact ⟨doe / 36524, by omega, by omega, by omega, Or.inl (by omega)⟩
  obtain ⟨r1, hr1⟩ : ∃ r1, r1 = doe - 36524 * c := ⟨_, rfl⟩
  obtain ⟨q, hq⟩ : ∃ q, q = r1 / 1461 := ⟨_, rfl⟩
  obtain ⟨r2, hr2⟩ : ∃ r2, r2 = r1 - 1461 * q := ⟨_, rfl⟩
  obtain ⟨s, hs0, hs1, hs2, hs3⟩ : ∃ s : Int, 0 ≤ s ∧ s ≤ 3 ∧ 365 * s ≤ r2 ∧
      (r2 < 365 * (s + 1) ∨ (s = 3 ∧ r2 = 1460)) := by
    by_cases h : r2 = 1460
    · exact ⟨3, by omega, by omega, by omega, Or.inr ⟨rfl, h⟩⟩
    · exact ⟨r2 / 365, by omega, by omega, by omega, Or.inl (by omega)⟩
  have hq0 : 0 ≤ q := by omega
  have hq1 : q ≤ 24 := by omega
  have h4 : (100 * c + 4 * q + s) / 4 = 25 * c + q := by omega
  have h100 : (100 * c + 4 * q + s) / 100 = c := by omega
  refine ⟨100 * c + 4 * q + s, r2 - 365 * s, by omega, by omega, by omega, by omega, ?_, ?_⟩
  · intro h
    omega
  · rw [h4, h100]
    omega

/-- The result of `civilFromDays` is a date of the calendar, and `daysFromCivil` maps it
back to the day number. -/
theorem civilFromDays_spec (z : Int) :
    1 ≤ (civilFromDays z).2.1 ∧ (civilFromDays z).2.1 ≤ 12 ∧
    1 ≤ (civilFromDays z).2.2 ∧
    (civilFromDays z).2.2 ≤ Spec.lastDayOfMonth (civilFromDays z).1 (civilFromDays z).2.1 ∧
    daysFromCivil (civilFromDays z).1 (civilFromDays z).2.1 (civilFromDays z).2.2 = z := by
  obtain ⟨era, hera⟩ : ∃ era, era = (z + 719468) / 146097 := ⟨_, rfl⟩
  obtain ⟨yoe, doy, hy0, hy1, hd0, hd1, hl, hdoe⟩ :=
    exists_yearOfEra (z + 719468 - era * 146097) (by omega) (by omega)
  have hz : z = era * 146097 + (yoe * 365 + yoe / 4 - yoe / 100 + doy) - 719468 := by omega
  have hc := civilFromDays_parts era yoe doy hy0 hy1 hd0 hd1 hl
  rw [← hz] at hc
  rw [hc]
  obtain ⟨mp, hmp⟩ : ∃ mp, mp = (5 * doy + 2) / 153 := ⟨_, rfl⟩
  rw [← hmp]
  have hmp0 : 0 ≤ mp := by omega
  have hmp1 : mp ≤ 11 := by omega
  have hE : (yoe + era * 400) / 400 = era := by omega
  have hE1 : (yoe + era * 400 + 1 - 1) / 400 = era := by omega
  unfold Spec.lastDayOfMonth Spec.isLeapYear daysFromCivil
  interval_cases mp <;> simp [hE, hE1] <;> omega

/-- The fields produced by `gmtime_r` form a date of the calendar with a time of day in
range, and `timegm` maps them back to the `time_t`. -/
theorem gmtime_r_spec (tv : Int) :
    0 ≤ (gmtime_r tv).tm_mon ∧ (gmtime_r tv).tm_mon ≤ 11 ∧
    1 ≤ (gmtime_r tv).tm_mday ∧
    (gmtime_r tv).tm_mday
      ≤ Spec.lastDayOfMonth ((gmtime_r tv).tm_year + 1900) ((gmtime_r tv).tm_mon + 1) ∧
    0 ≤ (gmtime_r tv).tm_hour ∧ (gmtime_r tv).tm_hour < 24 ∧
    0 ≤ (gmtime_r tv).tm_min ∧ (gmtime_r tv).tm_min < 60 ∧
    0 ≤ (gmtime_r tv).tm_sec ∧ (gmtime_r tv).tm_sec < 60 ∧
    0 ≤ (gmtime_r tv).tm_wday ∧ (gmtime_r tv).tm_wday ≤ 6 ∧
    timegm (gmtime_r tv) = tv := by
  obtain ⟨h1, h2, h3, h4, h5⟩ := civilFromDays_spec (tv / 86400)
  have hlin : ∀ y m d : Int, daysFromCivil y m 1 + (d - 1) = daysFromCivil y m d := by
    intro y m d; simp only [daysFromCivil]; omega
  have hmon : ((civilFromDays (tv / 86400)).2.1 - 1) / 12 = 0 := by omega
  have hmon2 : ((civilFromDays (tv / 86400)).2.1 - 1) % 12 + 1
      = (civilFromDays (tv / 86400)).2.1 := by omega
  have hyr : (civilFromDays (tv / 86400)).1 - 1900 + 1900 + 0
      = (civilFromDays (tv / 86400)).1 := by omega
  simp only [gmtime_r, timegm, hmon, hmon2, hyr, hlin, h5]
  refine ⟨by omega, by omega, h3, ?_, by omega, by omega, by omega, by omega, by omega,
    by omega, by omega, by omega, by omega⟩
  have e1 : (civilFromDays (tv / 86400)).1 - 1900 + 1900 = (civilFromDays (tv / 86400)).1 := by
    omega
  have e2 : (civilFromDays (tv / 86400)).2.1 - 1 + 1 = (civilFromDays (tv / 86400)).2.1 := by
    omega
  rw [e1, e2]
  exact h4

end CLib

/-! ## Calendar successor -/

namespace CLib

/-- The March-based year that starts in year `Y + 1` begins 365 days after the one that
starts in year `Y`, or 366 days when `Y + 1` is a leap year. -/
theorem daysFromCivil_march_succ (Y : Int) :
    daysFromCivil (Y + 1) 3 1
      = daysFromCivil Y 3 1 + (if Spec.isLeapYear (Y + 1) then 366 else 365) := by
  unfold Spec.isLeapYear
  simp only [daysFromCivil]
  simp
  obtain ⟨e, he⟩ : ∃ e, e = Y / 400 := ⟨_, rfl⟩
  obtain ⟨r, hr⟩ : ∃ r, r = Y - e * 400 := ⟨_, rfl⟩
  have hr0 : 0 ≤ r := by omega
  have hr1 : r < 400 := by omega
  by_cases h400 : r = 399
  · have e1 : (Y + 1) / 400 = e + 1 := by omega
    rw [e1, ← he]
    split_ifs <;> omega
  · have e1 : (Y + 1) / 400 = e := by omega
    rw [e1, ← he]
    have a1 : Y + 1 - e * 400 = r + 1 := by omega
    have a0 : Y - e * 400 = r := by omega
    rw [a1, a0]
    split_ifs <;> omega

/-- January and February belong to the March-based year that starts in the previous
calendar year. -/
theorem daysFromCivil_jan_feb (y m d : Int) (hm1 : 1 ≤ m) (hm2 : m ≤ 2) :
    daysFromCivil y m d = daysFromCivil (y - 1) 3 1 + (if m = 1 then 305 else 336) + d := by
  simp only [daysFromCivil]
  have h1 : m ≤ 2 := hm2
  have h2 : ¬ m > 2 := by omega
  rw [if_pos h1, if_neg h2]
  simp
  rcases (by omega : m = 1 ∨ m = 2) with h | h <;> (subst h; simp; omega)

/-- The day after the last day of a month is the first day of the next month. -/
theorem daysFromCivil_month_end (y m : Int) (hm1 : 1 ≤ m) (hm2 : m ≤ 12) :
    daysFromCivil y m (Spec.lastDayOfMonth y m + 1)
      = if m < 12 then daysFromCivil y (m + 1) 1 else daysFromCivil (y + 1) 1 1 := by
  by_cases h2 : m = 2
  · subst h2
    have hs := daysFromCivil_march_succ (y - 1)
    have e : y - 1 + 1 = y := by omega
    rw [e] at hs
    rw [daysFromCivil_jan_feb y 2 _ (by omega) (by omega)]
    simp only [Spec.lastDayOfMonth]
    simp
    rw [hs]
    split_ifs <;> omega
  · unfold Spec.lastDayOfMonth
    simp only [daysFromCivil]
    interval_cases m <;> omega

/-- A calendar year has 365 days, or 366 when it is a leap year. -/
theorem daysFromCivil_year_length (y : Int) :
    daysFromCivil (y + 1) 1 1
      = daysFromCivil y 1 1 + (if Spec.isLeapYear y then 366 else 365) := by
  have hs := daysFromCivil_march_succ (y - 1)
  have e : y - 1 + 1 = y := by omega
  rw [e] at hs
  rw [daysFromCivil_jan_feb (y + 1) 1 1 (by omega) (by omega),
    daysFromCivil_jan_feb y 1 1 (by omega) (by omega)]
  have e2 : y + 1 - 1 = y := by omega
  rw [e2, hs]
  simp
  omega

/-- The value of `timegm` in terms of the day number of the normalised date. -/
theorem timegm_eq (t : Tm) :
    timegm t
      = daysFromCivil (t.tm_year + 1900 + t.tm_mon / 12) (t.tm_mon % 12 + 1) t.tm_mday * 86400
        + t.tm_hour * 3600 + t.tm_min * 60 + t.tm_sec := by
  simp only [timegm, daysFromCivil]
  omega

/-- Adding to the day argument of `daysFromCivil` adds to the day number. -/
theorem daysFromCivil_add_day (y m d k : Int) :
    daysFromCivil y m (d + k) = daysFromCivil y m d + k := by
  simp only [daysFromCivil]
  omega

/-- What `gmtime_r` reads from the `time_t` of a date of the calendar, given by its day
number, and a time of day in range. -/
theorem gmtime_r_civil (y m d h mi s : Int) (hm1 : 1 ≤ m) (hm2 : m ≤ 12)
    (hd1 : 1 ≤ d) (hd2 : d ≤ Spec.lastDayOfMonth y m)
    (hh1 : 0 ≤ h) (hh2 : h < 24) (hmi1 : 0 ≤ mi) (hmi2 : mi < 60)
    (hs1 : 0 ≤ s) (hs2 : s < 60) :
    (gmtime_r (daysFromCivil y m d * 86400 + h * 3600 + mi * 60 + s)).tm_year = y - 1900 ∧
    (gmtime_r (daysFromCivil y m d * 86400 + h * 3600 + mi * 60 + s)).tm_mon = m - 1 ∧
    (gmtime_r (daysFromCivil y m d * 86400 + h * 3600 + mi * 60 + s)).tm_mday = d ∧
    (gmtime_r (daysFromCivil y m d * 86400 + h * 3600 + mi * 60 + s)).tm_hour = h ∧
    (gmtime_r (daysFromCivil y m d * 86400 + h * 3600 + mi * 60 + s)).tm_min = mi ∧
    (gmtime_r (daysFromCivil y m d * 86400 + h * 3600 + mi * 60 + s)).tm_sec = s := by
  obtain ⟨dn, hdn⟩ : ∃ dn, dn = daysFromCivil y m d := ⟨_, rfl⟩
  have hciv : civilFromDays dn = (y, m, d) := by
    rw [hdn]; exact civilFromDays_daysFromCivil y m d hm1 hm2 hd1 hd2
  rw [← hdn]
  have hdays : (dn * 86400 + h * 3600 + mi * 60 + s) / 86400 = dn := by omega
  have hrem : (dn * 86400 + h * 3600 + mi * 60 + s) % 86400 = h * 3600 + mi * 60 + s := by
    omega
  simp only [gmtime_r, hdays, hrem, hciv]
  refine ⟨trivial, trivial, trivial, by omega, by omega, by omega⟩

/-- The weekday `gmtime_r` reports for an instant within day `D`. -/
theorem gmtime_r_wday (D r : Int) (hr1 : 0 ≤ r) (hr2 : r < 86400) :
    (gmtime_r (D * 86400 + r)).tm_wday = (D + 4) % 7 := by
  have hq : (D * 86400 + r) / 86400 = D := by omega
  simp only [gmtime_r, hq]
  congr 1
  omega

end CLib

/-! ## Days since the epoch -/

namespace CLib

/-- The days of a year before each month. -/
theorem daysBeforeMonth_eq (y m : Int) (hm1 : 1 ≤ m) (hm2 : m ≤ 12) :
    Spec.daysBeforeMonth y m
      = (if m ≤ 2 then 0 else if Spec.isLeapYear y then 1 else 0) +
        (if m = 1 then 0 else if m = 2 then 31 else if m = 3 then 59 else if m = 4 then 90
          else if m = 5 then 120 else if m = 6 then 151 else if m = 7 then 181
          else if m = 8 then 212 else if m = 9 then 243 else if m = 10 then 273
          else if m = 11 then 304 else 334) := by
  unfold Spec.daysBeforeMonth
  by_cases hl : Spec.isLeapYear y
  · interval_cases m <;> simp [List.range_succ, Spec.lastDayOfMonth, hl]
  · interval_cases m <;> simp [List.range_succ, Spec.lastDayOfMonth, hl]

/-- The days of 400-year eras and of the years of an era, added up. -/
theorem era_sum (Y : Int) :
    Y / 400 * 146097 + ((Y - Y / 400 * 400) * 365 + (Y - Y / 400 * 400) / 4
      - (Y - Y / 400 * 400) / 100) = 365 * Y + Y / 4 - Y / 100 + Y / 400 := by
  omega

/-- The day count of a date from March on, counted from the years before. -/
theorem daysFromCivil_from_march (y m d : Int) (hm1 : 3 ≤ m) :
    daysFromCivil y m d
      = 365 * y + y / 4 - y / 100 + y / 400 + (153 * (m - 3) + 2) / 5 + d - 1 - 719468 := by
  unfold daysFromCivil
  simp only []
  rw [if_neg (by omega : ¬ m ≤ 2), if_pos (by omega : m > 2)]
  have h := era_sum y
  omega

/-- The day count of a date in January or February, counted from the years before. -/
theorem daysFromCivil_before_march (y m d : Int) (hm2 : m ≤ 2) :
    daysFromCivil y m d
      = 365 * (y - 1) + (y - 1) / 4 - (y - 1) / 100 + (y - 1) / 400 + (153 * (m + 9) + 2) / 5
        + d - 1 - 719468 := by
  unfold daysFromCivil
  simp only []
  rw [if_pos hm2, if_neg (by omega : ¬ m > 2)]
  have h := era_sum (y - 1)
  omega

/-- The day count of the C library calendar is the number of days since 1970-01-01. -/
theorem daysFromCivil_eq_daysSinceEpoch (y m d : Int) (hm1 : 1 ≤ m) (hm2 : m ≤ 12) :
    daysFromCivil y m d = Spec.daysSinceEpoch y m d := by
  have h1970 : Spec.leapYearsBefore 1970 = 477 := by unfold Spec.leapYearsBefore; omega
  unfold Spec.daysSinceEpoch Spec.daysBeforeYear
  rw [daysBeforeMonth_eq y m hm1 hm2, h1970]
  unfold Spec.leapYearsBefore
  by_cases h2 : m ≤ 2
  · rw [daysFromCivil_before_march y m d h2, if_pos h2]
    interval_cases m <;> omega
  · rw [daysFromCivil_from_march y m d (by omega), if_neg h2]
    by_cases hl : Spec.isLeapYear y
    · rw [if_pos hl]
      unfold Spec.isLeapYear at hl
      interval_cases m <;> omega
    · rw [if_neg hl]
      unfold Spec.isLeapYear at hl
      interval_cases m <;> omega

end CLib

/-! ## Validity rules -/

namespace DateTime

theorem isValidDate_iff (y m d : Int) :
    isValidDate y m d = true ↔
      (1900 ≤ y ∧ y ≤ 9999 ∧ 1 ≤ m ∧ m ≤ 12 ∧ 1 ≤ d ∧ d ≤ Spec.lastDayOfMonth y m) := by
  unfold isValidDate
  by_cases hm : m < 1 ∨ m > 12 ∨ d < 1
  · rw [if_pos hm]
    constructor
    · intro h; cases h
    · intro h; omega
  · rw [if_neg hm]
    by_cases hy : y < 1900 ∨ y > 9999
    · rw [if_pos hy]
      constructor
      · intro h; cases h
      · intro h; omega
    · rw [if_neg hy]
      have hm1 : 1 ≤ m := by omega
      have hm2 : m ≤ 12 := by omega
      have hy0 : 0 ≤ y := by omega
      have t4 : Int.tmod y 4 = y % 4 := tmod_of_nonneg y 4 hy0 (by omega)
      have t100 : Int.tmod y 100 = y % 100 := tmod_of_nonneg y 100 hy0 (by omega)
      have t400 : Int.tmod y 400 = y % 400 := tmod_of_nonneg y 400 hy0 (by omega)
      simp only [t4, t100, t400, Spec.lastDayOfMonth, Spec.isLeapYear]
      interval_cases m <;> simp [dt_daysInMonth] <;> omega

theorem isValidTime_iff (h mi s ms : Int) :
    isValidTime h mi s ms = true ↔
      (0 ≤ h ∧ h ≤ 23 ∧ 0 ≤ mi ∧ mi ≤ 59 ∧ 0 ≤ s ∧ s ≤ 59 ∧ 0 ≤ ms ∧ ms ≤ 999) := by
  simp only [isValidTime, Bool.and_eq_true, decide_eq_true_eq]
  omega

/-- Every month of the calendar has at least 28 days. -/
theorem lastDayOfMonth_ge (y m : Int) (hm1 : 1 ≤ m) (hm2 : m ≤ 12) :
    28 ≤ Spec.lastDayOfMonth y m := by
  unfold Spec.lastDayOfMonth
  split_ifs <;> omega

/-- The length of a month other than February does not depend on the year, and February
has 28 or 29 days. -/
theorem lastDayOfMonth_year (y y2 m : Int) :
    (m ≠ 2 → Spec.lastDayOfMonth y2 m = Spec.lastDayOfMonth y m) ∧
    (28 ≤ Spec.lastDayOfMonth y2 2) ∧ Spec.lastDayOfMonth y 2 ≤ 29 ∧
    (Spec.isLeapYear y2 → Spec.lastDayOfMonth y2 2 = 29) := by
  unfold Spec.lastDayOfMonth
  refine ⟨?_, ?_, ?_, ?_⟩
  · intro h
    split_ifs <;> rfl
  · split_ifs <;> omega
  · split_ifs <;> omega
  · intro h
    simp [h]

/-- No month has more than 31 days. -/
theorem lastDayOfMonth_le (y m : Int) : Spec.lastDayOfMonth y m ≤ 31 := by
  unfold Spec.lastDayOfMonth
  split_ifs <;> omega

/-- The last day of February is followed by the first of March. -/
theorem daysFromCivil_leap_day_rolls (y : Int) (h : ¬ Spec.isLeapYear y) :
    CLib.daysFromCivil y 2 29 = CLib.daysFromCivil y 3 1 := by
  have h1 := CLib.daysFromCivil_month_end y 2 (by omega) (by omega)
  have h2 : Spec.lastDayOfMonth y 2 = 28 := by
    unfold Spec.lastDayOfMonth
    simp [h]
  rw [h2] at h1
  simpa using h1

/-- The year and month that `plusMonths` hands to `timegm` normalise to the floor
quotient and remainder of the month index, and the day limit it computes is the length of
the normalised month. -/
theorem plusMonths_target (y0 N Y M : Int)
    (h : (Y, M) =
      if N ≥ 12 then (y0 + Int.tdiv N 12, Int.tmod N 12)
      else if N < 0 then (y0 + (Int.tdiv N 12 - 1), 12 + Int.tmod N 12)
      else (y0, N)) :
    Y + M / 12 = y0 + N / 12 ∧ M % 12 = N % 12 ∧
    (if M = 1 then
        if (Int.tmod (Y + 1900) 4 = 0 ∧ Int.tmod (Y + 1900) 100 ≠ 0)
            ∨ Int.tmod (Y + 1900) 400 = 0 then 29
        else 28
      else if M = 3 ∨ M = 5 ∨ M = 8 ∨ M = 10 then 30
      else 31) = Spec.lastDayOfMonth (y0 + 1900 + N / 12) (N % 12 + 1) := by
  have hym : (Y + M / 12 = y0 + N / 12 ∧ M % 12 = N % 12) ∧
      (0 ≤ M ∧ M ≤ 12) ∧ (M = 1 → Y = y0 + N / 12) := by
    by_cases h1 : N ≥ 12
    · have e1 : Int.tdiv N 12 = N / 12 := tdiv_of_nonneg N 12 (by omega) (by omega)
      have e2 : Int.tmod N 12 = N % 12 := tmod_of_nonneg N 12 (by omega) (by omega)
      rw [if_pos h1, e1, e2, Prod.mk.injEq] at h
      omega
    · by_cases h2 : N < 0
      · have e1 : Int.tdiv N 12 = -((-N) / 12) := tdiv_of_nonpos N 12 (by omega) (by omega)
        have e2 : Int.tmod N 12 = -((-N) % 12) := tmod_of_nonpos N 12 (by omega) (by omega)
        rw [if_neg h1, if_pos h2, e1, e2, Prod.mk.injEq] at h
        omega
      · rw [if_neg h1, if_neg h2, Prod.mk.injEq] at h
        omega
  clear h
  obtain ⟨⟨hy, hm⟩, ⟨hb0, hb1⟩, hfeb⟩ := hym
  refine ⟨hy, hm, ?_⟩
  have z4 := tmod_eq_zero_iff (Y + 1900) 4 (by omega)
  have z100 := tmod_eq_zero_iff (Y + 1900) 100 (by omega)
  have z400 := tmod_eq_zero_iff (Y + 1900) 400 (by omega)
  simp only [ne_eq, z4, z100, z400]
  clear z4 z100 z400
  unfold Spec.lastDayOfMonth Spec.isLeapYear
  rw [← hm]
  interval_cases M
  · simp
  · have hY := hfeb rfl
    have e : y0 + 1900 + N / 12 = Y + 1900 := by omega
    rw [e]
    simp
    split_ifs <;> omega
  all_goals simp

end DateTime

/-! ## Strings -/

namespace CLib

/-- `find` reports a position exactly when the pattern occurs in the string. -/
theorem find_eq_none_iff (s pat : List Char) : find s pat = none ↔ ¬ pat <:+: s := by
  induction s with
  | nil =>
    by_cases hp : pat = []
    · simp [find, hp]
    · simp [find, hp]
  | cons c s ih =>
    unfold find
    by_cases hpre : pat.isPrefixOf (c :: s) = true
    · rw [if_pos hpre]
      have h1 : pat <+: c :: s := List.isPrefixOf_iff_prefix.mp hpre
      simp [h1.isInfix]
    · rw [if_neg hpre]
      have h1 : ¬ pat <+: c :: s := fun h => hpre (List.isPrefixOf_iff_prefix.mpr h)
      rw [Option.map_eq_none', ih, List.infix_cons_iff]
      tauto

end CLib

/-! ## Decimal digits -/

namespace CLib

theorem decimalAux_eq (n : Nat) : ∀ (fuel : Nat) (acc : List Char), n < fuel →
    decimalAux fuel n acc
      = if n < 10 then digitChar n :: acc
        else decimalAux (n / 10 + 1) (n / 10) (digitChar (n % 10) :: acc) := by
  induction n using Nat.strong_induction_on with
  | _ n ih =>
    intro fuel acc hlt
    cases fuel with
    | zero => omega
    | succ fuel =>
      have hL : decimalAux (fuel + 1) n acc
          = if n < 10 then digitChar n :: acc
            else decimalAux fuel (n / 10) (digitChar (n % 10) :: acc) := rfl
      rw [hL]
      by_cases h10 : n < 10
      · simp [h10]
      · simp only [h10, if_false]
        have hq : n / 10 < n := by omega
        rw [ih (n / 10) hq fuel _ (by omega)]
        exact (ih (n / 10) hq (n / 10 + 1) _ (by omega)).symm

theorem decimalAux_append (n : Nat) : ∀ (acc : List Char),
    decimalAux (n + 1) n acc = decimal n ++ acc := by
  induction n using Nat.strong_induction_on with
  | _ n ih =>
    intro acc
    unfold decimal
    rw [decimalAux_eq n (n + 1) acc (by omega), decimalAux_eq n (n + 1) [] (by omega)]
    by_cases h10 : n < 10
    · simp [h10]
    · simp only [h10, if_false]
      have hq : n / 10 < n := by omega
      rw [ih (n / 10) hq, ih (n / 10) hq]
      simp

/-- The decimal representation, digit by digit. -/
theorem decimal_eq (n : Nat) :
    decimal n = if n < 10 then [digitChar n] else decimal (n / 10) ++ [digitChar (n % 10)] := by
  by_cases h10 : n < 10
  · simp only [h10, if_true]
    unfold decimal
    rw [decimalAux_eq n (n + 1) [] (by omega)]
    simp [h10]
  · simp only [h10, if_false]
    have h := decimalAux_eq n (n + 1) [] (by omega)
    simp only [h10, if_false] at h
    unfold decimal
    rw [h]
    exact decimalAux_append (n / 10) _

theorem decimal_two_digits (n : Nat) (h1 : 10 ≤ n) (h2 : n < 100) :
    decimal n = [digitChar (n / 10), digitChar (n % 10)] := by
  rw [decimal_eq n, if_neg (by omega), decimal_eq (n / 10), if_pos (by omega)]
  rfl

theorem decimal_four_digits (n : Nat) (h1 : 1000 ≤ n) (h2 : n < 10000) :
    decimal n = [digitChar (n / 1000), digitChar (n / 100 % 10), digitChar (n / 10 % 10),
      digitChar (n % 10)] := by
  rw [decimal_eq n, if_neg (by omega), decimal_eq (n / 10), if_neg (by omega),
    decimal_eq (n / 10 / 10), if_neg (by omega), decimal_eq (n / 10 / 10 / 10),
    if_pos (by omega)]
  have e1 : n / 10 / 10 / 10 = n / 1000 := by omega
  have e2 : n / 10 / 10 % 10 = n / 100 % 10 := by omega
  rw [e1, e2]
  rfl

/-- Two-digit rendering of a field between 0 and 99. -/
theorem zeroPadded_two (n : Int) (h1 : 0 ≤ n) (h2 : n ≤ 99) :
    zeroPadded 2 n = Spec.digits2 n := by
  lift n to Nat using h1
  have hn : n ≤ 99 := by omega
  simp only [zeroPadded, Spec.digits2, Int.toNat_ofNat]
  rw [if_neg (by omega)]
  have e1 : ((n : Int) / 10).toNat = n / 10 := by omega
  have e2 : ((n : Int) % 10).toNat = n % 10 := by omega
  rw [e1, e2]
  by_cases h10 : n < 10
  · rw [decimal_eq n, if_pos h10]
    have e3 : n / 10 = 0 := by omega
    have e4 : n % 10 = n := by omega
    rw [e3, e4]
    rfl
  · rw [decimal_two_digits n (by omega) (by omega)]
    rfl

/-- Rendering of a year between 1000 and 9999. -/
theorem zeroPadded_year (w : Nat) (n : Int) (hw : w ≤ 4) (h1 : 1000 ≤ n) (h2 : n ≤ 9999) :
    zeroPadded w n = Spec.digits4 n := by
  lift n to Nat using (by omega)
  simp only [zeroPadded, Spec.digits4, Int.toNat_ofNat]
  rw [if_neg (by omega)]
  have e1 : ((n : Int) / 1000).toNat = n / 1000 := by omega
  have e2 : ((n : Int) / 100 % 10).toNat = n / 100 % 10 := by omega
  have e3 : ((n : Int) / 10 % 10).toNat = n / 10 % 10 := by omega
  have e4 : ((n : Int) % 10).toNat = n % 10 := by omega
  rw [e1, e2, e3, e4, decimal_four_digits n (by omega) (by omega)]
  have e5 : w - 4 = 0 := by omega
  simp [e5]

end CLib

/-! ## Formatting with the default pattern -/

namespace CLib

/-- The default pattern rendered by `put_time`. -/
theorem put_time_defaultFormat (lib : TimeLibrary) (t : Tm) :
    put_time lib t (c_str DateTime.defaultFormat)
      = zeroPadded 1 (t.tm_year + 1900) ++ "-".toList ++ zeroPadded 2 (t.tm_mon + 1) ++
        "-".toList ++ zeroPadded 2 t.tm_mday ++ " ".toList ++ zeroPadded 2 t.tm_hour ++
        ":".toList ++ zeroPadded 2 t.tm_min ++ ":".toList ++ zeroPadded 2 t.tm_sec := by
  have hc : c_str DateTime.defaultFormat = DateTime.defaultFormat := by decide
  rw [hc]
  simp [DateTime.defaultFormat, put_time, do_put, numericConversion]

end CLib

/-! ## Reading decimal digits -/

namespace CLib

theorem digitChar_facts : ∀ k : Fin 10,
    ('0' ≤ digitChar k.val ∧ digitChar k.val ≤ '9') ∧ (digitChar k.val).toNat - 48 = k.val ∧
    isSpace (digitChar k.val) = false := by
  decide

theorem extractNumLoop_digit (len k : Nat) (hk : k < 10) (s : List Char) (value : Int)
    (i : Nat) (max : Int) (h : value * 10 + k ≤ max) :
    extractNumLoop (len + 1) (digitChar k :: s) value i max
      = extractNumLoop len s (value * 10 + k) (i + 1) max := by
  obtain ⟨h1, h2, _⟩ := digitChar_facts ⟨k, hk⟩
  simp only at h1 h2
  simp only [extractNumLoop, h1, h2, and_self, if_true]
  rw [if_neg (by omega)]

theorem isSpace_digitChar (k : Nat) (hk : k < 10) : isSpace (digitChar k) = false :=
  (digitChar_facts ⟨k, hk⟩).2.2

/-- Two digits are read back as the number they write. -/
theorem extractNum_two (a b : Nat) (ha : a < 10) (hb : b < 10) (min max : Int)
    (rest : List Char) (h1 : min ≤ (a : Int) * 10 + b) (h2 : (a : Int) * 10 + b ≤ max) :
    extractNum (digitChar a :: digitChar b :: rest) min max 2
      = some ((a : Int) * 10 + b, rest) := by
  have hl : extractNumLoop 2 (digitChar a :: digitChar b :: rest) 0 0 max
      = ((a : Int) * 10 + b, 2, rest) := by
    rw [extractNumLoop_digit 1 a ha _ 0 0 max (by omega),
      extractNumLoop_digit 0 b hb _ _ _ max (by omega)]
    simp only [extractNumLoop]
    congr 1
    omega
  simp only [extractNum, hl]
  rw [if_pos ⟨by decide, h1, h2⟩]

/-- Four digits are read back as the number they write. -/
theorem extractNum_four (a b c d : Nat) (ha : a < 10) (hb : b < 10) (hc : c < 10)
    (hd : d < 10) (min max : Int) (rest : List Char)
    (h1 : min ≤ (((a : Int) * 10 + b) * 10 + c) * 10 + d)
    (h2 : (((a : Int) * 10 + b) * 10 + c) * 10 + d ≤ max) :
    extractNum (digitChar a :: digitChar b :: digitChar c :: digitChar d :: rest) min max 4
      = some ((((a : Int) * 10 + b) * 10 + c) * 10 + d, rest) := by
  have hl : extractNumLoop 4 (digitChar a :: digitChar b :: digitChar c :: digitChar d :: rest)
      0 0 max = ((((a : Int) * 10 + b) * 10 + c) * 10 + d, 4, rest) := by
    rw [extractNumLoop_digit 3 a ha _ 0 0 max (by omega),
      extractNumLoop_digit 2 b hb _ _ _ max (by omega),
      extractNumLoop_digit 1 c hc _ _ _ max (by omega),
      extractNumLoop_digit 0 d hd _ _ _ max (by omega)]
    simp only [extractNumLoop]
    congr 1
    omega
  simp only [extractNum, hl]
  rw [if_pos ⟨by decide, h1, h2⟩]

/-- The two digits of a number between 0 and 99. -/
theorem digits2_eq (n : Int) (h0 : 0 ≤ n) (h1 : n ≤ 99) :
    ∃ a b : Nat, a < 10 ∧ b < 10 ∧ n = (a : Int) * 10 + b ∧
      Spec.digits2 n = [digitChar a, digitChar b] :=
  ⟨(n / 10).toNat, (n % 10).toNat, by omega, by omega, by omega, rfl⟩

/-- The four digits of a number between 0 and 9999. -/
theorem digits4_eq (n : Int) (h0 : 0 ≤ n) (h1 : n ≤ 9999) :
    ∃ a b c d : Nat, a < 10 ∧ b < 10 ∧ c < 10 ∧ d < 10 ∧
      n = (((a : Int) * 10 + b) * 10 + c) * 10 + d ∧
      Spec.digits4 n = [digitChar a, digitChar b, digitChar c, digitChar d] :=
  ⟨(n / 1000).toNat, (n / 100 % 10).toNat, (n / 10 % 10).toNat, (n % 10).toNat,
    by omega, by omega, by omega, by omega, by omega, rfl⟩

end CLib

/-! ## Patterns of numeric conversions and ordinary characters -/

namespace CLib

/-- The function `put_time` at an ordinary character. -/
theorem put_time_cons_ne (lib : TimeLibrary) (t : Tm) (c : Char) (hc : c ≠ '%')
    (rest : List Char) : put_time lib t (c :: rest) = c :: put_time lib t rest := by
  rw [put_time.eq_def]
  simp only [hc, ne_eq, not_false_eq_true, if_true]

/-- The function `put_time` at a conversion without modifier. -/
theorem put_time_cons_conv (lib : TimeLibrary) (t : Tm) (f : Char) (hf : f ≠ 'E' ∧ f ≠ 'O')
    (rest2 : List Char) :
    put_time lib t ('%' :: f :: rest2) = do_put lib t f (Char.ofNat 0) ++ put_time lib t rest2 := by
  rw [put_time.eq_def]
  simp only [ne_eq, not_true_eq_false, if_false, hf, not_false_eq_true, and_self, if_true]

/-- The function `strftimeText` at an ordinary character. -/
theorem strftimeText_cons_ne (lib : TimeLibrary) (t : Tm) (c : Char) (hc : c ≠ '%')
    (rest : List Char) : strftimeText lib t (c :: rest) = c :: strftimeText lib t rest := by
  rw [strftimeText.eq_def]
  simp only [hc, ne_eq, not_false_eq_true, if_true]

/-- The function `strftimeText` at one of the six numeric conversions. -/
theorem strftimeText_cons_conv (lib : TimeLibrary) (t : Tm) (f : Char) (ds : List Char)
    (hf : numericConversion t f = some ds) (rest2 : List Char) :
    strftimeText lib t ('%' :: f :: rest2) = ds ++ strftimeText lib t rest2 := by
  rw [strftimeText.eq_def]
  simp only [ne_eq, not_true_eq_false, if_false, hf]

/-- The function `Spec.tokenPattern` at an ordinary character. -/
theorem tokenPattern_cons_ne (c : Char) (hc : c ≠ '%') (rest : List Char) :
    Spec.tokenPattern (c :: rest) = Spec.tokenPattern rest := by
  rw [Spec.tokenPattern.eq_def]
  simp only [hc, ne_eq, not_false_eq_true, if_true]

/-- The function `Spec.tokenPattern` at a `%`. -/
theorem tokenPattern_cons_conv (f : Char) (rest2 : List Char) :
    Spec.tokenPattern ('%' :: f :: rest2)
      = (decide (f = 'Y' ∨ f = 'm' ∨ f = 'd' ∨ f = 'H' ∨ f = 'M' ∨ f = 'S') &&
          Spec.tokenPattern rest2) := by
  rw [Spec.tokenPattern.eq_def]
  simp only [ne_eq, not_true_eq_false, if_false]

/-- The C string of a string that starts with a character other than NUL. -/
theorem c_str_cons_ne (c : Char) (hc : c ≠ Char.ofNat 0) (rest : List Char) :
    c_str (c :: rest) = c :: c_str rest := by
  unfold c_str
  rw [List.takeWhile_cons]
  simp only [hc, ne_eq, not_false_eq_true, decide_True, if_true]

/-- A format without `%` is written out unchanged by `put_time`. -/
theorem put_time_literal (lib : TimeLibrary) (t : Tm) :
    ∀ p : List Char, '%' ∉ p → put_time lib t p = p
  | [], _ => rfl
  | c :: rest, h => by
    have hc : c ≠ '%' := fun e => h (by simp [e])
    have hr : '%' ∉ rest := fun e => h (by simp [e])
    rw [put_time_cons_ne lib t c hc, put_time_literal lib t rest hr]

/-- A string without NUL character is its own C string. -/
theorem c_str_eq_self : ∀ p : List Char, Char.ofNat 0 ∉ p → c_str p = p
  | [], _ => rfl
  | c :: rest, h => by
    have hc : c ≠ Char.ofNat 0 := fun e => h (by simp [e])
    have hr : Char.ofNat 0 ∉ rest := fun e => h (by simp [e])
    rw [c_str_cons_ne c hc, c_str_eq_self rest hr]

/-- A string without `%` has no occurrence of the one-character string "%". -/
theorem find_percent_none : ∀ p : List Char, '%' ∉ p → find p "%".toList = none
  | [], _ => by decide
  | c :: rest, h => by
    have hc : c ≠ '%' := fun e => h (by simp [e])
    have hr : '%' ∉ rest := fun e => h (by simp [e])
    have hc2 : ¬ ('%' = c) := fun e => hc e.symm
    have ih := find_percent_none rest hr
    simp only [String.toList] at ih
    simp [find, ih, hc2]

/-- On a pattern made of the six numeric conversions and ordinary characters, `strftime`
and `put_time` produce the same characters. -/
theorem strftimeText_eq_put_time (lib : TimeLibrary) (t : Tm) :
    ∀ p : List Char, Spec.tokenPattern p = true → strftimeText lib t p = put_time lib t p
  | [], _ => rfl
  | [c], h => by
    by_cases hc : c = '%'
    · subst hc; simp [Spec.tokenPattern] at h
    · rw [strftimeText_cons_ne lib t c hc, put_time_cons_ne lib t c hc]; rfl
  | c :: f :: rest2, h => by
    by_cases hc : c = '%'
    · subst hc
      rw [tokenPattern_cons_conv] at h
      simp only [Bool.and_eq_true, decide_eq_true_eq] at h
      obtain ⟨hf, h2⟩ := h
      have ih := strftimeText_eq_put_time lib t rest2 h2
      rcases hf with rfl | rfl | rfl | rfl | rfl | rfl
      · rw [strftimeText_cons_conv lib t 'Y' _ rfl, put_time_cons_conv lib t 'Y' (by decide), ih]
        rfl
      · rw [strftimeText_cons_conv lib t 'm' _ rfl, put_time_cons_conv lib t 'm' (by decide), ih]
        rfl
      · rw [strftimeText_cons_conv lib t 'd' _ rfl, put_time_cons_conv lib t 'd' (by decide), ih]
        rfl
      · rw [strftimeText_cons_conv lib t 'H' _ rfl, put_time_cons_conv lib t 'H' (by decide), ih]
        rfl
      · rw [strftimeText_cons_conv lib t 'M' _ rfl, put_time_cons_conv lib t 'M' (by decide), ih]
        rfl
      · rw [strftimeText_cons_conv lib t 'S' _ rfl, put_time_cons_conv lib t 'S' (by decide), ih]
        rfl
    · rw [tokenPattern_cons_ne c hc] at h
      rw [strftimeText_cons_ne lib t c hc, put_time_cons_ne lib t c hc,
        strftimeText_eq_put_time lib t (f :: rest2) h]

/-- The C string of a pattern made of the six numeric conversions and ordinary characters
is such a pattern. -/
theorem tokenPattern_c_str :
    ∀ p : List Char, Spec.tokenPattern p = true → Spec.tokenPattern (c_str p) = true
  | [], _ => rfl
  | [c], h => by
    by_cases hc : c = '%'
    · subst hc; simp [Spec.tokenPattern] at h
    · by_cases h0 : c = Char.ofNat 0
      · subst h0; rfl
      · rw [c_str_cons_ne c h0, tokenPattern_cons_ne c hc]; rfl
  | c :: f :: rest2, h => by
    by_cases hc : c = '%'
    · subst hc
      rw [tokenPattern_cons_conv] at h
      simp only [Bool.and_eq_true, decide_eq_true_eq] at h
      obtain ⟨hf, h2⟩ := h
      have ih := tokenPattern_c_str rest2 h2
      have hf0 : f ≠ Char.ofNat 0 := by
        rcases hf with rfl | rfl | rfl | rfl | rfl | rfl <;> decide
      rw [c_str_cons_ne '%' (by decide), c_str_cons_ne f hf0, tokenPattern_cons_conv, ih]
      simp only [Bool.and_true, decide_eq_true_eq]
      exact hf
    · rw [tokenPattern_cons_ne c hc] at h
      have ih := tokenPattern_c_str (f :: rest2) h
      by_cases h0 : c = Char.ofNat 0
      · subst h0; rfl
      · rw [c_str_cons_ne c h0, tokenPattern_cons_ne c hc]
        exact ih

/-- The characters between the opening "{:" and the closing "}". -/
theorem substr_braced (p : List Char) :
    substr ("\x7b:".toList ++ p ++ "\x7d".toList) 2
        (("\x7b:".toList ++ p ++ "\x7d".toList).length - 3)
      = p := by
  simp [substr, String.toList]

/-- A non-empty pattern between "{:" and "}" has the form `formatString` looks for. -/
theorem braced_form (p : List Char) (hp : p ≠ []) :
    ("\x7b:".toList ++ p ++ "\x7d".toList).length ≥ 4 ∧
    ("\x7b:".toList ++ p ++ "\x7d".toList).head? = some '{' ∧
    (("\x7b:".toList ++ p ++ "\x7d".toList).drop 1).head? = some ':' ∧
    ("\x7b:".toList ++ p ++ "\x7d".toList).getLast? = some '}' := by
  have hl : 1 ≤ p.length := by
    cases p with
    | nil => exact absurd rfl hp
    | cons c cs => simp
  refine ⟨?_, ?_, ?_, ?_⟩
  · simp [String.toList]; omega
  · simp [String.toList]
  · simp [String.toList]
  · have e : "\x7b:".toList ++ p ++ "\x7d".toList = ('{' :: ':' :: p) ++ ['}'] := rfl
    rw [e, List.getLast?_concat]

/-- A string of the form `formatString` looks for lies between "{:" and "}". -/
theorem braced_of_form (p : List Char)
    (h : p.length ≥ 4 ∧ p.head? = some '{' ∧ (p.drop 1).head? = some ':' ∧
      p.getLast? = some '}') :
    ∃ q : List Char, p = "\x7b:".toList ++ q ++ "\x7d".toList := by
  obtain ⟨hl, h1, h2, h3⟩ := h
  match p, hl, h1, h2, h3 with
  | a :: b :: rest, hl, h1, h2, h3 =>
    simp only [List.head?_cons, Option.some.injEq, List.drop_succ_cons, List.drop_zero] at h1 h2
    subst h1; subst h2
    have hr : rest ≠ [] := by
      intro e; subst e; simp at hl
    have h4 : rest.getLast? = some '}' := by
      rw [List.getLast?_cons_cons] at h3
      cases rest with
      | nil => exact absurd rfl hr
      | cons c cs => rw [List.getLast?_cons_cons] at h3; exact h3
    refine ⟨rest.dropLast, ?_⟩
    have h5 := List.dropLast_append_getLast? '}' (by rw [h4]; rfl : '}' ∈ rest.getLast?)
    simp only [String.toList, List.cons_append, List.nil_append, List.append_assoc]
    rw [h5]

end CLib

/-! ## Instants of constructed and shifted values -/

namespace Chrono

/-- A whole number of seconds that the clock holds is stored as it is. -/
theorem from_time_t_eq (t : Int) (h : Spec.fitsClock (t * 1000000000)) :
    from_time_t t = t * 1000000000 := by
  unfold from_time_t ticksPerSecond
  exact Machine.wrapLong_eq _ h.1 h.2

theorem to_time_t_seconds (t : Int) : to_time_t (t * 1000000000) = t := by
  unfold to_time_t ticksPerSecond
  exact Int.mul_tdiv_cancel t (by decide)

/-- The sum of a `time_t` and a number of milliseconds, when the clock holds it. -/
theorem plus_from_time_t_milliseconds (t ms : Int)
    (h : Spec.fitsClock (t * 1000000000 + ms * 1000000)) :
    plus (from_time_t t) (milliseconds ms) = t * 1000000000 + ms * 1000000 := by
  unfold plus from_time_t milliseconds ticksPerSecond ticksPerMillisecond
  rw [Machine.wrapLong_add]
  exact Machine.wrapLong_eq _ h.1 h.2

/-- The seconds of a tick count at or after the epoch that has a millisecond part. -/
theorem to_time_t_with_milliseconds (t ms : Int) (ht : 0 ≤ t) (h1 : 0 ≤ ms) (h2 : ms ≤ 999) :
    to_time_t (t * 1000000000 + ms * 1000000) = t := by
  unfold to_time_t ticksPerSecond
  rw [tdiv_of_nonneg _ _ (by omega) (by omega)]
  omega

end Chrono

namespace DateTime

/-- The offset of a region in seconds, as the code computes it in `int`, is the total
offset reduced to the range of `int`. -/
theorem regionOffsetValue_eq_wrapInt (r : RegionTime) :
    regionOffsetValue r = Machine.wrapInt (Spec.totalOffset r) := by
  unfold regionOffsetValue Spec.totalOffset
  rw [Machine.wrapInt_add]
  congr 1
  omega

/-- The offset of a region whose total offset and its negative are values of `int`, and
the negated offset the code adds to a `time_t`. -/
theorem regionOffsetValue_of_inRange (r : RegionTime) (h : Spec.offsetInRange r) :
    regionOffsetValue r = Spec.totalOffset r ∧
    Machine.wrapInt (-1 * regionOffsetValue r) = -Spec.totalOffset r := by
  unfold Spec.offsetInRange at h
  have e : regionOffsetValue r = Spec.totalOffset r := by
    rw [regionOffsetValue_eq_wrapInt]
    exact Machine.wrapInt_eq _ (by omega) (by omega)
  refine ⟨e, ?_⟩
  rw [e, Machine.wrapInt_eq _ (by omega) (by omega)]
  omega

/-- The decomposition of a whole-second instant. -/
theorem getRegionAdjustedTime_seconds (tv : Int) (r : RegionTime) :
    getRegionAdjustedTime { dt_clockPoint := tv * 1000000000, dt_timeRegion := r }
      = CLib.gmtime_r (tv + regionOffsetValue r) := by
  simp only [getRegionAdjustedTime, getThreadSafeTime, Chrono.to_time_t_seconds]

/-- Reading the fields of a whole-second instant that was recomposed in the same region,
the offset of the region being in range, yields the `gmtime_r` breakdown of the recomposed
`time_t`. -/
theorem getRegionAdjustedTime_recomposed (tv : Int) (r : RegionTime)
    (hr : Spec.offsetInRange r) :
    getRegionAdjustedTime
      { dt_clockPoint := (tv - Spec.totalOffset r) * 1000000000
        dt_timeRegion := r } = CLib.gmtime_r tv := by
  rw [getRegionAdjustedTime_seconds, (regionOffsetValue_of_inRange r hr).1]
  congr 1
  omega

/-- Every decomposition is the `gmtime_r` breakdown of some `time_t`. -/
theorem getRegionAdjustedTime_eq_gmtime_r (x : DateTime) :
    ∃ tv : Int, x.getRegionAdjustedTime = CLib.gmtime_r tv :=
  ⟨_, rfl⟩

/-- The region-local fields of every value are a calendar date and a time of day. -/
theorem getRegionAdjustedTime_valid (x : DateTime) :
    0 ≤ x.getRegionAdjustedTime.tm_mon ∧ x.getRegionAdjustedTime.tm_mon ≤ 11 ∧
    1 ≤ x.getRegionAdjustedTime.tm_mday ∧
    x.getRegionAdjustedTime.tm_mday
      ≤ Spec.lastDayOfMonth (x.getRegionAdjustedTime.tm_year + 1900)
          (x.getRegionAdjustedTime.tm_mon + 1) ∧
    0 ≤ x.getRegionAdjustedTime.tm_hour ∧ x.getRegionAdjustedTime.tm_hour < 24 ∧
    0 ≤ x.getRegionAdjustedTime.tm_min ∧ x.getRegionAdjustedTime.tm_min < 60 ∧
    0 ≤ x.getRegionAdjustedTime.tm_sec ∧ x.getRegionAdjustedTime.tm_sec < 60 := by
  obtain ⟨tv, htv⟩ := getRegionAdjustedTime_eq_gmtime_r x
  have hv := CLib.gmtime_r_spec tv
  rw [← htv] at hv
  obtain ⟨hm1, hm2, hd1, hd2, hh1, hh2, hmi1, hmi2, hs1, hs2, _, _, _⟩ := hv
  exact ⟨hm1, hm2, hd1, hd2, hh1, hh2, hmi1, hmi2, hs1, hs2⟩

/-- The seconds from the epoch of a date of the calendar, as `timegm` computes them. -/
theorem secondsSinceEpoch_eq (y m d h mi s : Int) (hm1 : 1 ≤ m) (hm2 : m ≤ 12) :
    CLib.daysFromCivil y m d * 86400 + h * 3600 + mi * 60 + s
      = Spec.secondsSinceEpoch y m d h mi s := by
  unfold Spec.secondsSinceEpoch
  rw [CLib.daysFromCivil_eq_daysSinceEpoch y m d hm1 hm2]

/-- The value the field constructor builds when its `int` arithmetic does not overflow and
the clock holds the instant. -/
theorem fromFields_exact (y m d h mi s ms : Int) (R : RegionTime)
    (hy : Spec.fitsInt (y - 1900)) (hm : Spec.fitsInt (m - 1)) (hR : Spec.offsetInRange R)
    (hfit : Spec.fitsClock
      ((CLib.daysFromCivil (y + (m - 1) / 12) ((m - 1) % 12 + 1) d * 86400
          + h * 3600 + mi * 60 + s - Spec.totalOffset R) * 1000000000 + ms * 1000000)) :
    fromFields y m d h mi s ms R =
      { dt_clockPoint :=
          (CLib.daysFromCivil (y + (m - 1) / 12) ((m - 1) % 12 + 1) d * 86400
            + h * 3600 + mi * 60 + s - Spec.totalOffset R) * 1000000000 + ms * 1000000
        dt_timeRegion := R } := by
  obtain ⟨_, hneg⟩ := regionOffsetValue_of_inRange R hR
  have e1 := Machine.wrapInt_eq _ hy.1 hy.2
  have e2 := Machine.wrapInt_eq _ hm.1 hm.2
  have e3 : y - 1900 + 1900 + (m - 1) / 12 = y + (m - 1) / 12 := by omega
  have e4 : ∀ T : Int, T + -Spec.totalOffset R = T - Spec.totalOffset R := by
    intro T; omega
  simp only [fromFields, e1, e2, hneg, CLib.timegm_eq, Tm.zero, e3, e4]
  rw [Chrono.plus_from_time_t_milliseconds _ _ hfit]

/-- The value the field constructor builds from a date of the calendar, when the clock
holds the instant. -/
theorem fromFields_valid (y m d h mi s ms : Int) (R : RegionTime)
    (hy1 : 1900 ≤ y) (hy2 : y ≤ 9999) (hm1 : 1 ≤ m) (hm2 : m ≤ 12)
    (hR : Spec.offsetInRange R)
    (hfit : Spec.fitsClock (Spec.instantTicks y m d h mi s ms R)) :
    fromFields y m d h mi s ms R =
      { dt_clockPoint := Spec.instantTicks y m d h mi s ms R, dt_timeRegion := R } := by
  have e1 : (m - 1) / 12 = 0 := by omega
  have e2 : (m - 1) % 12 + 1 = m := by omega
  have key := fromFields_exact y m d h mi s ms R (by unfold Spec.fitsInt; omega)
    (by unfold Spec.fitsInt; omega) hR
    (by rw [e1, e2, Int.add_zero, secondsSinceEpoch_eq y m d h mi s hm1 hm2]; exact hfit)
  rw [key, e1, e2, Int.add_zero, secondsSinceEpoch_eq y m d h mi s hm1 hm2]
  rfl

/-- The region-local fields of the whole-second instant that a date of the calendar and a
time of day denote in a region, as a broken-down time. -/
theorem getRegionAdjustedTime_of_civil (y m d h mi s : Int) (R : RegionTime)
    (hR : Spec.offsetInRange R)
    (hm1 : 1 ≤ m) (hm2 : m ≤ 12) (hd1 : 1 ≤ d) (hd2 : d ≤ Spec.lastDayOfMonth y m)
    (hh1 : 0 ≤ h) (hh2 : h < 24) (hmi1 : 0 ≤ mi) (hmi2 : mi < 60)
    (hs1 : 0 ≤ s) (hs2 : s < 60) (x : DateTime)
    (hx : x = { dt_clockPoint := Spec.instantTicks y m d h mi s 0 R, dt_timeRegion := R }) :
    x.getRegionAdjustedTime.tm_year = y - 1900 ∧
    x.getRegionAdjustedTime.tm_mon = m - 1 ∧
    x.getRegionAdjustedTime.tm_mday = d ∧
    x.getRegionAdjustedTime.tm_hour = h ∧
    x.getRegionAdjustedTime.tm_min = mi ∧
    x.getRegionAdjustedTime.tm_sec = s ∧
    x.getRegionAdjustedTime.tm_wday = Spec.weekday y m d := by
  subst hx
  have e : Spec.instantTicks y m d h mi s 0 R
      = (Spec.secondsSinceEpoch y m d h mi s - Spec.totalOffset R) * 1000000000 := by
    unfold Spec.instantTicks
    omega
  rw [e, getRegionAdjustedTime_recomposed _ R hR, ← secondsSinceEpoch_eq y m d h mi s hm1 hm2]
  obtain ⟨k1, k2, k3, k4, k5, k6⟩ :=
    CLib.gmtime_r_civil y m d h mi s hm1 hm2 hd1 hd2 hh1 hh2 hmi1 hmi2 hs1 hs2
  refine ⟨k1, k2, k3, k4, k5, k6, ?_⟩
  have e2 : CLib.daysFromCivil y m d * 86400 + h * 3600 + mi * 60 + s
      = CLib.daysFromCivil y m d * 86400 + (h * 3600 + mi * 60 + s) := by omega
  rw [e2, CLib.gmtime_r_wday _ _ (by omega) (by omega),
    CLib.daysFromCivil_eq_daysSinceEpoch y m d hm1 hm2]
  rfl

/-- The getters of the whole-second instant that a date of the calendar and a time of day
denote in a region. -/
theorem getters_of_civil (y m d h mi s : Int) (R : RegionTime) (hR : Spec.offsetInRange R)
    (hm1 : 1 ≤ m) (hm2 : m ≤ 12)
    (hd1 : 1 ≤ d) (hd2 : d ≤ Spec.lastDayOfMonth y m)
    (hh1 : 0 ≤ h) (hh2 : h < 24) (hmi1 : 0 ≤ mi) (hmi2 : mi < 60)
    (hs1 : 0 ≤ s) (hs2 : s < 60) (x : DateTime)
    (hx : x = { dt_clockPoint := Spec.instantTicks y m d h mi s 0 R, dt_timeRegion := R }) :
    x.getYear = y ∧ x.getMonth = m ∧ x.getDay = d ∧
    x.getHour = h ∧ x.getMinute = mi ∧ x.getSecond = s := by
  obtain ⟨k1, k2, k3, k4, k5, k6, _⟩ :=
    getRegionAdjustedTime_of_civil y m d h mi s R hR hm1 hm2 hd1 hd2 hh1 hh2 hmi1 hmi2 hs1 hs2
      x hx
  simp only [getYear, getMonth, getDay, getHour, getMinute, getSecond]
  exact ⟨by omega, by omega, k3, k4, k5, k6⟩

/-- A whole-second instant has millisecond 0. -/
theorem getMillisecond_wholeSecond (tv : Int) (R : RegionTime) :
    getMillisecond { dt_clockPoint := tv * 1000000000, dt_timeRegion := R } = 0 := by
  simp only [getMillisecond, Chrono.toMillisecondsCount, Chrono.ticksPerMillisecond]
  have e : tv * 1000000000 = (tv * 1000) * 1000000 := by omega
  rw [e, Int.mul_tdiv_cancel _ (by decide)]
  exact Int.mul_tmod_left tv 1000

end DateTime

/-! ## Exact results of the year, month, day and time operations -/

namespace DateTime

/-- The year of a date whose instant the clock holds lies within a few centuries of 1970. -/
theorem year_of_fitsClock (y m d r o : Int) (hm1 : 1 ≤ m) (hm2 : m ≤ 12) (hd1 : 1 ≤ d)
    (hd2 : d ≤ 31) (hr1 : 0 ≤ r) (hr2 : r < 86400) (ho1 : -2147483648 ≤ o)
    (ho2 : o ≤ 2147483647)
    (h : Spec.fitsClock ((CLib.daysFromCivil y m d * 86400 + r - o) * 1000000000)) :
    1600 ≤ y ∧ y ≤ 2400 := by
  unfold Spec.fitsClock at h
  simp only [CLib.daysFromCivil] at h
  omega

/-- The seconds of a tick count that the clock holds. -/
theorem to_time_t_bounds (t : Int) (h : Spec.fitsClock t) :
    -9223372036 ≤ Chrono.to_time_t t ∧ Chrono.to_time_t t ≤ 9223372036 := by
  unfold Spec.fitsClock at h
  unfold Chrono.to_time_t Chrono.ticksPerSecond
  by_cases h0 : 0 ≤ t
  · rw [tdiv_of_nonneg t _ h0 (by omega)]
    omega
  · rw [tdiv_of_nonpos t _ (by omega) (by omega)]
    omega

/-- The region-local year of a value whose tick count the clock holds. -/
theorem tm_year_bounds (x : DateTime) (hx : Spec.fitsClock x.dt_clockPoint) :
    -400 ≤ x.getRegionAdjustedTime.tm_year ∧ x.getRegionAdjustedTime.tm_year ≤ 500 := by
  obtain ⟨b1, b2⟩ := to_time_t_bounds x.dt_clockPoint hx
  obtain ⟨o1, o2⟩ := Machine.wrapInt_range
    (Machine.wrapInt (x.dt_timeRegion.hourOffset * 3600)
      + Machine.wrapInt (x.dt_timeRegion.minuteOffset * 60))
  obtain ⟨tv, htv⟩ : ∃ tv, tv = Chrono.to_time_t x.dt_clockPoint
      + regionOffsetValue x.dt_timeRegion := ⟨_, rfl⟩
  have hb : -11370855684 ≤ tv ∧ tv ≤ 11370855683 := by
    rw [htv]
    unfold regionOffsetValue
    omega
  have hg : x.getRegionAdjustedTime = CLib.gmtime_r tv := by
    rw [htv]
    rfl
  obtain ⟨hm1, hm2, hd1, hd2, hh1, hh2, hmi1, hmi2, hs1, hs2, _, _, hinv⟩ :=
    CLib.gmtime_r_spec tv
  rw [hg]
  have hd3 := lastDayOfMonth_le ((CLib.gmtime_r tv).tm_year + 1900) ((CLib.gmtime_r tv).tm_mon + 1)
  rw [CLib.timegm_eq] at hinv
  simp only [CLib.daysFromCivil] at hinv
  omega

/-- The value `plusYears` returns when the clock holds the instant of the target fields. -/
theorem plusYears_exact (x : DateTime) (n : Int) (hR : Spec.offsetInRange x.dt_timeRegion)
    (hfit : Spec.fitsClock
      (Spec.instantTicks (x.getYear + n) x.getMonth x.getDay x.getHour x.getMinute x.getSecond
        0 x.dt_timeRegion)) :
    x.plusYears n =
      { dt_clockPoint :=
          Spec.instantTicks (x.getYear + n) x.getMonth x.getDay x.getHour x.getMinute
            x.getSecond 0 x.dt_timeRegion
        dt_timeRegion := x.dt_timeRegion } := by
  obtain ⟨hm1, hm2, hd1, hd2, hh1, hh2, hmi1, hmi2, hs1, hs2⟩ := getRegionAdjustedTime_valid x
  have hd3 := lastDayOfMonth_le (x.getRegionAdjustedTime.tm_year + 1900)
    (x.getRegionAdjustedTime.tm_mon + 1)
  obtain ⟨_, hneg⟩ := regionOffsetValue_of_inRange _ hR
  simp only [getYear, getMonth, getDay, getHour, getMinute, getSecond] at hfit ⊢
  obtain ⟨t0, ht0⟩ : ∃ t0, t0 = x.getRegionAdjustedTime := ⟨_, rfl⟩
  rw [← ht0] at hfit hm1 hm2 hd1 hd2 hh1 hh2 hmi1 hmi2 hs1 hs2 hd3 ⊢
  have hT : Spec.instantTicks (t0.tm_year + 1900 + n) (t0.tm_mon + 1) t0.tm_mday t0.tm_hour
      t0.tm_min t0.tm_sec 0 x.dt_timeRegion
      = (CLib.daysFromCivil (t0.tm_year + 1900 + n) (t0.tm_mon + 1) t0.tm_mday * 86400
          + (t0.tm_hour * 3600 + t0.tm_min * 60 + t0.tm_sec)
          - Spec.totalOffset x.dt_timeRegion) * 1000000000 := by
    unfold Spec.instantTicks
    rw [← secondsSinceEpoch_eq _ _ _ _ _ _ (by omega) (by omega)]
    omega
  rw [hT] at hfit ⊢
  have hRr := hR
  unfold Spec.offsetInRange at hRr
  obtain ⟨y1, y2⟩ := year_of_fitsClock (t0.tm_year + 1900 + n) (t0.tm_mon + 1) t0.tm_mday
    (t0.tm_hour * 3600 + t0.tm_min * 60 + t0.tm_sec) (Spec.totalOffset x.dt_timeRegion)
    (by omega) (by omega) hd1 (by omega) (by omega) (by omega) (by omega) (by omega) hfit
  have e1 : Machine.wrapInt (t0.tm_year + n) = t0.tm_year + n :=
    Machine.wrapInt_eq _ (by omega) (by omega)
  have hq : t0.tm_mon / 12 = 0 := by omega
  have hr : t0.tm_mon % 12 = t0.tm_mon := by omega
  have e3 : t0.tm_year + n + 1900 + 0 = t0.tm_year + 1900 + n := by omega
  simp only [plusYears, fromTimePoint, ← ht0, e1, hneg, CLib.timegm_eq, hq, hr, e3]
  rw [Chrono.from_time_t_eq]
  · congr 1
    omega
  · have e : (CLib.daysFromCivil (t0.tm_year + 1900 + n) (t0.tm_mon + 1) t0.tm_mday * 86400
          + t0.tm_hour * 3600 + t0.tm_min * 60 + t0.tm_sec
          + -Spec.totalOffset x.dt_timeRegion) * 1000000000
        = (CLib.daysFromCivil (t0.tm_year + 1900 + n) (t0.tm_mon + 1) t0.tm_mday * 86400
          + (t0.tm_hour * 3600 + t0.tm_min * 60 + t0.tm_sec)
          - Spec.totalOffset x.dt_timeRegion) * 1000000000 := by omega
    rw [e]
    exact hfit

/-- The value `plusMonths` returns when the clock holds the receiver and the instant of
the target fields. -/
theorem plusMonths_exact (x : DateTime) (n : Int) (hR : Spec.offsetInRange x.dt_timeRegion)
    (hx : Spec.fitsClock x.dt_clockPoint)
    (hfit : Spec.fitsClock
      (Spec.instantTicks (x.getYear + (x.getMonth - 1 + n) / 12)
        ((x.getMonth - 1 + n) % 12 + 1)
        (min x.getDay
          (Spec.lastDayOfMonth (x.getYear + (x.getMonth - 1 + n) / 12)
            ((x.getMonth - 1 + n) % 12 + 1)))
        x.getHour x.getMinute x.getSecond 0 x.dt_timeRegion)) :
    x.plusMonths n =
      { dt_clockPoint :=
          Spec.instantTicks (x.getYear + (x.getMonth - 1 + n) / 12)
            ((x.getMonth - 1 + n) % 12 + 1)
            (min x.getDay
              (Spec.lastDayOfMonth (x.getYear + (x.getMonth - 1 + n) / 12)
                ((x.getMonth - 1 + n) % 12 + 1)))
            x.getHour x.getMinute x.getSecond 0 x.dt_timeRegion
        dt_timeRegion := x.dt_timeRegion } := by
  obtain ⟨hm1, hm2, hd1, hd2, hh1, hh2, hmi1, hmi2, hs1, hs2⟩ := getRegionAdjustedTime_valid x
  obtain ⟨yb1, yb2⟩ := tm_year_bounds x hx
  obtain ⟨_, hneg⟩ := regionOffsetValue_of_inRange _ hR
  simp only [getYear, getMonth, getDay, getHour, getMinute, getSecond] at hfit ⊢
  obtain ⟨t0, ht0⟩ : ∃ t0, t0 = x.getRegionAdjustedTime := ⟨_, rfl⟩
  rw [← ht0] at hfit hm1 hm2 hd1 hd2 hh1 hh2 hmi1 hmi2 hs1 hs2 yb1 yb2 ⊢
  have eN : t0.tm_mon + 1 - 1 + n = t0.tm_mon + n := by omega
  rw [eN] at hfit ⊢
  obtain ⟨Y, hY⟩ : ∃ Y, Y = t0.tm_year + 1900 + (t0.tm_mon + n) / 12 := ⟨_, rfl⟩
  obtain ⟨M, hM⟩ : ∃ M, M = (t0.tm_mon + n) % 12 + 1 := ⟨_, rfl⟩
  obtain ⟨D, hD⟩ : ∃ D, D = min t0.tm_mday (Spec.lastDayOfMonth Y M) := ⟨_, rfl⟩
  rw [← hY, ← hM, ← hD] at hfit ⊢
  have hM1 : 1 ≤ M := by omega
  have hM2 : M ≤ 12 := by omega
  have hD1 : 1 ≤ D := by
    rw [hD]
    exact le_min hd1 (by have := lastDayOfMonth_ge Y M hM1 hM2; omega)
  have hD2 : D ≤ 31 := by
    rw [hD]
    exact le_trans (min_le_right _ _) (lastDayOfMonth_le Y M)
  have hT : Spec.instantTicks Y M D t0.tm_hour t0.tm_min t0.tm_sec 0 x.dt_timeRegion
      = (CLib.daysFromCivil Y M D * 86400
          + (t0.tm_hour * 3600 + t0.tm_min * 60 + t0.tm_sec)
          - Spec.totalOffset x.dt_timeRegion) * 1000000000 := by
    unfold Spec.instantTicks
    rw [← secondsSinceEpoch_eq _ _ _ _ _ _ hM1 hM2]
    omega
  rw [hT] at hfit ⊢
  have hRr := hR
  unfold Spec.offsetInRange at hRr
  obtain ⟨y1, y2⟩ := year_of_fitsClock Y M D
    (t0.tm_hour * 3600 + t0.tm_min * 60 + t0.tm_sec) (Spec.totalOffset x.dt_timeRegion)
    hM1 hM2 hD1 hD2 (by omega) (by omega) (by omega) (by omega) hfit
  have e1 : Machine.wrapInt (t0.tm_mon + n) = t0.tm_mon + n :=
    Machine.wrapInt_eq _ (by omega) (by omega)
  obtain ⟨ym, hym⟩ : ∃ ym : Int × Int, ym =
      if t0.tm_mon + n ≥ 12 then
        (t0.tm_year + Int.tdiv (t0.tm_mon + n) 12, Int.tmod (t0.tm_mon + n) 12)
      else if t0.tm_mon + n < 0 then
        (t0.tm_year + (Int.tdiv (t0.tm_mon + n) 12 - 1), 12 + Int.tmod (t0.tm_mon + n) 12)
      else (t0.tm_year, t0.tm_mon + n) := ⟨_, rfl⟩
  obtain ⟨maxDay, hmax⟩ : ∃ maxDay : Int, maxDay =
      if ym.2 = 1 then
        if (Int.tmod (ym.1 + 1900) 4 = 0 ∧ Int.tmod (ym.1 + 1900) 100 ≠ 0)
            ∨ Int.tmod (ym.1 + 1900) 400 = 0 then 29
        else 28
      else if ym.2 = 3 ∨ ym.2 = 5 ∨ ym.2 = 8 ∨ ym.2 = 10 then 30
      else 31 := ⟨_, rfl⟩
  obtain ⟨g1, g2, g3⟩ := plusMonths_target t0.tm_year (t0.tm_mon + n) ym.1 ym.2 hym
  rw [← hmax, ← hY, ← hM] at g3
  have e2 : ym.1 + 1900 + ym.2 / 12 = Y := by omega
  have e3 : ym.2 % 12 + 1 = M := by omega
  simp only [plusMonths, fromTimePoint, CLib.timegm_eq, ← ht0, e1, ← hym, ← hmax, hneg]
  rw [e2, e3, g3, ← hD, Chrono.from_time_t_eq]
  · congr 1
    omega
  · have e : (CLib.daysFromCivil Y M D * 86400
          + t0.tm_hour * 3600 + t0.tm_min * 60 + t0.tm_sec
          + -Spec.totalOffset x.dt_timeRegion) * 1000000000
        = (CLib.daysFromCivil Y M D * 86400
          + (t0.tm_hour * 3600 + t0.tm_min * 60 + t0.tm_sec)
          - Spec.totalOffset x.dt_timeRegion) * 1000000000 := by omega
    rw [e]
    exact hfit

/-- The object after a successful `setDate` when the clock holds the instant of the new
fields. -/
theorem setDate_exact (x : DateTime) (y m d : Int) (hv : isValidDate y m d = true)
    (hR : Spec.offsetInRange x.dt_timeRegion)
    (hfit : Spec.fitsClock
      (Spec.instantTicks y m d x.getHour x.getMinute x.getSecond 0 x.dt_timeRegion)) :
    (x.setDate y m d).2 =
      { dt_clockPoint :=
          Spec.instantTicks y m d x.getHour x.getMinute x.getSecond 0 x.dt_timeRegion
        dt_timeRegion := x.dt_timeRegion } := by
  obtain ⟨hy1, hy2, hm1, hm2, hd1, hd2⟩ := (isValidDate_iff y m d).mp hv
  obtain ⟨_, hneg⟩ := regionOffsetValue_of_inRange _ hR
  simp only [getHour, getMinute, getSecond] at hfit ⊢
  obtain ⟨t0, ht0⟩ : ∃ t0, t0 = x.getRegionAdjustedTime := ⟨_, rfl⟩
  rw [← ht0] at hfit ⊢
  have hT : Spec.instantTicks y m d t0.tm_hour t0.tm_min t0.tm_sec 0 x.dt_timeRegion
      = (CLib.daysFromCivil y m d * 86400 + t0.tm_hour * 3600 + t0.tm_min * 60 + t0.tm_sec
          + -Spec.totalOffset x.dt_timeRegion) * 1000000000 := by
    unfold Spec.instantTicks
    rw [← secondsSinceEpoch_eq _ _ _ _ _ _ hm1 hm2]
    omega
  rw [hT] at hfit ⊢
  have e1 : Machine.wrapInt (y - 1900) = y - 1900 := Machine.wrapInt_eq _ (by omega) (by omega)
  have e2 : Machine.wrapInt (m - 1) = m - 1 := Machine.wrapInt_eq _ (by omega) (by omega)
  have hq : (m - 1) / 12 = 0 := by omega
  have hr : (m - 1) % 12 + 1 = m := by omega
  have e3 : y - 1900 + 1900 + 0 = y := by omega
  simp only [setDate, hv, Bool.not_true, Bool.false_eq_true, if_false, ← ht0, e1, e2, hneg,
    CLib.timegm_eq, hq, hr, e3]
  rw [Chrono.from_time_t_eq _ hfit]

/-- The sum of a tick count and a number of ticks, when the clock holds it. -/
theorem plus_exact (t d : Int) (h : Spec.fitsClock (t + d)) :
    Chrono.plus t (Machine.wrapLong d) = t + d := by
  unfold Chrono.plus
  rw [Machine.wrapLong_add_right]
  exact Machine.wrapLong_eq _ h.1 h.2

/-- The value `plusMilliseconds` returns when the clock holds the shifted instant. -/
theorem plusMilliseconds_exact (x : DateTime) (n : Int)
    (hfit : Spec.fitsClock (x.dt_clockPoint + n * 1000000)) :
    x.plusMilliseconds n =
      { dt_clockPoint := x.dt_clockPoint + n * 1000000
        dt_timeRegion := x.dt_timeRegion } := by
  simp only [plusMilliseconds, fromTimePoint, Chrono.milliseconds, Chrono.ticksPerMillisecond]
  rw [plus_exact _ _ hfit]

/-- The seconds between two instants whose difference the clock holds. -/
theorem timeBetween_exact (a b : DateTime)
    (hfit : Spec.fitsClock (b.dt_clockPoint - a.dt_clockPoint)) :
    timeBetween a b = Int.tdiv (b.dt_clockPoint - a.dt_clockPoint) 1000000000 := by
  simp only [timeBetween, Chrono.toSecondsCount, Chrono.minus, Chrono.ticksPerSecond]
  rw [Machine.wrapLong_eq _ hfit.1 hfit.2]

end DateTime

/-! ## Reading with `std::get_time` -/

namespace CLib

/-- One step of `getLoop` at a conversion without modifier. -/
theorem getLoop_token (lib : TimeLibrary) (fuel : Nat) (g : Char) (hg : g ≠ 'E' ∧ g ≠ 'O')
    (fs2 : List Char) (c : Char) (cs : List Char) (t : Tm) (st : TimeGetState) :
    getLoop lib (fuel + 1) ('%' :: g :: fs2) (c :: cs) t st
      = match extractConversion lib g (c :: cs) t st with
        | none => none
        | some (s2, t2, st2) =>
          if s2 = [] then some (s2, t2, st2) else getLoop lib fuel fs2 s2 t2 st2 := by
  rw [getLoop.eq_2, getStep.eq_def]
  simp only [if_true, hg, ne_eq, not_false_eq_true, and_self]
  cases extractConversion lib g (c :: cs) t st with
  | none => rfl
  | some r =>
    obtain ⟨s2, t2, st2⟩ := r
    simp only [afterField]
    by_cases hs : s2 = []
    · simp [hs]
    · simp [hs]

/-- One step of `getLoop` at a character of the format that the input repeats. -/
theorem getLoop_literal (lib : TimeLibrary) (fuel : Nat) (f : Char) (hf1 : f ≠ '%')
    (hf2 : isSpace f = false) (fs cs : List Char) (t : Tm) (st : TimeGetState) :
    getLoop lib (fuel + 1) (f :: fs) (f :: cs) t st = getLoop lib fuel fs cs t st := by
  rw [getLoop.eq_2, getStep.eq_def]
  simp [hf1, hf2]

/-- One step of `getLoop` at a single space of the format, against a single space of the
input. -/
theorem getLoop_space (lib : TimeLibrary) (fuel : Nat) (f : Char) (hf : isSpace f = false)
    (fs : List Char) (c : Char) (hc : isSpace c = false) (cs : List Char) (t : Tm)
    (st : TimeGetState) :
    getLoop lib (fuel + 1) (' ' :: f :: fs) (' ' :: c :: cs) t st
      = getLoop lib fuel (f :: fs) (c :: cs) t st := by
  have h1 : isSpace ' ' = true := by decide
  have h3 : (' ' : Char) ≠ '%' := by decide
  rw [getLoop.eq_2, getStep.eq_def]
  simp only [h3, if_false, h1, if_true, List.dropWhile_cons, hf, hc, Bool.false_eq_true]

/-- The conversion `%Y` on four digits in range. -/
theorem extractConversion_Y (lib : TimeLibrary) (s : List Char) (t : Tm) (st : TimeGetState)
    (v : Int) (r : List Char) (h : extractNum s 0 9999 4 = some (v, r)) :
    extractConversion lib 'Y' s t st
      = some (r, { t with tm_year := v - 1900 },
          { st with want_century := false, want_xday := true }) := by
  simp only [extractConversion, expandedFormat, extractField, h, Char.reduceEq, if_false,
    if_true, reduceCtorEq, or_self, or_false, false_or]

/-- The conversion `%m` on two digits in range. -/
theorem extractConversion_m (lib : TimeLibrary) (s : List Char) (t : Tm) (st : TimeGetState)
    (v : Int) (r : List Char) (h : extractNum s 1 12 2 = some (v, r)) :
    extractConversion lib 'm' s t st
      = some (r, { t with tm_mon := v - 1 }, { st with have_mon := true }) := by
  simp only [extractConversion, expandedFormat, extractField, h, Char.reduceEq, if_false,
    if_true, reduceCtorEq, or_self, or_false, false_or]

/-- The conversion `%d` on two digits in range. -/
theorem extractConversion_d (lib : TimeLibrary) (b : Char) (bs : List Char) (t : Tm)
    (st : TimeGetState) (hb : isSpace b = false)
    (v : Int) (r : List Char) (h : extractNum (b :: bs) 1 31 2 = some (v, r)) :
    extractConversion lib 'd' (b :: bs) t st
      = some (r, { t with tm_mday := v }, { st with have_mday := true, want_xday := true }) := by
  simp only [extractConversion, expandedFormat, extractField, hb, h, Char.reduceEq, if_false,
    if_true, reduceCtorEq, or_self, or_false, false_or, true_or, Bool.false_eq_true]

/-- The conversion `%H` on two digits in range. -/
theorem extractConversion_H (lib : TimeLibrary) (s : List Char) (t : Tm) (st : TimeGetState)
    (v : Int) (r : List Char) (h : extractNum s 0 23 2 = some (v, r)) :
    extractConversion lib 'H' s t st
      = some (r, { t with tm_hour := v }, { st with have_I := false }) := by
  simp only [extractConversion, expandedFormat, extractField, h, Char.reduceEq, if_false,
    if_true, reduceCtorEq, or_self, or_false, false_or]

/-- The conversion `%M` on two digits in range. -/
theorem extractConversion_M (lib : TimeLibrary) (s : List Char) (t : Tm) (st : TimeGetState)
    (v : Int) (r : List Char) (h : extractNum s 0 59 2 = some (v, r)) :
    extractConversion lib 'M' s t st = some (r, { t with tm_min := v }, st) := by
  simp only [extractConversion, expandedFormat, extractField, h, Char.reduceEq, if_false,
    if_true, reduceCtorEq, or_self, or_false, false_or]

/-- The conversion `%S` on two digits in range. -/
theorem extractConversion_S (lib : TimeLibrary) (s : List Char) (t : Tm) (st : TimeGetState)
    (v : Int) (r : List Char) (h : extractNum s 0 60 2 = some (v, r)) :
    extractConversion lib 'S' s t st = some (r, { t with tm_sec := v }, st) := by
  simp only [extractConversion, expandedFormat, extractField, h, Char.reduceEq, if_false,
    if_true, reduceCtorEq, or_self, or_false, false_or]

/-- The weekday and the day of the year that the finalisation of `std::get_time` derives
from year, month and day leave the other fields as they are. -/
theorem day_of_the_year_week_fields (t : Tm) :
    (day_of_the_year (day_of_the_week t)).tm_year = t.tm_year ∧
    (day_of_the_year (day_of_the_week t)).tm_mon = t.tm_mon ∧
    (day_of_the_year (day_of_the_week t)).tm_mday = t.tm_mday ∧
    (day_of_the_year (day_of_the_week t)).tm_hour = t.tm_hour ∧
    (day_of_the_year (day_of_the_week t)).tm_min = t.tm_min ∧
    (day_of_the_year (day_of_the_week t)).tm_sec = t.tm_sec :=
  ⟨rfl, rfl, rfl, rfl, rfl, rfl⟩

/-- The text `YYYY-MM-DD HH:MM:SS` of valid fields read with the default pattern: the six
fields, and the weekday and the day of the year that the finalisation derives from them. -/
theorem get_time_isoText (lib : TimeLibrary) (y m d h mi s : Int)
    (hy1 : 0 ≤ y) (hy2 : y ≤ 9999) (hm1 : 1 ≤ m) (hm2 : m ≤ 12) (hd1 : 1 ≤ d) (hd2 : d ≤ 31)
    (hh1 : 0 ≤ h) (hh2 : h ≤ 23) (hmi1 : 0 ≤ mi) (hmi2 : mi ≤ 59)
    (hs1 : 0 ≤ s) (hs2 : s ≤ 59) :
    get_time lib (Spec.isoText y m d h mi s) (c_str DateTime.defaultFormat) Tm.zero
      = some (day_of_the_year (day_of_the_week
          { Tm.zero with
            tm_year := y - 1900
            tm_mon := m - 1
            tm_mday := d
            tm_hour := h
            tm_min := mi
            tm_sec := s })) := by
  obtain ⟨y1, y2, y3, y4, hy1a, hy2a, hy3a, hy4a, hyv, hyd⟩ := digits4_eq y hy1 hy2
  obtain ⟨m1, m2, hm1a, hm2a, hmv, hmd⟩ := digits2_eq m (by omega) (by omega)
  obtain ⟨d1, d2, hd1a, hd2a, hdv, hdd⟩ := digits2_eq d (by omega) (by omega)
  obtain ⟨h1, h2, hh1a, hh2a, hhv, hhd⟩ := digits2_eq h (by omega) (by omega)
  obtain ⟨i1, i2, hi1a, hi2a, hiv, hid⟩ := digits2_eq mi (by omega) (by omega)
  obtain ⟨s1, s2, hs1a, hs2a, hsv, hsd⟩ := digits2_eq s (by omega) (by omega)
  have hc : c_str DateTime.defaultFormat = DateTime.defaultFormat := by decide
  have hfmt : DateTime.defaultFormat
      = '%' :: 'Y' :: '-' :: '%' :: 'm' :: '-' :: '%' :: 'd' :: ' ' :: '%' :: 'H' :: ':' ::
          '%' :: 'M' :: ':' :: '%' :: 'S' :: [] := by decide
  have hlen : DateTime.defaultFormat.length + 1 = 17 + 1 := by decide
  have sp1 := isSpace_digitChar y1 hy1a
  have sp2 := isSpace_digitChar d1 hd1a
  have sp3 := isSpace_digitChar h1 hh1a
  have eY := fun rest => extractNum_four y1 y2 y3 y4 hy1a hy2a hy3a hy4a 0 9999 rest
    (by omega) (by omega)
  have eM := fun rest => extractNum_two m1 m2 hm1a hm2a 1 12 rest (by omega) (by omega)
  have eD := fun rest => extractNum_two d1 d2 hd1a hd2a 1 31 rest (by omega) (by omega)
  have eH := fun rest => extractNum_two h1 h2 hh1a hh2a 0 23 rest (by omega) (by omega)
  have eI := fun rest => extractNum_two i1 i2 hi1a hi2a 0 59 rest (by omega) (by omega)
  have eS := fun rest => extractNum_two s1 s2 hs1a hs2a 0 60 rest (by omega) (by omega)
  rw [hc]
  simp only [get_time, Spec.isoText, hyd, hmd, hdd, hhd, hid, hsd,
    List.cons_append, List.nil_append, String.toList, List.dropWhile_cons, sp1,
    Bool.false_eq_true, if_false, hlen]
  rw [hfmt, getLoop_token lib 17 'Y' (by decide), extractConversion_Y lib _ _ _ _ _ (eY _)]
  simp only [reduceCtorEq, if_false]
  rw [getLoop_literal lib 16 '-' (by decide) (by decide), getLoop_token lib 15 'm' (by decide),
    extractConversion_m lib _ _ _ _ _ (eM _)]
  simp only [reduceCtorEq, if_false]
  rw [getLoop_literal lib 14 '-' (by decide) (by decide), getLoop_token lib 13 'd' (by decide),
    extractConversion_d lib _ _ _ _ sp2 _ _ (eD _)]
  simp only [reduceCtorEq, if_false]
  rw [getLoop_space lib 12 '%' (by decide) _ _ sp3, getLoop_token lib 11 'H' (by decide),
    extractConversion_H lib _ _ _ _ _ (eH _)]
  simp only [reduceCtorEq, if_false]
  rw [getLoop_literal lib 10 ':' (by decide) (by decide), getLoop_token lib 9 'M' (by decide),
    extractConversion_M lib _ _ _ _ _ (eI _)]
  simp only [reduceCtorEq, if_false]
  rw [getLoop_literal lib 8 ':' (by decide) (by decide), getLoop_token lib 7 'S' (by decide),
    extractConversion_S lib _ _ _ _ _ (eS _)]
  simp only [if_true, finalizeState, TimeGetState.init, Tm.zero, hyv, hmv, hdv, hhv, hiv, hsv,
    Bool.false_eq_true, false_and, if_false, Bool.and_self, Bool.not_true, Bool.and_false,
    Bool.not_false, Bool.and_true, not_false_eq_true, true_and, Bool.or_false, true_or,
    and_true, false_or, or_self, Bool.false_and, Bool.true_and, Bool.or_true, and_self]

end CLib

/-! ## Patterns that yield no day of the month -/

namespace CLib

/-- White space is not `%`. -/
theorem isSpace_ne_percent (c : Char) (h : isSpace c = true) : c ≠ '%' := by
  intro e
  subst e
  exact absurd h (by decide)

/-- The conversions that yield a day of the month. -/
theorem yieldsDay_false (c : Char) (h : Spec.yieldsDay c = false) :
    c ≠ 'd' ∧ c ≠ 'e' ∧ c ≠ 'D' ∧ c ≠ 'x' ∧ c ≠ 'j' ∧ c ≠ 'U' ∧ c ≠ 'W' := by
  simp only [Spec.yieldsDay, Bool.or_eq_false_iff, decide_eq_false_iff_not] at h
  obtain ⟨⟨⟨⟨⟨⟨c1, c2⟩, c3⟩, c4⟩, c5⟩, c6⟩, c7⟩ := h
  exact ⟨c1, c2, c3, c4, c5, c6, c7⟩

/-- The function `Spec.patternWithoutDay` at an ordinary character. -/
theorem withoutDay_cons_ne (c : Char) (hc : c ≠ '%') (rest : List Char) :
    Spec.patternWithoutDay (c :: rest) = Spec.patternWithoutDay rest := by
  rw [Spec.patternWithoutDay.eq_def]
  simp only [hc, ne_eq, not_false_eq_true, if_true]

/-- The function `Spec.patternWithoutDay` at a conversion without modifier. -/
theorem withoutDay_cons_conv (g : Char) (hg : g ≠ 'E' ∧ g ≠ 'O') (rest2 : List Char) :
    Spec.patternWithoutDay ('%' :: g :: rest2)
      = (!Spec.yieldsDay g && Spec.patternWithoutDay rest2) := by
  rw [Spec.patternWithoutDay.eq_def]
  simp only [ne_eq, not_true_eq_false, if_false, hg, not_false_eq_true, and_self, if_true]

/-- The function `Spec.patternWithoutDay` at a conversion with a modifier. -/
theorem withoutDay_cons_mod (g : Char) (hg : ¬ (g ≠ 'E' ∧ g ≠ 'O')) (k : Char)
    (rest3 : List Char) :
    Spec.patternWithoutDay ('%' :: g :: k :: rest3)
      = (!Spec.yieldsDay k && Spec.patternWithoutDay rest3) := by
  rw [Spec.patternWithoutDay.eq_def]
  simp only [ne_eq, not_true_eq_false, if_false]
  rw [if_neg hg]

/-- Skipping white space leaves a pattern that yields no day such a pattern. -/
theorem withoutDay_dropWhile : ∀ p : List Char, Spec.patternWithoutDay p = true →
    Spec.patternWithoutDay (p.dropWhile isSpace) = true
  | [], _ => rfl
  | c :: rest, h => by
    rw [List.dropWhile_cons]
    by_cases hs : isSpace c = true
    · rw [if_pos hs]
      rw [withoutDay_cons_ne c (isSpace_ne_percent c hs)] at h
      exact withoutDay_dropWhile rest h
    · rw [if_neg hs]
      exact h

/-- A conversion that yields no day of the month leaves the day of the month at 0 and
sets neither a day of the year nor a week of the year. -/
theorem extractField_noDay (lib : TimeLibrary) (c : Char) (hc : Spec.yieldsDay c = false)
    (s : List Char) (t : Tm) (st : TimeGetState) (s2 : List Char) (t2 : Tm)
    (st2 : TimeGetState) (h : extractField lib c s t st = some (s2, t2, st2))
    (hI : t.tm_mday = 0 ∧ st.have_yday = false ∧ st.have_uweek = false ∧
      st.have_wweek = false) :
    t2.tm_mday = 0 ∧ st2.have_yday = false ∧ st2.have_uweek = false ∧
      st2.have_wweek = false := by
  obtain ⟨c1, c2, c3, c4, c5, c6, c7⟩ := yieldsDay_false c hc
  unfold extractField at h
  by_cases g : c = 'a' ∨ c = 'A'
  · rw [if_pos g] at h
    repeat' (split at h)
    all_goals first
      | (cases h; done)
      | (simp only [Option.some.injEq, Prod.mk.injEq] at h
         obtain ⟨-, rfl, rfl⟩ := h
         exact hI)
  rw [if_neg g] at h
  clear g
  by_cases g : c = 'h' ∨ c = 'b' ∨ c = 'B'
  · rw [if_pos g] at h
    repeat' (split at h)
    all_goals first
      | (cases h; done)
      | (simp only [Option.some.injEq, Prod.mk.injEq] at h
         obtain ⟨-, rfl, rfl⟩ := h
         exact hI)
  rw [if_neg g] at h
  clear g
  by_cases g : c = 'C'
  · rw [if_pos g] at h
    repeat' (split at h)
    all_goals first
      | (cases h; done)
      | (simp only [Option.some.injEq, Prod.mk.injEq] at h
         obtain ⟨-, rfl, rfl⟩ := h
         exact hI)
  rw [if_neg g] at h
  clear g
  by_cases g : c = 'd' ∨ c = 'e'
  · rcases g with g | g
    · exact absurd g c1
    · exact absurd g c2
  rw [if_neg g] at h
  clear g
  by_cases g : c = 'H'
  · rw [if_pos g] at h
    repeat' (split at h)
    all_goals first
      | (cases h; done)
      | (simp only [Option.some.injEq, Prod.mk.injEq] at h
         obtain ⟨-, rfl, rfl⟩ := h
         exact hI)
  rw [if_neg g] at h
  clear g
  by_cases g : c = 'I'
  · rw [if_pos g] at h
    repeat' (split at h)
    all_goals first
      | (cases h; done)
      | (simp only [Option.some.injEq, Prod.mk.injEq] at h
         obtain ⟨-, rfl, rfl⟩ := h
         exact hI)
  rw [if_neg g] at h
  clear g
  by_cases g : c = 'j'
  · exact absurd g c5
  rw [if_neg g] at h
  clear g
  by_cases g : c = 'm'
  · rw [if_pos g] at h
    repeat' (split at h)
    all_goals first
      | (cases h; done)
      | (simp only [Option.some.injEq, Prod.mk.injEq] at h
         obtain ⟨-, rfl, rfl⟩ := h
         exact hI)
  rw [if_neg g] at h
  clear g
  by_cases g : c = 'M'
  · rw [if_pos g] at h
    repeat' (split at h)
    all_goals first
      | (cases h; done)
      | (simp only [Option.some.injEq, Prod.mk.injEq] at h
         obtain ⟨-, rfl, rfl⟩ := h
         exact hI)
  rw [if_neg g] at h
  clear g
  by_cases g : c = 'n' ∨ c = 't'
  · rw [if_pos g] at h
    simp only [Option.some.injEq, Prod.mk.injEq] at h
    obtain ⟨-, rfl, rfl⟩ := h
    exact hI
  rw [if_neg g] at h
  clear g
  by_cases g : c = 'p'
  · rw [if_pos g] at h
    repeat' (split at h)
    all_goals first
      | (cases h; done)
      | (simp only [Option.some.injEq, Prod.mk.injEq] at h
         obtain ⟨-, rfl, rfl⟩ := h
         exact hI)
  rw [if_neg g] at h
  clear g
  by_cases g : c = 'S'
  · rw [if_pos g] at h
    repeat' (split at h)
    all_goals first
      | (cases h; done)
      | (simp only [Option.some.injEq, Prod.mk.injEq] at h
         obtain ⟨-, rfl, rfl⟩ := h
         exact hI)
  rw [if_neg g] at h
  clear g
  by_cases g : c = 'U'
  · exact absurd g c6
  rw [if_neg g] at h
  clear g
  by_cases g : c = 'w'
  · rw [if_pos g] at h
    repeat' (split at h)
    all_goals first
      | (cases h; done)
      | (simp only [Option.some.injEq, Prod.mk.injEq] at h
         obtain ⟨-, rfl, rfl⟩ := h
         exact hI)
  rw [if_neg g] at h
  clear g
  by_cases g : c = 'W'
  · exact absurd g c7
  rw [if_neg g] at h
  clear g
  by_cases g : c = 'y'
  · rw [if_pos g] at h
    repeat' (split at h)
    all_goals first
      | (cases h; done)
      | (simp only [Option.some.injEq, Prod.mk.injEq] at h
         obtain ⟨-, rfl, rfl⟩ := h
         exact hI)
  rw [if_neg g] at h
  clear g
  by_cases g : c = 'Y'
  · rw [if_pos g] at h
    repeat' (split at h)
    all_goals first
      | (cases h; done)
      | (simp only [Option.some.injEq, Prod.mk.injEq] at h
         obtain ⟨-, rfl, rfl⟩ := h
         exact hI)
  rw [if_neg g] at h
  clear g
  by_cases g : c = 'Z'
  · rw [if_pos g] at h
    repeat' (split at h)
    all_goals first
      | (cases h; done)
      | (simp only [Option.some.injEq, Prod.mk.injEq] at h
         obtain ⟨-, rfl, rfl⟩ := h
         exact hI)
  rw [if_neg g] at h
  clear g
  by_cases g : c = '%'
  · rw [if_pos g] at h
    repeat' (split at h)
    all_goals first
      | (cases h; done)
      | (simp only [Option.some.injEq, Prod.mk.injEq] at h
         obtain ⟨-, rfl, rfl⟩ := h
         exact hI)
  rw [if_neg g] at h
  clear g
  cases h

/-- What `expandedStep` does on a format that yields no day of the month. -/
theorem expandedStep_noDay (lib : TimeLibrary) (format input : List Char) (t : Tm)
    (st : TimeGetState) (hp : Spec.patternWithoutDay format = true)
    (hI : t.tm_mday = 0 ∧ st.have_yday = false ∧ st.have_uweek = false ∧
      st.have_wweek = false) :
    (∀ (s2 : List Char) (t2 : Tm) (st2 : TimeGetState),
      expandedStep lib format input t st = GetStep.done (some (s2, t2, st2)) →
      t2.tm_mday = 0 ∧ st2.have_yday = false ∧ st2.have_uweek = false ∧
      st2.have_wweek = false) ∧
    (∀ (f2 s2 : List Char) (t2 : Tm) (st2 : TimeGetState),
      expandedStep lib format input t st = GetStep.next f2 s2 t2 st2 →
      (f2.length < format.length ∧ Spec.patternWithoutDay f2 = true) ∧
      t2.tm_mday = 0 ∧ st2.have_yday = false ∧ st2.have_uweek = false ∧
      st2.have_wweek = false) := by
  rw [expandedStep.eq_def]
  match format, input, hp with
  | [], _, _ =>
    exact ⟨fun _ _ _ hr => (by cases hr; exact hI), fun _ _ _ _ hr => by cases hr⟩
  | f :: fs, [], _ =>
    exact ⟨fun _ _ _ hr => (by cases hr), fun _ _ _ _ hr => by cases hr⟩
  | f :: fs, c :: cs, hp =>
    simp only
    by_cases hf : f = '%'
    · subst hf
      simp only [if_true]
      match fs, hp with
      | [], _ => exact ⟨fun _ _ _ hr => (by cases hr), fun _ _ _ _ hr => by cases hr⟩
      | g :: fs2, hp =>
        simp only
        by_cases hg : g ≠ 'E' ∧ g ≠ 'O'
        · rw [if_pos hg]
          rw [withoutDay_cons_conv g hg] at hp
          simp only [Bool.and_eq_true, Bool.not_eq_true'] at hp
          obtain ⟨hy, hp2⟩ := hp
          cases he : extractField lib g (c :: cs) t st with
          | none => exact ⟨fun _ _ _ hr => (by cases hr), fun _ _ _ _ hr => by cases hr⟩
          | some p =>
            obtain ⟨s3, t3, st3⟩ := p
            have hd := extractField_noDay lib g hy (c :: cs) t st s3 t3 st3 he hI
            refine ⟨fun _ _ _ hr => (by cases hr), fun f2 s2 t2 st2 hr => ?_⟩
            cases hr
            exact ⟨⟨by simp only [List.length_cons]; omega, hp2⟩, hd⟩
        · rw [if_neg hg]
          match fs2, hp with
          | [], _ => exact ⟨fun _ _ _ hr => (by cases hr), fun _ _ _ _ hr => by cases hr⟩
          | k :: fs3, hp =>
            simp only
            rw [withoutDay_cons_mod g hg] at hp
            simp only [Bool.and_eq_true, Bool.not_eq_true'] at hp
            obtain ⟨hy, hp2⟩ := hp
            cases he : extractField lib k (c :: cs) t st with
            | none => exact ⟨fun _ _ _ hr => (by cases hr), fun _ _ _ _ hr => by cases hr⟩
            | some p =>
              obtain ⟨s3, t3, st3⟩ := p
              have hd := extractField_noDay lib k hy (c :: cs) t st s3 t3 st3 he hI
              refine ⟨fun _ _ _ hr => (by cases hr), fun f2 s2 t2 st2 hr => ?_⟩
              cases hr
              exact ⟨⟨by simp only [List.length_cons]; omega, hp2⟩, hd⟩
    · rw [if_neg hf]
      rw [withoutDay_cons_ne f hf] at hp
      by_cases hs : isSpace f = true
      · rw [if_pos hs]
        refine ⟨fun _ _ _ hr => (by cases hr), fun f2 s2 t2 st2 hr => ?_⟩
        cases hr
        exact ⟨⟨by simp only [List.length_cons]; omega, hp⟩, hI⟩
      · rw [if_neg hs]
        by_cases hm : c.toLower = f.toLower ∨ c.toUpper = f.toUpper
        · rw [if_pos hm]
          refine ⟨fun _ _ _ hr => (by cases hr), fun f2 s2 t2 st2 hr => ?_⟩
          cases hr
          exact ⟨⟨by simp only [List.length_cons]; omega, hp⟩, hI⟩
        · rw [if_neg hm]
          exact ⟨fun _ _ _ hr => (by cases hr), fun _ _ _ _ hr => by cases hr⟩

/-- The loop over an expanded format that yields no day of the month. -/
theorem expandedLoop_noDay (lib : TimeLibrary) : ∀ (fuel : Nat) (format input : List Char)
    (t : Tm) (st : TimeGetState) (s2 : List Char) (t2 : Tm) (st2 : TimeGetState),
    Spec.patternWithoutDay format = true →
    (t.tm_mday = 0 ∧ st.have_yday = false ∧ st.have_uweek = false ∧
      st.have_wweek = false) →
    expandedLoop lib fuel format input t st = some (s2, t2, st2) →
    t2.tm_mday = 0 ∧ st2.have_yday = false ∧ st2.have_uweek = false ∧
      st2.have_wweek = false
  | 0, _, _, _, _, _, _, _, _, _, h => by cases h
  | fuel + 1, format, input, t, st, s2, t2, st2, hp, hI, h => by
    rw [expandedLoop.eq_2] at h
    obtain ⟨h1, h2⟩ := expandedStep_noDay lib format input t st hp hI
    cases hs : expandedStep lib format input t st with
    | done q =>
      rw [hs] at h
      simp only at h
      subst h
      exact h1 s2 t2 st2 hs
    | next f3 i3 t3 st3 =>
      rw [hs] at h
      simp only at h
      obtain ⟨⟨_, hp3⟩, hI3⟩ := h2 f3 i3 t3 st3 hs
      exact expandedLoop_noDay lib fuel f3 i3 t3 st3 s2 t2 st2 hp3 hI3 h

/-- A conversion of `time_get::get` that yields no day of the month leaves the day of the
month at 0 and sets neither a day of the year nor a week of the year. -/
theorem extractConversion_noDay (lib : TimeLibrary) (c : Char)
    (hc : Spec.yieldsDay c = false) (s : List Char) (t : Tm) (st : TimeGetState)
    (s2 : List Char) (t2 : Tm) (st2 : TimeGetState)
    (h : extractConversion lib c s t st = some (s2, t2, st2))
    (hI : t.tm_mday = 0 ∧ st.have_yday = false ∧ st.have_uweek = false ∧
      st.have_wweek = false) :
    t2.tm_mday = 0 ∧ st2.have_yday = false ∧ st2.have_uweek = false ∧
      st2.have_wweek = false := by
  obtain ⟨c1, c2, c3, c4, c5, c6, c7⟩ := yieldsDay_false c hc
  unfold extractConversion at h
  cases hf : expandedFormat c with
  | none =>
    rw [hf] at h
    exact extractField_noDay lib c hc s t st s2 t2 st2 h hI
  | some p =>
    obtain ⟨format, wantXday⟩ := p
    rw [hf] at h
    simp only at h
    have hp : Spec.patternWithoutDay format = true := by
      unfold expandedFormat at hf
      split_ifs at hf
      all_goals first
        | (cases hf; done)
        | (simp only [Option.some.injEq, Prod.mk.injEq] at hf
           obtain ⟨rfl, -⟩ := hf
           decide)
    cases hl : expandedLoop lib (format.length + 1) format s t st with
    | none => rw [hl] at h; cases h
    | some q =>
      obtain ⟨s3, t3, st3⟩ := q
      rw [hl] at h
      have hd := expandedLoop_noDay lib _ format s t st s3 t3 st3 hp hI hl
      simp only [Option.some.injEq, Prod.mk.injEq] at h
      obtain ⟨-, rfl, rfl⟩ := h
      split_ifs
      · exact hd
      · exact hd

/-- What `afterField` returns. -/
theorem afterField_some (s3 : List Char) (t3 : Tm) (st3 : TimeGetState) (fs : List Char) :
    afterField (some (s3, t3, st3)) fs
      = if s3 = [] then GetStep.done (some (s3, t3, st3)) else GetStep.next fs s3 t3 st3 :=
  rfl

/-- What `getStep` does on a format that yields no day of the month. -/
theorem getStep_noDay (lib : TimeLibrary) (format input : List Char) (t : Tm)
    (st : TimeGetState) (hp : Spec.patternWithoutDay format = true)
    (hI : t.tm_mday = 0 ∧ st.have_yday = false ∧ st.have_uweek = false ∧
      st.have_wweek = false) :
    (∀ (s2 : List Char) (t2 : Tm) (st2 : TimeGetState),
      getStep lib format input t st = GetStep.done (some (s2, t2, st2)) →
      t2.tm_mday = 0 ∧ st2.have_yday = false ∧ st2.have_uweek = false ∧
      st2.have_wweek = false) ∧
    (∀ (f2 s2 : List Char) (t2 : Tm) (st2 : TimeGetState),
      getStep lib format input t st = GetStep.next f2 s2 t2 st2 →
      Spec.patternWithoutDay f2 = true ∧
      t2.tm_mday = 0 ∧ st2.have_yday = false ∧ st2.have_uweek = false ∧
      st2.have_wweek = false) := by
  rw [getStep.eq_def]
  match format, input, hp with
  | [], _, _ =>
    exact ⟨fun _ _ _ hr => (by cases hr; exact hI), fun _ _ _ _ hr => by cases hr⟩
  | f :: fs, [], _ =>
    exact ⟨fun _ _ _ hr => (by cases hr), fun _ _ _ _ hr => by cases hr⟩
  | f :: fs, c :: cs, hp =>
    simp only
    by_cases hf : f = '%'
    · subst hf
      simp only [if_true]
      match fs, hp with
      | [], _ => exact ⟨fun _ _ _ hr => (by cases hr), fun _ _ _ _ hr => by cases hr⟩
      | g :: fs2, hp =>
        simp only
        by_cases hg : g ≠ 'E' ∧ g ≠ 'O'
        · rw [if_pos hg]
          rw [withoutDay_cons_conv g hg] at hp
          simp only [Bool.and_eq_true, Bool.not_eq_true'] at hp
          obtain ⟨hy, hp2⟩ := hp
          cases he : extractConversion lib g (c :: cs) t st with
          | none => exact ⟨fun _ _ _ hr => (by cases hr), fun _ _ _ _ hr => by cases hr⟩
          | some p =>
            obtain ⟨s3, t3, st3⟩ := p
            have hd := extractConversion_noDay lib g hy (c :: cs) t st s3 t3 st3 he hI
            rw [afterField_some]
            by_cases hs : s3 = []
            · rw [if_pos hs]
              exact ⟨fun _ _ _ hr => (by cases hr; exact hd), fun _ _ _ _ hr => by cases hr⟩
            · rw [if_neg hs]
              refine ⟨fun _ _ _ hr => (by cases hr), fun f2 s2 t2 st2 hr => ?_⟩
              cases hr
              exact ⟨hp2, hd⟩
        · rw [if_neg hg]
          match fs2, hp with
          | [], _ => exact ⟨fun _ _ _ hr => (by cases hr), fun _ _ _ _ hr => by cases hr⟩
          | k :: fs3, hp =>
            simp only
            rw [withoutDay_cons_mod g hg] at hp
            simp only [Bool.and_eq_true, Bool.not_eq_true'] at hp
            obtain ⟨hy, hp2⟩ := hp
            cases he : extractConversion lib k (c :: cs) t st with
            | none => exact ⟨fun _ _ _ hr => (by cases hr), fun _ _ _ _ hr => by cases hr⟩
            | some p =>
              obtain ⟨s3, t3, st3⟩ := p
              have hd := extractConversion_noDay lib k hy (c :: cs) t st s3 t3 st3 he hI
              rw [afterField_some]
              by_cases hs : s3 = []
              · rw [if_pos hs]
                exact ⟨fun _ _ _ hr => (by cases hr; exact hd), fun _ _ _ _ hr => by cases hr⟩
              · rw [if_neg hs]
                refine ⟨fun _ _ _ hr => (by cases hr), fun f2 s2 t2 st2 hr => ?_⟩
                cases hr
                exact ⟨hp2, hd⟩
    · rw [if_neg hf]
      rw [withoutDay_cons_ne f hf] at hp
      by_cases hs : isSpace f = true
      · rw [if_pos hs]
        refine ⟨fun _ _ _ hr => (by cases hr), fun f2 s2 t2 st2 hr => ?_⟩
        cases hr
        exact ⟨withoutDay_dropWhile fs hp, hI⟩
      · rw [if_neg hs]
        by_cases hm : c.toLower = f.toLower ∨ c.toUpper = f.toUpper
        · rw [if_pos hm]
          refine ⟨fun _ _ _ hr => (by cases hr), fun f2 s2 t2 st2 hr => ?_⟩
          cases hr
          exact ⟨hp, hI⟩
        · rw [if_neg hm]
          exact ⟨fun _ _ _ hr => (by cases hr), fun _ _ _ _ hr => by cases hr⟩

/-- The loop of `time_get::get` on a format that yields no day of the month. -/
theorem getLoop_noDay (lib : TimeLibrary) : ∀ (fuel : Nat) (format input : List Char)
    (t : Tm) (st : TimeGetState) (s2 : List Char) (t2 : Tm) (st2 : TimeGetState),
    Spec.patternWithoutDay format = true →
    (t.tm_mday = 0 ∧ st.have_yday = false ∧ st.have_uweek = false ∧
      st.have_wweek = false) →
    getLoop lib fuel format input t st = some (s2, t2, st2) →
    t2.tm_mday = 0 ∧ st2.have_yday = false ∧ st2.have_uweek = false ∧
      st2.have_wweek = false
  | 0, _, _, _, _, _, _, _, _, _, h => by cases h
  | fuel + 1, format, input, t, st, s2, t2, st2, hp, hI, h => by
    rw [getLoop.eq_2] at h
    obtain ⟨h1, h2⟩ := getStep_noDay lib format input t st hp hI
    cases hs : getStep lib format input t st with
    | done q =>
      rw [hs] at h
      simp only at h
      subst h
      exact h1 s2 t2 st2 hs
    | next f3 i3 t3 st3 =>
      rw [hs] at h
      simp only at h
      obtain ⟨hp3, hI3⟩ := h2 f3 i3 t3 st3 hs
      exact getLoop_noDay lib fuel f3 i3 t3 st3 s2 t2 st2 hp3 hI3 h

/-- The finalisation of `time_get::get` leaves the day of the month alone when the format
set neither a day of the year nor a week of the year. -/
theorem finalizeState_noDay (lib : TimeLibrary) (st : TimeGetState) (t : Tm)
    (h1 : st.have_yday = false) (h2 : st.have_uweek = false) (h3 : st.have_wweek = false) :
    (finalizeState lib st t).tm_mday = t.tm_mday := by
  simp only [finalizeState, h1, h2, h3, Bool.and_false, Bool.false_eq_true, if_false,
    or_self, false_and, Bool.or_false, not_false_eq_true, and_true, true_and]
  split_ifs <;> rfl

/-- The C string of a pattern that yields no day of the month is such a pattern. -/
theorem withoutDay_c_str : ∀ p : List Char,
    Spec.patternWithoutDay p = true → Spec.patternWithoutDay (c_str p) = true
  | [], _ => rfl
  | c :: rest, h => by
    by_cases h0 : c = Char.ofNat 0
    · subst h0; rfl
    · rw [c_str_cons_ne c h0]
      by_cases hc : c = '%'
      · subst hc
        match rest, h with
        | [], _ => rfl
        | g :: rest2, h =>
          by_cases hg0 : g = Char.ofNat 0
          · subst hg0; rfl
          · rw [c_str_cons_ne g hg0]
            by_cases hg : g ≠ 'E' ∧ g ≠ 'O'
            · rw [withoutDay_cons_conv g hg] at h ⊢
              simp only [Bool.and_eq_true] at h ⊢
              exact ⟨h.1, withoutDay_c_str rest2 h.2⟩
            · match rest2, h with
              | [], _ =>
                have e : c_str ([] : List Char) = [] := rfl
                rw [e, Spec.patternWithoutDay.eq_def]
                simp only [ne_eq, not_true_eq_false, if_false]
                rw [if_neg hg]
              | k :: rest3, h =>
                by_cases hk0 : k = Char.ofNat 0
                · subst hk0
                  have e : c_str (Char.ofNat 0 :: rest3) = [] := rfl
                  rw [e, Spec.patternWithoutDay.eq_def]
                  simp only [ne_eq, not_true_eq_false, if_false]
                  rw [if_neg hg]
                · rw [c_str_cons_ne k hk0]
                  rw [withoutDay_cons_mod g hg] at h ⊢
                  simp only [Bool.and_eq_true] at h ⊢
                  exact ⟨h.1, withoutDay_c_str rest3 h.2⟩
      · rw [withoutDay_cons_ne c hc] at h ⊢
        exact withoutDay_c_str rest h

/-- The manipulator `get_time` with a pattern that yields no day of the month leaves the
day of the month of a zeroed struct at 0. -/
theorem get_time_noDay (lib : TimeLibrary) (input p : List Char) (r : Tm)
    (hp : Spec.patternWithoutDay p = true)
    (h : get_time lib input (c_str p) Tm.zero = some r) : r.tm_mday = 0 := by
  have hq := withoutDay_c_str p hp
  unfold get_time at h
  split at h
  · cases h
  · split at h
    · rename_i s2 t2 st2 hl
      have hd := getLoop_noDay lib _ _ _ _ _ s2 t2 st2 hq ⟨rfl, rfl, rfl, rfl⟩ hl
      simp only [Option.some.injEq] at h
      rw [← h, finalizeState_noDay lib st2 t2 hd.2.1 hd.2.2.1 hd.2.2.2]
      exact hd.1
    · cases h

end CLib

/-! ## The fuel of the loops of `get_time` -/

namespace CLib

/-- What `afterField` goes on with is the rest of the format it was given. -/
theorem afterField_next (r : Option (List Char × Tm × TimeGetState)) (fs f2 i2 : List Char)
    (t2 : Tm) (st2 : TimeGetState) (h : afterField r fs = GetStep.next f2 i2 t2 st2) :
    f2 = fs := by
  unfold afterField at h
  split at h
  · cases h
  · split_ifs at h
    cases h
    rfl

/-- Every iteration of the loop of `time_get::get` that goes on shortens the format. -/
theorem getStep_next_length (lib : TimeLibrary) (format input : List Char) (t : Tm)
    (st : TimeGetState) (f2 i2 : List Char) (t2 : Tm) (st2 : TimeGetState)
    (h : getStep lib format input t st = GetStep.next f2 i2 t2 st2) :
    f2.length < format.length := by
  rw [getStep.eq_def] at h
  match format, input, h with
  | [], _, h => cases h
  | _ :: _, [], h => cases h
  | f :: fs, c :: cs, h =>
    simp only at h
    split_ifs at h with h1 h2 h3
    · match fs, h with
      | [], h => cases h
      | g :: fs2, h =>
        simp only at h
        split_ifs at h with h4
        · have e := afterField_next _ _ _ _ _ _ h
          rw [e]
          simp only [List.length_cons]
          omega
        · match fs2, h with
          | [], h => cases h
          | k :: fs3, h =>
            have e := afterField_next _ _ _ _ _ _ h
            rw [e]
            simp only [List.length_cons]
            omega
    · cases h
      have := (List.dropWhile_sublist (l := fs) isSpace).length_le
      simp only [List.length_cons]
      omega
    · cases h
      simp only [List.length_cons]
      omega

/-- The result of the loop of `time_get::get` does not depend on the fuel, once the fuel
is above the length of the format: the loop never runs out of it. -/
theorem getLoop_fuel (lib : TimeLibrary) : ∀ (fuel1 fuel2 : Nat) (format input : List Char)
    (t : Tm) (st : TimeGetState), format.length < fuel1 → format.length < fuel2 →
    getLoop lib fuel1 format input t st = getLoop lib fuel2 format input t st
  | 0, _, _, _, _, _, h1, _ => absurd h1 (Nat.not_lt_zero _)
  | _ + 1, 0, _, _, _, _, _, h2 => absurd h2 (Nat.not_lt_zero _)
  | fuel1 + 1, fuel2 + 1, format, input, t, st, h1, h2 => by
    rw [getLoop.eq_2, getLoop.eq_2]
    cases hs : getStep lib format input t st with
    | done r => rfl
    | next f2 i2 t2 st2 =>
      have hl := getStep_next_length lib format input t st f2 i2 t2 st2 hs
      exact getLoop_fuel lib fuel1 fuel2 f2 i2 t2 st2 (by omega) (by omega)

/-- Every iteration of the loop over an expanded format that goes on shortens the
format. -/
theorem expandedStep_next_length (lib : TimeLibrary) (format input : List Char) (t : Tm)
    (st : TimeGetState) (f2 i2 : List Char) (t2 : Tm) (st2 : TimeGetState)
    (h : expandedStep lib format input t st = GetStep.next f2 i2 t2 st2) :
    f2.length < format.length := by
  rw [expandedStep.eq_def] at h
  match format, input, h with
  | [], _, h => cases h
  | _ :: _, [], h => cases h
  | f :: fs, c :: cs, h =>
    simp only at h
    split_ifs at h with h1 h2 h3
    · match fs, h with
      | [], h => cases h
      | g :: fs2, h =>
        simp only at h
        split_ifs at h with h4
        · split at h
          · cases h
          · cases h
            simp only [List.length_cons]
            omega
        · match fs2, h with
          | [], h => cases h
          | k :: fs3, h =>
            simp only at h
            split at h
            · cases h
            · cases h
              simp only [List.length_cons]
              omega
    · cases h
      simp only [List.length_cons]
      omega
    · cases h
      simp only [List.length_cons]
      omega

/-- The result of the loop over an expanded format does not depend on the fuel, once the
fuel is above the length of the format: the loop never runs out of it. -/
theorem expandedLoop_fuel (lib : TimeLibrary) : ∀ (fuel1 fuel2 : Nat)
    (format input : List Char) (t : Tm) (st : TimeGetState),
    format.length < fuel1 → format.length < fuel2 →
    expandedLoop lib fuel1 format input t st = expandedLoop lib fuel2 format input t st
  | 0, _, _, _, _, _, h1, _ => absurd h1 (Nat.not_lt_zero _)
  | _ + 1, 0, _, _, _, _, _, h2 => absurd h2 (Nat.not_lt_zero _)
  | fuel1 + 1, fuel2 + 1, format, input, t, st, h1, h2 => by
    rw [expandedLoop.eq_2, expandedLoop.eq_2]
    cases hs : expandedStep lib format input t st with
    | done r => rfl
    | next f2 i2 t2 st2 =>
      have hl := expandedStep_next_length lib format input t st f2 i2 t2 st2 hs
      exact expandedLoop_fuel lib fuel1 fuel2 f2 i2 t2 st2 (by omega) (by omega)

end CLib

/-! ## Formatting and parsing of a `DateTime` -/

namespace DateTime

/-- The default rendering of the whole-second instant that valid fields denote in a
region. -/
theorem toString_of_civil (lib : CLib.TimeLibrary) (y m d h mi s : Int) (R : RegionTime)
    (hdate : isValidDate y m d = true) (htime : isValidTime h mi s 0 = true)
    (hR : Spec.offsetInRange R) (x : DateTime)
    (hx : x = { dt_clockPoint := Spec.instantTicks y m d h mi s 0 R, dt_timeRegion := R }) :
    x.toString lib defaultFormat = Spec.isoText y m d h mi s := by
  obtain ⟨hy1, hy2, hm1, hm2, hd1, hd2⟩ := (isValidDate_iff y m d).mp hdate
  obtain ⟨hh1, hh2, hmi1, hmi2, hs1, hs2, _, _⟩ := (isValidTime_iff h mi s 0).mp htime
  obtain ⟨k1, k2, k3, k4, k5, k6, _⟩ :=
    getRegionAdjustedTime_of_civil y m d h mi s R hR hm1 hm2 hd1 hd2 hh1 (by omega) hmi1
      (by omega) hs1 (by omega) x hx
  have hd3 : d ≤ 31 := by
    have := lastDayOfMonth_le y m
    omega
  have e1 : y - 1900 + 1900 = y := by omega
  have e2 : m - 1 + 1 = m := by omega
  unfold toString
  simp only []
  rw [CLib.put_time_defaultFormat, k1, k2, k3, k4, k5, k6, e1, e2,
    CLib.zeroPadded_year 1 y (by omega) (by omega) (by omega),
    CLib.zeroPadded_two m (by omega) (by omega), CLib.zeroPadded_two d (by omega) (by omega),
    CLib.zeroPadded_two h (by omega) (by omega), CLib.zeroPadded_two mi (by omega) (by omega),
    CLib.zeroPadded_two s (by omega) (by omega)]
  rfl

/-- The text `YYYY-MM-DD HH:MM:SS` of valid fields, parsed with the default pattern. -/
theorem parse_isoText (lib : CLib.TimeLibrary) (y m d h mi s : Int)
    (hdate : isValidDate y m d = true) (htime : isValidTime h mi s 0 = true) :
    parse lib (Spec.isoText y m d h mi s) defaultFormat
      = some (fromFields y m d h mi s 0 WorldTime) := by
  obtain ⟨hy1, hy2, hm1, hm2, hd1, hd2⟩ := (isValidDate_iff y m d).mp hdate
  obtain ⟨hh1, hh2, hmi1, hmi2, hs1, hs2, _, _⟩ := (isValidTime_iff h mi s 0).mp htime
  have hd3 : d ≤ 31 := by
    have := lastDayOfMonth_le y m
    omega
  have e1 : y - 1900 + 1900 = y := by omega
  have e2 : m - 1 + 1 = m := by omega
  unfold parse
  rw [CLib.get_time_isoText lib y m d h mi s (by omega) hy2 hm1 hm2 hd1 hd3 hh1 hh2 hmi1 hmi2
    hs1 hs2]
  simp only [CLib.day_of_the_year, CLib.day_of_the_week, e1, e2, hdate, htime, Bool.not_true,
    Bool.or_self, Bool.false_eq_true, if_false]

/-- What `parse` returns: nothing, or the value built in WorldTime from valid extracted
fields. -/
theorem parse_eq_some (lib : CLib.TimeLibrary) (text pattern : List Char) (v : DateTime)
    (h : parse lib text pattern = some v) :
    ∃ t : Tm, CLib.get_time lib text (CLib.c_str pattern) Tm.zero = some t ∧
      isValidDate (t.tm_year + 1900) (t.tm_mon + 1) t.tm_mday = true ∧
      isValidTime t.tm_hour t.tm_min t.tm_sec 0 = true ∧
      v = fromFields (t.tm_year + 1900) (t.tm_mon + 1) t.tm_mday t.tm_hour t.tm_min t.tm_sec
            0 WorldTime := by
  unfold parse at h
  cases hg : CLib.get_time lib text (CLib.c_str pattern) Tm.zero with
  | none => rw [hg] at h; cases h
  | some t =>
    rw [hg] at h
    simp only at h
    cases hd : isValidDate (t.tm_year + 1900) (t.tm_mon + 1) t.tm_mday <;>
      cases ht : isValidTime t.tm_hour t.tm_min t.tm_sec 0 <;>
      simp [hd, ht] at h
    exact ⟨t, rfl, hd, ht, h.symm⟩

end DateTime

/-! ## Fields of shifted values -/

namespace DateTime

/-- The getters of `x.plusMonths n` when the clock holds `x` and the instant of the target
fields. -/
theorem getters_plusMonths (x : DateTime) (n : Int) (hR : Spec.offsetInRange x.dt_timeRegion)
    (hx : Spec.fitsClock x.dt_clockPoint)
    (hfit : Spec.fitsClock
      (Spec.instantTicks (x.getYear + (x.getMonth - 1 + n) / 12)
        ((x.getMonth - 1 + n) % 12 + 1)
        (min x.getDay
          (Spec.lastDayOfMonth (x.getYear + (x.getMonth - 1 + n) / 12)
            ((x.getMonth - 1 + n) % 12 + 1)))
        x.getHour x.getMinute x.getSecond 0 x.dt_timeRegion)) :
    (x.plusMonths n).getYear = x.getYear + (x.getMonth - 1 + n) / 12 ∧
    (x.plusMonths n).getMonth = (x.getMonth - 1 + n) % 12 + 1 ∧
    (x.plusMonths n).getDay
      = min x.getDay
          (Spec.lastDayOfMonth (x.getYear + (x.getMonth - 1 + n) / 12)
            ((x.getMonth - 1 + n) % 12 + 1)) ∧
    (x.plusMonths n).getHour = x.getHour ∧
    (x.plusMonths n).getMinute = x.getMinute ∧
    (x.plusMonths n).getSecond = x.getSecond := by
  obtain ⟨hm1, hm2, hd1, hd2, hh1, hh2, hmi1, hmi2, hs1, hs2⟩ := getRegionAdjustedTime_valid x
  have hM1 : 1 ≤ (x.getMonth - 1 + n) % 12 + 1 := by omega
  have hM2 : (x.getMonth - 1 + n) % 12 + 1 ≤ 12 := by omega
  exact getters_of_civil _ _ _ _ _ _ x.dt_timeRegion hR hM1 hM2
    (le_min hd1 (by
      have := lastDayOfMonth_ge (x.getYear + (x.getMonth - 1 + n) / 12)
        ((x.getMonth - 1 + n) % 12 + 1) hM1 hM2
      omega))
    (min_le_right _ _) hh1 hh2 hmi1 hmi2 hs1 hs2 _ (plusMonths_exact x n hR hx hfit)

/-- The getters of `x.plusYears n` when the day of `x` exists in the target year and the
clock holds the instant of the target fields. -/
theorem getters_plusYears (x : DateTime) (n : Int) (hR : Spec.offsetInRange x.dt_timeRegion)
    (hfit : Spec.fitsClock
      (Spec.instantTicks (x.getYear + n) x.getMonth x.getDay x.getHour x.getMinute x.getSecond
        0 x.dt_timeRegion))
    (h : ¬ (x.getMonth = 2 ∧ x.getDay = 29) ∨ Spec.isLeapYear (x.getYear + n)) :
    (x.plusYears n).getYear = x.getYear + n ∧
    (x.plusYears n).getMonth = x.getMonth ∧
    (x.plusYears n).getDay = x.getDay ∧
    (x.plusYears n).getHour = x.getHour ∧
    (x.plusYears n).getMinute = x.getMinute ∧
    (x.plusYears n).getSecond = x.getSecond := by
  obtain ⟨hm1, hm2, hd1, hd2, hh1, hh2, hmi1, hmi2, hs1, hs2⟩ := getRegionAdjustedTime_valid x
  have hM1 : 1 ≤ x.getMonth := by unfold getMonth; omega
  have hM2 : x.getMonth ≤ 12 := by unfold getMonth; omega
  obtain ⟨l1, l2, l3, l4⟩ := lastDayOfMonth_year x.getYear (x.getYear + n) x.getMonth
  have hlast : x.getDay ≤ Spec.lastDayOfMonth (x.getYear + n) x.getMonth := by
    have hd2b : x.getDay ≤ Spec.lastDayOfMonth x.getYear x.getMonth := hd2
    by_cases hfeb : x.getMonth = 2
    · rw [hfeb] at hd2b ⊢
      rcases h with h | h
      · have : x.getDay ≠ 29 := fun hc => h ⟨hfeb, hc⟩
        omega
      · rw [l4 h]
        omega
    · rw [l1 hfeb]
      exact hd2b
  exact getters_of_civil _ _ _ _ _ _ x.dt_timeRegion hR hM1 hM2 hd1 hlast hh1 hh2 hmi1 hmi2
    hs1 hs2 _ (plusYears_exact x n hR hfit)

end DateTime

/-! ## Instants in the arithmetic of the clock -/

namespace DateTime

/-- The value the field constructor builds from a date of the calendar, whether or not the
clock holds the instant: the tick count is reduced to the range of the clock. -/
theorem fromFields_valid_wrap (y m d h mi s ms : Int) (R : RegionTime)
    (hy1 : 1900 ≤ y) (hy2 : y ≤ 9999) (hm1 : 1 ≤ m) (hm2 : m ≤ 12)
    (hR : Spec.offsetInRange R) :
    fromFields y m d h mi s ms R =
      { dt_clockPoint := Machine.wrapLong (Spec.instantTicks y m d h mi s ms R)
        dt_timeRegion := R } := by
  obtain ⟨_, hneg⟩ := regionOffsetValue_of_inRange R hR
  have e1 : Machine.wrapInt (y - 1900) = y - 1900 := Machine.wrapInt_eq _ (by omega) (by omega)
  have e2 : Machine.wrapInt (m - 1) = m - 1 := Machine.wrapInt_eq _ (by omega) (by omega)
  have hq : (m - 1) / 12 = 0 := by omega
  have hr : (m - 1) % 12 + 1 = m := by omega
  have e3 : y - 1900 + 1900 + 0 = y := by omega
  simp only [fromFields, e1, e2, hneg, CLib.timegm_eq, Tm.zero, hq, hr, e3, Chrono.plus,
    Chrono.from_time_t, Chrono.milliseconds, Chrono.ticksPerSecond, Chrono.ticksPerMillisecond]
  rw [Machine.wrapLong_add]
  unfold Spec.instantTicks
  rw [← secondsSinceEpoch_eq y m d h mi s hm1 hm2]
  congr 2

/-- The value `plusDays` returns for a number of days whose 24-fold is a value of `int`:
the tick count is shifted and reduced to the range of the clock. -/
theorem plusDays_wrap (x : DateTime) (n : Int) (hn : Spec.fitsInt (24 * n)) :
    x.plusDays n =
      { dt_clockPoint := Machine.wrapLong (x.dt_clockPoint + n * 86400000000000)
        dt_timeRegion := x.dt_timeRegion } := by
  have e1 : Machine.wrapInt (24 * n) = 24 * n := Machine.wrapInt_eq _ hn.1 hn.2
  have e2 : 24 * n * (3600 * 1000000000) = n * 86400000000000 := by omega
  simp only [plusDays, fromTimePoint, Chrono.hours, Chrono.ticksPerSecond, e1, e2, Chrono.plus]
  rw [Machine.wrapLong_add_right]

/-- Applying `plusDays 1` `k` times shifts the tick count by `k` days, reduced to the
range of the clock. -/
theorem iterate_plusDays_one (k : Nat) (x : DateTime) (hx : Spec.fitsClock x.dt_clockPoint) :
    Nat.iterate (fun z : DateTime => z.plusDays 1) k x =
      { dt_clockPoint := Machine.wrapLong (x.dt_clockPoint + (k : Int) * 86400000000000)
        dt_timeRegion := x.dt_timeRegion } := by
  induction k generalizing x with
  | zero =>
    obtain ⟨t, r⟩ := x
    simp only [Function.iterate_zero, id_eq, Nat.cast_zero, Int.zero_mul, Int.add_zero]
    rw [Machine.wrapLong_eq _ hx.1 hx.2]
  | succ k ih =>
    rw [Function.iterate_succ_apply, plusDays_wrap x 1 (by decide)]
    have hw : Spec.fitsClock
        ({ dt_clockPoint := Machine.wrapLong (x.dt_clockPoint + 1 * 86400000000000)
           dt_timeRegion := x.dt_timeRegion } : DateTime).dt_clockPoint :=
      Machine.wrapLong_range _
    rw [ih _ hw]
    simp only [DateTime.mk.injEq, and_true]
    rw [Machine.wrapLong_add_left]
    congr 1
    push_cast
    omega

/-- The value `plusSeconds` returns: the tick count is shifted and reduced to the range of
the clock. -/
theorem plusSeconds_wrap (x : DateTime) (n : Int) :
    x.plusSeconds n =
      { dt_clockPoint := Machine.wrapLong (x.dt_clockPoint + n * 1000000000)
        dt_timeRegion := x.dt_timeRegion } := by
  simp only [plusSeconds, fromTimePoint, Chrono.seconds, Chrono.ticksPerSecond, Chrono.plus]
  rw [Machine.wrapLong_add_right]

/-- The value `plusMilliseconds` returns: the tick count is shifted and reduced to the
range of the clock. -/
theorem plusMilliseconds_wrap (x : DateTime) (n : Int) :
    x.plusMilliseconds n =
      { dt_clockPoint := Machine.wrapLong (x.dt_clockPoint + n * 1000000)
        dt_timeRegion := x.dt_timeRegion } := by
  simp only [plusMilliseconds, fromTimePoint, Chrono.milliseconds, Chrono.ticksPerMillisecond,
    Chrono.plus]
  rw [Machine.wrapLong_add_right]

/-- The instant of the first of January of the year after `y`. -/
theorem instantTicks_next_year (y : Int) :
    Spec.instantTicks y 1 1 0 0 0 0 WorldTime
        + (if Spec.isLeapYear y then 366 else 365) * 86400000000000
      = Spec.instantTicks (y + 1) 1 1 0 0 0 0 WorldTime := by
  have h := CLib.daysFromCivil_year_length y
  rw [CLib.daysFromCivil_eq_daysSinceEpoch y 1 1 (by omega) (by omega),
    CLib.daysFromCivil_eq_daysSinceEpoch (y + 1) 1 1 (by omega) (by omega)] at h
  simp only [Spec.instantTicks, Spec.secondsSinceEpoch, Spec.totalOffset, WorldTime]
  split_ifs at h ⊢ <;> omega

/-- The first of January of a year from 1677 to 2262 is an instant the clock holds. -/
theorem fitsClock_january (y : Int) (h1 : 1678 ≤ y) (h2 : y ≤ 2262) :
    Spec.fitsClock (Spec.instantTicks y 1 1 0 0 0 0 WorldTime) := by
  have h := CLib.daysFromCivil_eq_daysSinceEpoch y 1 1 (by omega) (by omega)
  simp only [Spec.instantTicks, Spec.secondsSinceEpoch, Spec.totalOffset, WorldTime, ← h,
    Spec.fitsClock, CLib.daysFromCivil]
  omega

/-- Adding to the day of the fields shifts their instant by as many days. -/
theorem instantTicks_add_day (y m d k h mi s ms : Int) (R : RegionTime) :
    Spec.instantTicks y m (d + k) h mi s ms R
      = Spec.instantTicks y m d h mi s ms R + k * 86400000000000 := by
  simp only [Spec.instantTicks, Spec.secondsSinceEpoch, Spec.daysSinceEpoch]
  omega

/-- The instant of the day after the last day of a month is that of the first day of the
next month. -/
theorem instantTicks_month_end (y m h mi s ms : Int) (R : RegionTime)
    (hm1 : 1 ≤ m) (hm2 : m ≤ 12) :
    Spec.instantTicks y m (Spec.lastDayOfMonth y m + 1) h mi s ms R
      = if m < 12 then Spec.instantTicks y (m + 1) 1 h mi s ms R
        else Spec.instantTicks (y + 1) 1 1 h mi s ms R := by
  have hend := CLib.daysFromCivil_month_end y m hm1 hm2
  rw [CLib.daysFromCivil_eq_daysSinceEpoch _ _ _ hm1 hm2] at hend
  by_cases h12 : m < 12
  · rw [if_pos h12] at hend ⊢
    rw [CLib.daysFromCivil_eq_daysSinceEpoch _ _ _ (by omega) (by omega)] at hend
    simp only [Spec.instantTicks, Spec.secondsSinceEpoch, hend]
  · rw [if_neg h12] at hend ⊢
    rw [CLib.daysFromCivil_eq_daysSinceEpoch _ _ _ (by omega) (by omega)] at hend
    simp only [Spec.instantTicks, Spec.secondsSinceEpoch, hend]

/-- The value built from valid fields and advanced by `k` days, when the 24-fold of `k` is
a value of `int` and the clock holds the shifted instant. -/
theorem fromFields_plusDays (y m d h mi s k : Int) (R : RegionTime)
    (hy1 : 1900 ≤ y) (hy2 : y ≤ 9999) (hm1 : 1 ≤ m) (hm2 : m ≤ 12)
    (hR : Spec.offsetInRange R) (hk : Spec.fitsInt (24 * k))
    (hfit : Spec.fitsClock (Spec.instantTicks y m (d + k) h mi s 0 R)) :
    (fromFields y m d h mi s 0 R).plusDays k =
      { dt_clockPoint := Spec.instantTicks y m (d + k) h mi s 0 R, dt_timeRegion := R } := by
  rw [fromFields_valid_wrap y m d h mi s 0 R hy1 hy2 hm1 hm2 hR, plusDays_wrap _ k hk]
  simp only [DateTime.mk.injEq, and_true]
  rw [Machine.wrapLong_add_left, ← instantTicks_add_day]
  exact Machine.wrapLong_eq _ hfit.1 hfit.2

end DateTime

/-! ## Year and month arithmetic in the arithmetic of the clock -/

namespace DateTime

/-- The whole seconds of a tick count that the clock holds are a tick count that the clock
holds. -/
theorem fitsClock_to_time_t (t : Int) (h : Spec.fitsClock t) :
    Spec.fitsClock (Chrono.to_time_t t * 1000000000) := by
  unfold Spec.fitsClock at h ⊢
  unfold Chrono.to_time_t Chrono.ticksPerSecond
  by_cases h0 : 0 ≤ t
  · rw [tdiv_of_nonneg t _ h0 (by omega)]
    omega
  · rw [tdiv_of_nonpos t _ (by omega) (by omega)]
    omega

/-- The instant that the region-local fields of a value denote in its region is the whole
second of the value. -/
theorem instantTicks_own_fields (x : DateTime) (hR : Spec.offsetInRange x.dt_timeRegion) :
    Spec.instantTicks x.getYear x.getMonth x.getDay x.getHour x.getMinute x.getSecond 0
        x.dt_timeRegion
      = Chrono.to_time_t x.dt_clockPoint * 1000000000 := by
  obtain ⟨hm1, hm2, hd1, hd2, hh1, hh2, hmi1, hmi2, hs1, hs2⟩ := getRegionAdjustedTime_valid x
  obtain ⟨hrov, _⟩ := regionOffsetValue_of_inRange _ hR
  obtain ⟨tv, htv⟩ : ∃ tv : Int, tv = Chrono.to_time_t x.dt_clockPoint
      + regionOffsetValue x.dt_timeRegion := ⟨_, rfl⟩
  have hg : x.getRegionAdjustedTime = CLib.gmtime_r tv := by
    rw [htv]
    rfl
  have hback := (CLib.gmtime_r_spec tv).2.2.2.2.2.2.2.2.2.2.2.2
  rw [← hg, CLib.timegm_eq] at hback
  simp only [getYear, getMonth, getDay, getHour, getMinute, getSecond]
  obtain ⟨t0, ht0⟩ : ∃ t0, t0 = x.getRegionAdjustedTime := ⟨_, rfl⟩
  rw [← ht0] at hback hm1 hm2 ⊢
  have e1 : t0.tm_mon / 12 = 0 := by omega
  have e2 : t0.tm_mon % 12 = t0.tm_mon := by omega
  rw [e1, e2, Int.add_zero] at hback
  unfold Spec.instantTicks
  rw [← secondsSinceEpoch_eq _ _ _ _ _ _ (by omega) (by omega), hback, htv, hrov]
  omega

/-- The value `plusYears` returns when the year sum is a value of `int`: the `time_t` of
the target fields, moved by the negated offset of the region and counted in ticks in the
arithmetic of the clock. -/
theorem plusYears_wrap (x : DateTime) (n : Int)
    (hy : Spec.fitsInt (x.getYear - 1900 + n)) :
    x.plusYears n =
      { dt_clockPoint :=
          Chrono.from_time_t
            (CLib.daysFromCivil (x.getYear + n) x.getMonth x.getDay * 86400
              + x.getHour * 3600 + x.getMinute * 60 + x.getSecond
              + Machine.wrapInt (-1 * regionOffsetValue x.dt_timeRegion))
        dt_timeRegion := x.dt_timeRegion } := by
  obtain ⟨hm1, hm2, hd1, hd2, hh1, hh2, hmi1, hmi2, hs1, hs2⟩ := getRegionAdjustedTime_valid x
  simp only [getYear, getMonth, getDay, getHour, getMinute, getSecond] at hy ⊢
  obtain ⟨t0, ht0⟩ : ∃ t0, t0 = x.getRegionAdjustedTime := ⟨_, rfl⟩
  rw [← ht0] at hy hm1 hm2 ⊢
  have e0 : t0.tm_year + 1900 - 1900 + n = t0.tm_year + n := by omega
  rw [e0] at hy
  have e1 : Machine.wrapInt (t0.tm_year + n) = t0.tm_year + n :=
    Machine.wrapInt_eq _ hy.1 hy.2
  have hq : t0.tm_mon / 12 = 0 := by omega
  have hr : t0.tm_mon % 12 = t0.tm_mon := by omega
  have e3 : t0.tm_year + n + 1900 + 0 = t0.tm_year + 1900 + n := by omega
  simp only [plusYears, fromTimePoint, ← ht0, e1, CLib.timegm_eq, hq, hr, e3]

/-- The value `plusMonths` returns when the month sum is a value of `int`: the `time_t` of
the target fields, moved by the negated offset of the region and counted in ticks in the
arithmetic of the clock. -/
theorem plusMonths_wrap (x : DateTime) (n : Int)
    (hm : Spec.fitsInt (x.getMonth - 1 + n)) :
    x.plusMonths n =
      { dt_clockPoint :=
          Chrono.from_time_t
            (CLib.daysFromCivil (x.getYear + (x.getMonth - 1 + n) / 12)
                ((x.getMonth - 1 + n) % 12 + 1)
                (min x.getDay
                  (Spec.lastDayOfMonth (x.getYear + (x.getMonth - 1 + n) / 12)
                    ((x.getMonth - 1 + n) % 12 + 1))) * 86400
              + x.getHour * 3600 + x.getMinute * 60 + x.getSecond
              + Machine.wrapInt (-1 * regionOffsetValue x.dt_timeRegion))
        dt_timeRegion := x.dt_timeRegion } := by
  simp only [getYear, getMonth, getDay, getHour, getMinute, getSecond] at hm ⊢
  obtain ⟨t0, ht0⟩ : ∃ t0, t0 = x.getRegionAdjustedTime := ⟨_, rfl⟩
  rw [← ht0] at hm ⊢
  have eN : t0.tm_mon + 1 - 1 + n = t0.tm_mon + n := by omega
  rw [eN] at hm ⊢
  have e1 : Machine.wrapInt (t0.tm_mon + n) = t0.tm_mon + n := Machine.wrapInt_eq _ hm.1 hm.2
  obtain ⟨ym, hym⟩ : ∃ ym : Int × Int, ym =
      if t0.tm_mon + n ≥ 12 then
        (t0.tm_year + Int.tdiv (t0.tm_mon + n) 12, Int.tmod (t0.tm_mon + n) 12)
      else if t0.tm_mon + n < 0 then
        (t0.tm_year + (Int.tdiv (t0.tm_mon + n) 12 - 1), 12 + Int.tmod (t0.tm_mon + n) 12)
      else (t0.tm_year, t0.tm_mon + n) := ⟨_, rfl⟩
  obtain ⟨maxDay, hmax⟩ : ∃ maxDay : Int, maxDay =
      if ym.2 = 1 then
        if (Int.tmod (ym.1 + 1900) 4 = 0 ∧ Int.tmod (ym.1 + 1900) 100 ≠ 0)
            ∨ Int.tmod (ym.1 + 1900) 400 = 0 then 29
        else 28
      else if ym.2 = 3 ∨ ym.2 = 5 ∨ ym.2 = 8 ∨ ym.2 = 10 then 30
      else 31 := ⟨_, rfl⟩
  obtain ⟨g1, g2, g3⟩ := plusMonths_target t0.tm_year (t0.tm_mon + n) ym.1 ym.2 hym
  rw [← hmax] at g3
  have e2 : ym.1 + 1900 + ym.2 / 12 = t0.tm_year + 1900 + (t0.tm_mon + n) / 12 := by omega
  have e3 : ym.2 % 12 + 1 = (t0.tm_mon + n) % 12 + 1 := by omega
  simp only [plusMonths, fromTimePoint, CLib.timegm_eq, ← ht0, e1, ← hym, ← hmax]
  rw [e2, e3, g3]

/-- The value the field constructor builds from a month in 1..12, a day in 1..31 and a
time of day, when the clock holds the instant: the year is then within a few centuries of
1970. -/
theorem fromFields_of_fits (y m d h mi s : Int) (R : RegionTime)
    (hm1 : 1 ≤ m) (hm2 : m ≤ 12) (hd1 : 1 ≤ d) (hd2 : d ≤ 31)
    (hh1 : 0 ≤ h) (hh2 : h < 24) (hmi1 : 0 ≤ mi) (hmi2 : mi < 60)
    (hs1 : 0 ≤ s) (hs2 : s < 60) (hR : Spec.offsetInRange R)
    (hfit : Spec.fitsClock (Spec.instantTicks y m d h mi s 0 R)) :
    fromFields y m d h mi s 0 R =
      { dt_clockPoint := Spec.instantTicks y m d h mi s 0 R, dt_timeRegion := R } := by
  have hT : Spec.instantTicks y m d h mi s 0 R
      = (CLib.daysFromCivil y m d * 86400 + (h * 3600 + mi * 60 + s) - Spec.totalOffset R)
          * 1000000000 := by
    unfold Spec.instantTicks
    rw [← secondsSinceEpoch_eq _ _ _ _ _ _ hm1 hm2]
    omega
  have hRr := hR
  unfold Spec.offsetInRange at hRr
  have hfit2 := hfit
  rw [hT] at hfit2
  obtain ⟨y1, y2⟩ := year_of_fitsClock y m d (h * 3600 + mi * 60 + s) (Spec.totalOffset R)
    hm1 hm2 hd1 hd2 (by omega) (by omega) (by omega) (by omega) hfit2
  have e1 : (m - 1) / 12 = 0 := by omega
  have e2 : (m - 1) % 12 + 1 = m := by omega
  have key := fromFields_exact y m d h mi s 0 R (by unfold Spec.fitsInt; omega)
    (by unfold Spec.fitsInt; omega) hR
    (by rw [e1, e2, Int.add_zero, secondsSinceEpoch_eq y m d h mi s hm1 hm2]; exact hfit)
  rw [key, e1, e2, Int.add_zero, secondsSinceEpoch_eq y m d h mi s hm1 hm2]
  rfl

/-- The instant of fields without a millisecond is a whole second: its millisecond is 0. -/
theorem getMillisecond_instant (y m d h mi s : Int) (R R2 : RegionTime) :
    getMillisecond { dt_clockPoint := Spec.instantTicks y m d h mi s 0 R, dt_timeRegion := R2 }
      = 0 := by
  have e : Spec.instantTicks y m d h mi s 0 R
      = (Spec.secondsSinceEpoch y m d h mi s - Spec.totalOffset R) * 1000000000 := by
    unfold Spec.instantTicks
    omega
  rw [e]
  exact getMillisecond_wholeSecond _ _

/-- The tick count of a constructed value: the `time_t` of the fields, which does not
depend on the region, moved by the negated offset of the region and counted in ticks, plus
the milliseconds, in the arithmetic of the clock. -/
theorem fromFields_clockPoint_region (y m d h mi s ms : Int) :
    ∃ T : Int, ∀ R : RegionTime,
      (fromFields y m d h mi s ms R).dt_clockPoint
        = Machine.wrapLong
            ((T + Machine.wrapInt (-1 * regionOffsetValue R)) * 1000000000 + ms * 1000000) := by
  refine ⟨CLib.timegm
    { Tm.zero with
      tm_year := Machine.wrapInt (y - 1900)
      tm_mon := Machine.wrapInt (m - 1)
      tm_mday := d
      tm_hour := h
      tm_min := mi
      tm_sec := s }, fun R => ?_⟩
  simp only [fromFields, Chrono.plus, Chrono.from_time_t, Chrono.milliseconds,
    Chrono.ticksPerSecond, Chrono.ticksPerMillisecond]
  rw [Machine.wrapLong_add]

/-- The value `plusMonths 0` returns for a value the clock holds: the whole second of the
value. -/
theorem plusMonths_zero (x : DateTime) (hR : Spec.offsetInRange x.dt_timeRegion)
    (hx : Spec.fitsClock x.dt_clockPoint) :
    x.plusMonths 0 =
      { dt_clockPoint := Chrono.to_time_t x.dt_clockPoint * 1000000000
        dt_timeRegion := x.dt_timeRegion } := by
  obtain ⟨hm1, hm2, hd1, hd2, hh1, hh2, hmi1, hmi2, hs1, hs2⟩ := getRegionAdjustedTime_valid x
  have hown := instantTicks_own_fields x hR
  have hsec := fitsClock_to_time_t x.dt_clockPoint hx
  have hM1 : 1 ≤ x.getMonth := by unfold getMonth; omega
  have hM2 : x.getMonth ≤ 12 := by unfold getMonth; omega
  have e1 : x.getYear + (x.getMonth - 1 + 0) / 12 = x.getYear := by omega
  have e2 : (x.getMonth - 1 + 0) % 12 + 1 = x.getMonth := by omega
  have e3 : min x.getDay (Spec.lastDayOfMonth x.getYear x.getMonth) = x.getDay :=
    min_eq_left hd2
  have h := plusMonths_exact x 0 hR hx (by rw [e1, e2, e3, hown]; exact hsec)
  rw [e1, e2, e3, hown] at h
  exact h

/-- The region-local fields of the whole second of a value are those of the value. -/
theorem getRegionAdjustedTime_wholeSecondOf (x : DateTime) :
    getRegionAdjustedTime
        { dt_clockPoint := Chrono.to_time_t x.dt_clockPoint * 1000000000
          dt_timeRegion := x.dt_timeRegion }
      = x.getRegionAdjustedTime := by
  rw [getRegionAdjustedTime_seconds]
  rfl

/-- Two successive `plusMonths` on a day of the month up to 28, when the clock holds the
value in between and the month sums are values of `int`: the second call starts from the
target fields of the first, and the result is that of one call with the sum. -/
theorem plusMonths_plusMonths (x : DateTime) (a b : Int)
    (hR : Spec.offsetInRange x.dt_timeRegion) (hx : Spec.fitsClock x.dt_clockPoint)
    (hday : x.getDay ≤ 28)
    (hfit : Spec.fitsClock
      (Spec.instantTicks (x.getYear + (x.getMonth - 1 + a) / 12)
        ((x.getMonth - 1 + a) % 12 + 1) x.getDay x.getHour x.getMinute x.getSecond 0
        x.dt_timeRegion))
    (h1 : Spec.fitsInt ((x.getMonth - 1 + a) % 12 + b))
    (h2 : Spec.fitsInt (x.getMonth - 1 + (a + b))) :
    (x.plusMonths a).plusMonths b = x.plusMonths (a + b) := by
  obtain ⟨hm1, hm2, hd1, hd2, hh1, hh2, hmi1, hmi2, hs1, hs2⟩ := getRegionAdjustedTime_valid x
  have hD1 : 1 ≤ x.getDay := hd1
  have hmin : ∀ Y M : Int, min x.getDay (Spec.lastDayOfMonth Y (M % 12 + 1)) = x.getDay := by
    intro Y M
    apply min_eq_left
    have := lastDayOfMonth_ge Y (M % 12 + 1) (by omega) (by omega)
    omega
  have hA := plusMonths_exact x a hR hx (by rw [hmin]; exact hfit)
  rw [hmin] at hA
  have hM1 : 1 ≤ (x.getMonth - 1 + a) % 12 + 1 := by omega
  have hM2 : (x.getMonth - 1 + a) % 12 + 1 ≤ 12 := by omega
  obtain ⟨k1, k2, k3, k4, k5, k6⟩ := getters_of_civil
    (x.getYear + (x.getMonth - 1 + a) / 12) ((x.getMonth - 1 + a) % 12 + 1) x.getDay
    x.getHour x.getMinute x.getSecond x.dt_timeRegion hR hM1 hM2 hD1
    (by
      have := lastDayOfMonth_ge (x.getYear + (x.getMonth - 1 + a) / 12)
        ((x.getMonth - 1 + a) % 12 + 1) hM1 hM2
      omega)
    hh1 hh2 hmi1 hmi2 hs1 hs2 _ hA
  have hreg : (x.plusMonths a).dt_timeRegion = x.dt_timeRegion := rfl
  have hB := plusMonths_wrap (x.plusMonths a) b (by
    rw [k2]
    have e : (x.getMonth - 1 + a) % 12 + 1 - 1 + b = (x.getMonth - 1 + a) % 12 + b := by omega
    rw [e]
    exact h1)
  have hC := plusMonths_wrap x (a + b) h2
  rw [hB, hC, k1, k2, k3, k4, k5, k6, hreg]
  have hM0a : 1 ≤ x.getMonth := by unfold getMonth; omega
  have hM0b : x.getMonth ≤ 12 := by unfold getMonth; omega
  have e1 : x.getYear + (x.getMonth - 1 + a) / 12
        + ((x.getMonth - 1 + a) % 12 + 1 - 1 + b) / 12
      = x.getYear + (x.getMonth - 1 + (a + b)) / 12 := by omega
  have e2 : ((x.getMonth - 1 + a) % 12 + 1 - 1 + b) % 12 + 1
      = (x.getMonth - 1 + (a + b)) % 12 + 1 := by omega
  rw [e1, e2]

end DateTime

/-! ## Claims -/

namespace DateTime

/-- Counterexample to C1: 2300-01-01 00:00:00 is accepted by `isValidDate`, and the value
built from it in WorldTime reads back as 1715-06-13 00:25:27, because the clock does not
hold the instant; and in a region whose total offset is not a value of `int` (a minute
offset of 536870912) the valid fields 2023-01-01 00:00:00 read back as
1886-11-24 17:31:44. -/
theorem fromFields_outside_clock_reads_other_fields :
    (isValidDate 2300 1 1 = true ∧ isValidTime 0 0 0 0 = true ∧
      (fromFields 2300 1 1 0 0 0 0 WorldTime).getYear = 1715 ∧
      (fromFields 2300 1 1 0 0 0 0 WorldTime).getMonth = 6 ∧
      (fromFields 2300 1 1 0 0 0 0 WorldTime).getDay = 13 ∧
      (fromFields 2300 1 1 0 0 0 0 WorldTime).getHour = 0 ∧
      (fromFields 2300 1 1 0 0 0 0 WorldTime).getMinute = 25 ∧
      (fromFields 2300 1 1 0 0 0 0 WorldTime).getSecond = 27) ∧
    (isValidDate 2023 1 1 = true ∧
      (fromFields 2023 1 1 0 0 0 0 ⟨"X", 0, 536870912⟩).getYear = 1886 ∧
      (fromFields 2023 1 1 0 0 0 0 ⟨"X", 0, 536870912⟩).getMonth = 11 ∧
      (fromFields 2023 1 1 0 0 0 0 ⟨"X", 0, 536870912⟩).getDay = 24 ∧
      (fromFields 2023 1 1 0 0 0 0 ⟨"X", 0, 536870912⟩).getHour = 17) := by
  decide

/-- C1, amended: for every date accepted by `isValidDate`, every time of day accepted by
`isValidTime` with millisecond 0 and every region whose total offset and its negative are
values of `int`, such that the clock holds the instant of these fields in that region, the
value constructed from them reports the same year, month, day, hour, minute and second:
decomposing what was recomposed in the same region returns the original fields. -/
theorem fromFields_getters_roundtrip (y m d h mi s : Int) (R : RegionTime)
    (hdate : isValidDate y m d = true) (htime : isValidTime h mi s 0 = true)
    (hR : Spec.offsetInRange R)
    (hfit : Spec.fitsClock (Spec.instantTicks y m d h mi s 0 R)) :
    (fromFields y m d h mi s 0 R).getYear = y ∧
    (fromFields y m d h mi s 0 R).getMonth = m ∧
    (fromFields y m d h mi s 0 R).getDay = d ∧
    (fromFields y m d h mi s 0 R).getHour = h ∧
    (fromFields y m d h mi s 0 R).getMinute = mi ∧
    (fromFields y m d h mi s 0 R).getSecond = s := by
  obtain ⟨hy1, hy2, hm1, hm2, hd1, hd2⟩ := (isValidDate_iff y m d).mp hdate
  obtain ⟨hh1, hh2, hmi1, hmi2, hs1, hs2, _, _⟩ := (isValidTime_iff h mi s 0).mp htime
  exact getters_of_civil y m d h mi s R hR hm1 hm2 hd1 hd2 hh1 (by omega) hmi1 (by omega)
    hs1 (by omega) _ (fromFields_valid y m d h mi s 0 R hy1 hy2 hm1 hm2 hR hfit)

/-- Witness of C1: the leap day 2024-02-29 23:59:59 in a region five and a half hours
east of UTC. -/
theorem fromFields_getters_roundtrip_witness :
    (isValidDate 2024 2 29 = true ∧ isValidTime 23 59 59 0 = true ∧
      Spec.offsetInRange ⟨"IST", 5, 30⟩ ∧
      Spec.fitsClock (Spec.instantTicks 2024 2 29 23 59 59 0 ⟨"IST", 5, 30⟩)) ∧
    ((fromFields 2024 2 29 23 59 59 0 ⟨"IST", 5, 30⟩).getYear = 2024 ∧
     (fromFields 2024 2 29 23 59 59 0 ⟨"IST", 5, 30⟩).getMonth = 2 ∧
     (fromFields 2024 2 29 23 59 59 0 ⟨"IST", 5, 30⟩).getDay = 29 ∧
     (fromFields 2024 2 29 23 59 59 0 ⟨"IST", 5, 30⟩).getHour = 23 ∧
     (fromFields 2024 2 29 23 59 59 0 ⟨"IST", 5, 30⟩).getMinute = 59 ∧
     (fromFields 2024 2 29 23 59 59 0 ⟨"IST", 5, 30⟩).getSecond = 59) :=
  ⟨⟨by decide, by decide, by decide, by decide⟩,
    fromFields_getters_roundtrip 2024 2 29 23 59 59 ⟨"IST", 5, 30⟩ (by decide) (by decide)
      (by decide) (by decide)⟩

/-- C2: `isValidDate y m d` is true exactly when 1900 ≤ y ≤ 9999, 1 ≤ m ≤ 12 and
1 ≤ d ≤ L(y, m), with L the month length under the Gregorian leap rule; 2000-02-29 and
2024-02-29 are valid, 1900-02-29, 2100-02-29, 2023-02-29 and 2023-04-31 are not. -/
theorem isValidDate_characterisation :
    (∀ y m d : Int, isValidDate y m d = true ↔
      (1900 ≤ y ∧ y ≤ 9999 ∧ 1 ≤ m ∧ m ≤ 12 ∧ 1 ≤ d ∧ d ≤ Spec.lastDayOfMonth y m)) ∧
    isValidDate 2000 2 29 = true ∧ isValidDate 2024 2 29 = true ∧
    isValidDate 1900 2 29 = false ∧ isValidDate 2100 2 29 = false ∧
    isValidDate 2023 2 29 = false ∧ isValidDate 2023 4 31 = false :=
  ⟨isValidDate_iff, by decide, by decide, by decide, by decide, by decide, by decide⟩

/-- Counterexample to C3: 2023-01-31 00:00:00 in WorldTime advanced by 3600 months reads
back as year 1738 and month 7, where year `2023 + ⌊(1 - 1 + 3600) / 12⌋ = 2323` and month
1 are expected: the clock does not hold January 2323.
And in a region whose total offset is not a value of `int` (a minute offset of 536870912)
the value built from 2023-01-15 12:00:00 reads year 1886 and month 12, and advanced by
one month it reads year 1750 and month 12, where year 1887 and month 1 are expected. -/
theorem plusMonths_outside_clock_year_month :
    (((fromFields 2023 1 31 0 0 0 0 WorldTime).plusMonths 3600).getYear = 1738 ∧
     ((fromFields 2023 1 31 0 0 0 0 WorldTime).plusMonths 3600).getMonth = 7 ∧
     (fromFields 2023 1 31 0 0 0 0 WorldTime).getYear
       + ((fromFields 2023 1 31 0 0 0 0 WorldTime).getMonth - 1 + 3600) / 12 = 2323 ∧
     ((fromFields 2023 1 31 0 0 0 0 WorldTime).getMonth - 1 + 3600) % 12 + 1 = 1) ∧
    ((fromFields 2023 1 15 12 0 0 0 ⟨"X", 0, 536870912⟩).getYear = 1886 ∧
      (fromFields 2023 1 15 12 0 0 0 ⟨"X", 0, 536870912⟩).getMonth = 12 ∧
      1886 + ((12 : Int) - 1 + 1) / 12 = 1887 ∧ ((12 : Int) - 1 + 1) % 12 + 1 = 1 ∧
      ((fromFields 2023 1 15 12 0 0 0 ⟨"X", 0, 536870912⟩).plusMonths 1).getYear = 1750 ∧
      ((fromFields 2023 1 15 12 0 0 0 ⟨"X", 0, 536870912⟩).plusMonths 1).getMonth = 12) := by
  constructor
  · have s1 : (fromFields 2023 1 31 0 0 0 0 WorldTime).plusMonths 3600
        = ⟨-7304600073709551616, WorldTime⟩ := by decide
    rw [s1]
    decide
  · have r1 : (fromFields 2023 1 15 12 0 0 0 ⟨"X", 0, 536870912⟩).plusMonths 1
        = ⟨-4765988544000000000, ⟨"X", 0, 536870912⟩⟩ := by decide
    rw [r1]
    decide

/-- C3, amended: for every DateTime `x` (its tick count a value of the clock, its region
with a total offset whose negative is a value of `int` too) and every `n` (of either sign,
a negative multiple of 12 included) such that the clock holds the instant of the target
month, `x.plusMonths n` has year `y + ⌊(m - 1 + n) / 12⌋` and month
`((m - 1 + n) mod 12) + 1`, where `y` and `m` are the region-local year and month of `x`,
the division is floor division and the remainder lies in 0..11. -/
theorem plusMonths_year_month (x : DateTime) (n : Int)
    (hR : Spec.offsetInRange x.getRegion) (hx : Spec.fitsClock x.getSystemTime)
    (hfit : Spec.fitsClock
      (Spec.instantTicks (x.getYear + (x.getMonth - 1 + n) / 12)
        ((x.getMonth - 1 + n) % 12 + 1)
        (min x.getDay
          (Spec.lastDayOfMonth (x.getYear + (x.getMonth - 1 + n) / 12)
            ((x.getMonth - 1 + n) % 12 + 1)))
        x.getHour x.getMinute x.getSecond 0 x.getRegion)) :
    (x.plusMonths n).getYear = x.getYear + (x.getMonth - 1 + n) / 12 ∧
    (x.plusMonths n).getMonth = (x.getMonth - 1 + n) % 12 + 1 ∧
    0 ≤ (x.getMonth - 1 + n) % 12 ∧ (x.getMonth - 1 + n) % 12 ≤ 11 ∧
    12 * ((x.getMonth - 1 + n) / 12) + (x.getMonth - 1 + n) % 12 = x.getMonth - 1 + n := by
  obtain ⟨k1, k2, _, _, _, _⟩ := getters_plusMonths x n hR hx hfit
  exact ⟨k1, k2, by omega, by omega, by omega⟩

/-- Witness of C3: 2023-11-15 in Japan time, 14 months back, is in September 2022. -/
theorem plusMonths_year_month_witness :
    (Spec.offsetInRange (fromFields 2023 11 15 8 0 0 0 JapanTime).getRegion ∧
      Spec.fitsClock (fromFields 2023 11 15 8 0 0 0 JapanTime).getSystemTime) ∧
    ((fromFields 2023 11 15 8 0 0 0 JapanTime).plusMonths (-14)).getYear
      = (fromFields 2023 11 15 8 0 0 0 JapanTime).getYear
        + ((fromFields 2023 11 15 8 0 0 0 JapanTime).getMonth - 1 + -14) / 12 ∧
    ((fromFields 2023 11 15 8 0 0 0 JapanTime).plusMonths (-14)).getMonth
      = ((fromFields 2023 11 15 8 0 0 0 JapanTime).getMonth - 1 + -14) % 12 + 1 :=
  have s1 : fromFields 2023 11 15 8 0 0 0 JapanTime
      = ⟨1700002800000000000, JapanTime⟩ := by decide
  ⟨⟨by decide, by decide⟩,
    (plusMonths_year_month (fromFields 2023 11 15 8 0 0 0 JapanTime) (-14) (by decide)
      (by decide) (by rw [s1]; decide)).1,
    (plusMonths_year_month (fromFields 2023 11 15 8 0 0 0 JapanTime) (-14) (by decide)
      (by decide) (by rw [s1]; decide)).2.1⟩

/-- Counterexample to C4: 2023-01-31 00:00:00 in WorldTime advanced by 3600 months reads
back with day 12, minute 25 and second 27, where day `min 31 31 = 31`, minute 0 and
second 0 are expected: the clock does not hold 2323-01-31.
And in a region whose total offset is not a value of `int` (a minute offset of 536870912)
the value built from 2023-01-31 00:00:00 reads day 24 and hour 17 of December 1886, and
advanced by one month it reads day 18 and hour 11, where day `min 24 31 = 24` and hour 17
are expected. -/
theorem plusMonths_outside_clock_day_time :
    (((fromFields 2023 1 31 0 0 0 0 WorldTime).plusMonths 3600).getDay = 12 ∧
     ((fromFields 2023 1 31 0 0 0 0 WorldTime).plusMonths 3600).getMinute = 25 ∧
     ((fromFields 2023 1 31 0 0 0 0 WorldTime).plusMonths 3600).getSecond = 27 ∧
     (fromFields 2023 1 31 0 0 0 0 WorldTime).getDay = 31 ∧
     Spec.lastDayOfMonth 2323 1 = 31 ∧
     (fromFields 2023 1 31 0 0 0 0 WorldTime).getMinute = 0 ∧
     (fromFields 2023 1 31 0 0 0 0 WorldTime).getSecond = 0) ∧
    ((fromFields 2023 1 31 0 0 0 0 ⟨"X", 0, 536870912⟩).getDay = 24 ∧
      (fromFields 2023 1 31 0 0 0 0 ⟨"X", 0, 536870912⟩).getHour = 17 ∧
      Spec.lastDayOfMonth 1887 1 = 31 ∧
      ((fromFields 2023 1 31 0 0 0 0 ⟨"X", 0, 536870912⟩).plusMonths 1).getDay = 18 ∧
      ((fromFields 2023 1 31 0 0 0 0 ⟨"X", 0, 536870912⟩).plusMonths 1).getHour = 11) := by
  constructor
  · have s1 : (fromFields 2023 1 31 0 0 0 0 WorldTime).plusMonths 3600
        = ⟨-7304600073709551616, WorldTime⟩ := by decide
    rw [s1]
    decide
  · have r1 : (fromFields 2023 1 31 0 0 0 0 ⟨"X", 0, 536870912⟩).plusMonths 1
        = ⟨-4764649344000000000, ⟨"X", 0, 536870912⟩⟩ := by decide
    rw [r1]
    decide

/-- C4, amended: for every DateTime `x` (its tick count a value of the clock, its region
with a total offset whose negative is a value of `int` too) and every `n` such that the
clock holds the instant of the target fields, the day of `x.plusMonths n` is `min d L`,
with `d` the region-local day of `x` and `L` the length of the target month in the target
year, and hour, minute and second are those of `x`; 2023-01-31 plus one month is
2023-02-28, 2023-07-31 plus one month is 2023-08-31, 2023-08-31 plus one month is
2023-09-30. -/
theorem plusMonths_day_clamped :
    (∀ (x : DateTime) (n : Int),
      Spec.offsetInRange x.getRegion → Spec.fitsClock x.getSystemTime →
      Spec.fitsClock
        (Spec.instantTicks (x.getYear + (x.getMonth - 1 + n) / 12)
          ((x.getMonth - 1 + n) % 12 + 1)
          (min x.getDay
            (Spec.lastDayOfMonth (x.getYear + (x.getMonth - 1 + n) / 12)
              ((x.getMonth - 1 + n) % 12 + 1)))
          x.getHour x.getMinute x.getSecond 0 x.getRegion) →
      (x.plusMonths n).getDay
        = min x.getDay
            (Spec.lastDayOfMonth (x.getYear + (x.getMonth - 1 + n) / 12)
              ((x.getMonth - 1 + n) % 12 + 1)) ∧
      (x.plusMonths n).getHour = x.getHour ∧
      (x.plusMonths n).getMinute = x.getMinute ∧
      (x.plusMonths n).getSecond = x.getSecond) ∧
    (((fromFields 2023 1 31 0 0 0 0 WorldTime).plusMonths 1).getYear = 2023 ∧
     ((fromFields 2023 1 31 0 0 0 0 WorldTime).plusMonths 1).getMonth = 2 ∧
     ((fromFields 2023 1 31 0 0 0 0 WorldTime).plusMonths 1).getDay = 28) ∧
    (((fromFields 2023 7 31 0 0 0 0 WorldTime).plusMonths 1).getYear = 2023 ∧
     ((fromFields 2023 7 31 0 0 0 0 WorldTime).plusMonths 1).getMonth = 8 ∧
     ((fromFields 2023 7 31 0 0 0 0 WorldTime).plusMonths 1).getDay = 31) ∧
    (((fromFields 2023 8 31 0 0 0 0 WorldTime).plusMonths 1).getYear = 2023 ∧
     ((fromFields 2023 8 31 0 0 0 0 WorldTime).plusMonths 1).getMonth = 9 ∧
     ((fromFields 2023 8 31 0 0 0 0 WorldTime).plusMonths 1).getDay = 30) := by
  have s1 : (fromFields 2023 1 31 0 0 0 0 WorldTime).plusMonths 1
      = ⟨1677542400000000000, WorldTime⟩ := by decide
  have s2 : (fromFields 2023 7 31 0 0 0 0 WorldTime).plusMonths 1
      = ⟨1693440000000000000, WorldTime⟩ := by decide
  have s3 : (fromFields 2023 8 31 0 0 0 0 WorldTime).plusMonths 1
      = ⟨1696032000000000000, WorldTime⟩ := by decide
  rw [s1, s2, s3]
  refine ⟨?_, by decide, by decide, by decide⟩
  intro x n hR hx hfit
  obtain ⟨_, _, k3, k4, k5, k6⟩ := getters_plusMonths x n hR hx hfit
  exact ⟨k3, k4, k5, k6⟩

/-- Witness of C4: 2024-03-31 13:14:15 in Eastern time, eleven months on, is clamped to
the 28 days of February 2025. -/
theorem plusMonths_day_clamped_witness :
    (Spec.offsetInRange (fromFields 2024 3 31 13 14 15 0 EasternTime).getRegion ∧
      Spec.fitsClock (fromFields 2024 3 31 13 14 15 0 EasternTime).getSystemTime) ∧
    ((fromFields 2024 3 31 13 14 15 0 EasternTime).plusMonths 11).getDay
      = min (fromFields 2024 3 31 13 14 15 0 EasternTime).getDay
          (Spec.lastDayOfMonth
            ((fromFields 2024 3 31 13 14 15 0 EasternTime).getYear
              + ((fromFields 2024 3 31 13 14 15 0 EasternTime).getMonth - 1 + 11) / 12)
            (((fromFields 2024 3 31 13 14 15 0 EasternTime).getMonth - 1 + 11) % 12 + 1)) ∧
    ((fromFields 2024 3 31 13 14 15 0 EasternTime).plusMonths 11).getHour
      = (fromFields 2024 3 31 13 14 15 0 EasternTime).getHour :=
  have s1 : fromFields 2024 3 31 13 14 15 0 EasternTime
      = ⟨1711908855000000000, EasternTime⟩ := by decide
  ⟨⟨by decide, by decide⟩,
    (plusMonths_day_clamped.1 (fromFields 2024 3 31 13 14 15 0 EasternTime) 11 (by decide)
      (by decide) (by rw [s1]; decide)).1,
    (plusMonths_day_clamped.1 (fromFields 2024 3 31 13 14 15 0 EasternTime) 11 (by decide)
      (by decide) (by rw [s1]; decide)).2.1⟩

/-- C5: the field constructor is expected to reject fields that fail `isValidDate` or
`isValidTime`; the code constructs a value from them instead.  Evaluated here: 2023-02-30
becomes 2023-03-02, month 13 becomes January of the next year, hour 24 becomes 00:00 of
the next day and millisecond 1000 becomes the next second. -/
theorem fromFields_accepts_invalid_fields :
    (isValidDate 2023 2 30 = false ∧
      (fromFields 2023 2 30 0 0 0 0 WorldTime).getYear = 2023 ∧
      (fromFields 2023 2 30 0 0 0 0 WorldTime).getMonth = 3 ∧
      (fromFields 2023 2 30 0 0 0 0 WorldTime).getDay = 2) ∧
    (isValidDate 2023 13 1 = false ∧
      (fromFields 2023 13 1 0 0 0 0 WorldTime).getYear = 2024 ∧
      (fromFields 2023 13 1 0 0 0 0 WorldTime).getMonth = 1 ∧
      (fromFields 2023 13 1 0 0 0 0 WorldTime).getDay = 1) ∧
    (isValidTime 24 0 0 0 = false ∧
      (fromFields 2023 1 1 24 0 0 0 WorldTime).getDay = 2 ∧
      (fromFields 2023 1 1 24 0 0 0 WorldTime).getHour = 0) ∧
    (isValidTime 0 0 0 1000 = false ∧
      (fromFields 2023 1 1 0 0 0 1000 WorldTime).getSecond = 1 ∧
      (fromFields 2023 1 1 0 0 0 1000 WorldTime).getMillisecond = 0) := by
  decide

/-- C6: `setDate` throws exactly when `isValidDate` rejects its arguments and `setTime`
throws exactly when `isValidTime` rejects its arguments; whenever a setter throws, the
object (absolute instant and region) is what it was before the call. -/
theorem setters_throw_iff_invalid (x : DateTime) (y m d h mi s ms : Int) :
    ((∃ e, (x.setDate y m d).1 = Except.error e) ↔ isValidDate y m d = false) ∧
    ((∃ e, (x.setTime h mi s ms).1 = Except.error e) ↔ isValidTime h mi s ms = false) ∧
    ((∃ e, (x.setDate y m d).1 = Except.error e) → (x.setDate y m d).2 = x) ∧
    ((∃ e, (x.setTime h mi s ms).1 = Except.error e) → (x.setTime h mi s ms).2 = x) := by
  refine ⟨?_, ?_, ?_, ?_⟩
  · cases hv : isValidDate y m d <;> simp [setDate, hv]
  · cases hv : isValidTime h mi s ms <;> simp [setTime, hv]
  · cases hv : isValidDate y m d <;> simp [setDate, hv]
  · cases hv : isValidTime h mi s ms <;> simp [setTime, hv]

/-- Witness of C6: on 2023-01-01 12:00:00 in Japan time, `setDate 2025 2 30` and
`setTime 24 0 0 0` both throw and leave the object unchanged. -/
theorem setters_throw_iff_invalid_witness :
    (isValidDate 2025 2 30 = false ∧ isValidTime 24 0 0 0 = false) ∧
    ((fromFields 2023 1 1 12 0 0 0 JapanTime).setDate 2025 2 30).2
      = fromFields 2023 1 1 12 0 0 0 JapanTime ∧
    ((fromFields 2023 1 1 12 0 0 0 JapanTime).setTime 24 0 0 0).2
      = fromFields 2023 1 1 12 0 0 0 JapanTime :=
  ⟨⟨by decide, by decide⟩,
    (setters_throw_iff_invalid (fromFields 2023 1 1 12 0 0 0 JapanTime) 2025 2 30 24 0 0 0).2.2.1
      ((setters_throw_iff_invalid (fromFields 2023 1 1 12 0 0 0 JapanTime)
        2025 2 30 24 0 0 0).1.mpr (by decide)),
    (setters_throw_iff_invalid (fromFields 2023 1 1 12 0 0 0 JapanTime) 2025 2 30 24 0 0 0).2.2.2
      ((setters_throw_iff_invalid (fromFields 2023 1 1 12 0 0 0 JapanTime)
        2025 2 30 24 0 0 0).2.1.mpr (by decide))⟩

/-- C7: the seven getters are expected to return the seven constructor arguments for
every valid date from 1900 on; for an instant before 1970 with a non-zero millisecond the
code does not.  Evaluated here: the valid fields 1969-12-31 23:59:59.500 in UTC read back
as 1970-01-01 00:00:00 with millisecond -500. -/
theorem fromFields_before_epoch_fields :
    isValidDate 1969 12 31 = true ∧ isValidTime 23 59 59 500 = true ∧
    (fromFields 1969 12 31 23 59 59 500 WorldTime).getYear = 1970 ∧
    (fromFields 1969 12 31 23 59 59 500 WorldTime).getMonth = 1 ∧
    (fromFields 1969 12 31 23 59 59 500 WorldTime).getDay = 1 ∧
    (fromFields 1969 12 31 23 59 59 500 WorldTime).getHour = 0 ∧
    (fromFields 1969 12 31 23 59 59 500 WorldTime).getMinute = 0 ∧
    (fromFields 1969 12 31 23 59 59 500 WorldTime).getSecond = 0 ∧
    (fromFields 1969 12 31 23 59 59 500 WorldTime).getMillisecond = -500 := by
  decide

/-- C8: `getMillisecond` is expected to lie in 0..999 for every instant; before the epoch
the code returns a negative value.  Evaluated here: the instant one millisecond before
1970-01-01T00:00:00Z gives -1, and 1960-06-15 12:00:00.250 in Japan time gives -750. -/
theorem getMillisecond_negative_before_epoch :
    (fromTimePoint (Chrono.milliseconds (-1)) WorldTime).getMillisecond = -1 ∧
    (fromFields 1960 6 15 12 0 0 250 JapanTime).getMillisecond = -750 := by
  decide

/-- C9: `plusMilliseconds` is expected to carry and borrow through every field; when the
result lies before the epoch the code reads it back wrongly.  Evaluated here:
1970-01-01T00:00:00.000 plus -1 ms reads back as 1970-01-01 00:00:00 with millisecond -1
(expected 1969-12-31T23:59:59.999), while the three examples from 2023 behave as
documented. -/
theorem plusMilliseconds_borrow_before_epoch :
    (isValidDate 1970 1 1 = true ∧ isValidTime 0 0 0 0 = true ∧
      ((fromFields 1970 1 1 0 0 0 0 WorldTime).plusMilliseconds (-1)).getYear = 1970 ∧
      ((fromFields 1970 1 1 0 0 0 0 WorldTime).plusMilliseconds (-1)).getMonth = 1 ∧
      ((fromFields 1970 1 1 0 0 0 0 WorldTime).plusMilliseconds (-1)).getDay = 1 ∧
      ((fromFields 1970 1 1 0 0 0 0 WorldTime).plusMilliseconds (-1)).getHour = 0 ∧
      ((fromFields 1970 1 1 0 0 0 0 WorldTime).plusMilliseconds (-1)).getMinute = 0 ∧
      ((fromFields 1970 1 1 0 0 0 0 WorldTime).plusMilliseconds (-1)).getSecond = 0 ∧
      ((fromFields 1970 1 1 0 0 0 0 WorldTime).plusMilliseconds (-1)).getMillisecond = -1) ∧
    (((fromFields 2023 1 1 23 59 59 999 WorldTime).plusMilliseconds 1).getDay = 2 ∧
      ((fromFields 2023 1 1 23 59 59 999 WorldTime).plusMilliseconds 1).getHour = 0 ∧
      ((fromFields 2023 1 1 23 59 59 999 WorldTime).plusMilliseconds 1).getMillisecond = 0) ∧
    (((fromFields 2023 1 1 0 0 0 0 WorldTime).plusMilliseconds (-1)).getYear = 2022 ∧
      ((fromFields 2023 1 1 0 0 0 0 WorldTime).plusMilliseconds (-1)).getSecond = 59 ∧
      ((fromFields 2023 1 1 0 0 0 0 WorldTime).plusMilliseconds (-1)).getMillisecond = 999) ∧
    (((fromFields 2023 1 1 0 0 0 0 WorldTime).plusMilliseconds (-1500)).getSecond = 58 ∧
      ((fromFields 2023 1 1 0 0 0 0 WorldTime).plusMilliseconds (-1500)).getMillisecond = 500) := by
  decide

/-- Counterexample to C10: the value 2262-04-11 23:47:16.854 in WorldTime lies less than
one millisecond before the end of the clock; advanced by one millisecond it compares
below the original, not above it. -/
theorem plusMilliseconds_at_end_of_clock :
    (fromFields 2262 4 11 23 47 16 854 WorldTime).getSystemTime = 9223372036854000000 ∧
    ((fromFields 2262 4 11 23 47 16 854 WorldTime).plusMilliseconds 1).getSystemTime
      = -9223372036854551616 ∧
    (fromFields 2262 4 11 23 47 16 854 WorldTime).opLt
      ((fromFields 2262 4 11 23 47 16 854 WorldTime).plusMilliseconds 1) = false ∧
    (fromFields 2262 4 11 23 47 16 854 WorldTime).opGt
      ((fromFields 2262 4 11 23 47 16 854 WorldTime).plusMilliseconds 1) = true := by
  decide

/-- C10, amended: the six comparison operators are functions of the two absolute instants
alone, whatever the regions; exactly one of `<`, `==`, `>` holds; `!=` negates `==`, `<=`
negates `>`, `>=` negates `<`; every `x` is `!=` to `x.plusMilliseconds 1`, and every `x`
for which the clock holds the instant one millisecond later is `<` to it. -/
theorem comparison_on_instants :
    (∀ (ta tb : Int) (ra rb : RegionTime),
      (fromTimePoint ta ra).opEq (fromTimePoint tb rb) = decide (ta = tb) ∧
      (fromTimePoint ta ra).opNe (fromTimePoint tb rb) = decide (ta ≠ tb) ∧
      (fromTimePoint ta ra).opLt (fromTimePoint tb rb) = decide (ta < tb) ∧
      (fromTimePoint ta ra).opLe (fromTimePoint tb rb) = decide (ta ≤ tb) ∧
      (fromTimePoint ta ra).opGt (fromTimePoint tb rb) = decide (ta > tb) ∧
      (fromTimePoint ta ra).opGe (fromTimePoint tb rb) = decide (ta ≥ tb)) ∧
    (∀ a b : DateTime,
      ((a.opLt b = true ∧ a.opEq b = false ∧ a.opGt b = false) ∨
       (a.opLt b = false ∧ a.opEq b = true ∧ a.opGt b = false) ∨
       (a.opLt b = false ∧ a.opEq b = false ∧ a.opGt b = true)) ∧
      a.opNe b = !a.opEq b ∧ a.opLe b = !a.opGt b ∧ a.opGe b = !a.opLt b) ∧
    (∀ x : DateTime,
      x.opNe (x.plusMilliseconds 1) = true ∧
      (Spec.fitsClock (x.getSystemTime + 1 * Chrono.ticksPerMillisecond) →
        x.opLt (x.plusMilliseconds 1) = true)) := by
  refine ⟨?_, ?_, ?_⟩
  · intro ta tb ra rb
    simp [opEq, opNe, opLt, opLe, opGt, opGe, fromTimePoint]
  · intro a b
    simp only [opEq, opNe, opLt, opLe, opGt, opGe]
    rcases Int.lt_trichotomy a.dt_clockPoint b.dt_clockPoint with h | h | h
    · have h1 : ¬ a.dt_clockPoint = b.dt_clockPoint := by omega
      have h2 : ¬ a.dt_clockPoint > b.dt_clockPoint := by omega
      have h3 : a.dt_clockPoint ≤ b.dt_clockPoint := by omega
      have h4 : ¬ a.dt_clockPoint ≥ b.dt_clockPoint := by omega
      simp [h, h1, h2, h3, h4]
    · simp [h]
    · have h1 : ¬ a.dt_clockPoint = b.dt_clockPoint := by omega
      have h2 : ¬ a.dt_clockPoint < b.dt_clockPoint := by omega
      have h3 : ¬ a.dt_clockPoint ≤ b.dt_clockPoint := by omega
      have h4 : a.dt_clockPoint ≥ b.dt_clockPoint := by omega
      simp [h, h1, h2, h3, h4]
  · intro x
    constructor
    · rw [plusMilliseconds_wrap]
      simp only [opNe, decide_eq_true_eq]
      unfold Machine.wrapLong
      omega
    · intro hfit
      rw [plusMilliseconds_exact x 1 hfit]
      simp [opLt]

/-- Witness of C10: 2023-10-15 14:30:45.999 in Pacific time and the next millisecond. -/
theorem comparison_on_instants_witness :
    Spec.fitsClock ((fromFields 2023 10 15 14 30 45 999 PacificTime).getSystemTime
      + 1 * Chrono.ticksPerMillisecond) ∧
    (fromFields 2023 10 15 14 30 45 999 PacificTime).opLt
      ((fromFields 2023 10 15 14 30 45 999 PacificTime).plusMilliseconds 1) = true ∧
    (fromFields 2023 10 15 14 30 45 999 PacificTime).opNe
      ((fromFields 2023 10 15 14 30 45 999 PacificTime).plusMilliseconds 1) = true :=
  ⟨by decide,
    (comparison_on_instants.2.2 (fromFields 2023 10 15 14 30 45 999 PacificTime)).2 (by decide),
    (comparison_on_instants.2.2 (fromFields 2023 10 15 14 30 45 999 PacificTime)).1⟩

/-- Counterexample to C11: the fields 2300-01-01 00:00:00 are valid, and the value `u`
built from them in WorldTime reads 1715-06-13 00:25:27 in WorldTime; constructing a value
in WorldTime from these six fields gives another instant, which does not compare equal to
`u`.
And with `u` built from 2023-01-01 00:00:00 in WorldTime and a region whose total offset is
not a value of `int` (a minute offset of 536870912), `u` converted to the region reads
1954-12-13 20:45:52, and the value constructed in the region from these fields does not
compare equal to `u`. -/
theorem recompose_outside_clock_differs :
    (isValidDate 2300 1 1 = true ∧ isValidTime 0 0 0 0 = true ∧
     (fromFields 2300 1 1 0 0 0 0 WorldTime).getSystemTime = -8032952073709551616 ∧
     (fromFields
         ((fromFields 2300 1 1 0 0 0 0 WorldTime).convertToRegion WorldTime).getYear
         ((fromFields 2300 1 1 0 0 0 0 WorldTime).convertToRegion WorldTime).getMonth
         ((fromFields 2300 1 1 0 0 0 0 WorldTime).convertToRegion WorldTime).getDay
         ((fromFields 2300 1 1 0 0 0 0 WorldTime).convertToRegion WorldTime).getHour
         ((fromFields 2300 1 1 0 0 0 0 WorldTime).convertToRegion WorldTime).getMinute
         ((fromFields 2300 1 1 0 0 0 0 WorldTime).convertToRegion WorldTime).getSecond
         0 WorldTime).getSystemTime = -8032952073000000000 ∧
     (fromFields
         ((fromFields 2300 1 1 0 0 0 0 WorldTime).convertToRegion WorldTime).getYear
         ((fromFields 2300 1 1 0 0 0 0 WorldTime).convertToRegion WorldTime).getMonth
         ((fromFields 2300 1 1 0 0 0 0 WorldTime).convertToRegion WorldTime).getDay
         ((fromFields 2300 1 1 0 0 0 0 WorldTime).convertToRegion WorldTime).getHour
         ((fromFields 2300 1 1 0 0 0 0 WorldTime).convertToRegion WorldTime).getMinute
         ((fromFields 2300 1 1 0 0 0 0 WorldTime).convertToRegion WorldTime).getSecond
         0 WorldTime).opEq (fromFields 2300 1 1 0 0 0 0 WorldTime) = false) ∧
    (isValidDate 2023 1 1 = true ∧
      (fromFields 2023 1 1 0 0 0 0 WorldTime).getSystemTime = 1672531200000000000 ∧
      (fromFields
        ((fromFields 2023 1 1 0 0 0 0 WorldTime).convertToRegion
          ⟨"X", 0, 536870912⟩).getYear
        ((fromFields 2023 1 1 0 0 0 0 WorldTime).convertToRegion
          ⟨"X", 0, 536870912⟩).getMonth
        ((fromFields 2023 1 1 0 0 0 0 WorldTime).convertToRegion
          ⟨"X", 0, 536870912⟩).getDay
        ((fromFields 2023 1 1 0 0 0 0 WorldTime).convertToRegion
          ⟨"X", 0, 536870912⟩).getHour
        ((fromFields 2023 1 1 0 0 0 0 WorldTime).convertToRegion
          ⟨"X", 0, 536870912⟩).getMinute
        ((fromFields 2023 1 1 0 0 0 0 WorldTime).convertToRegion
          ⟨"X", 0, 536870912⟩).getSecond
        0 ⟨"X", 0, 536870912⟩).getSystemTime = -2622436096000000000 ∧
      (fromFields
        ((fromFields 2023 1 1 0 0 0 0 WorldTime).convertToRegion
          ⟨"X", 0, 536870912⟩).getYear
        ((fromFields 2023 1 1 0 0 0 0 WorldTime).convertToRegion
          ⟨"X", 0, 536870912⟩).getMonth
        ((fromFields 2023 1 1 0 0 0 0 WorldTime).convertToRegion
          ⟨"X", 0, 536870912⟩).getDay
        ((fromFields 2023 1 1 0 0 0 0 WorldTime).convertToRegion
          ⟨"X", 0, 536870912⟩).getHour
        ((fromFields 2023 1 1 0 0 0 0 WorldTime).convertToRegion
          ⟨"X", 0, 536870912⟩).getMinute
        ((fromFields 2023 1 1 0 0 0 0 WorldTime).convertToRegion
          ⟨"X", 0, 536870912⟩).getSecond
        0 ⟨"X", 0, 536870912⟩).opEq (fromFields 2023 1 1 0 0 0 0 WorldTime) = false) := by
  constructor
  · have s1 : (fromFields 2300 1 1 0 0 0 0 WorldTime).convertToRegion WorldTime
        = ⟨-8032952073709551616, WorldTime⟩ := by decide
    have s2 : fromFields 2300 1 1 0 0 0 0 WorldTime = ⟨-8032952073709551616, WorldTime⟩ := by
      decide
    rw [s1, s2]
    have g1 : (⟨-8032952073709551616, WorldTime⟩ : DateTime).getYear = 1715 := by decide
    have g2 : (⟨-8032952073709551616, WorldTime⟩ : DateTime).getMonth = 6 := by decide
    have g3 : (⟨-8032952073709551616, WorldTime⟩ : DateTime).getDay = 13 := by decide
    have g4 : (⟨-8032952073709551616, WorldTime⟩ : DateTime).getHour = 0 := by decide
    have g5 : (⟨-8032952073709551616, WorldTime⟩ : DateTime).getMinute = 25 := by decide
    have g6 : (⟨-8032952073709551616, WorldTime⟩ : DateTime).getSecond = 27 := by decide
    rw [g1, g2, g3, g4, g5, g6]
    decide
  · have r1 : (fromFields 2023 1 1 0 0 0 0 WorldTime).convertToRegion ⟨"X", 0, 536870912⟩
        = ⟨1672531200000000000, ⟨"X", 0, 536870912⟩⟩ := by decide
    have r2 : fromFields 2023 1 1 0 0 0 0 WorldTime = ⟨1672531200000000000, WorldTime⟩ := by
      decide
    rw [r1, r2]
    have k1 : (⟨1672531200000000000, ⟨"X", 0, 536870912⟩⟩ : DateTime).getYear = 1954 := by decide
    have k2 : (⟨1672531200000000000, ⟨"X", 0, 536870912⟩⟩ : DateTime).getMonth = 12 := by decide
    have k3 : (⟨1672531200000000000, ⟨"X", 0, 536870912⟩⟩ : DateTime).getDay = 13 := by decide
    have k4 : (⟨1672531200000000000, ⟨"X", 0, 536870912⟩⟩ : DateTime).getHour = 20 := by decide
    have k5 : (⟨1672531200000000000, ⟨"X", 0, 536870912⟩⟩ : DateTime).getMinute = 45 := by decide
    have k6 : (⟨1672531200000000000, ⟨"X", 0, 536870912⟩⟩ : DateTime).getSecond = 52 := by decide
    rw [k1, k2, k3, k4, k5, k6]
    decide

/-- C11, amended: for every whole-second value `u` built from valid fields in WorldTime
whose instant the clock holds, and every region `R` whose total offset and its negative
are values of `int`, constructing a value in `R` from the region-local year, month, day,
hour, minute and second of `u.convertToRegion R` gives a value that compares equal to
`u`; World 2023-01-01 00:00:00 equals Japan 2023-01-01 09:00:00. -/
theorem recompose_decompose_restores_instant :
    (∀ (y m d h mi s : Int) (R : RegionTime),
      isValidDate y m d = true → isValidTime h mi s 0 = true →
      Spec.offsetInRange R →
      Spec.fitsClock (Spec.instantTicks y m d h mi s 0 WorldTime) →
      (fromFields
          ((fromFields y m d h mi s 0 WorldTime).convertToRegion R).getYear
          ((fromFields y m d h mi s 0 WorldTime).convertToRegion R).getMonth
          ((fromFields y m d h mi s 0 WorldTime).convertToRegion R).getDay
          ((fromFields y m d h mi s 0 WorldTime).convertToRegion R).getHour
          ((fromFields y m d h mi s 0 WorldTime).convertToRegion R).getMinute
          ((fromFields y m d h mi s 0 WorldTime).convertToRegion R).getSecond
          0 R).opEq (fromFields y m d h mi s 0 WorldTime) = true) ∧
    (fromFields 2023 1 1 0 0 0 0 WorldTime).opEq (fromFields 2023 1 1 9 0 0 0 JapanTime)
      = true := by
  refine ⟨?_, by decide⟩
  intro y m d h mi s R hdate htime hR hfit
  obtain ⟨hy1, hy2, hm1, hm2, hd1, hd2⟩ := (isValidDate_iff y m d).mp hdate
  obtain ⟨T, hT⟩ : ∃ T, T = Spec.secondsSinceEpoch y m d h mi s := ⟨_, rfl⟩
  have hK : Spec.instantTicks y m d h mi s 0 WorldTime = T * 1000000000 := by
    simp only [Spec.instantTicks, Spec.totalOffset, WorldTime, ← hT]
    omega
  have hu : fromFields y m d h mi s 0 WorldTime
      = { dt_clockPoint := T * 1000000000, dt_timeRegion := WorldTime } := by
    rw [fromFields_valid y m d h mi s 0 WorldTime hy1 hy2 hm1 hm2 (by decide) hfit, hK]
  rw [hK] at hfit
  rw [hu]
  have hc : (convertToRegion { dt_clockPoint := T * 1000000000, dt_timeRegion := WorldTime } R)
      = { dt_clockPoint := T * 1000000000, dt_timeRegion := R } := rfl
  rw [hc]
  obtain ⟨x, hx⟩ : ∃ x : DateTime,
      x = { dt_clockPoint := T * 1000000000, dt_timeRegion := R } := ⟨_, rfl⟩
  rw [← hx]
  obtain ⟨yb1, yb2⟩ := tm_year_bounds x (by rw [hx]; exact hfit)
  have hg : x.getRegionAdjustedTime = CLib.gmtime_r (T + Spec.totalOffset R) := by
    rw [hx, getRegionAdjustedTime_seconds, (regionOffsetValue_of_inRange R hR).1]
  obtain ⟨hm0, hm11, _, _, _, _, _, _, _, _, _, _, hinv⟩ :=
    CLib.gmtime_r_spec (T + Spec.totalOffset R)
  rw [← hg] at hm0 hm11 hinv
  rw [CLib.timegm_eq] at hinv
  simp only [getYear, getMonth, getDay, getHour, getMinute, getSecond]
  obtain ⟨g, hgd⟩ : ∃ g, g = x.getRegionAdjustedTime := ⟨_, rfl⟩
  rw [← hgd] at yb1 yb2 hm0 hm11 hinv ⊢
  have e1 : g.tm_mon + 1 - 1 = g.tm_mon := by omega
  have e2 : g.tm_year + 1900 + g.tm_mon / 12 = g.tm_year + 1900 + (g.tm_mon + 1 - 1) / 12 := by
    rw [e1]
  have e3 : g.tm_mon % 12 + 1 = (g.tm_mon + 1 - 1) % 12 + 1 := by rw [e1]
  rw [e2, e3] at hinv
  have hval : (CLib.daysFromCivil (g.tm_year + 1900 + (g.tm_mon + 1 - 1) / 12)
        ((g.tm_mon + 1 - 1) % 12 + 1) g.tm_mday * 86400 + g.tm_hour * 3600 + g.tm_min * 60
        + g.tm_sec - Spec.totalOffset R) * 1000000000 + 0 * 1000000 = T * 1000000000 := by
    rw [hinv]
    omega
  rw [fromFields_exact (g.tm_year + 1900) (g.tm_mon + 1) g.tm_mday g.tm_hour g.tm_min g.tm_sec
    0 R (by unfold Spec.fitsInt; omega) (by unfold Spec.fitsInt; omega) hR
    (by rw [hval]; exact hfit), hval]
  simp only [opEq, decide_eq_true_eq]

/-- Witness of C11: World 2023-01-01 00:00:00 seen in Eastern time, where it is still
2022, and recomposed there. -/
theorem recompose_decompose_restores_instant_witness :
    (isValidDate 2023 1 1 = true ∧ isValidTime 0 0 0 0 = true ∧
      Spec.offsetInRange EasternTime ∧
      Spec.fitsClock (Spec.instantTicks 2023 1 1 0 0 0 0 WorldTime)) ∧
    (fromFields
        ((fromFields 2023 1 1 0 0 0 0 WorldTime).convertToRegion EasternTime).getYear
        ((fromFields 2023 1 1 0 0 0 0 WorldTime).convertToRegion EasternTime).getMonth
        ((fromFields 2023 1 1 0 0 0 0 WorldTime).convertToRegion EasternTime).getDay
        ((fromFields 2023 1 1 0 0 0 0 WorldTime).convertToRegion EasternTime).getHour
        ((fromFields 2023 1 1 0 0 0 0 WorldTime).convertToRegion EasternTime).getMinute
        ((fromFields 2023 1 1 0 0 0 0 WorldTime).convertToRegion EasternTime).getSecond
        0 EasternTime).opEq (fromFields 2023 1 1 0 0 0 0 WorldTime) = true :=
  ⟨⟨by decide, by decide, by decide, by decide⟩,
    recompose_decompose_restores_instant.1 2023 1 1 0 0 0 EasternTime (by decide) (by decide)
      (by decide) (by decide)⟩

/-- C12: for every DateTime `x` and every region `R2`, `x.convertToRegion R2` has the
absolute instant of `x` (so it compares `==` to `x`), carries region `R2`, has the
millisecond of `x`, and converting it back to the region of `x` gives `x` again, with the
same region-local fields.  The member is `const`: it is a function of the receiver. -/
theorem convertToRegion_same_instant (x : DateTime) (R2 : RegionTime) :
    (x.convertToRegion R2).getSystemTime = x.getSystemTime ∧
    (x.convertToRegion R2).opEq x = true ∧
    (x.convertToRegion R2).getRegion = R2 ∧
    (x.convertToRegion R2).getMillisecond = x.getMillisecond ∧
    (x.convertToRegion R2).convertToRegion x.getRegion = x ∧
    ((x.convertToRegion R2).convertToRegion x.getRegion).getYear = x.getYear ∧
    ((x.convertToRegion R2).convertToRegion x.getRegion).getMonth = x.getMonth ∧
    ((x.convertToRegion R2).convertToRegion x.getRegion).getDay = x.getDay ∧
    ((x.convertToRegion R2).convertToRegion x.getRegion).getHour = x.getHour ∧
    ((x.convertToRegion R2).convertToRegion x.getRegion).getMinute = x.getMinute ∧
    ((x.convertToRegion R2).convertToRegion x.getRegion).getSecond = x.getSecond := by
  have hback : (x.convertToRegion R2).convertToRegion x.getRegion = x := rfl
  rw [hback]
  refine ⟨rfl, ?_, rfl, rfl, rfl, rfl, rfl, rfl, rfl, rfl, rfl⟩
  simp [opEq, convertToRegion, fromTimePoint]

/-- Counterexample to C15: 2262-04-11 12:00:00 in WorldTime is valid and not the last day
of April, and advanced by one day it reads 1677-09-21 12:25:27, where 2262-04-12 12:00:00
is expected: the clock ends on 2262-04-11 at 23:47:16.
And in a region whose total offset is not a value of `int` (a minute offset of 536870912)
the value built from 2023-01-15 12:00:00 and advanced by one day reads
1886-12-10 05:31:44, where 2023-01-16 12:00:00 is expected. -/
theorem plusDays_one_at_end_of_clock :
    (isValidDate 2262 4 11 = true ∧ isValidTime 12 0 0 0 = true ∧
     (11 : Int) < Spec.lastDayOfMonth 2262 4 ∧
     ((fromFields 2262 4 11 12 0 0 0 WorldTime).plusDays 1).getYear = 1677 ∧
     ((fromFields 2262 4 11 12 0 0 0 WorldTime).plusDays 1).getMonth = 9 ∧
     ((fromFields 2262 4 11 12 0 0 0 WorldTime).plusDays 1).getDay = 21 ∧
     ((fromFields 2262 4 11 12 0 0 0 WorldTime).plusDays 1).getHour = 12 ∧
     ((fromFields 2262 4 11 12 0 0 0 WorldTime).plusDays 1).getMinute = 25 ∧
     ((fromFields 2262 4 11 12 0 0 0 WorldTime).plusDays 1).getSecond = 27) ∧
    (isValidDate 2023 1 15 = true ∧ (15 : Int) < Spec.lastDayOfMonth 2023 1 ∧
      ((fromFields 2023 1 15 12 0 0 0 ⟨"X", 0, 536870912⟩).plusDays 1).getYear = 1886 ∧
      ((fromFields 2023 1 15 12 0 0 0 ⟨"X", 0, 536870912⟩).plusDays 1).getMonth = 12 ∧
      ((fromFields 2023 1 15 12 0 0 0 ⟨"X", 0, 536870912⟩).plusDays 1).getDay = 10 ∧
      ((fromFields 2023 1 15 12 0 0 0 ⟨"X", 0, 536870912⟩).plusDays 1).getHour = 5 ∧
      ((fromFields 2023 1 15 12 0 0 0 ⟨"X", 0, 536870912⟩).plusDays 1).getMinute = 31 ∧
      ((fromFields 2023 1 15 12 0 0 0 ⟨"X", 0, 536870912⟩).plusDays 1).getSecond = 44) := by
  constructor
  · have s1 : (fromFields 2262 4 11 12 0 0 0 WorldTime).plusDays 1
        = ⟨-9223328073709551616, WorldTime⟩ := by decide
    rw [s1]
    decide
  · have r1 : (fromFields 2023 1 15 12 0 0 0 ⟨"X", 0, 536870912⟩).plusDays 1
        = ⟨-473613248000000000, ⟨"X", 0, 536870912⟩⟩ := by decide
    rw [r1]
    decide

/-- C15, amended: `plusDays 1` is the calendar successor.  For every date accepted by
`isValidDate`, every valid time of day and every region whose total offset and its
negative are values of `int`, such that the clock holds the instant one day after the
fields, the value built from them and advanced by one day keeps hour, minute and second
and has the date `(y, m, d + 1)` when `d` is not the last day of the month, `(y, m + 1, 1)`
when it is and `m < 12`, and `(y + 1, 1, 1)` on December 31; 2020-02-28 goes to 2020-02-29
and 2019-02-28 goes to 2019-03-01. -/
theorem plusDays_one_is_successor :
    (∀ (y m d h mi s : Int) (R : RegionTime),
      isValidDate y m d = true → isValidTime h mi s 0 = true →
      Spec.offsetInRange R →
      Spec.fitsClock (Spec.instantTicks y m (d + 1) h mi s 0 R) →
      ((fromFields y m d h mi s 0 R).plusDays 1).getHour = h ∧
      ((fromFields y m d h mi s 0 R).plusDays 1).getMinute = mi ∧
      ((fromFields y m d h mi s 0 R).plusDays 1).getSecond = s ∧
      (d < Spec.lastDayOfMonth y m →
        ((fromFields y m d h mi s 0 R).plusDays 1).getYear = y ∧
        ((fromFields y m d h mi s 0 R).plusDays 1).getMonth = m ∧
        ((fromFields y m d h mi s 0 R).plusDays 1).getDay = d + 1) ∧
      (d = Spec.lastDayOfMonth y m → m < 12 →
        ((fromFields y m d h mi s 0 R).plusDays 1).getYear = y ∧
        ((fromFields y m d h mi s 0 R).plusDays 1).getMonth = m + 1 ∧
        ((fromFields y m d h mi s 0 R).plusDays 1).getDay = 1) ∧
      (m = 12 → d = 31 →
        ((fromFields y m d h mi s 0 R).plusDays 1).getYear = y + 1 ∧
        ((fromFields y m d h mi s 0 R).plusDays 1).getMonth = 1 ∧
        ((fromFields y m d h mi s 0 R).plusDays 1).getDay = 1)) ∧
    (((fromFields 2020 2 28 0 0 0 0 WorldTime).plusDays 1).getYear = 2020 ∧
     ((fromFields 2020 2 28 0 0 0 0 WorldTime).plusDays 1).getMonth = 2 ∧
     ((fromFields 2020 2 28 0 0 0 0 WorldTime).plusDays 1).getDay = 29) ∧
    (((fromFields 2019 2 28 0 0 0 0 WorldTime).plusDays 1).getYear = 2019 ∧
     ((fromFields 2019 2 28 0 0 0 0 WorldTime).plusDays 1).getMonth = 3 ∧
     ((fromFields 2019 2 28 0 0 0 0 WorldTime).plusDays 1).getDay = 1) := by
  have s1 : (fromFields 2020 2 28 0 0 0 0 WorldTime).plusDays 1
      = ⟨1582934400000000000, WorldTime⟩ := by decide
  have s2 : (fromFields 2019 2 28 0 0 0 0 WorldTime).plusDays 1
      = ⟨1551398400000000000, WorldTime⟩ := by decide
  rw [s1, s2]
  refine ⟨?_, by decide, by decide⟩
  intro y m d h mi s R hdate htime hR hfit
  obtain ⟨hy1, hy2, hm1, hm2, hd1, hd2⟩ := (isValidDate_iff y m d).mp hdate
  obtain ⟨hh1, hh2, hmi1, hmi2, hs1, hs2, _, _⟩ := (isValidTime_iff h mi s 0).mp htime
  have hx := fromFields_plusDays y m d h mi s 1 R hy1 hy2 hm1 hm2 hR (by decide) hfit
  by_cases hlt : d < Spec.lastDayOfMonth y m
  · obtain ⟨k1, k2, k3, k4, k5, k6⟩ := getters_of_civil y m (d + 1) h mi s R hR hm1 hm2
      (by omega) (by omega) hh1 (by omega) hmi1 (by omega) hs1 (by omega) _ hx
    exact ⟨k4, k5, k6, fun _ => ⟨k1, k2, k3⟩, fun h1 => by omega,
      fun h1 h2 => by
        have : Spec.lastDayOfMonth y 12 = 31 := by simp [Spec.lastDayOfMonth]
        rw [h1] at hlt
        omega⟩
  · have hd : d = Spec.lastDayOfMonth y m := by omega
    have hend := instantTicks_month_end y m h mi s 0 R hm1 hm2
    rw [← hd] at hend
    by_cases h12 : m < 12
    · rw [if_pos h12] at hend
      rw [hend] at hx
      obtain ⟨k1, k2, k3, k4, k5, k6⟩ := getters_of_civil y (m + 1) 1 h mi s R hR (by omega)
        (by omega) (by omega)
        (by have := lastDayOfMonth_ge y (m + 1) (by omega) (by omega); omega)
        hh1 (by omega) hmi1 (by omega) hs1 (by omega) _ hx
      exact ⟨k4, k5, k6, fun h1 => absurd h1 hlt, fun _ _ => ⟨k1, k2, k3⟩,
        fun h1 => by omega⟩
    · rw [if_neg h12] at hend
      rw [hend] at hx
      obtain ⟨k1, k2, k3, k4, k5, k6⟩ := getters_of_civil (y + 1) 1 1 h mi s R hR (by omega)
        (by omega) (by omega)
        (by have := lastDayOfMonth_ge (y + 1) 1 (by omega) (by omega); omega)
        hh1 (by omega) hmi1 (by omega) hs1 (by omega) _ hx
      exact ⟨k4, k5, k6, fun h1 => absurd h1 hlt, fun _ h2 => absurd h2 h12,
        fun _ _ => ⟨k1, k2, k3⟩⟩

/-- Witness of C15: 2023-12-31 23:59:59 in Japan time goes to 2024-01-01 23:59:59. -/
theorem plusDays_one_is_successor_witness :
    (isValidDate 2023 12 31 = true ∧ isValidTime 23 59 59 0 = true ∧
      Spec.offsetInRange JapanTime ∧
      Spec.fitsClock (Spec.instantTicks 2023 12 (31 + 1) 23 59 59 0 JapanTime)) ∧
    ((fromFields 2023 12 31 23 59 59 0 JapanTime).plusDays 1).getYear = 2023 + 1 ∧
    ((fromFields 2023 12 31 23 59 59 0 JapanTime).plusDays 1).getMonth = 1 ∧
    ((fromFields 2023 12 31 23 59 59 0 JapanTime).plusDays 1).getDay = 1 :=
  ⟨⟨by decide, by decide, by decide, by decide⟩,
    (plusDays_one_is_successor.1 2023 12 31 23 59 59 JapanTime (by decide) (by decide)
      (by decide) (by decide)).2.2.2.2.2 rfl rfl⟩

/-- Counterexample to C16: the year 2262 is not a leap year, and `DateTime(2262, 1, 1)`
advanced 365 times by one day, or once by 365 days, reads 1678-06-12 00:25:27, where
2263-01-01 00:00:00 is expected: the clock ends in April 2262. -/
theorem plusDays_year_2262_wraps :
    ¬ Spec.isLeapYear 2262 ∧
    (Nat.iterate (fun z : DateTime => z.plusDays 1) 365
      (fromFields 2262 1 1 0 0 0 0 WorldTime)).getYear = 1678 ∧
    (Nat.iterate (fun z : DateTime => z.plusDays 1) 365
      (fromFields 2262 1 1 0 0 0 0 WorldTime)).getMonth = 6 ∧
    (Nat.iterate (fun z : DateTime => z.plusDays 1) 365
      (fromFields 2262 1 1 0 0 0 0 WorldTime)).getDay = 12 ∧
    (Nat.iterate (fun z : DateTime => z.plusDays 1) 365
      (fromFields 2262 1 1 0 0 0 0 WorldTime)).getMinute = 25 ∧
    ((fromFields 2262 1 1 0 0 0 0 WorldTime).plusDays 365).getYear = 1678 ∧
    ((fromFields 2262 1 1 0 0 0 0 WorldTime).plusDays 365).getMonth = 6 ∧
    ((fromFields 2262 1 1 0 0 0 0 WorldTime).plusDays 365).getDay = 12 := by
  have s0 : fromFields 2262 1 1 0 0 0 0 WorldTime = ⟨9214646400000000000, WorldTime⟩ := by
    decide
  have s1 : Nat.iterate (fun z : DateTime => z.plusDays 1) 365
      (fromFields 2262 1 1 0 0 0 0 WorldTime) = ⟨-9200561673709551616, WorldTime⟩ := by
    rw [iterate_plusDays_one 365 _ (by rw [s0]; decide), s0]
    decide
  have s2 : (fromFields 2262 1 1 0 0 0 0 WorldTime).plusDays 365
      = ⟨-9200561673709551616, WorldTime⟩ := by decide
  rw [s1, s2]
  decide

/-- C16, amended: for every year `y` with 1900 ≤ y ≤ 2261, the years for which the clock
holds the first of January of the next year, applying `plusDays 1` to `DateTime(y, 1, 1)`
365 times when `y` is not a leap year, and 366 times when it is, gives a value whose date
is `(y + 1, 1, 1)` at 00:00:00; and for every year `y` with 1900 ≤ y ≤ 9998,
`DateTime(y, 1, 1)` advanced by `365 + [y is leap]` days compares equal to
`DateTime(y + 1, 1, 1)`. -/
theorem plusDays_year_length :
    (∀ y : Int, 1900 ≤ y → y ≤ 2261 →
      (Nat.iterate (fun z : DateTime => z.plusDays 1) (if Spec.isLeapYear y then 366 else 365)
        (fromFields y 1 1 0 0 0 0 WorldTime)).getYear = y + 1 ∧
      (Nat.iterate (fun z : DateTime => z.plusDays 1) (if Spec.isLeapYear y then 366 else 365)
        (fromFields y 1 1 0 0 0 0 WorldTime)).getMonth = 1 ∧
      (Nat.iterate (fun z : DateTime => z.plusDays 1) (if Spec.isLeapYear y then 366 else 365)
        (fromFields y 1 1 0 0 0 0 WorldTime)).getDay = 1 ∧
      (Nat.iterate (fun z : DateTime => z.plusDays 1) (if Spec.isLeapYear y then 366 else 365)
        (fromFields y 1 1 0 0 0 0 WorldTime)).getHour = 0 ∧
      (Nat.iterate (fun z : DateTime => z.plusDays 1) (if Spec.isLeapYear y then 366 else 365)
        (fromFields y 1 1 0 0 0 0 WorldTime)).getMinute = 0 ∧
      (Nat.iterate (fun z : DateTime => z.plusDays 1) (if Spec.isLeapYear y then 366 else 365)
        (fromFields y 1 1 0 0 0 0 WorldTime)).getSecond = 0) ∧
    (∀ y : Int, 1900 ≤ y → y ≤ 9998 →
      ((fromFields y 1 1 0 0 0 0 WorldTime).plusDays
          (365 + (if Spec.isLeapYear y then 1 else 0))).opEq
        (fromFields (y + 1) 1 1 0 0 0 0 WorldTime) = true) := by
  constructor
  · intro y h1 h2
    have hk : ((if Spec.isLeapYear y then 366 else 365 : Nat) : Int)
        = if Spec.isLeapYear y then 366 else 365 := by
      split_ifs <;> rfl
    have hf0 := fitsClock_january y (by omega) (by omega)
    have hf1 := fitsClock_january (y + 1) (by omega) (by omega)
    have hx0 := fromFields_valid y 1 1 0 0 0 0 WorldTime h1 (by omega) (by omega) (by omega)
      (by decide) hf0
    have hit : Nat.iterate (fun z : DateTime => z.plusDays 1)
        (if Spec.isLeapYear y then 366 else 365) (fromFields y 1 1 0 0 0 0 WorldTime)
        = { dt_clockPoint := Spec.instantTicks (y + 1) 1 1 0 0 0 0 WorldTime
            dt_timeRegion := WorldTime } := by
      rw [iterate_plusDays_one _ _ (by rw [hx0]; exact hf0), hx0, hk]
      simp only [DateTime.mk.injEq, and_true]
      rw [instantTicks_next_year]
      exact Machine.wrapLong_eq _ hf1.1 hf1.2
    exact getters_of_civil (y + 1) 1 1 0 0 0 WorldTime (by decide)
      (by omega) (by omega) (by omega)
      (by have := lastDayOfMonth_ge (y + 1) 1 (by omega) (by omega); omega)
      (by omega) (by omega) (by omega) (by omega) (by omega) (by omega) _ hit
  · intro y h1 h2
    have hk2 : (365 + (if Spec.isLeapYear y then 1 else 0) : Int)
        = if Spec.isLeapYear y then 366 else 365 := by
      split_ifs <;> rfl
    have hx0 := fromFields_valid_wrap y 1 1 0 0 0 0 WorldTime h1 (by omega) (by omega)
      (by omega) (by decide)
    have hx1 := fromFields_valid_wrap (y + 1) 1 1 0 0 0 0 WorldTime (by omega) (by omega)
      (by omega) (by omega) (by decide)
    rw [hk2, hx0, hx1, plusDays_wrap _ _ (by unfold Spec.fitsInt; split_ifs <;> omega)]
    simp only [opEq, decide_eq_true_eq]
    rw [Machine.wrapLong_add_left, instantTicks_next_year]

/-- Witness of C16: the leap year 2024, 366 steps of one day. -/
theorem plusDays_year_length_witness :
    ((1900 : Int) ≤ 2024 ∧ (2024 : Int) ≤ 2261) ∧
    (Nat.iterate (fun z : DateTime => z.plusDays 1) (if Spec.isLeapYear 2024 then 366 else 365)
      (fromFields 2024 1 1 0 0 0 0 WorldTime)).getYear = 2024 + 1 ∧
    (Nat.iterate (fun z : DateTime => z.plusDays 1) (if Spec.isLeapYear 2024 then 366 else 365)
      (fromFields 2024 1 1 0 0 0 0 WorldTime)).getMonth = 1 ∧
    (Nat.iterate (fun z : DateTime => z.plusDays 1) (if Spec.isLeapYear 2024 then 366 else 365)
      (fromFields 2024 1 1 0 0 0 0 WorldTime)).getDay = 1 ∧
    ((fromFields 2024 1 1 0 0 0 0 WorldTime).plusDays
        (365 + (if Spec.isLeapYear 2024 then 1 else 0))).opEq
      (fromFields (2024 + 1) 1 1 0 0 0 0 WorldTime) = true :=
  ⟨⟨by decide, by decide⟩,
    (plusDays_year_length.1 2024 (by decide) (by decide)).1,
    (plusDays_year_length.1 2024 (by decide) (by decide)).2.1,
    (plusDays_year_length.1 2024 (by decide) (by decide)).2.2.1,
    plusDays_year_length.2 2024 (by decide) (by decide)⟩

/-- Counterexample to C17: 2023-01-01 00:00:00 in WorldTime is not a February 29, and
advanced by 300 years it reads 1738-06-12 00:25:27, where 2323-01-01 00:00:00 is expected:
the clock does not hold the year 2323.
And in a region whose total offset is not a value of `int` (a minute offset of 536870912)
the value built from 2023-01-15 12:00:00 reads 1886-12-09 05:31:44, and advanced by one
year it reads 1751-11-01 23:03:28, where 1887-12-09 05:31:44 is expected. -/
theorem plusYears_outside_clock_fields :
    (¬ ((fromFields 2023 1 1 0 0 0 0 WorldTime).getMonth = 2 ∧
         (fromFields 2023 1 1 0 0 0 0 WorldTime).getDay = 29) ∧
     (fromFields 2023 1 1 0 0 0 0 WorldTime).getYear + 300 = 2323 ∧
     ((fromFields 2023 1 1 0 0 0 0 WorldTime).plusYears 300).getYear = 1738 ∧
     ((fromFields 2023 1 1 0 0 0 0 WorldTime).plusYears 300).getMonth = 6 ∧
     ((fromFields 2023 1 1 0 0 0 0 WorldTime).plusYears 300).getDay = 12 ∧
     ((fromFields 2023 1 1 0 0 0 0 WorldTime).plusYears 300).getHour = 0 ∧
     ((fromFields 2023 1 1 0 0 0 0 WorldTime).plusYears 300).getMinute = 25 ∧
     ((fromFields 2023 1 1 0 0 0 0 WorldTime).plusYears 300).getSecond = 27) ∧
    ((fromFields 2023 1 15 12 0 0 0 ⟨"X", 0, 536870912⟩).getYear = 1886 ∧
      (fromFields 2023 1 15 12 0 0 0 ⟨"X", 0, 536870912⟩).getMonth = 12 ∧
      (fromFields 2023 1 15 12 0 0 0 ⟨"X", 0, 536870912⟩).getDay = 9 ∧
      (fromFields 2023 1 15 12 0 0 0 ⟨"X", 0, 536870912⟩).getHour = 5 ∧
      ((fromFields 2023 1 15 12 0 0 0 ⟨"X", 0, 536870912⟩).plusYears 1).getYear = 1751 ∧
      ((fromFields 2023 1 15 12 0 0 0 ⟨"X", 0, 536870912⟩).plusYears 1).getMonth = 11 ∧
      ((fromFields 2023 1 15 12 0 0 0 ⟨"X", 0, 536870912⟩).plusYears 1).getDay = 1 ∧
      ((fromFields 2023 1 15 12 0 0 0 ⟨"X", 0, 536870912⟩).plusYears 1).getHour = 23) := by
  constructor
  · have s1 : (fromFields 2023 1 1 0 0 0 0 WorldTime).plusYears 300
        = ⟨-7307192073709551616, WorldTime⟩ := by decide
    rw [s1]
    decide
  · have r1 : (fromFields 2023 1 15 12 0 0 0 ⟨"X", 0, 536870912⟩).plusYears 1
        = ⟨-4737130944000000000, ⟨"X", 0, 536870912⟩⟩ := by decide
    rw [r1]
    decide

/-- C17, amended: for every DateTime `x` with region-local fields `(y, m, d, h, mi, s)`,
in a region whose total offset and its negative are values of `int`, and every `n` such
that `(m, d)` is not `(2, 29)` or `y + n` is a leap year, and such that the clock holds
the instant of the fields `(y + n, m, d, h, mi, s)` in that region, `x.plusYears n` has
the region-local fields `(y + n, m, d, h, mi, s)`: only the year changes. -/
theorem plusYears_changes_only_year (x : DateTime) (n : Int)
    (hR : Spec.offsetInRange x.getRegion)
    (hfit : Spec.fitsClock
      (Spec.instantTicks (x.getYear + n) x.getMonth x.getDay x.getHour x.getMinute x.getSecond
        0 x.getRegion))
    (h : ¬ (x.getMonth = 2 ∧ x.getDay = 29) ∨ Spec.isLeapYear (x.getYear + n)) :
    (x.plusYears n).getYear = x.getYear + n ∧
    (x.plusYears n).getMonth = x.getMonth ∧
    (x.plusYears n).getDay = x.getDay ∧
    (x.plusYears n).getHour = x.getHour ∧
    (x.plusYears n).getMinute = x.getMinute ∧
    (x.plusYears n).getSecond = x.getSecond :=
  getters_plusYears x n hR hfit h

/-- Witness of C17: the leap day 2024-02-29 12:30:45 in Japan time plus four years. -/
theorem plusYears_changes_only_year_witness :
    (Spec.offsetInRange (fromFields 2024 2 29 12 30 45 0 JapanTime).getRegion ∧
      (¬ ((fromFields 2024 2 29 12 30 45 0 JapanTime).getMonth = 2 ∧
          (fromFields 2024 2 29 12 30 45 0 JapanTime).getDay = 29)
        ∨ Spec.isLeapYear ((fromFields 2024 2 29 12 30 45 0 JapanTime).getYear + 4))) ∧
    ((fromFields 2024 2 29 12 30 45 0 JapanTime).plusYears 4).getYear
      = (fromFields 2024 2 29 12 30 45 0 JapanTime).getYear + 4 ∧
    ((fromFields 2024 2 29 12 30 45 0 JapanTime).plusYears 4).getMonth
      = (fromFields 2024 2 29 12 30 45 0 JapanTime).getMonth ∧
    ((fromFields 2024 2 29 12 30 45 0 JapanTime).plusYears 4).getDay
      = (fromFields 2024 2 29 12 30 45 0 JapanTime).getDay :=
  have s1 : fromFields 2024 2 29 12 30 45 0 JapanTime
      = ⟨1709177445000000000, JapanTime⟩ := by decide
  ⟨⟨by decide, Or.inr (by decide)⟩,
    (plusYears_changes_only_year (fromFields 2024 2 29 12 30 45 0 JapanTime) 4 (by decide)
      (by rw [s1]; decide) (Or.inr (by decide))).1,
    (plusYears_changes_only_year (fromFields 2024 2 29 12 30 45 0 JapanTime) 4 (by decide)
      (by rw [s1]; decide) (Or.inr (by decide))).2.1,
    (plusYears_changes_only_year (fromFields 2024 2 29 12 30 45 0 JapanTime) 4 (by decide)
      (by rw [s1]; decide) (Or.inr (by decide))).2.2.1⟩

/-- C18: each of `plusYears`, `plusMonths`, `plusDays`, `plusHours`, `plusMinutes`,
`plusSeconds` and `plusMilliseconds` returns a value whose region (identifier, hour
offset, minute offset) is that of the receiver.  The members are `const`: each is a
function of the receiver, which keeps its instant and region. -/
theorem plus_operations_keep_region (x : DateTime) (n : Int) :
    (x.plusYears n).getRegion = x.getRegion ∧
    (x.plusMonths n).getRegion = x.getRegion ∧
    (x.plusDays n).getRegion = x.getRegion ∧
    (x.plusHours n).getRegion = x.getRegion ∧
    (x.plusMinutes n).getRegion = x.getRegion ∧
    (x.plusSeconds n).getRegion = x.getRegion ∧
    (x.plusMilliseconds n).getRegion = x.getRegion :=
  ⟨rfl, rfl, rfl, rfl, rfl, rfl, rfl⟩

/-- Counterexample to C19: on 2023-01-01 10:11:12 in Japan time, `setDate 2300 1 1`
succeeds, the date being valid, and the object then reads 1715-06-13 10:36:39, where
2300-01-01 10:11:12 is expected: the clock does not hold the year 2300.
And in a region whose total offset is not a value of `int` (a minute offset of 536870912),
on the value built from 2023-01-15 12:00:00, which reads the time 05:31:44,
`setDate 2024 2 29` leaves an object that reads 1888-01-22 23:03:28. -/
theorem setDate_outside_clock_fields :
    (isValidDate 2300 1 1 = true ∧
     ((fromFields 2023 1 1 10 11 12 0 JapanTime).setDate 2300 1 1).2.getYear = 1715 ∧
     ((fromFields 2023 1 1 10 11 12 0 JapanTime).setDate 2300 1 1).2.getMonth = 6 ∧
     ((fromFields 2023 1 1 10 11 12 0 JapanTime).setDate 2300 1 1).2.getDay = 13 ∧
     ((fromFields 2023 1 1 10 11 12 0 JapanTime).setDate 2300 1 1).2.getHour = 10 ∧
     ((fromFields 2023 1 1 10 11 12 0 JapanTime).setDate 2300 1 1).2.getMinute = 36 ∧
     ((fromFields 2023 1 1 10 11 12 0 JapanTime).setDate 2300 1 1).2.getSecond = 39 ∧
     (fromFields 2023 1 1 10 11 12 0 JapanTime).getMinute = 11 ∧
     (fromFields 2023 1 1 10 11 12 0 JapanTime).getSecond = 12) ∧
    (isValidDate 2024 2 29 = true ∧
      (fromFields 2023 1 15 12 0 0 0 ⟨"X", 0, 536870912⟩).getHour = 5 ∧
      (fromFields 2023 1 15 12 0 0 0 ⟨"X", 0, 536870912⟩).getMinute = 31 ∧
      ((fromFields 2023 1 15 12 0 0 0 ⟨"X", 0, 536870912⟩).setDate 2024 2 29).2.getYear = 1888 ∧
      ((fromFields 2023 1 15 12 0 0 0 ⟨"X", 0, 536870912⟩).setDate 2024 2 29).2.getMonth = 1 ∧
      ((fromFields 2023 1 15 12 0 0 0 ⟨"X", 0, 536870912⟩).setDate 2024 2 29).2.getDay = 22 ∧
      ((fromFields 2023 1 15 12 0 0 0 ⟨"X", 0, 536870912⟩).setDate 2024 2 29).2.getHour = 23 ∧
      ((fromFields 2023 1 15 12 0 0 0 ⟨"X", 0, 536870912⟩).setDate 2024 2 29).2.getMinute = 3) := by
  constructor
  · have s1 : ((fromFields 2023 1 1 10 11 12 0 JapanTime).setDate 2300 1 1).2
        = ⟨-8032947801709551616, JapanTime⟩ := by decide
    rw [s1]
    decide
  · have r1 : ((fromFields 2023 1 15 12 0 0 0 ⟨"X", 0, 536870912⟩).setDate 2024 2 29).2
        = ⟨-438298944000000000, ⟨"X", 0, 536870912⟩⟩ := by decide
    rw [r1]
    decide

/-- C19, amended: for every DateTime `x` in a region whose total offset and its negative
are values of `int`, and every date accepted by `isValidDate` such that the clock holds
the instant of that date with the time of day of `x` in the region, `x.setDate y m d`
succeeds and afterwards the getters give year `y`, month `m` and day `d`, while hour,
minute, second and the region are what they were before the call. -/
theorem setDate_sets_date_keeps_time (x : DateTime) (y m d : Int)
    (hdate : isValidDate y m d = true) (hR : Spec.offsetInRange x.getRegion)
    (hfit : Spec.fitsClock
      (Spec.instantTicks y m d x.getHour x.getMinute x.getSecond 0 x.getRegion)) :
    (x.setDate y m d).1 = Except.ok () ∧
    (x.setDate y m d).2.getYear = y ∧
    (x.setDate y m d).2.getMonth = m ∧
    (x.setDate y m d).2.getDay = d ∧
    (x.setDate y m d).2.getHour = x.getHour ∧
    (x.setDate y m d).2.getMinute = x.getMinute ∧
    (x.setDate y m d).2.getSecond = x.getSecond ∧
    (x.setDate y m d).2.getRegion = x.getRegion := by
  obtain ⟨_, _, hm1, hm2, hd1, hd2⟩ := (isValidDate_iff y m d).mp hdate
  obtain ⟨_, _, _, _, hh1, hh2, hmi1, hmi2, hs1, hs2⟩ := getRegionAdjustedTime_valid x
  have hx := setDate_exact x y m d hdate hR hfit
  obtain ⟨k1, k2, k3, k4, k5, k6⟩ := getters_of_civil y m d x.getHour x.getMinute x.getSecond
    x.dt_timeRegion hR hm1 hm2 hd1 hd2 hh1 hh2 hmi1 hmi2 hs1 hs2 _ hx
  refine ⟨?_, k1, k2, k3, k4, k5, k6, ?_⟩
  · simp only [setDate, hdate, Bool.not_true, Bool.false_eq_true, if_false]
  · rw [hx]
    rfl

/-- Witness of C19: 2023-01-01 10:11:12.013 in Japan time, set to the leap day
2024-02-29. -/
theorem setDate_sets_date_keeps_time_witness :
    (isValidDate 2024 2 29 = true ∧
      Spec.offsetInRange (fromFields 2023 1 1 10 11 12 13 JapanTime).getRegion) ∧
    ((fromFields 2023 1 1 10 11 12 13 JapanTime).setDate 2024 2 29).2.getYear = 2024 ∧
    ((fromFields 2023 1 1 10 11 12 13 JapanTime).setDate 2024 2 29).2.getMonth = 2 ∧
    ((fromFields 2023 1 1 10 11 12 13 JapanTime).setDate 2024 2 29).2.getDay = 29 ∧
    ((fromFields 2023 1 1 10 11 12 13 JapanTime).setDate 2024 2 29).2.getHour
      = (fromFields 2023 1 1 10 11 12 13 JapanTime).getHour :=
  have s1 : fromFields 2023 1 1 10 11 12 13 JapanTime
      = ⟨1672535472013000000, JapanTime⟩ := by decide
  ⟨⟨by decide, by decide⟩,
    (setDate_sets_date_keeps_time (fromFields 2023 1 1 10 11 12 13 JapanTime) 2024 2 29
      (by decide) (by decide) (by rw [s1]; decide)).2.1,
    (setDate_sets_date_keeps_time (fromFields 2023 1 1 10 11 12 13 JapanTime) 2024 2 29
      (by decide) (by decide) (by rw [s1]; decide)).2.2.1,
    (setDate_sets_date_keeps_time (fromFields 2023 1 1 10 11 12 13 JapanTime) 2024 2 29
      (by decide) (by decide) (by rw [s1]; decide)).2.2.2.1,
    (setDate_sets_date_keeps_time (fromFields 2023 1 1 10 11 12 13 JapanTime) 2024 2 29
      (by decide) (by decide) (by rw [s1]; decide)).2.2.2.2.1⟩

/-- C20: after a successful `setTime h mi s ms` the getters are expected to return `h`,
`mi`, `s` and `ms` for every receiver; when the new instant lies before the epoch and
`ms` is not 0 they do not.  Evaluated here: on 1969-12-31 00:00:00 in UTC,
`setTime 12 0 0 500` succeeds and the object then reads 12:00:01 with millisecond -500. -/
theorem setTime_before_epoch_fields :
    isValidTime 12 0 0 500 = true ∧
    ((fromFields 1969 12 31 0 0 0 0 WorldTime).setTime 12 0 0 500).1 = Except.ok () ∧
    ((fromFields 1969 12 31 0 0 0 0 WorldTime).setTime 12 0 0 500).2.getHour = 12 ∧
    ((fromFields 1969 12 31 0 0 0 0 WorldTime).setTime 12 0 0 500).2.getMinute = 0 ∧
    ((fromFields 1969 12 31 0 0 0 0 WorldTime).setTime 12 0 0 500).2.getSecond = 1 ∧
    ((fromFields 1969 12 31 0 0 0 0 WorldTime).setTime 12 0 0 500).2.getMillisecond = -500 :=
  ⟨by decide, rfl, by decide, by decide, by decide, by decide⟩

/-- Counterexample to C21: the text "9999-12-31 23:59:59" matches the default pattern and
its fields are accepted by `isValidDate` and `isValidTime`, and `parse` returns a value
that reads 1816-03-30 05:56:08 with millisecond -933: fields that the text does not have
and that `isValidDate` and `isValidTime` reject.  The clock does not hold the year
9999. -/
theorem parse_outside_clock_returns_other_fields :
    isValidDate 9999 12 31 = true ∧ isValidTime 23 59 59 0 = true ∧
    parse CLib.minimalLibrary "9999-12-31 23:59:59".toList defaultFormat
      = some ⟨-4852116232933722624, WorldTime⟩ ∧
    (⟨-4852116232933722624, WorldTime⟩ : DateTime).getYear = 1816 ∧
    (⟨-4852116232933722624, WorldTime⟩ : DateTime).getMonth = 3 ∧
    (⟨-4852116232933722624, WorldTime⟩ : DateTime).getDay = 30 ∧
    (⟨-4852116232933722624, WorldTime⟩ : DateTime).getHour = 5 ∧
    (⟨-4852116232933722624, WorldTime⟩ : DateTime).getMinute = 56 ∧
    (⟨-4852116232933722624, WorldTime⟩ : DateTime).getSecond = 8 ∧
    (⟨-4852116232933722624, WorldTime⟩ : DateTime).getMillisecond = -933 ∧
    isValidDate 1816 3 30 = false ∧ isValidTime 5 56 8 (-933) = false := by
  have s1 : parse CLib.minimalLibrary "9999-12-31 23:59:59".toList defaultFormat
      = some (fromFields 9999 12 31 23 59 59 0 WorldTime) :=
    parse_isoText CLib.minimalLibrary 9999 12 31 23 59 59 (by decide) (by decide)
  have s2 : fromFields 9999 12 31 23 59 59 0 WorldTime
      = ⟨-4852116232933722624, WorldTime⟩ := by decide
  rw [s1, s2]
  decide

/-- C21, amended: `parse` returns the empty optional whenever the structural match fails,
and whenever it succeeds but the extracted fields fail `isValidDate` or `isValidTime` with
millisecond 0; a value it does return has the extracted fields, which are valid, when the
clock holds their instant.  It is a total function: nothing is raised.  The texts
"2023-02-30 12:00:00" and "invalid-date" give the empty optional with the default
pattern. -/
theorem parse_rejects_unmatched_or_invalid :
    (∀ (lib : CLib.TimeLibrary) (text pattern : List Char),
      (CLib.get_time lib text (CLib.c_str pattern) Tm.zero = none →
        parse lib text pattern = none) ∧
      (∀ t : Tm, CLib.get_time lib text (CLib.c_str pattern) Tm.zero = some t →
        (isValidDate (t.tm_year + 1900) (t.tm_mon + 1) t.tm_mday = false ∨
          isValidTime t.tm_hour t.tm_min t.tm_sec 0 = false) →
        parse lib text pattern = none) ∧
      (∀ (t : Tm) (v : DateTime),
        CLib.get_time lib text (CLib.c_str pattern) Tm.zero = some t →
        parse lib text pattern = some v →
        Spec.fitsClock
          (Spec.instantTicks (t.tm_year + 1900) (t.tm_mon + 1) t.tm_mday t.tm_hour t.tm_min
            t.tm_sec 0 WorldTime) →
        (v.getYear = t.tm_year + 1900 ∧ v.getMonth = t.tm_mon + 1 ∧ v.getDay = t.tm_mday ∧
          v.getHour = t.tm_hour ∧ v.getMinute = t.tm_min ∧ v.getSecond = t.tm_sec ∧
          v.getMillisecond = 0) ∧
        isValidDate v.getYear v.getMonth v.getDay = true ∧
        isValidTime v.getHour v.getMinute v.getSecond v.getMillisecond = true)) ∧
    (∀ lib : CLib.TimeLibrary,
      parse lib "2023-02-30 12:00:00".toList defaultFormat = none) ∧
    (∀ lib : CLib.TimeLibrary, parse lib "invalid-date".toList defaultFormat = none) := by
  refine ⟨?_, fun _ => rfl, fun _ => rfl⟩
  intro lib text pattern
  refine ⟨?_, ?_, ?_⟩
  · intro h
    simp [parse, h]
  · intro t h hinv
    rcases hinv with hinv | hinv <;> simp [parse, h, hinv]
  · intro t v hg hv hfit
    obtain ⟨t2, hg2, hd, ht, rfl⟩ := parse_eq_some lib text pattern v hv
    rw [hg] at hg2
    cases hg2
    obtain ⟨hy1, hy2, hm1, hm2, hd1, hd2⟩ := (isValidDate_iff _ _ _).mp hd
    obtain ⟨hh1, hh2, hmi1, hmi2, hs1, hs2, _, _⟩ := (isValidTime_iff _ _ _ _).mp ht
    have hx := fromFields_valid _ _ _ _ _ _ 0 WorldTime hy1 hy2 hm1 hm2 (by decide) hfit
    obtain ⟨k1, k2, k3, k4, k5, k6⟩ := getters_of_civil _ _ _ _ _ _ WorldTime (by decide)
      hm1 hm2 hd1 hd2 hh1 (by omega) hmi1 (by omega) hs1 (by omega) _ hx
    have hms : (fromFields (t.tm_year + 1900) (t.tm_mon + 1) t.tm_mday t.tm_hour t.tm_min
        t.tm_sec 0 WorldTime).getMillisecond = 0 := by
      rw [hx]
      have e : Spec.instantTicks (t.tm_year + 1900) (t.tm_mon + 1) t.tm_mday t.tm_hour
          t.tm_min t.tm_sec 0 WorldTime
          = (Spec.secondsSinceEpoch (t.tm_year + 1900) (t.tm_mon + 1) t.tm_mday t.tm_hour
              t.tm_min t.tm_sec - Spec.totalOffset WorldTime) * 1000000000 := by
        unfold Spec.instantTicks
        omega
      rw [e]
      exact getMillisecond_wholeSecond _ _
    rw [k1, k2, k3, k4, k5, k6, hms]
    exact ⟨⟨rfl, rfl, rfl, rfl, rfl, rfl, rfl⟩, hd, ht⟩

/-- Witness of C21: the text "2023-13-01 00:00:00" does not match the default pattern,
and "2023-10-15 14:30:45" gives a value with valid fields. -/
theorem parse_rejects_unmatched_or_invalid_witness :
    CLib.get_time CLib.minimalLibrary "2023-13-01 00:00:00".toList (CLib.c_str defaultFormat)
      Tm.zero = none ∧
    parse CLib.minimalLibrary "2023-13-01 00:00:00".toList defaultFormat = none ∧
    parse CLib.minimalLibrary "2023-10-15 14:30:45".toList defaultFormat
      = some (fromFields 2023 10 15 14 30 45 0 WorldTime) ∧
    Spec.fitsClock (Spec.instantTicks 2023 10 15 14 30 45 0 WorldTime) ∧
    isValidDate (fromFields 2023 10 15 14 30 45 0 WorldTime).getYear
      (fromFields 2023 10 15 14 30 45 0 WorldTime).getMonth
      (fromFields 2023 10 15 14 30 45 0 WorldTime).getDay = true :=
  have g1 : CLib.get_time CLib.minimalLibrary "2023-10-15 14:30:45".toList
      (CLib.c_str defaultFormat) Tm.zero
      = some (CLib.day_of_the_year (CLib.day_of_the_week
          { Tm.zero with
            tm_year := 2023 - 1900
            tm_mon := 10 - 1
            tm_mday := 15
            tm_hour := 14
            tm_min := 30
            tm_sec := 45 })) :=
    CLib.get_time_isoText CLib.minimalLibrary 2023 10 15 14 30 45 (by decide) (by decide)
      (by decide) (by decide) (by decide) (by decide) (by decide) (by decide) (by decide)
      (by decide) (by decide) (by decide)
  have p1 : parse CLib.minimalLibrary "2023-10-15 14:30:45".toList defaultFormat
      = some (fromFields 2023 10 15 14 30 45 0 WorldTime) :=
    parse_isoText CLib.minimalLibrary 2023 10 15 14 30 45 (by decide) (by decide)
  ⟨by decide,
    (parse_rejects_unmatched_or_invalid.1 CLib.minimalLibrary "2023-13-01 00:00:00".toList
      defaultFormat).1 (by decide),
    p1, by decide,
    ((parse_rejects_unmatched_or_invalid.1 CLib.minimalLibrary "2023-10-15 14:30:45".toList
      defaultFormat).2.2 _ (fromFields 2023 10 15 14 30 45 0 WorldTime) g1 p1
      (by decide)).2.1⟩

/-- Counterexample to C22: the fields 9999-12-31 23:59:59 are accepted by `isValidDate`
and `isValidTime`, and `parse` with the default pattern on their text returns the value
`DateTime(9999, 12, 31, 23, 59, 59)`, whose getters return 1816-03-30 05:56:08 and
millisecond -933, not the fields; and its default rendering is "1816-03-30 05:56:08",
which `parse` rejects. -/
theorem parse_text_outside_clock :
    isValidDate 9999 12 31 = true ∧ isValidTime 23 59 59 0 = true ∧
    Spec.isoText 9999 12 31 23 59 59 = "9999-12-31 23:59:59".toList ∧
    parse CLib.minimalLibrary (Spec.isoText 9999 12 31 23 59 59) defaultFormat
      = some (fromFields 9999 12 31 23 59 59 0 WorldTime) ∧
    (fromFields 9999 12 31 23 59 59 0 WorldTime).getYear = 1816 ∧
    (fromFields 9999 12 31 23 59 59 0 WorldTime).getMonth = 3 ∧
    (fromFields 9999 12 31 23 59 59 0 WorldTime).getDay = 30 ∧
    (fromFields 9999 12 31 23 59 59 0 WorldTime).getHour = 5 ∧
    (fromFields 9999 12 31 23 59 59 0 WorldTime).getMinute = 56 ∧
    (fromFields 9999 12 31 23 59 59 0 WorldTime).getSecond = 8 ∧
    (fromFields 9999 12 31 23 59 59 0 WorldTime).getMillisecond = -933 ∧
    (fromFields 9999 12 31 23 59 59 0 WorldTime).toString CLib.minimalLibrary defaultFormat
      = "1816-03-30 05:56:08".toList ∧
    parse CLib.minimalLibrary "1816-03-30 05:56:08".toList defaultFormat = none := by
  have s1 := parse_isoText CLib.minimalLibrary 9999 12 31 23 59 59 (by decide) (by decide)
  have s2 : fromFields 9999 12 31 23 59 59 0 WorldTime
      = ⟨-4852116232933722624, WorldTime⟩ := by decide
  have s3 : (⟨-4852116232933722624, WorldTime⟩ : DateTime).toString CLib.minimalLibrary
      defaultFormat = "1816-03-30 05:56:08".toList := by decide
  have s4 : parse CLib.minimalLibrary "1816-03-30 05:56:08".toList defaultFormat = none := by
    have g := CLib.get_time_isoText CLib.minimalLibrary 1816 3 30 5 56 8 (by decide)
      (by decide) (by decide) (by decide) (by decide) (by decide) (by decide) (by decide)
      (by decide) (by decide) (by decide) (by decide)
    have e : Spec.isoText 1816 3 30 5 56 8 = "1816-03-30 05:56:08".toList := by decide
    rw [e] at g
    unfold parse
    rw [g]
    decide
  rw [s1, s2, s3, s4]
  decide

/-- C22, amended: parsing undoes formatting.  For fields accepted by `isValidDate` and
`isValidTime`, `parse` with the default pattern on the zero-padded text
`YYYY-MM-DD HH:MM:SS` of the fields returns the value `DateTime(y,m,d,h,mi,s)`; when the
clock holds the instant of the fields in WorldTime, the getters of that value return the
fields and millisecond 0, and parsing the default rendering of that value returns a value
equal to it. -/
theorem parse_undoes_toString (lib : CLib.TimeLibrary) (y m d h mi s : Int)
    (hdate : isValidDate y m d = true) (htime : isValidTime h mi s 0 = true) :
    parse lib (Spec.isoText y m d h mi s) defaultFormat
      = some (fromFields y m d h mi s 0 WorldTime) ∧
    (Spec.fitsClock (Spec.instantTicks y m d h mi s 0 WorldTime) →
      (fromFields y m d h mi s 0 WorldTime).getYear = y ∧
      (fromFields y m d h mi s 0 WorldTime).getMonth = m ∧
      (fromFields y m d h mi s 0 WorldTime).getDay = d ∧
      (fromFields y m d h mi s 0 WorldTime).getHour = h ∧
      (fromFields y m d h mi s 0 WorldTime).getMinute = mi ∧
      (fromFields y m d h mi s 0 WorldTime).getSecond = s ∧
      (fromFields y m d h mi s 0 WorldTime).getMillisecond = 0 ∧
      parse lib ((fromFields y m d h mi s 0 WorldTime).toString lib defaultFormat)
          defaultFormat
        = some (fromFields y m d h mi s 0 WorldTime) ∧
      (∃ v : DateTime,
        parse lib ((fromFields y m d h mi s 0 WorldTime).toString lib defaultFormat)
          defaultFormat = some v ∧
        opEq v (fromFields y m d h mi s 0 WorldTime) = true)) := by
  have hp := parse_isoText lib y m d h mi s hdate htime
  refine ⟨hp, fun hfit => ?_⟩
  obtain ⟨hy1, hy2, hm1, hm2, hd1, hd2⟩ := (isValidDate_iff y m d).mp hdate
  obtain ⟨hh1, hh2, hmi1, hmi2, hs1, hs2, _, _⟩ := (isValidTime_iff h mi s 0).mp htime
  have hx := fromFields_valid y m d h mi s 0 WorldTime hy1 hy2 hm1 hm2 (by decide) hfit
  obtain ⟨k1, k2, k3, k4, k5, k6⟩ := getters_of_civil y m d h mi s WorldTime (by decide)
    hm1 hm2 hd1 hd2 hh1 (by omega) hmi1 (by omega) hs1 (by omega) _ hx
  have hts := toString_of_civil lib y m d h mi s WorldTime hdate htime (by decide) _ hx
  have hms : (fromFields y m d h mi s 0 WorldTime).getMillisecond = 0 := by
    rw [hx]
    have e : Spec.instantTicks y m d h mi s 0 WorldTime
        = (Spec.secondsSinceEpoch y m d h mi s - Spec.totalOffset WorldTime) * 1000000000 := by
      unfold Spec.instantTicks
      omega
    rw [e]
    exact getMillisecond_wholeSecond _ _
  refine ⟨k1, k2, k3, k4, k5, k6, hms, ?_, ?_⟩
  · rw [hts]; exact hp
  · refine ⟨_, by rw [hts]; exact hp, ?_⟩
    simp [opEq]

/-- Witness of C22: the fields 2023-10-15 14:30:45. -/
theorem parse_undoes_toString_witness :
    (isValidDate 2023 10 15 = true ∧ isValidTime 14 30 45 0 = true ∧
      Spec.fitsClock (Spec.instantTicks 2023 10 15 14 30 45 0 WorldTime)) ∧
    parse CLib.minimalLibrary (Spec.isoText 2023 10 15 14 30 45) defaultFormat
      = some (fromFields 2023 10 15 14 30 45 0 WorldTime) ∧
    (fromFields 2023 10 15 14 30 45 0 WorldTime).getYear = 2023 ∧
    Spec.isoText 2023 10 15 14 30 45 = "2023-10-15 14:30:45".toList :=
  ⟨⟨by decide, by decide, by decide⟩,
    (parse_undoes_toString CLib.minimalLibrary 2023 10 15 14 30 45 (by decide) (by decide)).1,
    ((parse_undoes_toString CLib.minimalLibrary 2023 10 15 14 30 45 (by decide)
      (by decide)).2 (by decide)).1,
    by decide⟩

/-- Counterexample to C23: the text "2263-01-01 00:00:00" parsed with the default pattern
gives a value in WorldTime that reads 1678-06-12 00:25:27, not the extracted fields
2263-01-01 00:00:00 read as UTC: the clock does not hold the year 2263. -/
theorem parse_year_2263_reads_1678 :
    parse CLib.minimalLibrary "2263-01-01 00:00:00".toList defaultFormat
      = some ⟨-9200561673709551616, WorldTime⟩ ∧
    (⟨-9200561673709551616, WorldTime⟩ : DateTime).getYear = 1678 ∧
    (⟨-9200561673709551616, WorldTime⟩ : DateTime).getMonth = 6 ∧
    (⟨-9200561673709551616, WorldTime⟩ : DateTime).getDay = 12 ∧
    (⟨-9200561673709551616, WorldTime⟩ : DateTime).getHour = 0 ∧
    (⟨-9200561673709551616, WorldTime⟩ : DateTime).getMinute = 25 ∧
    (⟨-9200561673709551616, WorldTime⟩ : DateTime).getSecond = 27 := by
  have s1 : parse CLib.minimalLibrary "2263-01-01 00:00:00".toList defaultFormat
      = some (fromFields 2263 1 1 0 0 0 0 WorldTime) :=
    parse_isoText CLib.minimalLibrary 2263 1 1 0 0 0 (by decide) (by decide)
  have s2 : fromFields 2263 1 1 0 0 0 0 WorldTime
      = ⟨-9200561673709551616, WorldTime⟩ := by decide
  rw [s1, s2]
  decide

/-- C23, amended: every value returned by `parse`, for every text and every pattern, has
the WorldTime region (identifier "UTC", hour offset 0, minute offset 0), and when the clock
holds the instant that the extracted fields denote in UTC, that is the instant of the
value, whose getters return the extracted fields. -/
theorem parse_result_in_WorldTime (lib : CLib.TimeLibrary) (text pattern : List Char)
    (v : DateTime) (h : parse lib text pattern = some v) :
    v.getRegion = WorldTime ∧
    v.getRegion.identifier = "UTC" ∧ v.getRegion.hourOffset = 0 ∧
    v.getRegion.minuteOffset = 0 ∧
    (∃ t : Tm, CLib.get_time lib text (CLib.c_str pattern) Tm.zero = some t ∧
      (Spec.fitsClock
          (Spec.instantTicks (t.tm_year + 1900) (t.tm_mon + 1) t.tm_mday t.tm_hour t.tm_min
            t.tm_sec 0 WorldTime) →
        v.getSystemTime
          = Spec.instantTicks (t.tm_year + 1900) (t.tm_mon + 1) t.tm_mday t.tm_hour t.tm_min
              t.tm_sec 0 WorldTime ∧
        v.getSystemTime = CLib.timegm t * Chrono.ticksPerSecond ∧
        v.getYear = t.tm_year + 1900 ∧ v.getMonth = t.tm_mon + 1 ∧ v.getDay = t.tm_mday ∧
        v.getHour = t.tm_hour ∧ v.getMinute = t.tm_min ∧ v.getSecond = t.tm_sec)) := by
  obtain ⟨t, hg, hd, ht, rfl⟩ := parse_eq_some lib text pattern v h
  refine ⟨rfl, rfl, rfl, rfl, t, hg, ?_⟩
  intro hfit
  obtain ⟨hy1, hy2, hm1, hm2, hd1, hd2⟩ := (isValidDate_iff _ _ _).mp hd
  obtain ⟨hh1, hh2, hmi1, hmi2, hs1, hs2, _, _⟩ := (isValidTime_iff _ _ _ _).mp ht
  have hx := fromFields_valid _ _ _ _ _ _ 0 WorldTime hy1 hy2 hm1 hm2 (by decide) hfit
  obtain ⟨k1, k2, k3, k4, k5, k6⟩ := getters_of_civil _ _ _ _ _ _ WorldTime (by decide)
    hm1 hm2 hd1 hd2 hh1 (by omega) hmi1 (by omega) hs1 (by omega) _ hx
  refine ⟨by rw [hx]; rfl, ?_, k1, k2, k3, k4, k5, k6⟩
  rw [hx]
  simp only [getSystemTime, Spec.instantTicks, Spec.totalOffset, WorldTime,
    Chrono.ticksPerSecond]
  rw [← secondsSinceEpoch_eq _ _ _ _ _ _ hm1 hm2, CLib.timegm_eq]
  have e1 : t.tm_mon / 12 = 0 := by omega
  have e2 : t.tm_mon % 12 = t.tm_mon := by omega
  rw [e1, e2, Int.add_zero]
  omega

/-- Witness of C23: the text "2023-10-15 14:30:45" parsed with the default pattern. -/
theorem parse_result_in_WorldTime_witness :
    parse CLib.minimalLibrary "2023-10-15 14:30:45".toList defaultFormat
      = some (fromFields 2023 10 15 14 30 45 0 WorldTime) ∧
    (fromFields 2023 10 15 14 30 45 0 WorldTime).getRegion = WorldTime :=
  have p1 : parse CLib.minimalLibrary "2023-10-15 14:30:45".toList defaultFormat
      = some (fromFields 2023 10 15 14 30 45 0 WorldTime) :=
    parse_isoText CLib.minimalLibrary 2023 10 15 14 30 45 (by decide) (by decide)
  ⟨p1,
    (parse_result_in_WorldTime CLib.minimalLibrary "2023-10-15 14:30:45".toList defaultFormat
      (fromFields 2023 10 15 14 30 45 0 WorldTime) p1).1⟩

/-- Counterexample to C24: the instants of 1900-01-01 and 2200-01-01 in WorldTime are
-2208988800 and 7258118400 seconds from the epoch, 9467107200 seconds apart, and
`timeBetween` of the two values is -8979636873: the difference of the two tick counts is
not a value of the clock.  And between the epoch and the least instant of the clock
`timeBetween` is -9223372036 in both directions: the negative of the difference is not a
value of the clock. -/
theorem timeBetween_three_centuries :
    (fromFields 1900 1 1 0 0 0 0 WorldTime).getSystemTime = -2208988800 * 1000000000 ∧
    (fromFields 2200 1 1 0 0 0 0 WorldTime).getSystemTime = 7258118400 * 1000000000 ∧
    Int.tdiv ((fromFields 2200 1 1 0 0 0 0 WorldTime).getSystemTime
      - (fromFields 1900 1 1 0 0 0 0 WorldTime).getSystemTime) 1000000000 = 9467107200 ∧
    timeBetween (fromFields 1900 1 1 0 0 0 0 WorldTime) (fromFields 2200 1 1 0 0 0 0 WorldTime)
      = -8979636873 ∧
    timeBetween (fromTimePoint 0 WorldTime) (fromTimePoint (-9223372036854775808) WorldTime)
      = -9223372036 ∧
    timeBetween (fromTimePoint (-9223372036854775808) WorldTime) (fromTimePoint 0 WorldTime)
      = -9223372036 := by
  decide

/-- C24, amended: `timeBetween a b` is the difference of the instants, `b` minus `a`,
truncated toward zero to whole seconds, whatever the regions, when that difference is a
value of the clock; `timeBetween a b` is the negative of `timeBetween b a` unless the
difference the code forms is the least value of the clock; `timeBetween x (x.plusSeconds n)`
is `n` for every `x` and every `int` `n`; and between 2023-01-01T00:00:00 and
2023-01-01T01:00:00 it is 3600, reversed -3600. -/
theorem timeBetween_signed_seconds :
    (∀ (ta tb : Int) (ra rb : RegionTime), Spec.fitsClock (tb - ta) →
      timeBetween (fromTimePoint ta ra) (fromTimePoint tb rb)
        = Int.tdiv (tb - ta) Chrono.ticksPerSecond ∧
      (ta ≤ tb → timeBetween (fromTimePoint ta ra) (fromTimePoint tb rb)
        = (tb - ta) / 1000000000) ∧
      (tb ≤ ta → timeBetween (fromTimePoint ta ra) (fromTimePoint tb rb)
        = -((ta - tb) / 1000000000))) ∧
    (∀ a b : DateTime,
      Chrono.minus b.getSystemTime a.getSystemTime ≠ -9223372036854775808 →
      timeBetween a b = -timeBetween b a) ∧
    (∀ (x : DateTime) (n : Int), Spec.fitsInt n → timeBetween x (x.plusSeconds n) = n) ∧
    timeBetween (fromFields 2023 1 1 0 0 0 0 WorldTime) (fromFields 2023 1 1 1 0 0 0 WorldTime)
      = 3600 ∧
    timeBetween (fromFields 2023 1 1 1 0 0 0 WorldTime) (fromFields 2023 1 1 0 0 0 0 WorldTime)
      = -3600 := by
  refine ⟨?_, ?_, ?_, by decide, by decide⟩
  · intro ta tb ra rb hfit
    have h0 : timeBetween (fromTimePoint ta ra) (fromTimePoint tb rb)
        = Int.tdiv (tb - ta) 1000000000 := timeBetween_exact _ _ hfit
    rw [h0]
    refine ⟨rfl, ?_, ?_⟩
    · intro h
      exact tdiv_of_nonneg _ _ (by omega) (by omega)
    · intro h
      rw [tdiv_of_nonpos _ _ (by omega) (by omega)]
      have e : -(tb - ta) = ta - tb := by omega
      rw [e]
  · intro a b hne
    simp only [timeBetween, Chrono.toSecondsCount, Chrono.minus, Chrono.ticksPerSecond,
      getSystemTime] at hne ⊢
    have e : Machine.wrapLong (a.dt_clockPoint - b.dt_clockPoint)
        = -Machine.wrapLong (b.dt_clockPoint - a.dt_clockPoint) := by
      unfold Machine.wrapLong at hne ⊢
      omega
    rw [e, Int.neg_tdiv, Int.neg_neg]
  · intro x n hn
    rw [plusSeconds_wrap]
    simp only [timeBetween, Chrono.toSecondsCount, Chrono.minus, Chrono.ticksPerSecond]
    have e : Machine.wrapLong
        (Machine.wrapLong (x.dt_clockPoint + n * 1000000000) - x.dt_clockPoint)
        = n * 1000000000 := by
      unfold Spec.fitsInt at hn
      unfold Machine.wrapLong
      omega
    rw [e]
    exact Int.mul_tdiv_cancel n (by decide)

/-- Witness of C24: 2023-01-01 00:00:00 in Japan time and the value 90 seconds later. -/
theorem timeBetween_signed_seconds_witness :
    Spec.fitsInt 90 ∧
    timeBetween (fromFields 2023 1 1 0 0 0 0 JapanTime)
      ((fromFields 2023 1 1 0 0 0 0 JapanTime).plusSeconds 90) = 90 ∧
    timeBetween (fromFields 1900 1 1 0 0 0 0 WorldTime) (fromFields 2200 1 1 0 0 0 0 WorldTime)
      = -timeBetween (fromFields 2200 1 1 0 0 0 0 WorldTime)
          (fromFields 1900 1 1 0 0 0 0 WorldTime) :=
  ⟨by decide,
    timeBetween_signed_seconds.2.2.1 (fromFields 2023 1 1 0 0 0 0 JapanTime) 90 (by decide),
    timeBetween_signed_seconds.2.1 (fromFields 1900 1 1 0 0 0 0 WorldTime)
      (fromFields 2200 1 1 0 0 0 0 WorldTime) (by decide)⟩

/-- C25: `isValidTime h mi s ms` is true exactly when 0 ≤ h ≤ 23, 0 ≤ mi ≤ 59,
0 ≤ s ≤ 59 and 0 ≤ ms ≤ 999; a second of 60, a millisecond of 1000 and a negative
component are rejected. -/
theorem isValidTime_characterisation :
    (∀ h mi s ms : Int, isValidTime h mi s ms = true ↔
      (0 ≤ h ∧ h ≤ 23 ∧ 0 ≤ mi ∧ mi ≤ 59 ∧ 0 ≤ s ∧ s ≤ 59 ∧ 0 ≤ ms ∧ ms ≤ 999)) ∧
    isValidTime 23 59 59 999 = true ∧ isValidTime 0 0 0 0 = true ∧
    isValidTime 23 59 60 0 = false ∧ isValidTime 23 59 59 1000 = false ∧
    isValidTime 24 0 0 0 = false ∧ isValidTime 23 60 0 0 = false ∧
    isValidTime (-1) 0 0 0 = false ∧ isValidTime 0 (-1) 0 0 = false ∧
    isValidTime 0 0 (-1) 0 = false ∧ isValidTime 12 30 45 (-1) = false :=
  ⟨isValidTime_iff, by decide, by decide, by decide, by decide, by decide, by decide,
    by decide, by decide, by decide, by decide⟩

/-- Counterexample to C26: the fields 2300-01-01 00:00:00 are accepted by `isValidDate`
and `isValidTime`, and the default rendering of the value built from them in WorldTime is
"1715-06-13 00:25:27", not "2300-01-01 00:00:00": the clock does not hold the year
2300.
And in a region whose total offset is not a value of `int` (a minute offset of 536870912)
the default rendering of the value built from 2023-01-01 12:00:00 is
"1886-11-25 05:31:44". -/
theorem toString_outside_clock :
    (isValidDate 2300 1 1 = true ∧ isValidTime 0 0 0 0 = true ∧
     Spec.isoText 2300 1 1 0 0 0 = "2300-01-01 00:00:00".toList ∧
     (∀ lib : CLib.TimeLibrary,
       (fromFields 2300 1 1 0 0 0 0 WorldTime).toString lib defaultFormat
         = "1715-06-13 00:25:27".toList)) ∧
    (isValidDate 2023 1 1 = true ∧ isValidTime 12 0 0 0 = true ∧
      Spec.isoText 2023 1 1 12 0 0 = "2023-01-01 12:00:00".toList ∧
      (∀ lib : CLib.TimeLibrary,
        (fromFields 2023 1 1 12 0 0 0 ⟨"X", 0, 536870912⟩).toString lib defaultFormat
          = "1886-11-25 05:31:44".toList)) := by
  constructor
  · have s2 : fromFields 2300 1 1 0 0 0 0 WorldTime
        = ⟨-8032952073709551616, WorldTime⟩ := by decide
    rw [s2]
    refine ⟨by decide, by decide, by decide, fun lib => ?_⟩
    rfl
  · have r2 : fromFields 2023 1 1 12 0 0 0 ⟨"X", 0, 536870912⟩
        = ⟨-474909248000000000, ⟨"X", 0, 536870912⟩⟩ := by decide
    rw [r2]
    refine ⟨by decide, by decide, by decide, fun lib => ?_⟩
    rfl

/-- C26, amended: for fields accepted by `isValidDate` and `isValidTime` and every region
`R` whose total offset and its negative are values of `int`, such that the clock holds the
instant of the fields in `R`, the default rendering of `DateTime(y,m,d,h,mi,s,0,R)` is the
text `YYYY-MM-DD HH:MM:SS` of these region-local fields, padded with zeros to 4, 2, 2, 2,
2 and 2 digits, 19 characters long, with no millisecond and no region text; Japan
2023-01-01 12:00:00 renders as "2023-01-01 12:00:00". -/
theorem toString_default_is_isoText :
    (∀ (lib : CLib.TimeLibrary) (y m d h mi s : Int) (R : RegionTime),
      isValidDate y m d = true → isValidTime h mi s 0 = true →
      Spec.offsetInRange R → Spec.fitsClock (Spec.instantTicks y m d h mi s 0 R) →
      (fromFields y m d h mi s 0 R).toString lib defaultFormat = Spec.isoText y m d h mi s ∧
      ((fromFields y m d h mi s 0 R).toString lib defaultFormat).length = 19 ∧
      (fromFields y m d h mi s 0 R).toString lib defaultFormat
        = Spec.isoText (fromFields y m d h mi s 0 R).getYear
            (fromFields y m d h mi s 0 R).getMonth (fromFields y m d h mi s 0 R).getDay
            (fromFields y m d h mi s 0 R).getHour (fromFields y m d h mi s 0 R).getMinute
            (fromFields y m d h mi s 0 R).getSecond) ∧
    (∀ lib : CLib.TimeLibrary,
      (fromFields 2023 1 1 12 0 0 0 JapanTime).toString lib defaultFormat
        = "2023-01-01 12:00:00".toList) := by
  have s2 : fromFields 2023 1 1 12 0 0 0 JapanTime
      = ⟨1672542000000000000, JapanTime⟩ := by decide
  rw [s2]
  refine ⟨?_, fun _ => rfl⟩
  intro lib y m d h mi s R hdate htime hR hfit
  obtain ⟨hy1, hy2, hm1, hm2, hd1, hd2⟩ := (isValidDate_iff y m d).mp hdate
  obtain ⟨hh1, hh2, hmi1, hmi2, hs1, hs2, _, _⟩ := (isValidTime_iff h mi s 0).mp htime
  have hx := fromFields_valid y m d h mi s 0 R hy1 hy2 hm1 hm2 hR hfit
  obtain ⟨k1, k2, k3, k4, k5, k6⟩ := getters_of_civil y m d h mi s R hR
    hm1 hm2 hd1 hd2 hh1 (by omega) hmi1 (by omega) hs1 (by omega) _ hx
  have hts := toString_of_civil lib y m d h mi s R hdate htime hR _ hx
  refine ⟨hts, ?_, ?_⟩
  · rw [hts]; rfl
  · rw [k1, k2, k3, k4, k5, k6]
    exact hts

/-- Witness of C26: the fields 2023-10-15 14:30:45 in Eastern time. -/
theorem toString_default_is_isoText_witness :
    (isValidDate 2023 10 15 = true ∧ isValidTime 14 30 45 0 = true ∧
      Spec.offsetInRange EasternTime ∧
      Spec.fitsClock (Spec.instantTicks 2023 10 15 14 30 45 0 EasternTime)) ∧
    (fromFields 2023 10 15 14 30 45 0 EasternTime).toString CLib.minimalLibrary defaultFormat
      = Spec.isoText 2023 10 15 14 30 45 ∧
    Spec.isoText 2023 10 15 14 30 45 = "2023-10-15 14:30:45".toList :=
  ⟨⟨by decide, by decide, by decide, by decide⟩,
    (toString_default_is_isoText.1 CLib.minimalLibrary 2023 10 15 14 30 45 EasternTime
      (by decide) (by decide) (by decide) (by decide)).1,
    by decide⟩

/-- C27: `toStringWithRegion` replaces the first `%Z` of the pattern only.  The pattern
"%Y/%m/%d %H:%M:%S %Z" on Japan 2023-01-01 12:00:00 gives "2023/01/01 12:00:00 JST"; the
pattern "%Z %Z" on the same value gives "JST " followed by what the library prints for
the conversion `%Z` of the broken-down time, and on UTC 2023-01-01 12:00:00, which has the
same broken-down time, "UTC " followed by the same library text: the two results cannot
be "JST JST" and "UTC UTC". -/
theorem toStringWithRegion_second_token_left_to_library (lib : CLib.TimeLibrary) :
    (fromFields 2023 1 1 12 0 0 0 JapanTime).toStringWithRegion lib
        "%Y/%m/%d %H:%M:%S %Z".toList = "2023/01/01 12:00:00 JST".toList ∧
    (fromFields 2023 1 1 12 0 0 0 JapanTime).toStringWithRegion lib "%Z %Z".toList
      = "JST ".toList ++
          lib.put_other (fromFields 2023 1 1 12 0 0 0 JapanTime).getRegionAdjustedTime 'Z'
            (Char.ofNat 0) ∧
    (fromFields 2023 1 1 12 0 0 0 WorldTime).toStringWithRegion lib "%Z %Z".toList
      = "UTC ".toList ++
          lib.put_other (fromFields 2023 1 1 12 0 0 0 JapanTime).getRegionAdjustedTime 'Z'
            (Char.ofNat 0) ∧
    ¬ ((fromFields 2023 1 1 12 0 0 0 JapanTime).toStringWithRegion lib "%Z %Z".toList
          = "JST JST".toList ∧
        (fromFields 2023 1 1 12 0 0 0 WorldTime).toStringWithRegion lib "%Z %Z".toList
          = "UTC UTC".toList) := by
  have h1 : (fromFields 2023 1 1 12 0 0 0 JapanTime).toStringWithRegion lib "%Z %Z".toList
      = "JST ".toList ++
          (lib.put_other (fromFields 2023 1 1 12 0 0 0 JapanTime).getRegionAdjustedTime 'Z'
            (Char.ofNat 0) ++ []) := rfl
  have h2 : (fromFields 2023 1 1 12 0 0 0 WorldTime).toStringWithRegion lib "%Z %Z".toList
      = "UTC ".toList ++
          (lib.put_other (fromFields 2023 1 1 12 0 0 0 JapanTime).getRegionAdjustedTime 'Z'
            (Char.ofNat 0) ++ []) := rfl
  rw [List.append_nil] at h1 h2
  refine ⟨rfl, h1, h2, ?_⟩
  rintro ⟨e1, e2⟩
  rw [h1] at e1
  rw [h2] at e2
  have e3 : lib.put_other (fromFields 2023 1 1 12 0 0 0 JapanTime).getRegionAdjustedTime 'Z'
      (Char.ofNat 0) = "JST".toList := List.append_cancel_left e1
  have e4 : lib.put_other (fromFields 2023 1 1 12 0 0 0 JapanTime).getRegionAdjustedTime 'Z'
      (Char.ofNat 0) = "UTC".toList := List.append_cancel_left e2
  rw [e3] at e4
  exact absurd e4 (by decide)

/-- C28: for every DateTime `x` and every pattern `p` in which the two characters `%Z` do
not occur in sequence, `x.toStringWithRegion p` is `x.toString p` followed by one space
and the identifier of the region. -/
theorem toStringWithRegion_appends_identifier (lib : CLib.TimeLibrary) (x : DateTime)
    (p : List Char) (h : ¬ "%Z".toList <:+: p) :
    x.toStringWithRegion lib p
      = x.toString lib p ++ " ".toList ++ x.getRegion.identifier.toList := by
  have hf : CLib.find p "%Z".toList = none := (CLib.find_eq_none_iff p _).mpr h
  simp only [toStringWithRegion, toString, hf, getRegion, Option.isSome_none,
    Bool.false_eq_true, if_false, List.append_assoc]

/-- Witness of C28: the pattern "%H:%M" on Japan 2023-01-01 12:00:00 gives
"12:00 JST". -/
theorem toStringWithRegion_appends_identifier_witness :
    ¬ "%Z".toList <:+: "%H:%M".toList ∧
    (fromFields 2023 1 1 12 0 0 0 JapanTime).toStringWithRegion CLib.minimalLibrary
        "%H:%M".toList
      = (fromFields 2023 1 1 12 0 0 0 JapanTime).toString CLib.minimalLibrary "%H:%M".toList
        ++ " ".toList ++ (fromFields 2023 1 1 12 0 0 0 JapanTime).getRegion.identifier.toList ∧
    (fromFields 2023 1 1 12 0 0 0 JapanTime).toStringWithRegion CLib.minimalLibrary
        "%H:%M".toList = "12:00 JST".toList :=
  ⟨(CLib.find_eq_none_iff _ _).mp rfl,
    toStringWithRegion_appends_identifier CLib.minimalLibrary
      (fromFields 2023 1 1 12 0 0 0 JapanTime) "%H:%M".toList
      ((CLib.find_eq_none_iff _ _).mp rfl),
    rfl⟩

/-- Counterexample to C29 as stated: the empty pattern is made of tokens and ordinary
characters and renders as the empty text, yet for 2023-10-15 14:30:45 `formatString` of
"{:" followed by it and "}" returns the three characters "{:}" themselves, not the empty
text: a string shorter than 4 characters is not taken as a pattern in braces.  This holds
for every value and every library. -/
theorem formatString_braces_empty_pattern :
    Spec.tokenPattern [] = true ∧
    ((fromFields 2023 10 15 14 30 45 0 WorldTime).toString CLib.minimalLibrary []).length
      < 100 ∧
    (fromFields 2023 10 15 14 30 45 0 WorldTime).formatString CLib.minimalLibrary
        ("\x7b:".toList ++ [] ++ "\x7d".toList) = some "\x7b:\x7d".toList ∧
    (fromFields 2023 10 15 14 30 45 0 WorldTime).toString CLib.minimalLibrary [] = [] ∧
    (fromFields 2023 10 15 14 30 45 0 WorldTime).formatString CLib.minimalLibrary
        ("\x7b:".toList ++ [] ++ "\x7d".toList)
      ≠ some ((fromFields 2023 10 15 14 30 45 0 WorldTime).toString CLib.minimalLibrary []) ∧
    (∀ (lib : CLib.TimeLibrary) (x : DateTime),
      x.formatString lib ("\x7b:".toList ++ [] ++ "\x7d".toList) = some "\x7b:\x7d".toList ∧
      x.toString lib [] = []) :=
  ⟨rfl, by decide, by decide, by decide, by decide, fun _ _ => ⟨rfl, rfl⟩⟩

/-- C29, amended: for every DateTime `x` and every non-empty pattern `p` made of the
tokens `%Y %m %d %H %M %S` and ordinary characters whose rendering is shorter than 100
characters, `x.formatString` of "{:" followed by `p` and "}" is `x.toString p`; for
2023-10-15 14:30:45, "{:%Y-%m-%d}" gives "2023-10-15" and "{:%H:%M:%S}" gives
"14:30:45". -/
theorem formatString_braces_is_toString :
    (∀ (lib : CLib.TimeLibrary) (x : DateTime) (p : List Char),
      p ≠ [] → Spec.tokenPattern p = true → (x.toString lib p).length < 100 →
      x.formatString lib ("\x7b:".toList ++ p ++ "\x7d".toList) = some (x.toString lib p)) ∧
    (∀ lib : CLib.TimeLibrary,
      (fromFields 2023 10 15 14 30 45 0 WorldTime).formatString lib "\x7b:%Y-%m-%d\x7d".toList
        = some "2023-10-15".toList) ∧
    (∀ lib : CLib.TimeLibrary,
      (fromFields 2023 10 15 14 30 45 0 WorldTime).formatString lib "\x7b:%H:%M:%S\x7d".toList
        = some "14:30:45".toList) := by
  refine ⟨?_, fun _ => rfl, fun _ => rfl⟩
  intro lib x p hp htok hlen
  have hform := CLib.braced_form p hp
  have hne : "\x7b:".toList ++ p ++ "\x7d".toList ≠ [] := by simp [String.toList]
  have heq : CLib.strftimeText lib x.getRegionAdjustedTime (CLib.c_str p)
      = x.toString lib p :=
    CLib.strftimeText_eq_put_time lib _ _ (CLib.tokenPattern_c_str p htok)
  unfold formatString
  simp only []
  rw [if_neg hne, if_pos hform, CLib.substr_braced, CLib.strftime, heq, if_pos (by omega)]

/-- Witness of C29: the pattern "%Y-%m-%d" on 2023-10-15 14:30:45. -/
theorem formatString_braces_is_toString_witness :
    "%Y-%m-%d".toList ≠ [] ∧ Spec.tokenPattern "%Y-%m-%d".toList = true ∧
    ((fromFields 2023 10 15 14 30 45 0 WorldTime).toString CLib.minimalLibrary
      "%Y-%m-%d".toList).length < 100 ∧
    (fromFields 2023 10 15 14 30 45 0 WorldTime).formatString CLib.minimalLibrary
        ("\x7b:".toList ++ "%Y-%m-%d".toList ++ "\x7d".toList)
      = some ((fromFields 2023 10 15 14 30 45 0 WorldTime).toString CLib.minimalLibrary
          "%Y-%m-%d".toList) ∧
    (fromFields 2023 10 15 14 30 45 0 WorldTime).toString CLib.minimalLibrary
      "%Y-%m-%d".toList = "2023-10-15".toList :=
  ⟨by decide, by decide, by decide,
    formatString_braces_is_toString.1 CLib.minimalLibrary
      (fromFields 2023 10 15 14 30 45 0 WorldTime) "%Y-%m-%d".toList (by decide) (by decide)
      (by decide),
    by decide⟩

/-- Counterexample to C30 as stated: the three-character pattern `a`, NUL, `b` is not
empty and contains no `%`, and for 2023-10-15 14:30:45 `toString` returns the single
character `a`; for the one-character pattern NUL it returns the empty text.  The pattern
reaches `put_time` as a C string, which ends at the first NUL.  This holds for every value
and every library. -/
theorem toString_pattern_with_NUL :
    ['a', Char.ofNat 0, 'b'] ≠ [] ∧ '%' ∉ ['a', Char.ofNat 0, 'b'] ∧
    (fromFields 2023 10 15 14 30 45 0 WorldTime).toString CLib.minimalLibrary
      ['a', Char.ofNat 0, 'b'] = ['a'] ∧
    (fromFields 2023 10 15 14 30 45 0 WorldTime).toString CLib.minimalLibrary
      ['a', Char.ofNat 0, 'b'] ≠ ['a', Char.ofNat 0, 'b'] ∧
    (fromFields 2023 10 15 14 30 45 0 WorldTime).toString CLib.minimalLibrary
      [Char.ofNat 0] = [] ∧
    (∀ (lib : CLib.TimeLibrary) (x : DateTime),
      x.toString lib ['a', Char.ofNat 0, 'b'] = ['a'] ∧ x.toString lib [Char.ofNat 0] = []) :=
  ⟨by decide, by decide, by decide, by decide, by decide, fun _ _ => ⟨rfl, rfl⟩⟩

/-- C30, amended: for every DateTime `x` and every non-empty pattern `p` that contains
neither `%` nor the NUL character, `x.toString p` is `p`; if `p` is moreover not of the
form "{:" ... "}", `x.formatString p` is `p` as well; both are total functions and the
result is not empty.  The pattern "invalid-format" is returned as it is. -/
theorem literal_pattern_passes_through :
    (∀ (lib : CLib.TimeLibrary) (x : DateTime) (p : List Char),
      p ≠ [] → '%' ∉ p → Char.ofNat 0 ∉ p →
      x.toString lib p = p ∧ x.toString lib p ≠ [] ∧
      ((¬ ∃ q : List Char, p = "\x7b:".toList ++ q ++ "\x7d".toList) →
        x.formatString lib p = some p)) ∧
    (∀ (lib : CLib.TimeLibrary) (x : DateTime),
      x.toString lib "invalid-format".toList = "invalid-format".toList ∧
      x.formatString lib "invalid-format".toList = some "invalid-format".toList) := by
  refine ⟨?_, fun _ _ => ⟨rfl, rfl⟩⟩
  intro lib x p hp hpc h0
  have hts : x.toString lib p = p := by
    unfold toString
    simp only []
    rw [CLib.c_str_eq_self p h0, CLib.put_time_literal lib _ p hpc]
  refine ⟨hts, by rw [hts]; exact hp, ?_⟩
  intro hq
  have hform : ¬ (p.length ≥ 4 ∧ p.head? = some '{' ∧ (p.drop 1).head? = some ':' ∧
      p.getLast? = some '}') := fun hf => hq (CLib.braced_of_form p hf)
  have hfind : CLib.find p "%".toList = none := CLib.find_percent_none p hpc
  unfold formatString
  simp only []
  rw [if_neg hp, if_neg hform, hfind, hts]
  rfl

/-- Witness of C30: the pattern "no tokens here" on 2023-10-15 14:30:45. -/
theorem literal_pattern_passes_through_witness :
    "no tokens here".toList ≠ [] ∧ '%' ∉ "no tokens here".toList ∧
    Char.ofNat 0 ∉ "no tokens here".toList ∧
    (fromFields 2023 10 15 14 30 45 0 WorldTime).toString CLib.minimalLibrary
      "no tokens here".toList = "no tokens here".toList :=
  ⟨by decide, by decide, by decide,
    ((literal_pattern_passes_through.1 CLib.minimalLibrary
      (fromFields 2023 10 15 14 30 45 0 WorldTime) "no tokens here".toList (by decide)
      (by decide) (by decide))).1⟩

/-- Counterexample to C31: the date 2300-01-01 is accepted by `isValidDate` and is a
Monday, `(D + 4) mod 7 = 1` with `D = 120530`, and `getDayOfWeek` of the value built from
it in WorldTime is 4: the clock does not hold the year 2300 and the value reads
1715-06-13.
And in a region whose total offset is not a value of `int` (a minute offset of 536870912)
`getDayOfWeek` of the value built from 2023-01-01, a Sunday, is 3: the value reads
1886-11-24. -/
theorem getDayOfWeek_outside_clock :
    (isValidDate 2300 1 1 = true ∧ isValidTime 0 0 0 0 = true ∧
     Spec.daysSinceEpoch 2300 1 1 = 120530 ∧ Spec.weekday 2300 1 1 = 1 ∧
     (fromFields 2300 1 1 0 0 0 0 WorldTime).getDayOfWeek = 4 ∧
     (fromFields 2300 1 1 0 0 0 0 WorldTime).getYear = 1715 ∧
     (fromFields 2300 1 1 0 0 0 0 WorldTime).getMonth = 6 ∧
     (fromFields 2300 1 1 0 0 0 0 WorldTime).getDay = 13) ∧
    (isValidDate 2023 1 1 = true ∧ Spec.weekday 2023 1 1 = 0 ∧
      (fromFields 2023 1 1 0 0 0 0 ⟨"X", 0, 536870912⟩).getDayOfWeek = 3 ∧
      (fromFields 2023 1 1 0 0 0 0 ⟨"X", 0, 536870912⟩).getYear = 1886 ∧
      (fromFields 2023 1 1 0 0 0 0 ⟨"X", 0, 536870912⟩).getMonth = 11 ∧
      (fromFields 2023 1 1 0 0 0 0 ⟨"X", 0, 536870912⟩).getDay = 24) := by
  constructor
  · have s1 : fromFields 2300 1 1 0 0 0 0 WorldTime
        = ⟨-8032952073709551616, WorldTime⟩ := by decide
    rw [s1]
    decide
  · have r1 : fromFields 2023 1 1 0 0 0 0 ⟨"X", 0, 536870912⟩
        = ⟨-474952448000000000, ⟨"X", 0, 536870912⟩⟩ := by decide
    rw [r1]
    decide

/-- C31, amended: for every date accepted by `isValidDate`, every valid time of day and
every region whose total offset and its negative are values of `int`, such that the clock
holds the instant of the fields in the region, `getDayOfWeek` of the constructed value is
the weekday of the region-local date, 0 for Sunday to 6 for Saturday: `(D + 4) mod 7` in
0..6, where `D` is the signed number of days from 1970-01-01 to the date (0 for
1970-01-01, -1 for 1969-12-31, 19358 for 2023-01-01).  2023-01-01 gives 0, 2023-01-04
gives 3 and 2023-01-07 gives 6; Japan 2023-01-01 00:00 gives 0 although its UTC date is a
Saturday. -/
theorem getDayOfWeek_is_weekday :
    (∀ (y m d h mi s : Int) (R : RegionTime),
      isValidDate y m d = true → isValidTime h mi s 0 = true →
      Spec.offsetInRange R → Spec.fitsClock (Spec.instantTicks y m d h mi s 0 R) →
      (fromFields y m d h mi s 0 R).getDayOfWeek = Spec.weekday y m d ∧
      (fromFields y m d h mi s 0 R).getDayOfWeek = (Spec.daysSinceEpoch y m d + 4) % 7 ∧
      0 ≤ (fromFields y m d h mi s 0 R).getDayOfWeek ∧
      (fromFields y m d h mi s 0 R).getDayOfWeek ≤ 6) ∧
    Spec.daysSinceEpoch 1970 1 1 = 0 ∧ Spec.daysSinceEpoch 1969 12 31 = -1 ∧
    Spec.daysSinceEpoch 2023 1 1 = 19358 ∧
    (fromFields 2023 1 1 0 0 0 0 WorldTime).getDayOfWeek = 0 ∧
    (fromFields 2023 1 4 0 0 0 0 WorldTime).getDayOfWeek = 3 ∧
    (fromFields 2023 1 7 0 0 0 0 WorldTime).getDayOfWeek = 6 ∧
    (fromFields 2023 1 1 0 0 0 0 JapanTime).getDayOfWeek = 0 ∧
    ((fromFields 2023 1 1 0 0 0 0 JapanTime).convertToRegion WorldTime).getDayOfWeek = 6 := by
  refine ⟨?_, by decide, by decide, by decide, by decide, by decide, by decide, by decide,
    by decide⟩
  intro y m d h mi s R hdate htime hR hfit
  obtain ⟨hy1, hy2, hm1, hm2, hd1, hd2⟩ := (isValidDate_iff y m d).mp hdate
  obtain ⟨hh1, hh2, hmi1, hmi2, hs1, hs2, _, _⟩ := (isValidTime_iff h mi s 0).mp htime
  have hx := fromFields_valid y m d h mi s 0 R hy1 hy2 hm1 hm2 hR hfit
  obtain ⟨_, _, _, _, _, _, kw⟩ := getRegionAdjustedTime_of_civil y m d h mi s R hR
    hm1 hm2 hd1 hd2 hh1 (by omega) hmi1 (by omega) hs1 (by omega) _ hx
  have hw : (fromFields y m d h mi s 0 R).getDayOfWeek = (Spec.daysSinceEpoch y m d + 4) % 7 := by
    unfold getDayOfWeek
    rw [kw]
    rfl
  refine ⟨by unfold getDayOfWeek; exact kw, hw, ?_, ?_⟩
  · rw [hw]; omega
  · rw [hw]; omega

/-- Witness of C31: the date 2024-02-29 at 23:59:59 in Eastern time, a Thursday. -/
theorem getDayOfWeek_is_weekday_witness :
    (isValidDate 2024 2 29 = true ∧ isValidTime 23 59 59 0 = true ∧
      Spec.offsetInRange EasternTime ∧
      Spec.fitsClock (Spec.instantTicks 2024 2 29 23 59 59 0 EasternTime)) ∧
    (fromFields 2024 2 29 23 59 59 0 EasternTime).getDayOfWeek = Spec.weekday 2024 2 29 ∧
    Spec.weekday 2024 2 29 = 4 :=
  ⟨⟨by decide, by decide, by decide, by decide⟩,
    (getDayOfWeek_is_weekday.1 2024 2 29 23 59 59 EasternTime (by decide) (by decide)
      (by decide) (by decide)).1,
    by decide⟩

/-- C32: for every DateTime, whatever its instant and region, the decomposed fields are a
real calendar value: the month lies in 1..12, the day in 1..the number of days of that
month in that year, the hour in 0..23, minute and second in 0..59 and the weekday in
0..6.  One tick before the epoch in a region three and a half hours behind UTC reads
1969-12-31 20:30:00, a Wednesday. -/
theorem fields_are_calendar_value :
    (∀ x : DateTime,
      1 ≤ x.getMonth ∧ x.getMonth ≤ 12 ∧
      1 ≤ x.getDay ∧ x.getDay ≤ Spec.lastDayOfMonth x.getYear x.getMonth ∧
      0 ≤ x.getHour ∧ x.getHour ≤ 23 ∧
      0 ≤ x.getMinute ∧ x.getMinute ≤ 59 ∧
      0 ≤ x.getSecond ∧ x.getSecond ≤ 59 ∧
      0 ≤ x.getDayOfWeek ∧ x.getDayOfWeek ≤ 6) ∧
    (fromTimePoint (-1) ⟨"NST", -3, -30⟩).getYear = 1969 ∧
    (fromTimePoint (-1) ⟨"NST", -3, -30⟩).getMonth = 12 ∧
    (fromTimePoint (-1) ⟨"NST", -3, -30⟩).getDay = 31 ∧
    (fromTimePoint (-1) ⟨"NST", -3, -30⟩).getHour = 20 ∧
    (fromTimePoint (-1) ⟨"NST", -3, -30⟩).getMinute = 30 ∧
    (fromTimePoint (-1) ⟨"NST", -3, -30⟩).getSecond = 0 ∧
    (fromTimePoint (-1) ⟨"NST", -3, -30⟩).getDayOfWeek = 3 := by
  refine ⟨?_, by decide, by decide, by decide, by decide, by decide, by decide, by decide⟩
  intro x
  obtain ⟨tv, htv⟩ := getRegionAdjustedTime_eq_gmtime_r x
  have hv := CLib.gmtime_r_spec tv
  rw [← htv] at hv
  obtain ⟨hm1, hm2, hd1, hd2, hh1, hh2, hmi1, hmi2, hs1, hs2, hw1, hw2, _⟩ := hv
  simp only [getMonth, getDay, getYear, getHour, getMinute, getSecond, getDayOfWeek]
  exact ⟨by omega, by omega, hd1, hd2, hh1, by omega, hmi1, by omega, hs1, by omega, hw1, hw2⟩

/-- Counterexample to C33: the fields 2262-04-12 00:00:00 written in Japan time and in
WorldTime.  The total offset of Japan is the larger one, and the value in Japan is not the
earlier instant: it compares above the value in WorldTime, whose instant the clock does
not hold.  And for the region with hour offset 596524, whose offset in seconds is not a
value of `int`, `timeBetween` of 2023-01-01 in that region and in WorldTime is
-2147480896, not 2147486400. -/
theorem same_fields_outside_clock_order :
    Spec.totalOffset WorldTime < Spec.totalOffset JapanTime ∧
    (fromFields 2262 4 12 0 0 0 0 JapanTime).getSystemTime = 9223340400000000000 ∧
    (fromFields 2262 4 12 0 0 0 0 WorldTime).getSystemTime = -9223371273709551616 ∧
    opLt (fromFields 2262 4 12 0 0 0 0 JapanTime) (fromFields 2262 4 12 0 0 0 0 WorldTime)
      = false ∧
    opGt (fromFields 2262 4 12 0 0 0 0 JapanTime) (fromFields 2262 4 12 0 0 0 0 WorldTime)
      = true ∧
    3600 * (596524 : Int) + 60 * 0 - (3600 * WorldTime.hourOffset + 60 * WorldTime.minuteOffset)
      = 2147486400 ∧
    timeBetween (fromFields 2023 1 1 0 0 0 0 ⟨"X", 596524, 0⟩)
      (fromFields 2023 1 1 0 0 0 0 WorldTime) = -2147480896 := by
  have s1 : fromFields 2262 4 12 0 0 0 0 JapanTime
      = ⟨9223340400000000000, JapanTime⟩ := by decide
  have s2 : fromFields 2262 4 12 0 0 0 0 WorldTime
      = ⟨-9223371273709551616, WorldTime⟩ := by decide
  have s3 : fromFields 2023 1 1 0 0 0 0 ⟨"X", 596524, 0⟩
      = ⟨3820012096000000000, ⟨"X", 596524, 0⟩⟩ := by decide
  have s4 : fromFields 2023 1 1 0 0 0 0 WorldTime
      = ⟨1672531200000000000, WorldTime⟩ := by decide
  rw [s1, s2, s3, s4]
  decide

/-- C33, amended: the same calendar fields written in two regions whose total offsets and
their negatives are values of `int` denote instants that differ by the difference of the
total offsets: `timeBetween` of the value in `R1` and the value in `R2` is `R1`'s total
offset minus `R2`'s, in seconds; the two values are unequal whenever the total offsets
differ, and the one in the region with the larger offset is the earlier instant when the
clock holds its instant advanced by the difference of the offsets.  Japan 2023-01-01 00:00
is World 2022-12-31 15:00. -/
theorem same_fields_differ_by_offsets :
    (∀ (y m d h mi s ms : Int) (R1 R2 : RegionTime),
      Spec.offsetInRange R1 → Spec.offsetInRange R2 →
      timeBetween (fromFields y m d h mi s ms R1) (fromFields y m d h mi s ms R2)
        = (3600 * R1.hourOffset + 60 * R1.minuteOffset)
          - (3600 * R2.hourOffset + 60 * R2.minuteOffset) ∧
      timeBetween (fromFields y m d h mi s ms R1) (fromFields y m d h mi s ms R2)
        = Spec.totalOffset R1 - Spec.totalOffset R2 ∧
      (Spec.totalOffset R1 ≠ Spec.totalOffset R2 →
        opEq (fromFields y m d h mi s ms R1) (fromFields y m d h mi s ms R2) = false ∧
        opNe (fromFields y m d h mi s ms R1) (fromFields y m d h mi s ms R2) = true) ∧
      (Spec.totalOffset R2 < Spec.totalOffset R1 →
        Spec.fitsClock
          ((fromFields y m d h mi s ms R1).getSystemTime
            + (Spec.totalOffset R1 - Spec.totalOffset R2) * Chrono.ticksPerSecond) →
        opLt (fromFields y m d h mi s ms R1) (fromFields y m d h mi s ms R2) = true)) ∧
    opEq (fromFields 2023 1 1 0 0 0 0 JapanTime) (fromFields 2022 12 31 15 0 0 0 WorldTime)
      = true ∧
    timeBetween (fromFields 2023 1 1 0 0 0 0 JapanTime) (fromFields 2023 1 1 0 0 0 0 WorldTime)
      = 32400 := by
  refine ⟨?_, by decide, by decide⟩
  intro y m d h mi s ms R1 R2 hR1 hR2
  obtain ⟨T, hT⟩ := fromFields_clockPoint_region y m d h mi s ms
  obtain ⟨_, hn1⟩ := regionOffsetValue_of_inRange R1 hR1
  obtain ⟨_, hn2⟩ := regionOffsetValue_of_inRange R2 hR2
  have hc1 := hT R1
  have hc2 := hT R2
  rw [hn1] at hc1
  rw [hn2] at hc2
  have hb1 := hR1
  have hb2 := hR2
  unfold Spec.offsetInRange at hb1 hb2
  have hdiff : Machine.wrapLong
      ((fromFields y m d h mi s ms R2).dt_clockPoint
        - (fromFields y m d h mi s ms R1).dt_clockPoint)
      = (Spec.totalOffset R1 - Spec.totalOffset R2) * 1000000000 := by
    rw [hc1, hc2, Machine.wrapLong_sub]
    have e : (T + -Spec.totalOffset R2) * 1000000000 + ms * 1000000
        - ((T + -Spec.totalOffset R1) * 1000000000 + ms * 1000000)
        = (Spec.totalOffset R1 - Spec.totalOffset R2) * 1000000000 := by ring
    rw [e]
    exact Machine.wrapLong_eq _ (by omega) (by omega)
  have hb : timeBetween (fromFields y m d h mi s ms R1) (fromFields y m d h mi s ms R2)
      = Spec.totalOffset R1 - Spec.totalOffset R2 := by
    simp only [timeBetween, Chrono.toSecondsCount, Chrono.minus, Chrono.ticksPerSecond]
    rw [hdiff]
    exact Int.mul_tdiv_cancel _ (by decide)
  refine ⟨?_, hb, ?_, ?_⟩
  · rw [hb]
    unfold Spec.totalOffset
    ring
  · intro hne
    have hcne : (fromFields y m d h mi s ms R1).dt_clockPoint
        ≠ (fromFields y m d h mi s ms R2).dt_clockPoint := by
      intro heq
      rw [heq, Int.sub_self] at hdiff
      have h0 : Machine.wrapLong 0 = 0 := by decide
      rw [h0] at hdiff
      omega
    simp only [opEq, opNe]
    exact ⟨decide_eq_false hcne, decide_eq_true hcne⟩
  · intro hlt hfit
    have hstep : (fromFields y m d h mi s ms R2).dt_clockPoint
        = (fromFields y m d h mi s ms R1).dt_clockPoint
          + (Spec.totalOffset R1 - Spec.totalOffset R2) * 1000000000 := by
      have hw : Machine.wrapLong
          ((fromFields y m d h mi s ms R1).dt_clockPoint
            + (Spec.totalOffset R1 - Spec.totalOffset R2) * 1000000000)
          = (fromFields y m d h mi s ms R2).dt_clockPoint := by
        rw [hc1, hc2, Machine.wrapLong_add_left]
        congr 1
        ring
      rw [← hw]
      exact Machine.wrapLong_eq _ hfit.1 hfit.2
    simp only [opLt, decide_eq_true_eq]
    rw [hstep]
    omega

/-- Witness of C33: 2023-06-15 12:30:45.250 written in Japan and in Eastern time. -/
theorem same_fields_differ_by_offsets_witness :
    (Spec.offsetInRange JapanTime ∧ Spec.offsetInRange EasternTime ∧
      Spec.totalOffset EasternTime < Spec.totalOffset JapanTime ∧
      Spec.fitsClock
        ((fromFields 2023 6 15 12 30 45 250 JapanTime).getSystemTime
          + (Spec.totalOffset JapanTime - Spec.totalOffset EasternTime)
            * Chrono.ticksPerSecond)) ∧
    opLt (fromFields 2023 6 15 12 30 45 250 JapanTime)
      (fromFields 2023 6 15 12 30 45 250 EasternTime) = true ∧
    timeBetween (fromFields 2023 6 15 12 30 45 250 JapanTime)
      (fromFields 2023 6 15 12 30 45 250 EasternTime) = 50400 :=
  have s1 : fromFields 2023 6 15 12 30 45 250 JapanTime
      = ⟨1686799845250000000, JapanTime⟩ := by decide
  have hfit : Spec.fitsClock
      ((fromFields 2023 6 15 12 30 45 250 JapanTime).getSystemTime
        + (Spec.totalOffset JapanTime - Spec.totalOffset EasternTime)
          * Chrono.ticksPerSecond) := by
    rw [s1]
    decide
  ⟨⟨by decide, by decide, by decide, hfit⟩,
    (same_fields_differ_by_offsets.1 2023 6 15 12 30 45 250 JapanTime EasternTime (by decide)
      (by decide)).2.2.2 (by decide) hfit,
    (same_fields_differ_by_offsets.1 2023 6 15 12 30 45 250 JapanTime EasternTime (by decide)
      (by decide)).2.1⟩

/-- Counterexample to C34: 2000 is a leap year and 2300 is not, and
`DateTime(2000,2,29,12,30,45)` in Japan time plus 300 years reads 1715-08-11 12:56:12, not
2300-03-01 12:30:45: the clock does not hold the year 2300.
And in a region whose total offset is not a value of `int` (a minute offset of 536870912)
`DateTime(2024,2,29,0,0,0)` plus one year reads 1752-12-16 11:03:28, not
2025-03-01 00:00:00. -/
theorem plusYears_leap_day_outside_clock :
    (Spec.isLeapYear 2000 ∧ ¬ Spec.isLeapYear (2000 + 300) ∧ isValidTime 12 30 45 0 = true ∧
     ((fromFields 2000 2 29 12 30 45 0 JapanTime).plusYears 300).getYear = 1715 ∧
     ((fromFields 2000 2 29 12 30 45 0 JapanTime).plusYears 300).getMonth = 8 ∧
     ((fromFields 2000 2 29 12 30 45 0 JapanTime).plusYears 300).getDay = 11 ∧
     ((fromFields 2000 2 29 12 30 45 0 JapanTime).plusYears 300).getHour = 12 ∧
     ((fromFields 2000 2 29 12 30 45 0 JapanTime).plusYears 300).getMinute = 56 ∧
     ((fromFields 2000 2 29 12 30 45 0 JapanTime).plusYears 300).getSecond = 12) ∧
    (Spec.isLeapYear 2024 ∧ ¬ Spec.isLeapYear (2024 + 1) ∧
      ((fromFields 2024 2 29 0 0 0 0 ⟨"X", 0, 536870912⟩).plusYears 1).getYear = 1752 ∧
      ((fromFields 2024 2 29 0 0 0 0 ⟨"X", 0, 536870912⟩).plusYears 1).getMonth = 12 ∧
      ((fromFields 2024 2 29 0 0 0 0 ⟨"X", 0, 536870912⟩).plusYears 1).getDay = 16 ∧
      ((fromFields 2024 2 29 0 0 0 0 ⟨"X", 0, 536870912⟩).plusYears 1).getHour = 11) := by
  constructor
  · have s1 : (fromFields 2000 2 29 12 30 45 0 JapanTime).plusYears 300
        = ⟨-8027841828709551616, JapanTime⟩ := by decide
    rw [s1]
    decide
  · have r1 : (fromFields 2024 2 29 0 0 0 0 ⟨"X", 0, 536870912⟩).plusYears 1
        = ⟨-4701663744000000000, ⟨"X", 0, 536870912⟩⟩ := by decide
    rw [r1]
    decide

/-- C34, amended: adding years to a February 29 whose target year is not a leap year
rolls forward to March 1.  For every leap year `y`, every `n` with `y + n` not a leap
year, every valid time of day and every region whose total offset and its negative are
values of `int`, such that the clock holds the instants of `y`-02-29 and of
`y + n`-03-01 at that time in the region, `DateTime(y,2,29,h,mi,s).plusYears(n)` has the
region-local fields `y + n`, 3, 1, `h`, `mi`, `s`; `plusYears` is a total function, no
error is signalled.  2024-02-29 plus one year is 2025-03-01. -/
theorem plusYears_leap_day_rolls_to_march :
    (∀ (y n h mi s : Int) (R : RegionTime),
      Spec.isLeapYear y → ¬ Spec.isLeapYear (y + n) → isValidTime h mi s 0 = true →
      Spec.offsetInRange R →
      Spec.fitsClock (Spec.instantTicks y 2 29 h mi s 0 R) →
      Spec.fitsClock (Spec.instantTicks (y + n) 3 1 h mi s 0 R) →
      ((fromFields y 2 29 h mi s 0 R).plusYears n).getYear = y + n ∧
      ((fromFields y 2 29 h mi s 0 R).plusYears n).getMonth = 3 ∧
      ((fromFields y 2 29 h mi s 0 R).plusYears n).getDay = 1 ∧
      ((fromFields y 2 29 h mi s 0 R).plusYears n).getHour = h ∧
      ((fromFields y 2 29 h mi s 0 R).plusYears n).getMinute = mi ∧
      ((fromFields y 2 29 h mi s 0 R).plusYears n).getSecond = s) ∧
    ((fromFields 2024 2 29 0 0 0 0 WorldTime).plusYears 1).getYear = 2025 ∧
    ((fromFields 2024 2 29 0 0 0 0 WorldTime).plusYears 1).getMonth = 3 ∧
    ((fromFields 2024 2 29 0 0 0 0 WorldTime).plusYears 1).getDay = 1 := by
  have s1 : (fromFields 2024 2 29 0 0 0 0 WorldTime).plusYears 1
      = ⟨1740787200000000000, WorldTime⟩ := by decide
  rw [s1]
  refine ⟨?_, by decide, by decide, by decide⟩
  intro y n h mi s R hl hn htime hR hfit1 hfit2
  obtain ⟨hh1, hh2, hmi1, hmi2, hs1, hs2, _, _⟩ := (isValidTime_iff h mi s 0).mp htime
  have hlast : Spec.lastDayOfMonth y 2 = 29 := by
    unfold Spec.lastDayOfMonth
    simp [hl]
  have hlast2 : Spec.lastDayOfMonth (y + n) 2 = 28 := by
    unfold Spec.lastDayOfMonth
    simp [hn]
  have hx := fromFields_of_fits y 2 29 h mi s R (by omega) (by omega) (by omega) (by omega)
    hh1 (by omega) hmi1 (by omega) hs1 (by omega) hR hfit1
  obtain ⟨k1, k2, k3, k4, k5, k6⟩ := getters_of_civil y 2 29 h mi s R hR
    (by omega) (by omega) (by omega) (by omega) hh1 (by omega) hmi1 (by omega) hs1 (by omega)
    _ hx
  have hreg : (fromFields y 2 29 h mi s 0 R).dt_timeRegion = R := rfl
  have hroll : Spec.instantTicks (y + n) 2 29 h mi s 0 R
      = Spec.instantTicks (y + n) 3 1 h mi s 0 R := by
    have hend := instantTicks_month_end (y + n) 2 h mi s 0 R (by omega) (by omega)
    rw [hlast2] at hend
    simpa using hend
  have hy := plusYears_exact (fromFields y 2 29 h mi s 0 R) n (by rw [hreg]; exact hR)
    (by rw [k1, k2, k3, k4, k5, k6, hreg, hroll]; exact hfit2)
  rw [k1, k2, k3, k4, k5, k6, hreg, hroll] at hy
  exact getters_of_civil (y + n) 3 1 h mi s R hR (by omega) (by omega) (by omega)
    (by unfold Spec.lastDayOfMonth; simp) hh1 (by omega) hmi1 (by omega) hs1 (by omega) _ hy

/-- Witness of C34: 2000-02-29 12:30:45 in Japan plus 100 years is 2100-03-01 12:30:45. -/
theorem plusYears_leap_day_rolls_to_march_witness :
    (Spec.isLeapYear 2000 ∧ ¬ Spec.isLeapYear (2000 + 100) ∧ isValidTime 12 30 45 0 = true ∧
      Spec.offsetInRange JapanTime ∧
      Spec.fitsClock (Spec.instantTicks 2000 2 29 12 30 45 0 JapanTime) ∧
      Spec.fitsClock (Spec.instantTicks (2000 + 100) 3 1 12 30 45 0 JapanTime)) ∧
    ((fromFields 2000 2 29 12 30 45 0 JapanTime).plusYears 100).getYear = 2000 + 100 ∧
    ((fromFields 2000 2 29 12 30 45 0 JapanTime).plusYears 100).getMonth = 3 :=
  ⟨⟨by decide, by decide, by decide, by decide, by decide, by decide⟩,
    (plusYears_leap_day_rolls_to_march.1 2000 100 12 30 45 JapanTime (by decide) (by decide)
      (by decide) (by decide) (by decide) (by decide)).1,
    (plusYears_leap_day_rolls_to_march.1 2000 100 12 30 45 JapanTime (by decide) (by decide)
      (by decide) (by decide) (by decide) (by decide)).2.1⟩

/-- Counterexample to C35: 2023-01-01 plus 300 years has millisecond -709, 2023-01-31 plus
3600 months has millisecond -709, and after the successful `setDate(2300,1,1)` on
2023-01-01 10:11:12.250 the millisecond is -709: the clock does not hold these instants.
And in the region with minute offset 536870912, whose offset in seconds is the least value
of `int`, the value 2023-01-01 00:00:00 lies on a whole second and `plusYears(0)` and
`plusMonths(0)` are not equal to it. -/
theorem year_month_date_operations_outside_clock :
    ((fromFields 2023 1 1 0 0 0 0 WorldTime).plusYears 300).getMillisecond = -709 ∧
    ((fromFields 2023 1 31 0 0 0 0 WorldTime).plusMonths 3600).getMillisecond = -709 ∧
    isValidDate 2300 1 1 = true ∧
    ((fromFields 2023 1 1 10 11 12 250 WorldTime).setDate 2300 1 1).1 = Except.ok () ∧
    ((fromFields 2023 1 1 10 11 12 250 WorldTime).setDate 2300 1 1).2.getMillisecond = -709 ∧
    (fromFields 2023 1 1 0 0 0 0 ⟨"X", 0, 536870912⟩).getSystemTime % Chrono.ticksPerSecond
      = 0 ∧
    opEq ((fromFields 2023 1 1 0 0 0 0 ⟨"X", 0, 536870912⟩).plusYears 0)
      (fromFields 2023 1 1 0 0 0 0 ⟨"X", 0, 536870912⟩) = false ∧
    opEq ((fromFields 2023 1 1 0 0 0 0 ⟨"X", 0, 536870912⟩).plusMonths 0)
      (fromFields 2023 1 1 0 0 0 0 ⟨"X", 0, 536870912⟩) = false := by
  have s1 : (fromFields 2023 1 1 0 0 0 0 WorldTime).plusYears 300
      = ⟨-7307192073709551616, WorldTime⟩ := by decide
  have s2 : (fromFields 2023 1 31 0 0 0 0 WorldTime).plusMonths 3600
      = ⟨-7304600073709551616, WorldTime⟩ := by decide
  have s3 : ((fromFields 2023 1 1 10 11 12 250 WorldTime).setDate 2300 1 1).2
      = ⟨-8032915401709551616, WorldTime⟩ := by decide
  have hd : isValidDate 2300 1 1 = true := by decide
  have s7 : ((fromFields 2023 1 1 10 11 12 250 WorldTime).setDate 2300 1 1).1
      = Except.ok () := by simp [setDate, hd]
  have s4 : fromFields 2023 1 1 0 0 0 0 ⟨"X", 0, 536870912⟩
      = ⟨-474952448000000000, ⟨"X", 0, 536870912⟩⟩ := by decide
  have s5 : (⟨-474952448000000000, ⟨"X", 0, 536870912⟩⟩ : DateTime).plusYears 0
      = ⟨-4769919744000000000, ⟨"X", 0, 536870912⟩⟩ := by decide
  have s6 : (⟨-474952448000000000, ⟨"X", 0, 536870912⟩⟩ : DateTime).plusMonths 0
      = ⟨-4769919744000000000, ⟨"X", 0, 536870912⟩⟩ := by decide
  rw [s1, s2, s3, s4, s5, s6]
  exact ⟨by decide, by decide, hd, s7, by decide, by decide, by decide, by decide⟩

/-- C35, amended: `plusYears`, `plusMonths` and `setDate` discard the sub-second part.
For every DateTime `x` in a region whose total offset and its negative are values of `int`
and every `n`, `x.plusYears n` and `x.plusMonths n` have millisecond 0 when the clock holds
the instant of their target fields, and after a successful `x.setDate y m d` the
millisecond is 0 when the clock holds the instant of the new fields, whatever the
millisecond of `x` was; `x.plusYears 0` and `x.plusMonths 0` are equal to `x` exactly when
`x` lies on a whole second. -/
theorem year_month_date_operations_drop_subsecond :
    (∀ (x : DateTime) (n : Int), Spec.offsetInRange x.getRegion →
      Spec.fitsClock
        (Spec.instantTicks (x.getYear + n) x.getMonth x.getDay x.getHour x.getMinute
          x.getSecond 0 x.getRegion) →
      (x.plusYears n).getMillisecond = 0) ∧
    (∀ (x : DateTime) (n : Int), Spec.offsetInRange x.getRegion →
      Spec.fitsClock x.getSystemTime →
      Spec.fitsClock
        (Spec.instantTicks (x.getYear + (x.getMonth - 1 + n) / 12)
          ((x.getMonth - 1 + n) % 12 + 1)
          (min x.getDay
            (Spec.lastDayOfMonth (x.getYear + (x.getMonth - 1 + n) / 12)
              ((x.getMonth - 1 + n) % 12 + 1)))
          x.getHour x.getMinute x.getSecond 0 x.getRegion) →
      (x.plusMonths n).getMillisecond = 0) ∧
    (∀ (x : DateTime) (y m d : Int), isValidDate y m d = true →
      Spec.offsetInRange x.getRegion →
      Spec.fitsClock
        (Spec.instantTicks y m d x.getHour x.getMinute x.getSecond 0 x.getRegion) →
      (x.setDate y m d).1 = Except.ok () ∧ (x.setDate y m d).2.getMillisecond = 0) ∧
    (∀ x : DateTime, Spec.offsetInRange x.getRegion → Spec.fitsClock x.getSystemTime →
      (opEq (x.plusYears 0) x = true ↔ x.dt_clockPoint % Chrono.ticksPerSecond = 0) ∧
      (opEq (x.plusMonths 0) x = true ↔ x.dt_clockPoint % Chrono.ticksPerSecond = 0)) ∧
    (fromFields 2023 10 15 14 30 45 250 WorldTime).getMillisecond = 250 ∧
    ((fromFields 2023 10 15 14 30 45 250 WorldTime).plusYears 0).getMillisecond = 0 ∧
    opEq ((fromFields 2023 10 15 14 30 45 250 WorldTime).plusYears 0)
      (fromFields 2023 10 15 14 30 45 250 WorldTime) = false ∧
    opEq ((fromFields 2023 10 15 14 30 45 250 WorldTime).plusMonths 0)
      (fromFields 2023 10 15 14 30 45 250 WorldTime) = false := by
  have s1 : fromFields 2023 10 15 14 30 45 250 WorldTime
      = ⟨1697380245250000000, WorldTime⟩ := by decide
  have s2 : (⟨1697380245250000000, WorldTime⟩ : DateTime).plusYears 0
      = ⟨1697380245000000000, WorldTime⟩ := by decide
  have s3 : (⟨1697380245250000000, WorldTime⟩ : DateTime).plusMonths 0
      = ⟨1697380245000000000, WorldTime⟩ := by decide
  rw [s1, s2, s3]
  refine ⟨?_, ?_, ?_, ?_, by decide, by decide, by decide, by decide⟩
  · intro x n hR hfit
    rw [plusYears_exact x n hR hfit]
    exact getMillisecond_instant _ _ _ _ _ _ _ _
  · intro x n hR hx hfit
    rw [plusMonths_exact x n hR hx hfit]
    exact getMillisecond_instant _ _ _ _ _ _ _ _
  · intro x y m d hdate hR hfit
    have h1 : (x.setDate y m d).1 = Except.ok () := by simp [setDate, hdate]
    refine ⟨h1, ?_⟩
    rw [setDate_exact x y m d hdate hR hfit]
    exact getMillisecond_instant _ _ _ _ _ _ _ _
  · intro x hR hx
    obtain ⟨hm1, hm2, hd1, hd2, hh1, hh2, hmi1, hmi2, hs1, hs2⟩ := getRegionAdjustedTime_valid x
    have hown := instantTicks_own_fields x hR
    have hsec := fitsClock_to_time_t x.dt_clockPoint hx
    have hM1 : 1 ≤ x.getMonth := by unfold getMonth; omega
    have hM2 : x.getMonth ≤ 12 := by unfold getMonth; omega
    have e1 : x.getYear + (x.getMonth - 1 + 0) / 12 = x.getYear := by omega
    have e2 : (x.getMonth - 1 + 0) % 12 + 1 = x.getMonth := by omega
    have e3 : min x.getDay (Spec.lastDayOfMonth x.getYear x.getMonth) = x.getDay :=
      min_eq_left hd2
    have hY : x.plusYears 0 =
        { dt_clockPoint := Chrono.to_time_t x.dt_clockPoint * 1000000000
          dt_timeRegion := x.dt_timeRegion } := by
      have h := plusYears_exact x 0 hR (by rw [Int.add_zero, hown]; exact hsec)
      rw [Int.add_zero, hown] at h
      exact h
    have hMo : x.plusMonths 0 =
        { dt_clockPoint := Chrono.to_time_t x.dt_clockPoint * 1000000000
          dt_timeRegion := x.dt_timeRegion } := by
      have h := plusMonths_exact x 0 hR hx (by rw [e1, e2, e3, hown]; exact hsec)
      rw [e1, e2, e3, hown] at h
      exact h
    have hiff : Chrono.to_time_t x.dt_clockPoint * 1000000000 = x.dt_clockPoint
        ↔ x.dt_clockPoint % Chrono.ticksPerSecond = 0 := by
      unfold Chrono.to_time_t Chrono.ticksPerSecond
      constructor
      · intro h
        rw [← h]
        exact Int.mul_emod_left _ _
      · intro h
        have h2 := (tmod_eq_zero_iff x.dt_clockPoint 1000000000 (by decide)).mpr h
        have h3 := Int.tdiv_add_tmod x.dt_clockPoint 1000000000
        rw [h2] at h3
        omega
    rw [hY, hMo]
    simp only [opEq, decide_eq_true_eq]
    exact ⟨hiff, hiff⟩

/-- Witness of C35: `setDate` on 2023-10-15 14:30:45.250 with the date 2024-02-29. -/
theorem year_month_date_operations_drop_subsecond_witness :
    (isValidDate 2024 2 29 = true ∧
      Spec.offsetInRange (fromFields 2023 10 15 14 30 45 250 WorldTime).getRegion ∧
      Spec.fitsClock
        (Spec.instantTicks 2024 2 29 (fromFields 2023 10 15 14 30 45 250 WorldTime).getHour
          (fromFields 2023 10 15 14 30 45 250 WorldTime).getMinute
          (fromFields 2023 10 15 14 30 45 250 WorldTime).getSecond 0
          (fromFields 2023 10 15 14 30 45 250 WorldTime).getRegion)) ∧
    (fromFields 2023 10 15 14 30 45 250 WorldTime).getMillisecond = 250 ∧
    ((fromFields 2023 10 15 14 30 45 250 WorldTime).setDate 2024 2 29).2.getMillisecond = 0 :=
  have s1 : fromFields 2023 10 15 14 30 45 250 WorldTime
      = ⟨1697380245250000000, WorldTime⟩ := by decide
  have hfit : Spec.fitsClock
      (Spec.instantTicks 2024 2 29 (fromFields 2023 10 15 14 30 45 250 WorldTime).getHour
        (fromFields 2023 10 15 14 30 45 250 WorldTime).getMinute
        (fromFields 2023 10 15 14 30 45 250 WorldTime).getSecond 0
        (fromFields 2023 10 15 14 30 45 250 WorldTime).getRegion) := by
    rw [s1]
    decide
  ⟨⟨by decide, by decide, hfit⟩, by rw [s1]; decide,
    (year_month_date_operations_drop_subsecond.2.2.1
      (fromFields 2023 10 15 14 30 45 250 WorldTime) 2024 2 29 (by decide) (by decide) hfit).2⟩

/-- Counterexample to C36: the fields 2600-01-01 00:00:00 with millisecond 0 are valid,
the value built from them in WorldTime has an instant after the epoch, tick count
1434155126290448384, and its getters return 2015-06-13 00:25:26 and millisecond 290, not
the fields: the clock does not hold the year 2600.
And in a region whose total offset is not a value of `int` (a minute offset of 536870912)
the value built from 2100-01-01 00:00:00 has an instant after the epoch, tick count
1954961152000000000, and reads 1963-11-25 17:31:44. -/
theorem fromFields_after_epoch_outside_clock :
    (isValidDate 2600 1 1 = true ∧ isValidTime 0 0 0 0 = true ∧
     0 ≤ (fromFields 2600 1 1 0 0 0 0 WorldTime).dt_clockPoint ∧
     (fromFields 2600 1 1 0 0 0 0 WorldTime).getSystemTime = 1434155126290448384 ∧
     (fromFields 2600 1 1 0 0 0 0 WorldTime).getYear = 2015 ∧
     (fromFields 2600 1 1 0 0 0 0 WorldTime).getMonth = 6 ∧
     (fromFields 2600 1 1 0 0 0 0 WorldTime).getDay = 13 ∧
     (fromFields 2600 1 1 0 0 0 0 WorldTime).getHour = 0 ∧
     (fromFields 2600 1 1 0 0 0 0 WorldTime).getMinute = 25 ∧
     (fromFields 2600 1 1 0 0 0 0 WorldTime).getSecond = 26 ∧
     (fromFields 2600 1 1 0 0 0 0 WorldTime).getMillisecond = 290) ∧
    (isValidDate 2100 1 1 = true ∧
      (fromFields 2100 1 1 0 0 0 0 ⟨"X", 0, 536870912⟩).getSystemTime = 1954961152000000000 ∧
      (fromFields 2100 1 1 0 0 0 0 ⟨"X", 0, 536870912⟩).getYear = 1963 ∧
      (fromFields 2100 1 1 0 0 0 0 ⟨"X", 0, 536870912⟩).getMonth = 11 ∧
      (fromFields 2100 1 1 0 0 0 0 ⟨"X", 0, 536870912⟩).getDay = 25 ∧
      (fromFields 2100 1 1 0 0 0 0 ⟨"X", 0, 536870912⟩).getHour = 17) := by
  constructor
  · have s1 : fromFields 2600 1 1 0 0 0 0 WorldTime
        = ⟨1434155126290448384, WorldTime⟩ := by decide
    rw [s1]
    decide
  · have r1 : fromFields 2100 1 1 0 0 0 0 ⟨"X", 0, 536870912⟩
        = ⟨1954961152000000000, ⟨"X", 0, 536870912⟩⟩ := by decide
    rw [r1]
    decide

/-- C36, amended: for valid fields, a millisecond in 0..999 and a region whose total offset
and its negative are values of `int`, such that the clock holds the instant of the fields
in the region and the resulting instant is at or after 1970-01-01T00:00:00 UTC, the
constructed value returns the fields from the six field getters and the millisecond from
`getMillisecond`; and `getMillisecond` lies in 0..999 for every instant at or after the
epoch. -/
theorem fromFields_with_millisecond_after_epoch :
    (∀ (y m d h mi s ms : Int) (R : RegionTime),
      isValidDate y m d = true → isValidTime h mi s ms = true →
      Spec.offsetInRange R → Spec.fitsClock (Spec.instantTicks y m d h mi s ms R) →
      0 ≤ (fromFields y m d h mi s ms R).dt_clockPoint →
      (fromFields y m d h mi s ms R).getYear = y ∧
      (fromFields y m d h mi s ms R).getMonth = m ∧
      (fromFields y m d h mi s ms R).getDay = d ∧
      (fromFields y m d h mi s ms R).getHour = h ∧
      (fromFields y m d h mi s ms R).getMinute = mi ∧
      (fromFields y m d h mi s ms R).getSecond = s ∧
      (fromFields y m d h mi s ms R).getMillisecond = ms) ∧
    (∀ x : DateTime, 0 ≤ x.dt_clockPoint →
      0 ≤ x.getMillisecond ∧ x.getMillisecond ≤ 999) := by
  constructor
  · intro y m d h mi s ms R hdate htime hR hfit hpos
    obtain ⟨hy1, hy2, hm1, hm2, hd1, hd2⟩ := (isValidDate_iff y m d).mp hdate
    obtain ⟨hh1, hh2, hmi1, hmi2, hs1, hs2, hms1, hms2⟩ := (isValidTime_iff h mi s ms).mp htime
    have hx := fromFields_valid y m d h mi s ms R hy1 hy2 hm1 hm2 hR hfit
    obtain ⟨hrov, _⟩ := regionOffsetValue_of_inRange R hR
    obtain ⟨T, hT⟩ : ∃ T : Int, T = Spec.secondsSinceEpoch y m d h mi s - Spec.totalOffset R :=
      ⟨_, rfl⟩
    have hc : Spec.instantTicks y m d h mi s ms R = T * 1000000000 + ms * 1000000 := by
      unfold Spec.instantTicks
      rw [hT]
    rw [hx] at hpos ⊢
    simp only at hpos
    rw [hc] at hpos ⊢
    have hT0 : 0 ≤ T := by omega
    have hsec : Chrono.to_time_t (T * 1000000000 + ms * 1000000) = T :=
      Chrono.to_time_t_with_milliseconds T ms hT0 hms1 hms2
    have hms : getMillisecond
        { dt_clockPoint := T * 1000000000 + ms * 1000000, dt_timeRegion := R } = ms := by
      simp only [getMillisecond, Chrono.toMillisecondsCount, Chrono.ticksPerMillisecond]
      rw [tdiv_of_nonneg _ _ hpos (by decide)]
      have e3 : (T * 1000000000 + ms * 1000000) / 1000000 = T * 1000 + ms := by omega
      rw [e3, tmod_of_nonneg _ _ (by omega) (by decide)]
      omega
    have hr : getRegionAdjustedTime
        { dt_clockPoint := T * 1000000000 + ms * 1000000, dt_timeRegion := R }
        = CLib.gmtime_r (CLib.daysFromCivil y m d * 86400 + h * 3600 + mi * 60 + s) := by
      simp only [getRegionAdjustedTime, getThreadSafeTime]
      rw [hsec, hrov, hT, secondsSinceEpoch_eq y m d h mi s hm1 hm2]
      congr 1
      omega
    obtain ⟨k1, k2, k3, k4, k5, k6⟩ := CLib.gmtime_r_civil y m d h mi s hm1 hm2 hd1 hd2
      hh1 (by omega) hmi1 (by omega) hs1 (by omega)
    simp only [getYear, getMonth, getDay, getHour, getMinute, getSecond, hr, k1, k2, k3, k4,
      k5, k6]
    exact ⟨by omega, by omega, trivial, trivial, trivial, trivial, hms⟩
  · intro x hx
    unfold getMillisecond Chrono.toMillisecondsCount Chrono.ticksPerMillisecond
    rw [tdiv_of_nonneg _ _ hx (by decide),
      tmod_of_nonneg _ _ (Int.ediv_nonneg hx (by decide)) (by decide)]
    omega

/-- Witness of C36: 2023-10-15 14:30:45.123 in Japan. -/
theorem fromFields_with_millisecond_after_epoch_witness :
    (isValidDate 2023 10 15 = true ∧ isValidTime 14 30 45 123 = true ∧
      Spec.offsetInRange JapanTime ∧
      Spec.fitsClock (Spec.instantTicks 2023 10 15 14 30 45 123 JapanTime) ∧
      0 ≤ (fromFields 2023 10 15 14 30 45 123 JapanTime).dt_clockPoint) ∧
    (fromFields 2023 10 15 14 30 45 123 JapanTime).getHour = 14 ∧
    (fromFields 2023 10 15 14 30 45 123 JapanTime).getMillisecond = 123 :=
  have s1 : fromFields 2023 10 15 14 30 45 123 JapanTime
      = ⟨1697347845123000000, JapanTime⟩ := by decide
  have hpos : 0 ≤ (fromFields 2023 10 15 14 30 45 123 JapanTime).dt_clockPoint := by
    rw [s1]
    decide
  ⟨⟨by decide, by decide, by decide, by decide, hpos⟩,
    (fromFields_with_millisecond_after_epoch.1 2023 10 15 14 30 45 123 JapanTime (by decide)
      (by decide) (by decide) (by decide) hpos).2.2.2.1,
    (fromFields_with_millisecond_after_epoch.1 2023 10 15 14 30 45 123 JapanTime (by decide)
      (by decide) (by decide) (by decide) hpos).2.2.2.2.2.2⟩

/-- Counterexample to C38: 2000-02-29 with `n = 300`.  The year 2300 is not a leap year,
and `plusMonths(3600)` reads 1715-08-10 and `plusYears(300)` reads 1715-08-11, not
February 28 and March 1: the clock does not hold the year 2300.  And 2023-09-15 with
`n = 178956970`: the date is not February 29, `12 * n` is a value of `int`, and
`plusMonths(12 * n)` is not equal to `plusYears(n)`: `plusMonths` forms the month sum
`8 + 12 * n` in `int`, which does not hold it.
And in a region whose total offset is not a value of `int` (a minute offset of 536870912)
the value of tick count 3856648448000000000 reads 2024-02-29, 2025 is not a leap year, and
`plusMonths(12)` reads 1889-01-21 and `plusYears(1)` reads 1889-01-22, not February 28 and
March 1. -/
theorem plusMonths_twelve_outside_clock :
    ((fromFields 2000 2 29 0 0 0 0 WorldTime).getMonth = 2 ∧
     (fromFields 2000 2 29 0 0 0 0 WorldTime).getDay = 29 ∧
     ¬ Spec.isLeapYear ((fromFields 2000 2 29 0 0 0 0 WorldTime).getYear + 300) ∧
     ((fromFields 2000 2 29 0 0 0 0 WorldTime).plusMonths (12 * 300)).getYear = 1715 ∧
     ((fromFields 2000 2 29 0 0 0 0 WorldTime).plusMonths (12 * 300)).getMonth = 8 ∧
     ((fromFields 2000 2 29 0 0 0 0 WorldTime).plusMonths (12 * 300)).getDay = 10 ∧
     ((fromFields 2000 2 29 0 0 0 0 WorldTime).plusYears 300).getYear = 1715 ∧
     ((fromFields 2000 2 29 0 0 0 0 WorldTime).plusYears 300).getMonth = 8 ∧
     ((fromFields 2000 2 29 0 0 0 0 WorldTime).plusYears 300).getDay = 11 ∧
     ¬ ((fromFields 2023 9 15 0 0 0 0 WorldTime).getMonth = 2 ∧
       (fromFields 2023 9 15 0 0 0 0 WorldTime).getDay = 29) ∧
     Spec.fitsInt (12 * 178956970) ∧
     ¬ Spec.fitsInt ((fromFields 2023 9 15 0 0 0 0 WorldTime).getMonth - 1 + 12 * 178956970) ∧
     opEq ((fromFields 2023 9 15 0 0 0 0 WorldTime).plusMonths (12 * 178956970))
       ((fromFields 2023 9 15 0 0 0 0 WorldTime).plusYears 178956970) = false) ∧
    (Spec.fitsClock (fromTimePoint 3856648448000000000 ⟨"X", 0, 536870912⟩).getSystemTime ∧
      (fromTimePoint 3856648448000000000 ⟨"X", 0, 536870912⟩).getYear = 2024 ∧
      (fromTimePoint 3856648448000000000 ⟨"X", 0, 536870912⟩).getMonth = 2 ∧
      (fromTimePoint 3856648448000000000 ⟨"X", 0, 536870912⟩).getDay = 29 ∧
      ¬ Spec.isLeapYear (2024 + 1) ∧
      ((fromTimePoint 3856648448000000000 ⟨"X", 0, 536870912⟩).plusMonths (12 * 1)).getMonth = 1 ∧
      ((fromTimePoint 3856648448000000000 ⟨"X", 0, 536870912⟩).plusMonths (12 * 1)).getDay = 21 ∧
      ((fromTimePoint 3856648448000000000 ⟨"X", 0, 536870912⟩).plusYears 1).getMonth = 1 ∧
      ((fromTimePoint 3856648448000000000 ⟨"X", 0, 536870912⟩).plusYears 1).getDay = 22) := by
  constructor
  · have s1 : fromFields 2000 2 29 0 0 0 0 WorldTime
        = ⟨951782400000000000, WorldTime⟩ := by decide
    have s2 : (⟨951782400000000000, WorldTime⟩ : DateTime).plusMonths (12 * 300)
        = ⟨-8027940873709551616, WorldTime⟩ := by decide
    have s3 : (⟨951782400000000000, WorldTime⟩ : DateTime).plusYears 300
        = ⟨-8027854473709551616, WorldTime⟩ := by decide
    have s4 : fromFields 2023 9 15 0 0 0 0 WorldTime
        = ⟨1694736000000000000, WorldTime⟩ := by decide
    have s5 : (⟨1694736000000000000, WorldTime⟩ : DateTime).plusMonths (12 * 178956970)
        = ⟨6711194463260377088, WorldTime⟩ := by decide
    have s6 : (⟨1694736000000000000, WorldTime⟩ : DateTime).plusYears 178956970
        = ⟨-3363799263260377088, WorldTime⟩ := by decide
    rw [s1, s2, s3, s4, s5, s6]
    decide
  · have r1 : (fromTimePoint 3856648448000000000 ⟨"X", 0, 536870912⟩).plusMonths (12 * 1)
        = ⟨-406782848000000000, ⟨"X", 0, 536870912⟩⟩ := by decide
    have r2 : (fromTimePoint 3856648448000000000 ⟨"X", 0, 536870912⟩).plusYears 1
        = ⟨-406696448000000000, ⟨"X", 0, 536870912⟩⟩ := by decide
    rw [r1, r2]
    decide

/-- C38, amended: for every DateTime `x` whose region-local date is not February 29 and
every `n` such that the month sum `x.getMonth - 1 + 12 * n` is a value of `int`,
`x.plusMonths (12 * n)` equals `x.plusYears n`; when the local date is February 29 and the
year plus `n` is not a leap year, the two instants are one day apart, and, when the region
offset and its negative are values of `int` and the clock holds the instants of February
28 and of March 1 of that year at the time of `x`, `plusMonths (12 * n)` gives February 28
of that year and `plusYears n` gives March 1. -/
theorem plusMonths_twelve_is_plusYears :
    (∀ (x : DateTime) (n : Int), Spec.fitsClock x.getSystemTime →
      Spec.fitsInt (x.getMonth - 1 + 12 * n) → ¬ (x.getMonth = 2 ∧ x.getDay = 29) →
      opEq (x.plusMonths (12 * n)) (x.plusYears n) = true ∧
      x.plusMonths (12 * n) = x.plusYears n) ∧
    (∀ (x : DateTime) (n : Int), Spec.fitsClock x.getSystemTime →
      Spec.fitsInt (x.getMonth - 1 + 12 * n) → x.getMonth = 2 → x.getDay = 29 →
      ¬ Spec.isLeapYear (x.getYear + n) →
      timeBetween (x.plusMonths (12 * n)) (x.plusYears n) = 86400 ∧
      opEq (x.plusMonths (12 * n)) (x.plusYears n) = false) ∧
    (∀ (x : DateTime) (n : Int), Spec.offsetInRange x.getRegion →
      Spec.fitsClock x.getSystemTime → x.getMonth = 2 → x.getDay = 29 →
      ¬ Spec.isLeapYear (x.getYear + n) →
      Spec.fitsClock
        (Spec.instantTicks (x.getYear + n) 2 28 x.getHour x.getMinute x.getSecond 0
          x.getRegion) →
      Spec.fitsClock
        (Spec.instantTicks (x.getYear + n) 3 1 x.getHour x.getMinute x.getSecond 0
          x.getRegion) →
      (x.plusMonths (12 * n)).getYear = x.getYear + n ∧
      (x.plusMonths (12 * n)).getMonth = 2 ∧ (x.plusMonths (12 * n)).getDay = 28 ∧
      (x.plusYears n).getYear = x.getYear + n ∧
      (x.plusYears n).getMonth = 3 ∧ (x.plusYears n).getDay = 1) := by
  have hyear : ∀ (x : DateTime) (n : Int), Spec.fitsClock x.getSystemTime →
      Spec.fitsInt (x.getMonth - 1 + 12 * n) → Spec.fitsInt (x.getYear - 1900 + n) := by
    intro x n hx hm
    obtain ⟨hm1, hm2, _⟩ := getRegionAdjustedTime_valid x
    obtain ⟨yb1, yb2⟩ := tm_year_bounds x hx
    unfold Spec.fitsInt getMonth at hm
    unfold Spec.fitsInt getYear
    omega
  refine ⟨?_, ?_, ?_⟩
  · intro x n hx hm hnot
    obtain ⟨hm1, hm2, hd1, hd2, hh1, hh2, hmi1, hmi2, hs1, hs2⟩ := getRegionAdjustedTime_valid x
    have hM1 : 1 ≤ x.getMonth := by unfold getMonth; omega
    have hM2 : x.getMonth ≤ 12 := by unfold getMonth; omega
    have e1 : x.getYear + (x.getMonth - 1 + 12 * n) / 12 = x.getYear + n := by omega
    have e2 : (x.getMonth - 1 + 12 * n) % 12 + 1 = x.getMonth := by omega
    have hmin : min x.getDay (Spec.lastDayOfMonth (x.getYear + n) x.getMonth) = x.getDay := by
      apply min_eq_left
      obtain ⟨g1, g2, g3, _⟩ := lastDayOfMonth_year x.getYear (x.getYear + n) x.getMonth
      have hd2b : x.getDay ≤ Spec.lastDayOfMonth x.getYear x.getMonth := hd2
      by_cases hfeb : x.getMonth = 2
      · rw [hfeb] at hd2b ⊢
        have : x.getDay ≠ 29 := fun h => hnot ⟨hfeb, h⟩
        omega
      · rw [g1 hfeb]
        exact hd2b
    have hsame : x.plusMonths (12 * n) = x.plusYears n := by
      rw [plusMonths_wrap x (12 * n) hm, plusYears_wrap x n (hyear x n hx hm), e1, e2, hmin]
    refine ⟨?_, hsame⟩
    rw [hsame]
    simp [opEq]
  · intro x n hx hm hmon hday hn
    have e1 : x.getYear + (x.getMonth - 1 + 12 * n) / 12 = x.getYear + n := by omega
    have e2 : (x.getMonth - 1 + 12 * n) % 12 + 1 = 2 := by omega
    have hlast : Spec.lastDayOfMonth (x.getYear + n) 2 = 28 := by
      unfold Spec.lastDayOfMonth
      simp [hn]
    have hmin : min (29 : Int) 28 = 28 := by decide
    have hstep : CLib.daysFromCivil (x.getYear + n) 2 29
        = CLib.daysFromCivil (x.getYear + n) 2 28 + 1 :=
      CLib.daysFromCivil_add_day _ 2 28 1
    have hdiff : Machine.wrapLong
        ((x.plusYears n).dt_clockPoint - (x.plusMonths (12 * n)).dt_clockPoint)
        = 86400 * 1000000000 := by
      rw [plusMonths_wrap x (12 * n) hm, plusYears_wrap x n (hyear x n hx hm), e1, e2, hmon,
        hday, hlast, hmin, hstep]
      simp only [Chrono.from_time_t, Chrono.ticksPerSecond]
      rw [Machine.wrapLong_sub]
      have e3 : ∀ A h mi s o : Int,
          ((A + 1) * 86400 + h * 3600 + mi * 60 + s + o) * 1000000000
            - (A * 86400 + h * 3600 + mi * 60 + s + o) * 1000000000
          = 86400 * 1000000000 := by
        intro A h mi s o
        ring
      rw [e3]
      decide
    constructor
    · simp only [timeBetween, Chrono.toSecondsCount, Chrono.minus, Chrono.ticksPerSecond]
      rw [hdiff]
      decide
    · simp only [opEq, decide_eq_false_iff_not]
      intro heq
      rw [heq, Int.sub_self] at hdiff
      exact absurd hdiff (by decide)
  · intro x n hR hx hmon hday hn hfit1 hfit2
    obtain ⟨hm1, hm2, hd1, hd2, hh1, hh2, hmi1, hmi2, hs1, hs2⟩ := getRegionAdjustedTime_valid x
    have e1 : x.getYear + (x.getMonth - 1 + 12 * n) / 12 = x.getYear + n := by omega
    have e2 : (x.getMonth - 1 + 12 * n) % 12 + 1 = 2 := by omega
    have hlast : Spec.lastDayOfMonth (x.getYear + n) 2 = 28 := by
      unfold Spec.lastDayOfMonth
      simp [hn]
    have hmin : min (29 : Int) 28 = 28 := by decide
    have hM := plusMonths_exact x (12 * n) hR hx
      (by rw [e1, e2, hday, hlast, hmin]; exact hfit1)
    rw [e1, e2, hday, hlast, hmin] at hM
    have hroll : Spec.instantTicks (x.getYear + n) 2 29 x.getHour x.getMinute x.getSecond 0
        x.dt_timeRegion
        = Spec.instantTicks (x.getYear + n) 3 1 x.getHour x.getMinute x.getSecond 0
            x.dt_timeRegion := by
      have hend := instantTicks_month_end (x.getYear + n) 2 x.getHour x.getMinute x.getSecond 0
        x.dt_timeRegion (by omega) (by omega)
      rw [hlast] at hend
      simpa using hend
    have hY := plusYears_exact x n hR (by rw [hmon, hday, hroll]; exact hfit2)
    rw [hmon, hday, hroll] at hY
    obtain ⟨a1, a2, a3, _, _, _⟩ := getters_of_civil (x.getYear + n) 2 28 x.getHour
      x.getMinute x.getSecond x.dt_timeRegion hR (by omega) (by omega) (by omega)
      (by rw [hlast]) hh1 hh2 hmi1 hmi2 hs1 hs2 _ hM
    obtain ⟨b1, b2, b3, _, _, _⟩ := getters_of_civil (x.getYear + n) 3 1 x.getHour
      x.getMinute x.getSecond x.dt_timeRegion hR (by omega) (by omega) (by omega)
      (by unfold Spec.lastDayOfMonth; simp) hh1 hh2 hmi1 hmi2 hs1 hs2 _ hY
    exact ⟨a1, a2, a3, b1, b2, b3⟩

/-- Witness of C38: 2023-10-15 14:30:45 in Japan, twelve months and one year later; and
2024-02-29 in WorldTime, whose two results are one day apart. -/
theorem plusMonths_twelve_is_plusYears_witness :
    (Spec.fitsClock (fromFields 2023 10 15 14 30 45 0 JapanTime).getSystemTime ∧
      Spec.fitsInt ((fromFields 2023 10 15 14 30 45 0 JapanTime).getMonth - 1 + 12 * 1) ∧
      ¬ ((fromFields 2023 10 15 14 30 45 0 JapanTime).getMonth = 2 ∧
        (fromFields 2023 10 15 14 30 45 0 JapanTime).getDay = 29)) ∧
    opEq ((fromFields 2023 10 15 14 30 45 0 JapanTime).plusMonths (12 * 1))
      ((fromFields 2023 10 15 14 30 45 0 JapanTime).plusYears 1) = true ∧
    timeBetween ((fromFields 2024 2 29 0 0 0 0 WorldTime).plusMonths (12 * 1))
      ((fromFields 2024 2 29 0 0 0 0 WorldTime).plusYears 1) = 86400 :=
  have s1 : fromFields 2023 10 15 14 30 45 0 JapanTime
      = ⟨1697347845000000000, JapanTime⟩ := by decide
  have s2 : fromFields 2024 2 29 0 0 0 0 WorldTime
      = ⟨1709164800000000000, WorldTime⟩ := by decide
  have h1 : Spec.fitsClock (fromFields 2023 10 15 14 30 45 0 JapanTime).getSystemTime := by
    rw [s1]; decide
  have h2 : Spec.fitsInt ((fromFields 2023 10 15 14 30 45 0 JapanTime).getMonth - 1 + 12 * 1) := by
    rw [s1]; decide
  have h3 : ¬ ((fromFields 2023 10 15 14 30 45 0 JapanTime).getMonth = 2 ∧
      (fromFields 2023 10 15 14 30 45 0 JapanTime).getDay = 29) := by
    rw [s1]; decide
  ⟨⟨h1, h2, h3⟩,
    (plusMonths_twelve_is_plusYears.1 (fromFields 2023 10 15 14 30 45 0 JapanTime) 1 h1 h2
      h3).1,
    (plusMonths_twelve_is_plusYears.2.1 (fromFields 2024 2 29 0 0 0 0 WorldTime) 1
      (by rw [s2]; decide) (by rw [s2]; decide) (by rw [s2]; decide) (by rw [s2]; decide)
      (by rw [s2]; decide)).1⟩

/-- Counterexample to C39: 2023-01-15 12:00:00 in WorldTime, day of the month 15, with
`a = 3600` and `b = -3600`.  `plusMonths(3600)` reads 1738-06-26 12:25:27, and
`plusMonths(-3600)` of that reads 2023-01-14 12:00:00 with millisecond 709, which is not
equal to `plusMonths(3600 + -3600)` of the value and has not its day: the clock does not
hold the year 2323.  And 2023-01-15 00:00:00 with `a = -1` and `b = 2147483642`: the
second call forms the month sum `11 + b` in `int`, which does not hold it, and the result
is not equal to `plusMonths(a + b)`.
And in a region whose total offset is not a value of `int` (a minute offset of 536870912)
the value built from 2023-01-15 12:00:00 reads day 9 of December 1886, and
`plusMonths(1)` followed by `plusMonths(-1)` reads 1614-09-26 and is not equal to
`plusMonths(1 + -1)` of the value. -/
theorem plusMonths_composition_outside_clock :
    ((fromFields 2023 1 15 12 0 0 0 WorldTime).getDay = 15 ∧
     ((fromFields 2023 1 15 12 0 0 0 WorldTime).plusMonths 3600).getYear = 1738 ∧
     ((fromFields 2023 1 15 12 0 0 0 WorldTime).plusMonths 3600).getMonth = 6 ∧
     ((fromFields 2023 1 15 12 0 0 0 WorldTime).plusMonths 3600).getDay = 26 ∧
     (((fromFields 2023 1 15 12 0 0 0 WorldTime).plusMonths 3600).plusMonths (-3600)).getYear
       = 2023 ∧
     (((fromFields 2023 1 15 12 0 0 0 WorldTime).plusMonths 3600).plusMonths (-3600)).getMonth
       = 1 ∧
     (((fromFields 2023 1 15 12 0 0 0 WorldTime).plusMonths 3600).plusMonths (-3600)).getDay
       = 14 ∧
     (((fromFields 2023 1 15 12 0 0 0 WorldTime).plusMonths 3600).plusMonths
       (-3600)).getMillisecond = 709 ∧
     opEq (((fromFields 2023 1 15 12 0 0 0 WorldTime).plusMonths 3600).plusMonths (-3600))
       ((fromFields 2023 1 15 12 0 0 0 WorldTime).plusMonths (3600 + -3600)) = false ∧
     (Spec.fitsInt (-1) ∧ Spec.fitsInt 2147483642 ∧ Spec.fitsInt (-1 + 2147483642)) ∧
     ((fromFields 2023 1 15 0 0 0 0 WorldTime).plusMonths (-1)).getMonth = 12 ∧
     ¬ Spec.fitsInt
       (((fromFields 2023 1 15 0 0 0 0 WorldTime).plusMonths (-1)).getMonth - 1 + 2147483642) ∧
     opEq (((fromFields 2023 1 15 0 0 0 0 WorldTime).plusMonths (-1)).plusMonths 2147483642)
       ((fromFields 2023 1 15 0 0 0 0 WorldTime).plusMonths (-1 + 2147483642)) = false) ∧
    ((fromFields 2023 1 15 12 0 0 0 ⟨"X", 0, 536870912⟩).getYear = 1886 ∧
      (fromFields 2023 1 15 12 0 0 0 ⟨"X", 0, 536870912⟩).getDay = 9 ∧
      Spec.fitsClock (fromFields 2023 1 15 12 0 0 0 ⟨"X", 0, 536870912⟩).getSystemTime ∧
      Spec.fitsClock
        ((fromFields 2023 1 15 12 0 0 0 ⟨"X", 0, 536870912⟩).plusMonths 1).getSystemTime ∧
      (((fromFields 2023 1 15 12 0 0 0 ⟨"X", 0, 536870912⟩).plusMonths 1).plusMonths
        (-1)).getYear = 1614 ∧
      (((fromFields 2023 1 15 12 0 0 0 ⟨"X", 0, 536870912⟩).plusMonths 1).plusMonths
        (-1)).getDay = 26 ∧
      opEq
        (((fromFields 2023 1 15 12 0 0 0 ⟨"X", 0, 536870912⟩).plusMonths 1).plusMonths (-1))
        ((fromFields 2023 1 15 12 0 0 0 ⟨"X", 0, 536870912⟩).plusMonths (1 + -1)) = false) := by
  constructor
  · have s1 : fromFields 2023 1 15 12 0 0 0 WorldTime
        = ⟨1673784000000000000, WorldTime⟩ := by decide
    have s5 : fromFields 2023 1 15 0 0 0 0 WorldTime
        = ⟨1673740800000000000, WorldTime⟩ := by decide
    have s6 : (⟨1673740800000000000, WorldTime⟩ : DateTime).plusMonths (-1)
        = ⟨1671062400000000000, WorldTime⟩ := by decide
    have s7 : (⟨1671062400000000000, WorldTime⟩ : DateTime).plusMonths 2147483642
        = ⟨6692791263260377088, WorldTime⟩ := by decide
    have s8 : (⟨1673740800000000000, WorldTime⟩ : DateTime).plusMonths (-1 + 2147483642)
        = ⟨-3382116063260377088, WorldTime⟩ := by decide
    have s2 : (⟨1673784000000000000, WorldTime⟩ : DateTime).plusMonths 3600
        = ⟨-7305939273709551616, WorldTime⟩ := by decide
    have s3 : (⟨-7305939273709551616, WorldTime⟩ : DateTime).plusMonths (-3600)
        = ⟨1673697600709551616, WorldTime⟩ := by decide
    have s4 : (⟨1673784000000000000, WorldTime⟩ : DateTime).plusMonths (3600 + -3600)
        = ⟨1673784000000000000, WorldTime⟩ := by decide
    rw [s1, s2, s3, s4, s5, s6, s7, s8]
    decide
  · have r0 : fromFields 2023 1 15 12 0 0 0 ⟨"X", 0, 536870912⟩
        = ⟨-473699648000000000, ⟨"X", 0, 536870912⟩⟩ := by decide
    have r1 : (⟨-473699648000000000, ⟨"X", 0, 536870912⟩⟩ : DateTime).plusMonths 1
        = ⟨-4765988544000000000, ⟨"X", 0, 536870912⟩⟩ := by decide
    have r2 : (⟨-4765988544000000000, ⟨"X", 0, 536870912⟩⟩ : DateTime).plusMonths (-1)
        = ⟨-9063547840000000000, ⟨"X", 0, 536870912⟩⟩ := by decide
    have r3 : (⟨-473699648000000000, ⟨"X", 0, 536870912⟩⟩ : DateTime).plusMonths (1 + -1)
        = ⟨-4768666944000000000, ⟨"X", 0, 536870912⟩⟩ := by decide
    rw [r0, r1, r2, r3]
    decide

/-- C39, amended: for every DateTime `x` in a region whose total offset and its negative
are values of `int`, whose region-local day of the month is at most 28, and all `a` and
`b` such that the clock holds the instant of the target fields of `x.plusMonths(a)` and
the month sums the code forms are values of `int`, `x.plusMonths(a).plusMonths(b)` equals
`x.plusMonths(a + b)`, and `x.plusMonths(a).plusMonths(-a)` has the region-local year,
month, day, hour, minute and second of `x`.  For the days 29 to 31 this can fail because
of the clamp: 2023-01-31 plus one month and then minus one month is 2023-01-28. -/
theorem plusMonths_composes_up_to_day_28 :
    (∀ (x : DateTime) (a b : Int), Spec.offsetInRange x.getRegion →
      Spec.fitsClock x.getSystemTime → x.getDay ≤ 28 →
      Spec.fitsClock
        (Spec.instantTicks (x.getYear + (x.getMonth - 1 + a) / 12)
          ((x.getMonth - 1 + a) % 12 + 1) x.getDay x.getHour x.getMinute x.getSecond 0
          x.getRegion) →
      Spec.fitsInt ((x.getMonth - 1 + a) % 12 + b) →
      Spec.fitsInt (x.getMonth - 1 + (a + b)) →
      opEq ((x.plusMonths a).plusMonths b) (x.plusMonths (a + b)) = true) ∧
    (∀ (x : DateTime) (a : Int), Spec.offsetInRange x.getRegion →
      Spec.fitsClock x.getSystemTime → x.getDay ≤ 28 →
      Spec.fitsClock
        (Spec.instantTicks (x.getYear + (x.getMonth - 1 + a) / 12)
          ((x.getMonth - 1 + a) % 12 + 1) x.getDay x.getHour x.getMinute x.getSecond 0
          x.getRegion) →
      ((x.plusMonths a).plusMonths (-a)).getYear = x.getYear ∧
      ((x.plusMonths a).plusMonths (-a)).getMonth = x.getMonth ∧
      ((x.plusMonths a).plusMonths (-a)).getDay = x.getDay ∧
      ((x.plusMonths a).plusMonths (-a)).getHour = x.getHour ∧
      ((x.plusMonths a).plusMonths (-a)).getMinute = x.getMinute ∧
      ((x.plusMonths a).plusMonths (-a)).getSecond = x.getSecond) ∧
    (((fromFields 2023 1 31 0 0 0 0 WorldTime).plusMonths 1).plusMonths (-1)).getYear = 2023 ∧
    (((fromFields 2023 1 31 0 0 0 0 WorldTime).plusMonths 1).plusMonths (-1)).getMonth = 1 ∧
    (((fromFields 2023 1 31 0 0 0 0 WorldTime).plusMonths 1).plusMonths (-1)).getDay = 28 ∧
    opEq (((fromFields 2023 1 31 0 0 0 0 WorldTime).plusMonths 1).plusMonths (-1))
      ((fromFields 2023 1 31 0 0 0 0 WorldTime).plusMonths (1 + -1)) = false := by
  have s1 : fromFields 2023 1 31 0 0 0 0 WorldTime
      = ⟨1675123200000000000, WorldTime⟩ := by decide
  have s2 : (⟨1675123200000000000, WorldTime⟩ : DateTime).plusMonths 1
      = ⟨1677542400000000000, WorldTime⟩ := by decide
  have s3 : (⟨1677542400000000000, WorldTime⟩ : DateTime).plusMonths (-1)
      = ⟨1674864000000000000, WorldTime⟩ := by decide
  have s4 : (⟨1675123200000000000, WorldTime⟩ : DateTime).plusMonths (1 + -1)
      = ⟨1675123200000000000, WorldTime⟩ := by decide
  rw [s1, s2, s3, s4]
  refine ⟨?_, ?_, by decide, by decide, by decide, by decide⟩
  · intro x a b hR hx hday hfit h1 h2
    rw [plusMonths_plusMonths x a b hR hx hday hfit h1 h2]
    simp [opEq]
  · intro x a hR hx hday hfit
    obtain ⟨hm1, hm2, hd1, hd2, hh1, hh2, hmi1, hmi2, hs1, hs2⟩ := getRegionAdjustedTime_valid x
    obtain ⟨yb1, yb2⟩ := tm_year_bounds x hx
    have hM1 : 1 ≤ (x.getMonth - 1 + a) % 12 + 1 := by omega
    have hM2 : (x.getMonth - 1 + a) % 12 + 1 ≤ 12 := by omega
    have hD1 : 1 ≤ x.getDay := hd1
    have hT : Spec.instantTicks (x.getYear + (x.getMonth - 1 + a) / 12)
        ((x.getMonth - 1 + a) % 12 + 1) x.getDay x.getHour x.getMinute x.getSecond 0
        x.dt_timeRegion
        = (CLib.daysFromCivil (x.getYear + (x.getMonth - 1 + a) / 12)
              ((x.getMonth - 1 + a) % 12 + 1) x.getDay * 86400
            + (x.getHour * 3600 + x.getMinute * 60 + x.getSecond)
            - Spec.totalOffset x.dt_timeRegion) * 1000000000 := by
      unfold Spec.instantTicks
      rw [← secondsSinceEpoch_eq _ _ _ _ _ _ hM1 hM2]
      omega
    have hfit2 : Spec.fitsClock
        ((CLib.daysFromCivil (x.getYear + (x.getMonth - 1 + a) / 12)
              ((x.getMonth - 1 + a) % 12 + 1) x.getDay * 86400
            + (x.getHour * 3600 + x.getMinute * 60 + x.getSecond)
            - Spec.totalOffset x.dt_timeRegion) * 1000000000) := by
      rw [← hT]
      exact hfit
    have hRr : -2147483648 < Spec.totalOffset x.dt_timeRegion ∧
        Spec.totalOffset x.dt_timeRegion ≤ 2147483647 := hR
    have hH1 : 0 ≤ x.getHour := hh1
    have hH2 : x.getHour < 24 := hh2
    have hMi1 : 0 ≤ x.getMinute := hmi1
    have hMi2 : x.getMinute < 60 := hmi2
    have hS1 : 0 ≤ x.getSecond := hs1
    have hS2 : x.getSecond < 60 := hs2
    obtain ⟨y1, y2⟩ := year_of_fitsClock (x.getYear + (x.getMonth - 1 + a) / 12)
      ((x.getMonth - 1 + a) % 12 + 1) x.getDay
      (x.getHour * 3600 + x.getMinute * 60 + x.getSecond) (Spec.totalOffset x.dt_timeRegion)
      hM1 hM2 hD1 (by omega) (by omega) (by omega) (by omega) (by omega) hfit2
    have hY1 : 1500 ≤ x.getYear := by unfold getYear; omega
    have hY2 : x.getYear ≤ 2400 := by unfold getYear; omega
    have hMo1 : 1 ≤ x.getMonth := by unfold getMonth; omega
    have hMo2 : x.getMonth ≤ 12 := by unfold getMonth; omega
    have hkey := plusMonths_plusMonths x a (-a) hR hx hday hfit
      (by unfold Spec.fitsInt; omega) (by unfold Spec.fitsInt; omega)
    have e0 : a + -a = 0 := by omega
    rw [hkey, e0, plusMonths_zero x hR hx]
    refine ⟨?_, ?_, ?_, ?_, ?_, ?_⟩ <;>
      simp only [getYear, getMonth, getDay, getHour, getMinute, getSecond,
        getRegionAdjustedTime_wholeSecondOf]

/-- Witness of C39: 2023-11-28 23:59:59 in Eastern time, plus 3 months and then plus 14
months. -/
theorem plusMonths_composes_up_to_day_28_witness :
    (Spec.offsetInRange (fromFields 2023 11 28 23 59 59 0 EasternTime).getRegion ∧
      Spec.fitsClock (fromFields 2023 11 28 23 59 59 0 EasternTime).getSystemTime ∧
      (fromFields 2023 11 28 23 59 59 0 EasternTime).getDay ≤ 28) ∧
    opEq (((fromFields 2023 11 28 23 59 59 0 EasternTime).plusMonths 3).plusMonths 14)
      ((fromFields 2023 11 28 23 59 59 0 EasternTime).plusMonths (3 + 14)) = true ∧
    ((fromFields 2023 11 28 23 59 59 0 EasternTime).plusMonths (3 + 14)).getYear = 2025 ∧
    ((fromFields 2023 11 28 23 59 59 0 EasternTime).plusMonths (3 + 14)).getMonth = 4 :=
  have s1 : fromFields 2023 11 28 23 59 59 0 EasternTime
      = ⟨1701233999000000000, EasternTime⟩ := by decide
  have s2 : (⟨1701233999000000000, EasternTime⟩ : DateTime).plusMonths (3 + 14)
      = ⟨1745902799000000000, EasternTime⟩ := by decide
  have h1 : Spec.fitsClock (fromFields 2023 11 28 23 59 59 0 EasternTime).getSystemTime := by
    rw [s1]; decide
  have h2 : (fromFields 2023 11 28 23 59 59 0 EasternTime).getDay ≤ 28 := by
    rw [s1]; decide
  ⟨⟨by decide, h1, h2⟩,
    plusMonths_composes_up_to_day_28.1 (fromFields 2023 11 28 23 59 59 0 EasternTime) 3 14
      (by decide) h1 h2 (by rw [s1]; decide) (by rw [s1]; decide) (by rw [s1]; decide),
    by rw [s1, s2]; decide, by rw [s1, s2]; decide⟩

/-- Counterexample to C40: the patterns "%Y %j", "%Y %U %w" and "%Y %W %w" contain neither
`%d` nor `%e`, and `parse` returns a value for the texts "2023 045", "2023 41 0" and
"2023 41 0": 2023-02-14, 2023-10-08 and 2023-10-15.  The library derives the day of the
month from the day of the year, and from the week of the year and the weekday. -/
theorem parse_day_from_day_of_year :
    CLib.find "%Y %j".toList "%d".toList = none ∧
    CLib.find "%Y %j".toList "%e".toList = none ∧
    parse CLib.minimalLibrary "2023 045".toList "%Y %j".toList
      = some (fromFields 2023 2 14 0 0 0 0 WorldTime) ∧
    parse CLib.minimalLibrary "2023 41 0".toList "%Y %U %w".toList
      = some (fromFields 2023 10 8 0 0 0 0 WorldTime) ∧
    parse CLib.minimalLibrary "2023 41 0".toList "%Y %W %w".toList
      = some (fromFields 2023 10 15 0 0 0 0 WorldTime) ∧
    (fromFields 2023 2 14 0 0 0 0 WorldTime).getYear = 2023 ∧
    (fromFields 2023 2 14 0 0 0 0 WorldTime).getMonth = 2 ∧
    (fromFields 2023 2 14 0 0 0 0 WorldTime).getDay = 14 := by
  have s1 : fromFields 2023 2 14 0 0 0 0 WorldTime
      = ⟨1676332800000000000, WorldTime⟩ := by decide
  have g1 : CLib.get_time CLib.minimalLibrary "2023 045".toList (CLib.c_str "%Y %j".toList)
      Tm.zero
      = some { Tm.zero with tm_year := 123, tm_mon := 1, tm_mday := 14, tm_wday := 2,
                            tm_yday := 44 } := by decide
  have g2 : CLib.get_time CLib.minimalLibrary "2023 41 0".toList
      (CLib.c_str "%Y %U %w".toList) Tm.zero
      = some { Tm.zero with tm_year := 123, tm_mon := 9, tm_mday := 8, tm_wday := 0,
                            tm_yday := 280 } := by decide
  have g3 : CLib.get_time CLib.minimalLibrary "2023 41 0".toList
      (CLib.c_str "%Y %W %w".toList) Tm.zero
      = some { Tm.zero with tm_year := 123, tm_mon := 9, tm_mday := 15, tm_wday := 0,
                            tm_yday := 287 } := by decide
  refine ⟨by decide, by decide, ?_, ?_, ?_, ?_⟩
  · unfold parse
    rw [g1]
    rfl
  · unfold parse
    rw [g2]
    rfl
  · unfold parse
    rw [g3]
    rfl
  · rw [s1]
    decide

/-- C40, amended: `parse` returns the empty optional for every text when the pattern has
no conversion that yields a day of the month, because the day field then stays 0 and fails
`isValidDate`: this holds for every pattern without the conversions `%d %e %D %x`, which
store a day of the month, and `%j %U %W`, from which the library derives one, and for
every pattern whatever when the extraction leaves the day at 0.  The text "14:30" matches
"%H:%M" and "2023-10" matches "%Y-%m", and both parses are empty.  By contrast a pattern
without the year and the month leaves them at 1900 and January, which pass validation:
"15 14:30" with "%d %H:%M" is 1900-01-15 14:30:00. -/
theorem parse_without_day_is_empty :
    (∀ (lib : CLib.TimeLibrary) (text pattern : List Char),
      Spec.patternWithoutDay pattern = true → parse lib text pattern = none) ∧
    (∀ (lib : CLib.TimeLibrary) (text pattern : List Char) (t : Tm),
      CLib.get_time lib text (CLib.c_str pattern) Tm.zero = some t → t.tm_mday = 0 →
      parse lib text pattern = none) ∧
    (∀ lib : CLib.TimeLibrary,
      CLib.get_time lib "14:30".toList (CLib.c_str "%H:%M".toList) Tm.zero
        = some { Tm.zero with tm_hour := 14, tm_min := 30 } ∧
      parse lib "14:30".toList "%H:%M".toList = none) ∧
    (∀ lib : CLib.TimeLibrary,
      CLib.get_time lib "2023-10".toList (CLib.c_str "%Y-%m".toList) Tm.zero
        = some { Tm.zero with tm_year := 123, tm_mon := 9, tm_wday := 6, tm_yday := 272 } ∧
      parse lib "2023-10".toList "%Y-%m".toList = none) ∧
    (∀ lib : CLib.TimeLibrary,
      parse lib "15 14:30".toList "%d %H:%M".toList
        = some (fromFields 1900 1 15 14 30 0 0 WorldTime)) ∧
    (∀ d : Int, 1 ≤ d → d ≤ 31 →
      isValidDate (Tm.zero.tm_year + 1900) (Tm.zero.tm_mon + 1) d = true) := by
  have hzero : ∀ (lib : CLib.TimeLibrary) (text pattern : List Char) (t : Tm),
      CLib.get_time lib text (CLib.c_str pattern) Tm.zero = some t → t.tm_mday = 0 →
      parse lib text pattern = none := by
    intro lib text pattern t hg hd
    have hv : isValidDate (t.tm_year + 1900) (t.tm_mon + 1) t.tm_mday = false := by
      rw [hd]
      cases hc : isValidDate (t.tm_year + 1900) (t.tm_mon + 1) 0 with
      | false => rfl
      | true =>
        have := (isValidDate_iff _ _ _).mp hc
        omega
    simp [parse, hg, hv]
  refine ⟨?_, hzero, fun _ => ⟨rfl, rfl⟩, fun _ => ⟨rfl, rfl⟩, fun _ => rfl, ?_⟩
  · intro lib text pattern hp
    cases hg : CLib.get_time lib text (CLib.c_str pattern) Tm.zero with
    | none => simp [parse, hg]
    | some t => exact hzero lib text pattern t hg (CLib.get_time_noDay lib text pattern t hp hg)
  · intro d hd1 hd2
    rw [isValidDate_iff]
    refine ⟨by decide, by decide, by decide, by decide, hd1, ?_⟩
    have e : Spec.lastDayOfMonth (Tm.zero.tm_year + 1900) (Tm.zero.tm_mon + 1) = 31 := by decide
    rw [e]
    exact hd2

/-- Witness of C40: the pattern "%I:%M %p" on the text "02:30 PM", and the pattern
"%Y-%m %H:%M:%S" on the text "2023-10 14:30:45". -/
theorem parse_without_day_is_empty_witness :
    (Spec.patternWithoutDay "%I:%M %p".toList = true ∧
      Spec.patternWithoutDay "%Y-%m %H:%M:%S".toList = true) ∧
    parse CLib.minimalLibrary "02:30 PM".toList "%I:%M %p".toList = none ∧
    parse CLib.minimalLibrary "2023-10 14:30:45".toList "%Y-%m %H:%M:%S".toList = none ∧
    CLib.get_time CLib.minimalLibrary "2023-10 14:30:45".toList
      (CLib.c_str "%Y-%m %H:%M:%S".toList) Tm.zero
      = some
          { Tm.zero with
            tm_year := 123
            tm_mon := 9
            tm_hour := 14
            tm_min := 30
            tm_sec := 45
            tm_wday := 6
            tm_yday := 272 } :=
  ⟨⟨by decide, by decide⟩,
    parse_without_day_is_empty.1 CLib.minimalLibrary "02:30 PM".toList "%I:%M %p".toList
      (by decide),
    parse_without_day_is_empty.1 CLib.minimalLibrary "2023-10 14:30:45".toList
      "%Y-%m %H:%M:%S".toList (by decide),
    by decide⟩

end DateTime
